import Mathlib

/-!
# Declaration-to-metadata extraction (`source/AST/ASTVisitor.cpp`)

A shallow embedding of the `ASTVisitor` of mrdox: identity derivation,
the visibility filters, the scope resolver, the metadata builders, the
parent-fragment assembler, the capture of template parameters and arguments,
and the traversal.  The clang AST, the configuration object, the
digest and the path helpers are external to the file that is embedded; what
the visitor reads from them is carried by the declaration records below and
by `Externals`.

Conventions.
* A C++ member function that mutates the visitor takes the visitor and
  returns the new one.
* `Assert(e)` with `e` false and `llvm_unreachable` end the run (the
  specification classes them as invariant violations that abort): a function
  that can reach one returns an `Option`, and `none` is the aborted run.
* A loop over a clang range is a fold over the list of its elements, with
  the loop body as the step function.
-/

set_option autoImplicit false

namespace Mrdox

/-! ## Identifiers and references -/

/-- A `SymbolID`: the 160-bit digest, read as a number. -/
structure SymbolID where
  val : Nat
  deriving DecidableEq, Repr

/-- The reserved `SymbolID::zero`. -/
def SymbolID.zero : SymbolID := ⟨0⟩

/-- The `InfoType` tags of `Metadata/Info.hpp`. -/
inductive InfoType where
  | IT_default
  | IT_namespace
  | IT_record
  | IT_function
  | IT_enum
  | IT_typedef
  | IT_variable
  | IT_field
  deriving DecidableEq, Repr

/-- A `Reference`: `(id, Name, RefType)`. -/
structure Reference where
  id : SymbolID
  Name : String
  RefType : InfoType
  deriving DecidableEq, Repr

/-- The enumeration `clang::AccessSpecifier`. -/
inductive AccessSpecifier where
  | AS_public
  | AS_protected
  | AS_private
  | AS_none
  deriving DecidableEq, Repr

/-- The enumeration `clang::Linkage`. -/
inductive Linkage where
  | NoLinkage
  | InternalLinkage
  | UniqueExternalLinkage
  | VisibleNoLinkage
  | ModuleInternalLinkage
  | ModuleLinkage
  | ExternalLinkage
  deriving DecidableEq, Repr

/-- The enumeration `mrdox::Access` stored in member references. -/
inductive Access where
  | Public
  | Protected
  | Private
  deriving DecidableEq, Repr

/-! ## External collaborators -/

/-- The `FileFilter` entry of the visitor's file cache. -/
structure FileFilter where
  prefix_ : String
  include_ : Bool
  deriving DecidableEq, Repr

/-- The default-constructed `FileFilter()`. -/
def FileFilter.default : FileFilter := ⟨"", true⟩

/-- The parts of `ConfigImpl` the visitor consults.  `shouldVisitFile file`
is the returned flag together with the value left in the out-parameter
for the path to strip. -/
structure ConfigImpl where
  includePrivate : Bool
  shouldVisitTU : String → Bool
  shouldVisitFile : String → Bool × String

/-- Library functions and collaborators that are not part of the embedded file:
the SHA1 digest turned into a `SymbolID`, the two path helpers, the
documentation-comment parser, and `getFunctionKind` of
`Metadata/FunctionKind.hpp` on the number of an overloaded operator
(`OO_None` is zero). -/
structure Externals where
  sha1 : String → SymbolID
  convert_to_slash : String → String
  replace_path_prefix_ : String → String → String → String
  parseJavadoc : String → String
  getFunctionKind : Nat → Nat
  config_ : ConfigImpl

/-! ## The declarations, as the visitor reads them -/

/-- What the visitor reads from a declaration that serves as an enclosing
context or as a referenced entity: the outcome of
`index::generateUSRForDecl` (`none` when it reports failure) and
`getNameAsString()`. -/
structure NamedRef where
  usr : Option String
  name : String
  deriving DecidableEq, Repr

/-- The enumeration `clang::TemplateSpecializationKind`. -/
inductive TemplateSpecializationKind where
  | TSK_Undeclared
  | TSK_ImplicitInstantiation
  | TSK_ExplicitSpecialization
  | TSK_ExplicitInstantiationDeclaration
  | TSK_ExplicitInstantiationDefinition
  deriving DecidableEq, Repr

/-- A class context seen as `ClassTemplateSpecializationDecl`: its
specialization kind and `getTemplateInstantiationPattern()`. -/
structure ClassTemplateSpecialization where
  specializationKind : TemplateSpecializationKind
  templateInstantiationPattern : NamedRef
  deriving DecidableEq, Repr

/-- A `DeclContext` on the way from a declaration to the root, by the
`dyn_cast` that succeeds on it.  `Other` stands for every context that is
none of the five tested ones (linkage specification, export block, ...). -/
inductive DeclContext where
  | Namespace (N : NamedRef) (isAnonymousNamespace : Bool)
  | CXXRecord (N : NamedRef) (S : Option ClassTemplateSpecialization)
  | Function (N : NamedRef)
  | Enum (N : NamedRef)
  | TranslationUnit
  | Other
  deriving DecidableEq, Repr

/-- The kind of a tag declaration, by the `isa` tests of `getTypeInfoForType`. -/
inductive TagDeclKind where
  | Enum
  | CXXRecord
  | Other
  deriving DecidableEq, Repr

/-- A tag declaration reached from a type. -/
structure TagDecl where
  kind : TagDeclKind
  ref : NamedRef
  deriving DecidableEq, Repr

/-- A `QualType`, as the visitor reads it: `getAsString` under the printing
policy of the context, the definition of `getAsTagDecl()` when there is a tag
declaration and it has a definition, and the template declaration named by
the type when it is a `TemplateSpecializationType`. -/
structure QualType where
  asString : String
  tagDeclDefinition : Option TagDecl
  templateSpecialization : Option NamedRef
  deriving DecidableEq, Repr

/-- A member of a `TemplateParameterList`, by the `dyn_cast` of `buildTemplateParam`
that succeeds on it: name, `isTemplateParameterPack()`, and the default
argument when there is one (a type for a type parameter, its source text for
the other two); `Other` is a declaration that is none of the three. -/
inductive TemplateParmDecl where
  | TemplateTypeParm (name : String) (isTemplateParameterPack : Bool)
      (defaultArgument : Option QualType)
  | NonTypeTemplateParm (name : String) (isTemplateParameterPack : Bool) (type : QualType)
      (defaultArgument : Option String)
  | TemplateTemplateParm (name : String) (isTemplateParameterPack : Bool)
      (templateParameters : List TemplateParmDecl) (defaultArgument : Option String)
  | Other (name : String) (isTemplateParameterPack : Bool)

/-- The properties common to every declaration handed to the visitor.
`declContext` is `getDeclContext()` and `parents` the successive
`getParent()` of it, up to the context that has none;
`describedTemplateParams` is `getDescribedTemplateParams()`. -/
structure Decl where
  usr : Option String
  name : String
  access : AccessSpecifier
  linkage : Linkage
  isImplicit : Bool
  isInSystemHeader : Bool
  parentFunctionOrMethod : Bool
  includeLoc : Nat
  filename : String
  line : Nat
  rawComment : Option String
  declContext : DeclContext
  parents : List DeclContext
  describedTemplateParams : Option (List TemplateParmDecl)

/-! ## Kind-specific declarations -/

/-- The enumeration `clang::TagTypeKind`. -/
inductive TagTypeKind where
  | TTK_Struct
  | TTK_Interface
  | TTK_Union
  | TTK_Class
  | TTK_Enum
  deriving DecidableEq, Repr

/-- The enumeration `clang::StorageClass`. -/
inductive StorageClass where
  | SC_None
  | SC_Extern
  | SC_Static
  | SC_PrivateExtern
  | SC_Auto
  | SC_Register
  deriving DecidableEq, Repr

/-- The enumeration `clang::ConstexprSpecKind`. -/
inductive ConstexprSpecKind where
  | Unspecified
  | Constexpr
  | Consteval
  | Constinit
  deriving DecidableEq, Repr

/-- The enumeration `clang::ExceptionSpecificationType`. -/
inductive ExceptionSpecificationType where
  | EST_None
  | EST_DynamicNone
  | EST_Dynamic
  | EST_MSAny
  | EST_NoThrow
  | EST_BasicNoexcept
  | EST_DependentNoexcept
  | EST_NoexceptFalse
  | EST_NoexceptTrue
  | EST_Unevaluated
  | EST_Uninstantiated
  | EST_Unparsed
  deriving DecidableEq, Repr

/-- The enumeration `clang::RefQualifierKind`. -/
inductive RefQualifierKind where
  | RQ_None
  | RQ_LValue
  | RQ_RValue
  deriving DecidableEq, Repr

/-- A `NamespaceDecl`. -/
structure NamespaceDecl extends Decl where
  isAnonymousNamespace : Bool

/-- A `CXXBaseSpecifier`. -/
structure CXXBaseSpecifier where
  isVirtual : Bool
  type : QualType
  accessSpecifier : AccessSpecifier
  deriving DecidableEq, Repr

/-- A `CXXRecordDecl`.  `destructor` is the final-attribute of
`getDestructor()` when there is one; `describedClassTemplate`,
`memberSpecializationInfo` and `specializedTemplate` are the access of the
described class template, of the member the record was instantiated from,
and of the specialized template of a `ClassTemplateSpecializationDecl`, when
the record has them. -/
structure CXXRecordDecl extends Decl where
  isThisDeclarationADefinition : Bool
  tagKind : TagTypeKind
  hasFinalAttr : Bool
  destructor : Option Bool
  typedefNameForAnonDecl : Option String
  bases : List CXXBaseSpecifier
  describedClassTemplate : Option AccessSpecifier
  memberSpecializationInfo : Option AccessSpecifier
  specializedTemplate : Option AccessSpecifier

/-- An `EnumConstantDecl`: name, value, and the source text of the
initializer when there is one. -/
structure EnumConstantDecl where
  name : String
  initVal : Int
  initExpr : Option String
  deriving DecidableEq, Repr

/-- An `EnumDecl`. -/
structure EnumDecl extends Decl where
  isThisDeclarationADefinition : Bool
  isScoped : Bool
  isFixed : Bool
  integerType : QualType
  enumerators : List EnumConstantDecl

/-- A `FieldDecl`. -/
structure FieldDecl extends Decl where
  type : QualType
  hasNoUniqueAddressAttr : Bool
  hasDeprecatedAttr : Bool
  hasUnusedAttr : Bool

/-- A `VarDecl`. -/
structure VarDecl extends Decl where
  isThisDeclarationADefinition : Bool
  type : QualType
  storageClass : StorageClass

/-- A `ParmVarDecl`: its current type, the type
`getSignatureParameterType` gives for it, its name and the source text of
its default argument. -/
structure ParmVarDecl where
  type : QualType
  signatureParameterType : QualType
  name : String
  defaultArg : String
  deriving DecidableEq, Repr

/-- A function template named by a specialization: the template and the
member template it was instantiated from. -/
structure TemplateRef where
  ref : NamedRef
  instantiatedFromMemberTemplate : Option NamedRef
  deriving DecidableEq, Repr

/-- A `FunctionTemplateSpecializationInfo`: `getTemplate()` and the printed
`TemplateArguments`. -/
structure FunctionTemplateSpecializationInfo where
  template : Option TemplateRef
  TemplateArguments : Option (List String)
  deriving DecidableEq, Repr

/-- The static type a function-like declaration is dispatched at. -/
inductive FunctionDeclTy where
  | FunctionDecl
  | CXXMethodDecl
  | CXXConstructorDecl
  | CXXConversionDecl
  | CXXDestructorDecl
  | CXXDeductionGuideDecl
  deriving DecidableEq, Repr

/-- The test `std::derived_from<DeclTy, CXXMethodDecl>`. -/
def FunctionDeclTy.derivedFromCXXMethodDecl : FunctionDeclTy → Bool
  | .CXXMethodDecl => true
  | .CXXConstructorDecl => true
  | .CXXConversionDecl => true
  | .CXXDestructorDecl => true
  | .FunctionDecl => false
  | .CXXDeductionGuideDecl => false

/-- A `FunctionDecl` (of any derived class).  `functionProtoType` is
`hasTrailingReturn()` of the prototype when the type is one;
`warnUnusedResultAttr` the semantic spelling of the attribute when present.
The fields from `isVirtual` on are those of `CXXMethodDecl`, and
`explicitSpecifierIsSpecified` that of constructors, conversions and
deduction guides. -/
structure FunctionDecl extends Decl where
  parameters : List ParmVarDecl
  isThisDeclarationADefinition : Bool
  returnType : QualType
  templateSpecializationInfo : Option FunctionTemplateSpecializationInfo
  isVariadic : Bool
  isDefaulted : Bool
  isExplicitlyDefaulted : Bool
  isDeleted : Bool
  isDeletedAsWritten : Bool
  isNoReturn : Bool
  hasOverrideAttr : Bool
  functionProtoType : Option Bool
  constexprKind : ConstexprSpecKind
  exceptionSpecType : ExceptionSpecificationType
  overloadedOperator : Nat
  storageClass : StorageClass
  warnUnusedResultAttr : Option Nat
  isVirtual : Bool
  isVirtualAsWritten : Bool
  isPure : Bool
  isConst : Bool
  isVolatile : Bool
  refQualifier : RefQualifierKind
  hasFinalAttr : Bool
  explicitSpecifierIsSpecified : Bool

/-- A `TypedefNameDecl` (a `TypedefDecl` or a `TypeAliasDecl`). -/
structure TypedefNameDecl extends Decl where
  underlyingType : QualType

/-- The declaration a `FriendDecl` names, by the `dyn_cast` of `buildFriend` that
succeeds on it; `Other` is a named declaration that is none of the three. -/
inductive FriendTarget where
  | Function (FD : FunctionDecl)
  | FunctionTemplate
  | ClassTemplate
  | Other

/-- A `FriendDecl`: `getFriendDecl()`, and whether `getFriendType()` is not null. -/
structure FriendDecl extends Decl where
  friendDecl : Option FriendTarget
  friendType : Bool

/-- A `ClassTemplateSpecializationDecl` (also a partial specialization):
`getSpecializedTemplate()` with the member template it was instantiated from,
and the printed template arguments of `getTypeAsWritten()` when that is not
null. -/
structure ClassTemplateSpecializationDecl extends CXXRecordDecl where
  specializedTemplateDecl : Option TemplateRef
  typeAsWritten : Option (List String)

/-- A `VarTemplateSpecializationDecl` (also a partial specialization):
`getSpecializedTemplate()`, read through `getTemplatedDecl()`, with the member
template it was instantiated from; the printed `getTemplateArgsAsWritten()`
when the declaration is a partial specialization that has them; the printed
`getTemplateArgs()`, the argument list of the specialization after conversion
to the parameters of the template; and the printed `getTemplateArgsInfo()`, the
arguments as written in the source, which `parseTemplateArgs` does not read (the
call is commented out there). -/
structure VarTemplateSpecializationDecl extends VarDecl where
  specializedTemplate : Option TemplateRef
  partialTemplateArgsAsWritten : Option (List String)
  templateArgs : List String
  templateArgsInfo : List String

/-- A `ClassScopeFunctionSpecializationDecl`: the printed
`getTemplateArgsAsWritten()` when not null, and `getSpecialization()`. -/
structure ClassScopeFunctionSpecializationDecl extends Decl where
  templateArgsAsWritten : Option (List String)
  specialization : FunctionDecl

/-- A declaration passed as `Decl const*` or `NamedDecl const*`, with its
dynamic class. -/
inductive AnyDecl where
  | Namespace (D : NamespaceDecl)
  | CXXRecord (D : CXXRecordDecl)
  | Enum (D : EnumDecl)
  | Field (D : FieldDecl)
  | Var (D : VarDecl)
  | Function (D : FunctionDecl)
  | Typedef (D : TypedefNameDecl)
  | Other (D : Decl)

/-- The upcast to `Decl`. -/
def AnyDecl.toDecl : AnyDecl → Decl
  | .Namespace D => D.toDecl
  | .CXXRecord D => D.toDecl
  | .Enum D => D.toDecl
  | .Field D => D.toDecl
  | .Var D => D.toDecl
  | .Function D => D.toDecl
  | .Typedef D => D.toDecl
  | .Other D => D

/-- The cast `dyn_cast<NamespaceDecl>(D)`. -/
def AnyDecl.asNamespaceDecl : AnyDecl → Option NamespaceDecl
  | .Namespace D => some D
  | _ => none

/-! ## The metadata records (`mrdox/Metadata.hpp`) -/

/-- A `Location`: line, file and the root-directory flag. -/
structure Location where
  LineNumber : Nat
  Filename : String
  IsFileInRootDir : Bool
  deriving DecidableEq, Repr

/-- A `TypeInfo` is a `Reference`; the one built from a spelling alone has
the zero identifier and the default tag. -/
abbrev TypeInfo := Reference

/-- The constructor `Reference(id, Name)`, whose tag is the default one. -/
def Reference.ofName (id : SymbolID) (Name : String) : Reference :=
  ⟨id, Name, InfoType.IT_default⟩

/-- A template parameter, by the alternative held in its variant. -/
inductive TParam where
  | Unset (Name : String) (IsParameterPack : Bool)
  | TypeTParam (Name : String) (IsParameterPack : Bool) (Default : Option TypeInfo)
  | NonTypeTParam (Name : String) (IsParameterPack : Bool) (Type_ : TypeInfo)
      (Default : Option String)
  | TemplateTParam (Name : String) (IsParameterPack : Bool) (Params : List TParam)
      (Default : Option String)

/-- A `TemplateInfo`. -/
structure TemplateInfo where
  Primary : Option SymbolID := none
  Params : List TParam := []
  Args : List String := []

/-- The fields of the base class `Info`. -/
structure Info where
  id : SymbolID := SymbolID.zero
  Name : String := ""
  Namespace : List Reference := []
  javadoc : Option String := none

/-- The definition and declaration locations of `SourceInfo`. -/
structure SourceInfo where
  DefLoc : Option Location := none
  Loc : List Location := []

/-- The child lists of a `NamespaceInfo`. -/
structure NamespaceChildren where
  Namespaces : List Reference := []
  Records : List Reference := []
  Functions : List Reference := []
  Typedefs : List Reference := []
  Enums : List Reference := []
  Vars : List Reference := []

/-- A `NamespaceInfo`. -/
structure NamespaceInfo extends Info where
  Children : NamespaceChildren := {}

/-- A `MemberRef`: `(id, access)`. -/
structure MemberRef where
  id : SymbolID
  access : Access
  deriving DecidableEq, Repr

/-- The member lists of a `RecordInfo`. -/
structure RecordMembers where
  Records : List MemberRef := []
  Functions : List MemberRef := []
  Types : List MemberRef := []
  Enums : List MemberRef := []
  Fields : List MemberRef := []
  Vars : List MemberRef := []

/-- A `BaseInfo`: `(id, Name, access, IsVirtual)`. -/
structure BaseInfo where
  id : SymbolID
  Name : String
  access : Access
  IsVirtual : Bool
  deriving DecidableEq, Repr

/-- A `RecordInfo`. -/
structure RecordInfo extends Info, SourceInfo where
  Template : Option TemplateInfo := none
  TagType : TagTypeKind := TagTypeKind.TTK_Struct
  IsTypeDef : Bool := false
  isFinal : Bool := false
  isFinalDestructor : Bool := false
  Bases : List BaseInfo := []
  Friends : List SymbolID := []
  Members : RecordMembers := {}

/-- A function parameter: `(Type, Name, Default)`. -/
structure Param where
  Type_ : TypeInfo
  Name : String
  Default : String
  deriving DecidableEq, Repr

/-- The first specifier bundle of a `FunctionInfo` (`specs0`). -/
structure FnFlags0 where
  isVariadic : Bool := false
  isDefaulted : Bool := false
  isExplicitlyDefaulted : Bool := false
  isDeleted : Bool := false
  isDeletedAsWritten : Bool := false
  isNoReturn : Bool := false
  hasOverrideAttr : Bool := false
  hasTrailingReturn : Bool := false
  constexprKind : ConstexprSpecKind := ConstexprSpecKind.Unspecified
  exceptionSpecType : ExceptionSpecificationType := ExceptionSpecificationType.EST_None
  overloadedOperator : Nat := 0
  storageClass : StorageClass := StorageClass.SC_None
  isVirtual : Bool := false
  isVirtualAsWritten : Bool := false
  isPure : Bool := false
  isConst : Bool := false
  isVolatile : Bool := false
  refQualifier : RefQualifierKind := RefQualifierKind.RQ_None
  isFinal : Bool := false
  deriving DecidableEq, Repr

/-- The second specifier bundle of a `FunctionInfo` (`specs1`). -/
structure FnFlags1 where
  isNodiscard : Bool := false
  nodiscardSpelling : Nat := 0
  isExplicit : Bool := false
  functionKind : Nat := 0
  deriving DecidableEq, Repr

/-- A `FunctionInfo`. -/
structure FunctionInfo extends Info, SourceInfo where
  Template : Option TemplateInfo := none
  ReturnType : TypeInfo := Reference.ofName SymbolID.zero ""
  Params : List Param := []
  specs0 : FnFlags0 := {}
  specs1 : FnFlags1 := {}

/-- An enumerator: `(Name, Value, ValueExpr)`. -/
structure EnumValueInfo where
  Name : String
  Value : String
  ValueExpr : String
  deriving DecidableEq, Repr

/-- An `EnumInfo`. -/
structure EnumInfo extends Info, SourceInfo where
  Scoped : Bool := false
  BaseType : Option TypeInfo := none
  Members : List EnumValueInfo := []

/-- A `FieldInfo`. -/
structure FieldInfo extends Info, SourceInfo where
  Type_ : TypeInfo := Reference.ofName SymbolID.zero ""
  hasNoUniqueAddress : Bool := false
  isDeprecated : Bool := false
  isNodiscard : Bool := false

/-- A `VarInfo`. -/
structure VarInfo extends Info, SourceInfo where
  Template : Option TemplateInfo := none
  Type_ : TypeInfo := Reference.ofName SymbolID.zero ""
  storageClass : StorageClass := StorageClass.SC_None

/-- A `TypedefInfo`. -/
structure TypedefInfo extends Info, SourceInfo where
  Template : Option TemplateInfo := none
  Underlying : TypeInfo := Reference.ofName SymbolID.zero ""
  IsUsing : Bool := false

/-- A record of any of the seven kinds: the argument of the templates
`writeBitcode`, `writeParent` and `insertChild`, with the kind the template
is instantiated at. -/
inductive AnyInfo where
  | Namespace (I : NamespaceInfo)
  | Record (I : RecordInfo)
  | Function (I : FunctionInfo)
  | Typedef (I : TypedefInfo)
  | Enum (I : EnumInfo)
  | Field (I : FieldInfo)
  | Var (I : VarInfo)

/-- The base-class part of a record of any kind. -/
def AnyInfo.toInfo : AnyInfo → Info
  | .Namespace I => I.toInfo
  | .Record I => I.toInfo
  | .Function I => I.toInfo
  | .Typedef I => I.toInfo
  | .Enum I => I.toInfo
  | .Field I => I.toInfo
  | .Var I => I.toInfo

/-- The static member `type_id` of each record type. -/
def AnyInfo.type_id : AnyInfo → InfoType
  | .Namespace _ => InfoType.IT_namespace
  | .Record _ => InfoType.IT_record
  | .Function _ => InfoType.IT_function
  | .Typedef _ => InfoType.IT_typedef
  | .Enum _ => InfoType.IT_enum
  | .Field _ => InfoType.IT_field
  | .Var _ => InfoType.IT_variable

/-- Modelled from the spec: the codec of `Bitcode.hpp` is not part of the
embedded file; a bitcode is "the entity's own serialized record", kept here
as the record that was serialized. -/
structure Bitcode where
  data : AnyInfo

/-- The call `writeBitcode(I)`. -/
def writeBitcode (I : AnyInfo) : Bitcode := ⟨I⟩

/-! ## The visitor -/

/-- The mutable state of an `ASTVisitor`.  `sink` is the sequence of
bitcodes handed to `insertBitcode` so far and `queries` the calls made to
`config_.shouldVisitFile` so far (cache key and file name), oldest first;
both are kept to state properties of the run. -/
structure ASTVisitor where
  PublicOnly : Bool
  IsFileInRootDir : Bool
  File : String
  LineNumber : Nat
  usr_ : String
  fileFilter_ : List (Nat × FileFilter)
  sink : List Bitcode
  queries : List (Nat × String)

/-- The constructor `ASTVisitor::ASTVisitor`. -/
def ASTVisitor.new (config : ConfigImpl) : ASTVisitor :=
  { PublicOnly := !config.includePrivate
    IsFileInRootDir := true
    File := ""
    LineNumber := 0
    usr_ := ""
    fileFilter_ := []
    sink := []
    queries := [] }

/-! ## Identity derivation -/

/-- The call `index::generateUSRForDecl(D, Buf)`: the canonical name is appended to
the buffer; the result is `true` when no name could be generated. -/
def generateUSRForDecl (usr : Option String) (buf : String) : Bool × String :=
  match usr with
  | none => (true, buf)
  | some s => (false, buf ++ s)

/-- The two-argument `ASTVisitor::extractSymbolID(D, id)`: the flag, the
value of `id` after the call, and the visitor. -/
def extractSymbolID (ext : Externals) (v : ASTVisitor)
    (usr : Option String) (id : SymbolID) : Bool × SymbolID × ASTVisitor :=
  let cleared := ""
  let r := generateUSRForDecl usr cleared
  if r.1 then
    (false, id, { v with usr_ := r.2 })
  else
    (true, ext.sha1 r.2, { v with usr_ := r.2 })

/-- The one-argument `ASTVisitor::extractSymbolID(D)`. -/
def extractSymbolID1 (ext : Externals) (v : ASTVisitor)
    (usr : Option String) : SymbolID × ASTVisitor :=
  let r := extractSymbolID ext v usr SymbolID.zero
  (r.2.1, r.2.2)

/-! ## Entity policy -/

/-- The static `ASTVisitor::shouldSerializeInfo`. -/
def shouldSerializeInfo (PublicOnly : Bool) (IsOrIsInAnonymousNamespace : Bool)
    (D : Decl) : Bool :=
  if !PublicOnly then true
  else if IsOrIsInAnonymousNamespace then false
  else
    let access := D.access
    if access = AccessSpecifier.AS_private then false
    else
      let linkage := D.linkage
      if linkage = Linkage.ModuleLinkage ∨ linkage = Linkage.ExternalLinkage then true
      else false

/-! ## Scope resolver -/

/-- The name given to an anonymous namespace. -/
def anonymousNamespaceName : String := "@nonymous_namespace"

/-- One turn of the `do ... while` loop of `getParentNamespaces`, on the
context `DC`: the visitor, the list and the flag `anonymous` after it. -/
def getParentNamespacesStep (ext : Externals)
    (st : ASTVisitor × List Reference × Bool) (DC : DeclContext) :
    ASTVisitor × List Reference × Bool :=
  let v := st.1
  let Namespaces := st.2.1
  let anonymous := st.2.2
  match DC with
  | .Namespace N isAnonymousNamespace =>
    let Namespace := if isAnonymousNamespace then anonymousNamespaceName else N.name
    let anonymous := if isAnonymousNamespace then true else anonymous
    let r := extractSymbolID1 ext v N.usr
    (r.2, Namespaces ++ [⟨r.1, Namespace, InfoType.IT_namespace⟩], anonymous)
  | .CXXRecord N S =>
    let N :=
      match S with
      | some S =>
        if S.specializationKind = TemplateSpecializationKind.TSK_ImplicitInstantiation then
          S.templateInstantiationPattern
        else N
      | none => N
    let r := extractSymbolID1 ext v N.usr
    (r.2, Namespaces ++ [⟨r.1, N.name, InfoType.IT_record⟩], anonymous)
  | .Function N =>
    let r := extractSymbolID1 ext v N.usr
    (r.2, Namespaces ++ [⟨r.1, N.name, InfoType.IT_function⟩], anonymous)
  | .Enum N =>
    let r := extractSymbolID1 ext v N.usr
    (r.2, Namespaces ++ [⟨r.1, N.name, InfoType.IT_enum⟩], anonymous)
  | .TranslationUnit =>
    (v, Namespaces ++ [⟨SymbolID.zero, "", InfoType.IT_namespace⟩], anonymous)
  | .Other => (v, Namespaces, anonymous)

/-- The member `ASTVisitor::getParentNamespaces(Namespaces, D)`: the returned flag,
the list after the call, and the visitor. -/
def getParentNamespaces (ext : Externals) (v : ASTVisitor)
    (Namespaces : List Reference) (D : AnyDecl) : Bool × List Reference × ASTVisitor :=
  let anonymous :=
    match D.asNamespaceDecl with
    | some N => N.isAnonymousNamespace
    | none => false
  let r := (D.toDecl.declContext :: D.toDecl.parents).foldl
    (getParentNamespacesStep ext) (v, Namespaces, anonymous)
  (r.2.2, r.2.1, r.1)

/-! ## File policy -/

/-- The member `ASTVisitor::shouldExtract(D)`: the returned flag and the visitor, or
`none` when the assertion on block-scope declarations fails.  On a miss the
new cache entry is written with the flag and the path the policy returned
(the source emplaces a default entry and fills it before any other access). -/
def shouldExtract (ext : Externals) (v : ASTVisitor) (D : Decl) :
    Option (Bool × ASTVisitor) :=
  if D.isInSystemHeader then some (false, v)
  else if D.parentFunctionOrMethod then none
  else
    match v.fileFilter_.lookup D.includeLoc with
    | some ff =>
      if !ff.include_ then some (false, v)
      else
        let File := ext.convert_to_slash D.filename
        let File := ext.replace_path_prefix_ File ff.prefix_ ""
        some (true, { v with File := File, IsFileInRootDir := true })
    | none =>
      let File := ext.convert_to_slash D.filename
      let q := ext.config_.shouldVisitFile File
      let ff : FileFilter := { prefix_ := q.2, include_ := q.1 }
      let v1 : ASTVisitor :=
        { v with
          File := File
          fileFilter_ := (D.includeLoc, ff) :: v.fileFilter_
          queries := v.queries ++ [(D.includeLoc, File)] }
      if !ff.include_ then some (false, v1)
      else
        let File := ext.replace_path_prefix_ File ff.prefix_ ""
        some (true, { v1 with File := File, IsFileInRootDir := true })

/-- A sequence of `shouldExtract` calls on one visitor, in order: the flags
returned and the visitor after the last call. -/
def shouldExtractAll (ext : Externals) (v : ASTVisitor) :
    List Decl → Option (List Bool × ASTVisitor)
  | [] => some ([], v)
  | D :: Ds =>
    match shouldExtract ext v D with
    | none => none
    | some r =>
      match shouldExtractAll ext r.2 Ds with
      | none => none
      | some rs => some (r.1 :: rs.1, rs.2)

/-! ## Helpers of the builders -/

/-- The member `ASTVisitor::getLine(D)`. -/
def getLine (D : Decl) : Nat := D.line

/-- The member `ASTVisitor::getTypeAsString(T)`. -/
def getTypeAsString (T : QualType) : String := T.asString

/-- The static `ASTVisitor::getAccessFromSpecifier`; `none` is the unreachable default. -/
def getAccessFromSpecifier (as : AccessSpecifier) : Option Access :=
  match as with
  | .AS_public => some Access.Public
  | .AS_protected => some Access.Protected
  | .AS_private => some Access.Private
  | .AS_none => none

/-- The member `ASTVisitor::getTagDeclForType(T)`. -/
def getTagDeclForType (T : QualType) : Option TagDecl := T.tagDeclDefinition

/-- The member `ASTVisitor::getCXXRecordDeclForType(T)`. -/
def getCXXRecordDeclForType (T : QualType) : Option NamedRef :=
  match T.tagDeclDefinition with
  | some TD => if TD.kind = TagDeclKind.CXXRecord then some TD.ref else none
  | none => none

/-- The member `ASTVisitor::getTypeInfoForType(T)`. -/
def getTypeInfoForType (ext : Externals) (v : ASTVisitor) (T : QualType) :
    TypeInfo × ASTVisitor :=
  let id := SymbolID.zero
  match getTagDeclForType T with
  | some TD =>
    let IT :=
      match TD.kind with
      | .Enum => InfoType.IT_enum
      | .CXXRecord => InfoType.IT_record
      | .Other => InfoType.IT_default
    let e := extractSymbolID ext v TD.ref.usr id
    (⟨e.2.1, TD.ref.name, IT⟩, e.2.2)
  | none => (Reference.ofName id (getTypeAsString T), v)

/-- The member `ASTVisitor::parseParameters(I, D)`, on the parameter list of `D`. -/
def parseParameters (ext : Externals) (v : ASTVisitor) (I : FunctionInfo)
    (parameters : List ParmVarDecl) : FunctionInfo × ASTVisitor :=
  parameters.foldl
    (fun (st : FunctionInfo × ASTVisitor) (P : ParmVarDecl) =>
      let t := getTypeInfoForType ext st.2 P.type
      ({ st.1 with Params := st.1.Params ++ [⟨t.1, P.name, P.defaultArg⟩] }, t.2))
    (I, v)

/-- The member `ASTVisitor::applyDecayToParameters(D)`: the declaration after the call. -/
def applyDecayToParameters (D : FunctionDecl) : FunctionDecl :=
  { D with parameters := D.parameters.map (fun P => { P with type := P.signatureParameterType }) }

/-- The member `ASTVisitor::buildTemplateArgs(I, args)`, on the printed arguments. -/
def buildTemplateArgs (I : TemplateInfo) (args : List String) : TemplateInfo :=
  { I with Args := I.Args ++ args }

/-- The overload of `parseTemplateArgs` for a `FunctionTemplateSpecializationInfo`. -/
def parseTemplateArgsFunction (ext : Externals) (v : ASTVisitor) (I : TemplateInfo)
    (spec : FunctionTemplateSpecializationInfo) : TemplateInfo × ASTVisitor :=
  let st : TemplateInfo × ASTVisitor :=
    match spec.template with
    | some primary =>
      let primary :=
        match primary.instantiatedFromMemberTemplate with
        | some MT => MT
        | none => primary.ref
      let e := extractSymbolID ext v primary.usr SymbolID.zero
      ({ I with Primary := some e.2.1 }, e.2.2)
    | none => (I, v)
  match spec.TemplateArguments with
  | some args => (buildTemplateArgs st.1 args, st.2)
  | none => st

/-- The static `ASTVisitor::parseRawComment(javadoc, D, R)`: the value left in `javadoc`. -/
def parseRawComment (ext : Externals) (D : Decl) : Option String :=
  match D.rawComment with
  | some RC => some (ext.parseJavadoc RC)
  | none => none

/-- The member `ASTVisitor::parseEnumerators(I, D)`. -/
def parseEnumerators (I : EnumInfo) (D : EnumDecl) : EnumInfo :=
  D.enumerators.foldl
    (fun (I : EnumInfo) (E : EnumConstantDecl) =>
      let ValueExpr :=
        match E.initExpr with
        | some src => src
        | none => ""
      let ValueStr := toString E.initVal
      { I with Members := I.Members ++ [⟨E.name, ValueStr, ValueExpr⟩] })
    I

/-- The call `insertBitcode(ex_, bitcode)`. -/
def insertBitcode (v : ASTVisitor) (b : Bitcode) : ASTVisitor :=
  { v with sink := v.sink ++ [b] }

/-! ## Graph fragment assembler -/

/-- The overload `insertChild(RecordInfo& P, Member const& I, Access access)`; `none` is
the failed assertion of the last branch. -/
def RecordInfo.insertChild (P : RecordInfo) (I : AnyInfo) (access : Access) :
    Option RecordInfo :=
  match I with
  | .Record I =>
    some { P with Members := { P.Members with Records := P.Members.Records ++ [⟨I.id, access⟩] } }
  | .Function I =>
    some { P with
      Members := { P.Members with Functions := P.Members.Functions ++ [⟨I.id, access⟩] } }
  | .Typedef I =>
    some { P with Members := { P.Members with Types := P.Members.Types ++ [⟨I.id, access⟩] } }
  | .Enum I =>
    some { P with Members := { P.Members with Enums := P.Members.Enums ++ [⟨I.id, access⟩] } }
  | .Field I =>
    some { P with Members := { P.Members with Fields := P.Members.Fields ++ [⟨I.id, access⟩] } }
  | .Var I =>
    some { P with Members := { P.Members with Vars := P.Members.Vars ++ [⟨I.id, access⟩] } }
  | .Namespace _ => none

/-- The overload `insertChild(NamespaceInfo& parent, Child const& I)`; `none` is the
failed assertion of the last branch. -/
def NamespaceInfo.insertChild (parent : NamespaceInfo) (I : AnyInfo) : Option NamespaceInfo :=
  match I with
  | .Namespace C =>
    some { parent with
      Children := { parent.Children with
        Namespaces := parent.Children.Namespaces ++ [⟨C.id, C.Name, I.type_id⟩] } }
  | .Record C =>
    some { parent with
      Children := { parent.Children with
        Records := parent.Children.Records ++ [⟨C.id, C.Name, I.type_id⟩] } }
  | .Function C =>
    some { parent with
      Children := { parent.Children with
        Functions := parent.Children.Functions ++ [⟨C.id, C.Name, I.type_id⟩] } }
  | .Typedef C =>
    some { parent with
      Children := { parent.Children with
        Typedefs := parent.Children.Typedefs ++ [⟨C.id, C.Name, I.type_id⟩] } }
  | .Enum C =>
    some { parent with
      Children := { parent.Children with
        Enums := parent.Children.Enums ++ [⟨C.id, C.Name, I.type_id⟩] } }
  | .Var C =>
    some { parent with
      Children := { parent.Children with
        Vars := parent.Children.Vars ++ [⟨C.id, C.Name, I.type_id⟩] } }
  | .Field _ => none

/-- The part of `writeParent` after the `switch`, reached with `access_` set:
the stub of the enclosing record. -/
def writeParentRecord (I : AnyInfo) (access_ : Access) : Option Bitcode :=
  match I.toInfo.Namespace with
  | [] => none
  | N0 :: _ =>
    if N0.RefType ≠ InfoType.IT_record then none
    else if I.type_id = InfoType.IT_namespace then none
    else
      let P : RecordInfo := { id := N0.id }
      match P.insertChild I access_ with
      | none => none
      | some P => some (writeBitcode (AnyInfo.Record P))

/-- The template `writeParent(I, access)`; `none` is a failed assertion. -/
def writeParent (I : AnyInfo) (access : AccessSpecifier) : Option Bitcode :=
  match access with
  | .AS_none =>
    match I.toInfo.Namespace with
    | [] => none
    | N0 :: _ =>
      if N0.RefType ≠ InfoType.IT_namespace then none
      else
        let P : NamespaceInfo := { id := N0.id }
        match P.insertChild I with
        | none => none
        | some P => some (writeBitcode (AnyInfo.Namespace P))
  | .AS_public => writeParentRecord I Access.Public
  | .AS_protected => writeParentRecord I Access.Protected
  | .AS_private => writeParentRecord I Access.Private

/-! ## Metadata builders -/

/-- The member `ASTVisitor::extractInfo(I, D)`: the returned flag, the base part of
`I` after the call, and the visitor. -/
def extractInfo (ext : Externals) (v : ASTVisitor) (I : Info) (D : AnyDecl) :
    Bool × Info × ASTVisitor :=
  let r := getParentNamespaces ext v I.Namespace D
  let anonymous := r.1
  let I := { I with Namespace := r.2.1 }
  let v := r.2.2
  if !shouldSerializeInfo v.PublicOnly anonymous D.toDecl then (false, I, v)
  else
    let e := extractSymbolID ext v D.toDecl.usr I.id
    let I := { I with id := e.2.1 }
    let v := e.2.2
    if !e.1 then (false, I, v)
    else
      let I := { I with Name := D.toDecl.name }
      let I := { I with javadoc := parseRawComment ext D.toDecl }
      (true, I, v)

/-- One turn of the loop of `extractBases`, on the base specifier `B`. -/
def extractBasesStep (ext : Externals) (st : Option (RecordInfo × ASTVisitor))
    (B : CXXBaseSpecifier) : Option (RecordInfo × ASTVisitor) :=
  match st with
  | none => none
  | some (I, v) =>
    let isVirtual := B.isVirtual
    if isVirtual && !ext.config_.includePrivate then some (I, v)
    else
      let id := SymbolID.zero
      match B.type.templateSpecialization with
      | some TD =>
        let e := extractSymbolID ext v TD.usr id
        match getAccessFromSpecifier B.accessSpecifier with
        | none => none
        | some access =>
          some ({ I with Bases := I.Bases ++ [⟨e.2.1, getTypeAsString B.type, access, isVirtual⟩] },
            e.2.2)
      | none =>
        match getCXXRecordDeclForType B.type with
        | some P =>
          let e := extractSymbolID ext v P.usr id
          match getAccessFromSpecifier B.accessSpecifier with
          | none => none
          | some access =>
            some ({ I with Bases := I.Bases ++ [⟨e.2.1, P.name, access, isVirtual⟩] }, e.2.2)
        | none =>
          match getAccessFromSpecifier B.accessSpecifier with
          | none => none
          | some access =>
            some ({ I with Bases := I.Bases ++ [⟨id, getTypeAsString B.type, access, isVirtual⟩] },
              v)

/-- The member `ASTVisitor::extractBases(I, D)`; `none` when `getAccessFromSpecifier`
reaches its unreachable default. -/
def extractBases (ext : Externals) (v : ASTVisitor) (I : RecordInfo) (D : CXXRecordDecl) :
    Option (RecordInfo × ASTVisitor) :=
  if !D.isThisDeclarationADefinition then some (I, v)
  else D.bases.foldl (extractBasesStep ext) (some (I, v))

/-- The location `(LineNumber, File, IsFileInRootDir)` the builders record. -/
def currentLocation (v : ASTVisitor) : Location :=
  ⟨v.LineNumber, v.File, v.IsFileInRootDir⟩

/-- The template `ASTVisitor::constructFunction(I, D)` at the static type `DeclTy`: the
returned flag, `I` after the call, and the visitor. -/
def constructFunction (ext : Externals) (v : ASTVisitor) (I : FunctionInfo)
    (DeclTy : FunctionDeclTy) (D : FunctionDecl) : Bool × FunctionInfo × ASTVisitor :=
  let D := applyDecayToParameters D
  let r := extractInfo ext v I.toInfo (AnyDecl.Function D)
  let I := { I with toInfo := r.2.1 }
  let v := r.2.2
  if !r.1 then (false, I, v)
  else
    let v := { v with LineNumber := getLine D.toDecl }
    let I :=
      if D.isThisDeclarationADefinition then { I with DefLoc := some (currentLocation v) }
      else { I with Loc := I.Loc ++ [currentLocation v] }
    let qt := D.returnType
    let t := getTypeInfoForType ext v qt
    let I := { I with ReturnType := t.1 }
    let p := parseParameters ext t.2 I D.parameters
    let I := p.1
    let v := p.2
    let tv : Option TemplateInfo × ASTVisitor :=
      match D.templateSpecializationInfo with
      | some ftsi =>
        let T :=
          match I.Template with
          | some T => T
          | none => {}
        let a := parseTemplateArgsFunction ext v T ftsi
        (some a.1, a.2)
      | none => (I.Template, v)
    let I := { I with Template := tv.1 }
    let v := tv.2
    let s0 := I.specs0
    let s0 := { s0 with
      isVariadic := D.isVariadic
      isDefaulted := D.isDefaulted
      isExplicitlyDefaulted := D.isExplicitlyDefaulted
      isDeleted := D.isDeleted
      isDeletedAsWritten := D.isDeletedAsWritten
      isNoReturn := D.isNoReturn
      hasOverrideAttr := D.hasOverrideAttr }
    let s0 :=
      match D.functionProtoType with
      | some hasTrailingReturn => { s0 with hasTrailingReturn := hasTrailingReturn }
      | none => s0
    let s0 := { s0 with
      constexprKind := D.constexprKind
      exceptionSpecType := D.exceptionSpecType
      overloadedOperator := D.overloadedOperator
      storageClass := D.storageClass }
    let s1 := I.specs1
    let s1 :=
      match D.warnUnusedResultAttr with
      | some spelling => { s1 with isNodiscard := true, nodiscardSpelling := spelling }
      | none => s1
    let OOK := D.overloadedOperator
    let s1 := if OOK ≠ 0 then { s1 with functionKind := ext.getFunctionKind OOK } else s1
    let s0 :=
      if DeclTy.derivedFromCXXMethodDecl then
        { s0 with
          isVirtual := D.isVirtual
          isVirtualAsWritten := D.isVirtualAsWritten
          isPure := D.isPure
          isConst := D.isConst
          isVolatile := D.isVolatile
          refQualifier := D.refQualifier
          isFinal := D.hasFinalAttr }
      else s0
    let s1 :=
      if DeclTy = FunctionDeclTy.CXXConstructorDecl ∨ DeclTy = FunctionDeclTy.CXXConversionDecl ∨
          DeclTy = FunctionDeclTy.CXXDeductionGuideDecl then
        { s1 with isExplicit := D.explicitSpecifierIsSpecified }
      else s1
    (true, { I with specs0 := s0, specs1 := s1 }, v)

/-- The member `ASTVisitor::buildNamespace(I, D)`. -/
def buildNamespace (ext : Externals) (v : ASTVisitor) (I : NamespaceInfo)
    (D : NamespaceDecl) : Option ASTVisitor :=
  let r := extractInfo ext v I.toInfo (AnyDecl.Namespace D)
  let I := { I with toInfo := r.2.1 }
  let v := r.2.2
  if !r.1 then some v
  else
    let I := if D.isAnonymousNamespace then { I with Name := "@nonymous_namespace" } else I
    let v := insertBitcode v (writeBitcode (AnyInfo.Namespace I))
    match writeParent (AnyInfo.Namespace I) AccessSpecifier.AS_none with
    | none => none
    | some b => some (insertBitcode v b)

/-- The access `buildRecord` passes to `writeParent`. -/
def recordAccess (D : CXXRecordDecl) : AccessSpecifier :=
  match D.describedClassTemplate with
  | some CT => CT
  | none =>
    match D.memberSpecializationInfo with
    | some MSI => MSI
    | none =>
      match D.specializedTemplate with
      | some CTSD => CTSD
      | none => D.access

/-- The member `ASTVisitor::buildRecord(I, D)`. -/
def buildRecord (ext : Externals) (v : ASTVisitor) (I : RecordInfo)
    (D : CXXRecordDecl) : Option ASTVisitor :=
  let r := extractInfo ext v I.toInfo (AnyDecl.CXXRecord D)
  let I := { I with toInfo := r.2.1 }
  let v := r.2.2
  if !r.1 then some v
  else
    let v := { v with LineNumber := getLine D.toDecl }
    let I :=
      if D.isThisDeclarationADefinition then { I with DefLoc := some (currentLocation v) }
      else { I with Loc := I.Loc ++ [currentLocation v] }
    let I := { I with TagType := D.tagKind }
    let I := { I with isFinal := D.hasFinalAttr }
    let I :=
      match D.destructor with
      | some DT => { I with isFinalDestructor := DT }
      | none => I
    let I :=
      match D.typedefNameForAnonDecl with
      | some TD => { I with Name := TD, IsTypeDef := true }
      | none => I
    match extractBases ext v I D with
    | none => none
    | some (I, v) =>
      let access := recordAccess D
      let v := insertBitcode v (writeBitcode (AnyInfo.Record I))
      match writeParent (AnyInfo.Record I) access with
      | none => none
      | some b => some (insertBitcode v b)

/-- The member `ASTVisitor::buildFriend(D)`; `none` is a failed assertion. -/
def buildFriend (ext : Externals) (v : ASTVisitor) (D : FriendDecl) : Option ASTVisitor :=
  match D.friendDecl with
  | some ND =>
    match ND with
    | .Function FD =>
      match shouldExtract ext v FD.toDecl with
      | none => none
      | some s =>
        let v := s.2
        if !s.1 then some v
        else
          let I : FunctionInfo := {}
          let c := constructFunction ext v I FunctionDeclTy.FunctionDecl FD
          let FD := applyDecayToParameters FD
          let I := c.2.1
          let v := c.2.2
          if !c.1 then some v
          else
            let DC := D.declContext
            match DC with
            | .CXXRecord RD _ =>
              let P : RecordInfo := {}
              let e := extractSymbolID ext v RD.usr P.id
              let P := { P with id := e.2.1 }
              let v := e.2.2
              let P := { P with Friends := P.Friends ++ [I.id] }
              let g := getParentNamespaces ext v P.Namespace (AnyDecl.Function FD)
              let P := { P with Namespace := g.2.1 }
              let v := g.2.2
              let v := insertBitcode v (writeBitcode (AnyInfo.Function I))
              match writeParent (AnyInfo.Function I) AccessSpecifier.AS_none with
              | none => none
              | some b =>
                let v := insertBitcode v b
                let v := insertBitcode v (writeBitcode (AnyInfo.Record P))
                match writeParent (AnyInfo.Record P) AccessSpecifier.AS_none with
                | none => none
                | some b => some (insertBitcode v b)
            | _ => none
    | .FunctionTemplate => some v
    | .ClassTemplate => some v
    | .Other => none
  | none =>
    if D.friendType then some v else none

/-- The member `ASTVisitor::buildEnum(I, D)`. -/
def buildEnum (ext : Externals) (v : ASTVisitor) (I : EnumInfo) (D : EnumDecl) :
    Option ASTVisitor :=
  let r := extractInfo ext v I.toInfo (AnyDecl.Enum D)
  let I := { I with toInfo := r.2.1 }
  let v := r.2.2
  if !r.1 then some v
  else
    let v := { v with LineNumber := getLine D.toDecl }
    let I :=
      if D.isThisDeclarationADefinition then { I with DefLoc := some (currentLocation v) }
      else { I with Loc := I.Loc ++ [currentLocation v] }
    let I := { I with Scoped := D.isScoped }
    let I :=
      if D.isFixed then
        let Name := getTypeAsString D.integerType
        { I with BaseType := some (Reference.ofName SymbolID.zero Name) }
      else I
    let I := parseEnumerators I D
    let v := insertBitcode v (writeBitcode (AnyInfo.Enum I))
    match writeParent (AnyInfo.Enum I) D.access with
    | none => none
    | some b => some (insertBitcode v b)

/-- The member `ASTVisitor::buildField(I, D)`. -/
def buildField (ext : Externals) (v : ASTVisitor) (I : FieldInfo) (D : FieldDecl) :
    Option ASTVisitor :=
  let r := extractInfo ext v I.toInfo (AnyDecl.Field D)
  let I := { I with toInfo := r.2.1 }
  let v := r.2.2
  if !r.1 then some v
  else
    let v := { v with LineNumber := getLine D.toDecl }
    let I := { I with DefLoc := some (currentLocation v) }
    let t := getTypeInfoForType ext v D.type
    let I := { I with Type_ := t.1 }
    let v := t.2
    let I := { I with
      hasNoUniqueAddress := D.hasNoUniqueAddressAttr
      isDeprecated := D.hasDeprecatedAttr
      isNodiscard := D.hasUnusedAttr }
    let v := insertBitcode v (writeBitcode (AnyInfo.Field I))
    match writeParent (AnyInfo.Field I) D.access with
    | none => none
    | some b => some (insertBitcode v b)

/-- The member `ASTVisitor::buildVar(I, D)`. -/
def buildVar (ext : Externals) (v : ASTVisitor) (I : VarInfo) (D : VarDecl) :
    Option ASTVisitor :=
  let r := extractInfo ext v I.toInfo (AnyDecl.Var D)
  let I := { I with toInfo := r.2.1 }
  let v := r.2.2
  if !r.1 then some v
  else
    let v := { v with LineNumber := getLine D.toDecl }
    let I :=
      if D.isThisDeclarationADefinition then { I with DefLoc := some (currentLocation v) }
      else { I with Loc := I.Loc ++ [currentLocation v] }
    let t := getTypeInfoForType ext v D.type
    let I := { I with Type_ := t.1 }
    let v := t.2
    let I := { I with storageClass := D.storageClass }
    let v := insertBitcode v (writeBitcode (AnyInfo.Var I))
    match writeParent (AnyInfo.Var I) D.access with
    | none => none
    | some b => some (insertBitcode v b)

/-- The access `buildFunction` passes to `writeParent` at the static type `DeclTy`. -/
def functionAccess (DeclTy : FunctionDeclTy) (D : FunctionDecl) : AccessSpecifier :=
  if DeclTy.derivedFromCXXMethodDecl then D.access else AccessSpecifier.AS_none

/-- The template `ASTVisitor::buildFunction(I, D)` at the static type `DeclTy`. -/
def buildFunction (ext : Externals) (v : ASTVisitor) (I : FunctionInfo)
    (DeclTy : FunctionDeclTy) (D : FunctionDecl) : Option ASTVisitor :=
  let c := constructFunction ext v I DeclTy D
  let I := c.2.1
  let v := c.2.2
  if !c.1 then some v
  else
    let v := insertBitcode v (writeBitcode (AnyInfo.Function I))
    match writeParent (AnyInfo.Function I) (functionAccess DeclTy D) with
    | none => none
    | some b => some (insertBitcode v b)

/-- The template `ASTVisitor::buildTypedef(I, D)`. -/
def buildTypedef (ext : Externals) (v : ASTVisitor) (I : TypedefInfo)
    (D : TypedefNameDecl) : Option ASTVisitor :=
  let r := extractInfo ext v I.toInfo (AnyDecl.Typedef D)
  let I := { I with toInfo := r.2.1 }
  let v := r.2.2
  if !r.1 then some v
  else
    let t := getTypeInfoForType ext v D.underlyingType
    let I := { I with Underlying := t.1 }
    let v := t.2
    if I.Underlying.Name.isEmpty then some v
    else
      let v := { v with LineNumber := getLine D.toDecl }
      let I := { I with DefLoc := some (currentLocation v) }
      let v := insertBitcode v (writeBitcode (AnyInfo.Typedef I))
      match writeParent (AnyInfo.Typedef I) D.access with
      | none => none
      | some b => some (insertBitcode v b)

/-! ## Template parameters and arguments -/

mutual
/-- The member `ASTVisitor::buildTemplateParam(ND)`: the parameter and the visitor. -/
def buildTemplateParam (ext : Externals) (v : ASTVisitor) :
    TemplateParmDecl → TParam × ASTVisitor
  | .TemplateTypeParm name isTemplateParameterPack defaultArgument =>
    match defaultArgument with
    | some T =>
      let t := getTypeInfoForType ext v T
      (TParam.TypeTParam name isTemplateParameterPack (some t.1), t.2)
    | none => (TParam.TypeTParam name isTemplateParameterPack none, v)
  | .NonTypeTemplateParm name isTemplateParameterPack type defaultArgument =>
    let t := getTypeInfoForType ext v type
    (TParam.NonTypeTParam name isTemplateParameterPack t.1 defaultArgument, t.2)
  | .TemplateTemplateParm name isTemplateParameterPack templateParameters defaultArgument =>
    let r := buildTemplateParams ext v templateParameters
    (TParam.TemplateTParam name isTemplateParameterPack r.1 defaultArgument, r.2)
  | .Other name isTemplateParameterPack => (TParam.Unset name isTemplateParameterPack, v)
/-- The loop over a parameter list that appends `buildTemplateParam(ND)` for each of
its members: the parameters built, in order, and the visitor. -/
def buildTemplateParams (ext : Externals) (v : ASTVisitor) :
    List TemplateParmDecl → List TParam × ASTVisitor
  | [] => ([], v)
  | ND :: rest =>
    let p := buildTemplateParam ext v ND
    let r := buildTemplateParams ext p.2 rest
    (p.1 :: r.1, r.2)
end

/-- The member `ASTVisitor::parseTemplateParams(I, D)`. -/
def parseTemplateParams (ext : Externals) (v : ASTVisitor) (I : TemplateInfo) (D : Decl) :
    TemplateInfo × ASTVisitor :=
  match D.describedTemplateParams with
  | some ParamList =>
    let r := buildTemplateParams ext v ParamList
    ({ I with Params := I.Params ++ r.1 }, r.2)
  | none => (I, v)

/-- The overload of `parseTemplateArgs` for a `ClassTemplateSpecializationDecl`; `none` is
the failed assertion on the type as written. -/
def parseTemplateArgsClass (ext : Externals) (v : ASTVisitor) (I : TemplateInfo)
    (spec : ClassTemplateSpecializationDecl) : Option (TemplateInfo × ASTVisitor) :=
  let st : TemplateInfo × ASTVisitor :=
    match spec.specializedTemplateDecl with
    | some primary =>
      let primary :=
        match primary.instantiatedFromMemberTemplate with
        | some MT => MT
        | none => primary.ref
      let e := extractSymbolID ext v primary.usr SymbolID.zero
      ({ I with Primary := some e.2.1 }, e.2.2)
    | none => (I, v)
  match spec.typeAsWritten with
  | none => none
  | some args => some (buildTemplateArgs st.1 args, st.2)

/-- The overload of `parseTemplateArgs` for a `VarTemplateSpecializationDecl`. -/
def parseTemplateArgsVar (ext : Externals) (v : ASTVisitor) (I : TemplateInfo)
    (spec : VarTemplateSpecializationDecl) : TemplateInfo × ASTVisitor :=
  let st : TemplateInfo × ASTVisitor :=
    match spec.specializedTemplate with
    | some primary =>
      let primary :=
        match primary.instantiatedFromMemberTemplate with
        | some MT => MT
        | none => primary.ref
      let e := extractSymbolID ext v primary.usr SymbolID.zero
      ({ I with Primary := some e.2.1 }, e.2.2)
    | none => (I, v)
  match spec.partialTemplateArgsAsWritten with
  | some args => (buildTemplateArgs st.1 args, st.2)
  | none => (buildTemplateArgs st.1 spec.templateArgs, st.2)

/-- The overload of `parseTemplateArgs` for a `ClassScopeFunctionSpecializationDecl`. -/
def parseTemplateArgsClassScope (I : TemplateInfo)
    (spec : ClassScopeFunctionSpecializationDecl) : TemplateInfo :=
  match spec.templateArgsAsWritten with
  | some args => buildTemplateArgs I args
  | none => I

/-! ## Traversal

The `Traverse` overloads are told apart by the class of their argument.  The
overloads that take a `TemplateInfo` are called by `TraverseDecl` without one
when it has none to forward; the record is then constructed without a
template.  An overload that ends with `TraverseContext(D)` takes as
`TraverseContextD` what that call does from a visitor. -/

/-- A declaration with its dynamic class, as `TraverseDecl` switches on
`getKind()`, and for a declaration context its `decls()`.  `Function` stands
for the six kinds of function, told apart by `DeclTy`; a template form
carries its `getTemplatedDecl()`; `Other` is any kind without a case of its
own, with its `decls()` when it is a `DeclContext`. -/
inductive DeclNode where
  | Namespace (D : NamespaceDecl) (decls : List DeclNode)
  | CXXRecord (D : CXXRecordDecl) (decls : List DeclNode)
  | Function (DeclTy : FunctionDeclTy) (D : FunctionDecl)
  | Friend (D : FriendDecl)
  | TypeAlias (D : TypedefNameDecl)
  | Typedef (D : TypedefNameDecl)
  | Enum (D : EnumDecl)
  | Field (D : FieldDecl)
  | Var (D : VarDecl)
  | ClassTemplate (D : Decl) (templatedDecl : CXXRecordDecl) (decls : List DeclNode)
  | ClassTemplateSpecialization (D : ClassTemplateSpecializationDecl) (decls : List DeclNode)
  | ClassTemplatePartialSpecialization (D : ClassTemplateSpecializationDecl)
      (decls : List DeclNode)
  | VarTemplate (D : Decl) (templatedDecl : VarDecl)
  | VarTemplateSpecialization (D : VarTemplateSpecializationDecl)
  | VarTemplatePartialSpecialization (D : VarTemplateSpecializationDecl)
  | FunctionTemplate (D : Decl) (templatedDecl : DeclNode)
  | ClassScopeFunctionSpecialization (D : ClassScopeFunctionSpecializationDecl)
  | TypeAliasTemplate (D : Decl) (templatedDecl : TypedefNameDecl)
  | Other (D : Decl) (decls : Option (List DeclNode))

/-- The upcast to `Decl`. -/
def DeclNode.toDecl : DeclNode → Decl
  | .Namespace D _ => D.toDecl
  | .CXXRecord D _ => D.toDecl
  | .Function _ D => D.toDecl
  | .Friend D => D.toDecl
  | .TypeAlias D => D.toDecl
  | .Typedef D => D.toDecl
  | .Enum D => D.toDecl
  | .Field D => D.toDecl
  | .Var D => D.toDecl
  | .ClassTemplate D _ _ => D
  | .ClassTemplateSpecialization D _ => D.toDecl
  | .ClassTemplatePartialSpecialization D _ => D.toDecl
  | .VarTemplate D _ => D
  | .VarTemplateSpecialization D => D.toDecl
  | .VarTemplatePartialSpecialization D => D.toDecl
  | .FunctionTemplate D _ => D
  | .ClassScopeFunctionSpecialization D => D.toDecl
  | .TypeAliasTemplate D _ => D
  | .Other D _ => D

/-- The overload `Traverse(NamespaceDecl*)`. -/
def TraverseNamespaceDecl (ext : Externals) (v : ASTVisitor) (D : NamespaceDecl)
    (TraverseContextD : ASTVisitor → Option (Bool × ASTVisitor)) :
    Option (Bool × ASTVisitor) :=
  match shouldExtract ext v D.toDecl with
  | none => none
  | some s =>
    if !s.1 then some (true, s.2)
    else
      let I : NamespaceInfo := {}
      match buildNamespace ext s.2 I D with
      | none => none
      | some v => TraverseContextD v

/-- The overload `Traverse(CXXRecordDecl*, std::unique_ptr<TemplateInfo>&&)`. -/
def TraverseCXXRecordDecl (ext : Externals) (v : ASTVisitor) (D : CXXRecordDecl)
    (Template : Option TemplateInfo)
    (TraverseContextD : ASTVisitor → Option (Bool × ASTVisitor)) :
    Option (Bool × ASTVisitor) :=
  match shouldExtract ext v D.toDecl with
  | none => none
  | some s =>
    if !s.1 then some (true, s.2)
    else
      let I : RecordInfo := { Template := Template }
      match buildRecord ext s.2 I D with
      | none => none
      | some v => TraverseContextD v

/-- The overload `Traverse(TypedefDecl*)`. -/
def TraverseTypedefDecl (ext : Externals) (v : ASTVisitor) (D : TypedefNameDecl) :
    Option (Bool × ASTVisitor) :=
  match shouldExtract ext v D.toDecl with
  | none => none
  | some s =>
    if !s.1 then some (true, s.2)
    else
      let I : TypedefInfo := {}
      match buildTypedef ext s.2 I D with
      | none => none
      | some v => some (true, v)

/-- The overload `Traverse(TypeAliasDecl*, std::unique_ptr<TemplateInfo>&&)`. -/
def TraverseTypeAliasDecl (ext : Externals) (v : ASTVisitor) (D : TypedefNameDecl)
    (Template : Option TemplateInfo) : Option (Bool × ASTVisitor) :=
  match shouldExtract ext v D.toDecl with
  | none => none
  | some s =>
    if !s.1 then some (true, s.2)
    else
      let I : TypedefInfo := { Template := Template }
      let I := { I with IsUsing := true }
      match buildTypedef ext s.2 I D with
      | none => none
      | some v => some (true, v)

/-- The overload `Traverse(VarDecl*, std::unique_ptr<TemplateInfo>&&)`. -/
def TraverseVarDecl (ext : Externals) (v : ASTVisitor) (D : VarDecl)
    (Template : Option TemplateInfo) : Option (Bool × ASTVisitor) :=
  match shouldExtract ext v D.toDecl with
  | none => none
  | some s =>
    if !s.1 then some (true, s.2)
    else
      let I : VarInfo := { Template := Template }
      match buildVar ext s.2 I D with
      | none => none
      | some v => some (true, v)

/-- The overloads `Traverse(FunctionDecl*, ...)`, `Traverse(CXXMethodDecl*, ...)`,
`Traverse(CXXConstructorDecl*, ...)`, `Traverse(CXXConversionDecl*, ...)` and
`Traverse(CXXDeductionGuideDecl*, ...)`, which differ by the static type `DeclTy` at
which they call `buildFunction`. -/
def TraverseFunctionDecl (ext : Externals) (v : ASTVisitor) (DeclTy : FunctionDeclTy)
    (D : FunctionDecl) (Template : Option TemplateInfo) : Option (Bool × ASTVisitor) :=
  match shouldExtract ext v D.toDecl with
  | none => none
  | some s =>
    if !s.1 then some (true, s.2)
    else
      let I : FunctionInfo := { Template := Template }
      match buildFunction ext s.2 I DeclTy D with
      | none => none
      | some v => some (true, v)

/-- The overload `Traverse(CXXDestructorDecl*)`. -/
def TraverseCXXDestructorDecl (ext : Externals) (v : ASTVisitor) (D : FunctionDecl) :
    Option (Bool × ASTVisitor) :=
  match shouldExtract ext v D.toDecl with
  | none => none
  | some s =>
    if !s.1 then some (true, s.2)
    else
      let I : FunctionInfo := {}
      match buildFunction ext s.2 I FunctionDeclTy.CXXDestructorDecl D with
      | none => none
      | some v => some (true, v)

/-- The overload `Traverse(FriendDecl*)`. -/
def TraverseFriendDecl (ext : Externals) (v : ASTVisitor) (D : FriendDecl) :
    Option (Bool × ASTVisitor) :=
  match buildFriend ext v D with
  | none => none
  | some v => some (true, v)

/-- The overload `Traverse(EnumDecl*)`. -/
def TraverseEnumDecl (ext : Externals) (v : ASTVisitor) (D : EnumDecl) :
    Option (Bool × ASTVisitor) :=
  match shouldExtract ext v D.toDecl with
  | none => none
  | some s =>
    if !s.1 then some (true, s.2)
    else
      let I : EnumInfo := {}
      match buildEnum ext s.2 I D with
      | none => none
      | some v => some (true, v)

/-- The overload `Traverse(FieldDecl*)`. -/
def TraverseFieldDecl (ext : Externals) (v : ASTVisitor) (D : FieldDecl) :
    Option (Bool × ASTVisitor) :=
  match shouldExtract ext v D.toDecl with
  | none => none
  | some s =>
    if !s.1 then some (true, s.2)
    else
      let I : FieldInfo := {}
      match buildField ext s.2 I D with
      | none => none
      | some v => some (true, v)

/-- The overload `Traverse(ClassTemplateDecl*)`, on `D->getTemplatedDecl()`. -/
def TraverseClassTemplateDecl (ext : Externals) (v : ASTVisitor) (RD : CXXRecordDecl)
    (TraverseContextD : ASTVisitor → Option (Bool × ASTVisitor)) :
    Option (Bool × ASTVisitor) :=
  match shouldExtract ext v RD.toDecl with
  | none => none
  | some s =>
    if !s.1 then some (true, s.2)
    else
      let Template : TemplateInfo := {}
      let p := parseTemplateParams ext s.2 Template RD.toDecl
      TraverseCXXRecordDecl ext p.2 RD (some p.1) TraverseContextD

/-- The overload `Traverse(ClassTemplateSpecializationDecl*)`. -/
def TraverseClassTemplateSpecializationDecl (ext : Externals) (v : ASTVisitor)
    (D : ClassTemplateSpecializationDecl)
    (TraverseContextD : ASTVisitor → Option (Bool × ASTVisitor)) :
    Option (Bool × ASTVisitor) :=
  let RD := D.toCXXRecordDecl
  match shouldExtract ext v RD.toDecl with
  | none => none
  | some s =>
    if !s.1 then some (true, s.2)
    else
      let Template : TemplateInfo := {}
      let p := parseTemplateParams ext s.2 Template RD.toDecl
      match parseTemplateArgsClass ext p.2 p.1 D with
      | none => none
      | some a => TraverseCXXRecordDecl ext a.2 RD (some a.1) TraverseContextD

/-- The overload `Traverse(ClassTemplatePartialSpecializationDecl*)`. -/
def TraverseClassTemplatePartialSpecializationDecl (ext : Externals) (v : ASTVisitor)
    (D : ClassTemplateSpecializationDecl)
    (TraverseContextD : ASTVisitor → Option (Bool × ASTVisitor)) :
    Option (Bool × ASTVisitor) :=
  TraverseClassTemplateSpecializationDecl ext v D TraverseContextD

/-- The overload `Traverse(VarTemplateDecl*)`, on `D->getTemplatedDecl()`. -/
def TraverseVarTemplateDecl (ext : Externals) (v : ASTVisitor) (VD : VarDecl) :
    Option (Bool × ASTVisitor) :=
  match shouldExtract ext v VD.toDecl with
  | none => none
  | some s =>
    if !s.1 then some (true, s.2)
    else
      let Template : TemplateInfo := {}
      let p := parseTemplateParams ext s.2 Template VD.toDecl
      TraverseVarDecl ext p.2 VD (some p.1)

/-- The overload `Traverse(VarTemplateSpecializationDecl*)`. -/
def TraverseVarTemplateSpecializationDecl (ext : Externals) (v : ASTVisitor)
    (D : VarTemplateSpecializationDecl) : Option (Bool × ASTVisitor) :=
  let VD := D.toVarDecl
  match shouldExtract ext v VD.toDecl with
  | none => none
  | some s =>
    if !s.1 then some (true, s.2)
    else
      let Template : TemplateInfo := {}
      let p := parseTemplateParams ext s.2 Template VD.toDecl
      let a := parseTemplateArgsVar ext p.2 p.1 D
      TraverseVarDecl ext a.2 VD (some a.1)

/-- The overload `Traverse(VarTemplatePartialSpecializationDecl*)`. -/
def TraverseVarTemplatePartialSpecializationDecl (ext : Externals) (v : ASTVisitor)
    (D : VarTemplateSpecializationDecl) : Option (Bool × ASTVisitor) :=
  TraverseVarTemplateSpecializationDecl ext v D

/-- The overload `Traverse(FunctionTemplateDecl*)`, on `D->getTemplatedDecl()`;
`TraverseDeclFD` is what `TraverseDecl(FD, Template)` does from a visitor. -/
def TraverseFunctionTemplateDecl (ext : Externals) (v : ASTVisitor) (FD : Decl)
    (TraverseDeclFD : ASTVisitor → TemplateInfo → Option (Bool × ASTVisitor)) :
    Option (Bool × ASTVisitor) :=
  match shouldExtract ext v FD with
  | none => none
  | some s =>
    if !s.1 then some (true, s.2)
    else
      let Template : TemplateInfo := {}
      let p := parseTemplateParams ext s.2 Template FD
      TraverseDeclFD p.2 p.1

/-- The overload `Traverse(ClassScopeFunctionSpecializationDecl*)`. -/
def TraverseClassScopeFunctionSpecializationDecl (ext : Externals) (v : ASTVisitor)
    (D : ClassScopeFunctionSpecializationDecl) : Option (Bool × ASTVisitor) :=
  match shouldExtract ext v D.toDecl with
  | none => none
  | some s =>
    if !s.1 then some (true, s.2)
    else
      let Template : TemplateInfo := {}
      let Template := parseTemplateArgsClassScope Template D
      let MD := D.specialization
      TraverseFunctionDecl ext s.2 FunctionDeclTy.CXXMethodDecl MD (some Template)

/-- The overload `Traverse(TypeAliasTemplateDecl*)`, on `D->getTemplatedDecl()`. -/
def TraverseTypeAliasTemplateDecl (ext : Externals) (v : ASTVisitor) (AD : TypedefNameDecl) :
    Option (Bool × ASTVisitor) :=
  match shouldExtract ext v AD.toDecl with
  | none => none
  | some s =>
    if !s.1 then some (true, s.2)
    else
      let Template : TemplateInfo := {}
      let p := parseTemplateParams ext s.2 Template AD.toDecl
      TraverseTypeAliasDecl ext p.2 AD (some p.1)

/-- A statement `this->Traverse(...); break;` or `TraverseContext(DC); break;` of
`TraverseDecl`, followed by its `return true;`: the value of the call is
dropped, and a run that was ended stays ended. -/
def andReturnTrue (r : Option (Bool × ASTVisitor)) : Option (Bool × ASTVisitor) :=
  match r with
  | none => none
  | some r => some (true, r.2)

/-- A call `this->Traverse(D, args...)` of `TraverseDecl` where the overload for `D` takes
no `TemplateInfo`: with one to forward, only the variadic overload matches,
whose `llvm_unreachable` ends the run. -/
def withoutArgs (args : Option TemplateInfo) (call : Option (Bool × ASTVisitor)) :
    Option (Bool × ASTVisitor) :=
  match args with
  | none => call
  | some _ => none

mutual
/-- The template `ASTVisitor::TraverseDecl(D, args...)`; `args` is the `TemplateInfo`
forwarded to the overload, when there is one. -/
def TraverseDecl (ext : Externals) (v : ASTVisitor) (D : DeclNode)
    (args : Option TemplateInfo) : Option (Bool × ASTVisitor) :=
  if D.toDecl.isImplicit then some (true, v)
  else
    match D with
    | .Namespace D decls =>
      andReturnTrue (withoutArgs args
        (TraverseNamespaceDecl ext v D (fun v => TraverseContext ext v decls)))
    | .CXXRecord D decls =>
      andReturnTrue (TraverseCXXRecordDecl ext v D args (fun v => TraverseContext ext v decls))
    | .Function DeclTy D =>
      match DeclTy with
      | .CXXMethodDecl =>
        andReturnTrue (TraverseFunctionDecl ext v FunctionDeclTy.CXXMethodDecl D args)
      | .CXXConstructorDecl =>
        andReturnTrue (TraverseFunctionDecl ext v FunctionDeclTy.CXXConstructorDecl D args)
      | .CXXConversionDecl =>
        andReturnTrue (TraverseFunctionDecl ext v FunctionDeclTy.CXXConversionDecl D args)
      | .CXXDestructorDecl =>
        andReturnTrue (withoutArgs args (TraverseCXXDestructorDecl ext v D))
      | .CXXDeductionGuideDecl =>
        andReturnTrue (TraverseFunctionDecl ext v FunctionDeclTy.CXXDeductionGuideDecl D args)
      | .FunctionDecl =>
        andReturnTrue (TraverseFunctionDecl ext v FunctionDeclTy.FunctionDecl D args)
    | .Friend D => andReturnTrue (withoutArgs args (TraverseFriendDecl ext v D))
    | .TypeAlias D => andReturnTrue (TraverseTypeAliasDecl ext v D args)
    | .Typedef D => andReturnTrue (withoutArgs args (TraverseTypedefDecl ext v D))
    | .Enum D => andReturnTrue (withoutArgs args (TraverseEnumDecl ext v D))
    | .Field D => andReturnTrue (withoutArgs args (TraverseFieldDecl ext v D))
    | .Var D => andReturnTrue (TraverseVarDecl ext v D args)
    | .ClassTemplate _ RD decls =>
      andReturnTrue (withoutArgs args
        (TraverseClassTemplateDecl ext v RD (fun v => TraverseContext ext v decls)))
    | .ClassTemplateSpecialization D decls =>
      andReturnTrue (withoutArgs args
        (TraverseClassTemplateSpecializationDecl ext v D
          (fun v => TraverseContext ext v decls)))
    | .ClassTemplatePartialSpecialization D decls =>
      andReturnTrue (withoutArgs args
        (TraverseClassTemplatePartialSpecializationDecl ext v D
          (fun v => TraverseContext ext v decls)))
    | .VarTemplate _ VD => andReturnTrue (withoutArgs args (TraverseVarTemplateDecl ext v VD))
    | .VarTemplateSpecialization D =>
      andReturnTrue (withoutArgs args (TraverseVarTemplateSpecializationDecl ext v D))
    | .VarTemplatePartialSpecialization D =>
      andReturnTrue (withoutArgs args (TraverseVarTemplatePartialSpecializationDecl ext v D))
    | .FunctionTemplate _ FD =>
      andReturnTrue (withoutArgs args
        (TraverseFunctionTemplateDecl ext v FD.toDecl
          (fun v Template => TraverseDecl ext v FD (some Template))))
    | .ClassScopeFunctionSpecialization D =>
      andReturnTrue (withoutArgs args (TraverseClassScopeFunctionSpecializationDecl ext v D))
    | .TypeAliasTemplate _ AD =>
      andReturnTrue (withoutArgs args (TraverseTypeAliasTemplateDecl ext v AD))
    | .Other _ decls =>
      match decls with
      | some decls => andReturnTrue (TraverseContext ext v decls)
      | none => some (true, v)
/-- The member `ASTVisitor::TraverseContext(D)`, on `D->decls()`. -/
def TraverseContext (ext : Externals) (v : ASTVisitor) :
    List DeclNode → Option (Bool × ASTVisitor)
  | [] => some (true, v)
  | C :: decls =>
    match TraverseDecl ext v C none with
    | none => none
    | some r => TraverseContext ext r.2 decls
end

/-- What `HandleTranslationUnit` reads from the `ASTContext`: the file name of the
main file when it has one, whether the traversal scope consists of the
translation unit alone, and the `decls()` of the translation unit. -/
structure ASTContext where
  mainFilename : Option String
  traversalScopeIsTranslationUnit : Bool
  decls : List DeclNode

/-- The member `ASTVisitor::HandleTranslationUnit(Context)`; `none` is the failed
assertion on the traversal scope, or an aborted traversal. -/
def HandleTranslationUnit (ext : Externals) (v : ASTVisitor) (Context : ASTContext) :
    Option ASTVisitor :=
  match Context.mainFilename with
  | none => some v
  | some filePath =>
    let v := { v with File := filePath }
    let v := { v with File := ext.convert_to_slash v.File }
    if !ext.config_.shouldVisitTU v.File then some v
    else if !Context.traversalScopeIsTranslationUnit then none
    else
      Context.decls.foldl
        (fun (st : Option ASTVisitor) (C : DeclNode) =>
          match st with
          | none => none
          | some v =>
            match TraverseDecl ext v C none with
            | none => none
            | some r => some r.2)
        (some v)

/-! ## The scope chain, as the specification words it

These definitions follow the wording of the specification; the theorems
compare `getParentNamespaces` with them. -/

/-- The identifier of a declaration with the given canonical name: the digest
of the name, and zero when there is no name. -/
def symbolIDOf (ext : Externals) (usr : Option String) : SymbolID :=
  match usr with
  | some s => ext.sha1 s
  | none => SymbolID.zero

/-- The global-namespace sentinel: zero identifier, empty name, kind namespace. -/
def globalNamespaceReference : Reference := ⟨SymbolID.zero, "", InfoType.IT_namespace⟩

/-- The entity a class context stands for: the pattern it was instantiated
from when it is an implicitly instantiated specialization, itself otherwise. -/
def classContextEntity (N : NamedRef) (S : Option ClassTemplateSpecialization) : NamedRef :=
  match S with
  | some S =>
    if S.specializationKind = TemplateSpecializationKind.TSK_ImplicitInstantiation then
      S.templateInstantiationPattern
    else N
  | none => N

/-- The `Reference` of an enclosing namespace, class, function or enum
context: identifier, name (the sentinel name for an anonymous namespace) and
kind tag.  Contexts of any other kind have none. -/
def scopeReference (ext : Externals) : DeclContext → Option Reference
  | .Namespace N isAnonymous =>
    some ⟨symbolIDOf ext N.usr, if isAnonymous then "@nonymous_namespace" else N.name,
      InfoType.IT_namespace⟩
  | .CXXRecord N S =>
    some ⟨symbolIDOf ext (classContextEntity N S).usr, (classContextEntity N S).name,
      InfoType.IT_record⟩
  | .Function N => some ⟨symbolIDOf ext N.usr, N.name, InfoType.IT_function⟩
  | .Enum N => some ⟨symbolIDOf ext N.usr, N.name, InfoType.IT_enum⟩
  | .TranslationUnit => none
  | .Other => none

/-- Whether a context is an anonymous namespace. -/
def isAnonymousNamespaceContext : DeclContext → Bool
  | .Namespace _ isAnonymous => isAnonymous
  | _ => false

/-- Whether a declaration is itself an anonymous namespace. -/
def isAnonymousNamespaceDecl : AnyDecl → Bool
  | .Namespace D => D.isAnonymousNamespace
  | _ => false

/-- What one context adds to the scope chain: its reference, or the sentinel
for the translation unit. -/
def contextContribution (ext : Externals) (DC : DeclContext) : List Reference :=
  match DC with
  | .TranslationUnit => [globalNamespaceReference]
  | DC => (scopeReference ext DC).toList

/-- The scope chain of a declaration: what its contexts add, innermost first. -/
def scopeChainOf (ext : Externals) (D : AnyDecl) : List Reference :=
  ((D.toDecl.declContext :: D.toDecl.parents).map (contextContribution ext)).flatten

/-- Whether a declaration is an anonymous namespace or is inside one. -/
def isOrIsInAnonymousNamespace (D : AnyDecl) : Bool :=
  isAnonymousNamespaceDecl D ||
    (D.toDecl.declContext :: D.toDecl.parents).any isAnonymousNamespaceContext

/-! ## The assertions of the assembler, as conditions on its input -/

/-- The assertions `writeParent` and `insertChild` make on a record with the scope
chain `Namespace` and of kind `kind`, attached with `access`: the chain is
not empty, its first entry is a namespace when there is no access and a record
otherwise, a field is not attached to a namespace, and a namespace is not
attached to a record. -/
def parentAssertionsHold (Namespace : List Reference) (kind : InfoType)
    (access : AccessSpecifier) : Bool :=
  match Namespace with
  | [] => false
  | N0 :: _ =>
    match access with
    | .AS_none => N0.RefType == InfoType.IT_namespace && kind != InfoType.IT_field
    | _ => N0.RefType == InfoType.IT_record && kind != InfoType.IT_namespace

/-- What the specification requires of a builder run from the visitor `v`, where
`r` is what `extractInfo` returned, `kind` the kind of record built, `access`
the access handed to `writeParent` and `result` the outcome of the builder:
when `extractInfo` returned `false` the builder returns normally and the sink
is unchanged; when it returned `true`, and the assertions of the assembler
hold, the builder returns normally and the sink has grown by exactly two
fragments, first the record of the entity and then the parent fragment
`writeParent` makes of it. -/
@[reducible] def EmitsNothingOrTwo (v : ASTVisitor) (r : Bool × Info × ASTVisitor)
    (kind : InfoType) (access : AccessSpecifier) (result : Option ASTVisitor) : Prop :=
  (r.1 = false → ∃ v1, result = some v1 ∧ v1.sink = v.sink) ∧
  (r.1 = true → parentAssertionsHold r.2.1.Namespace kind access = true →
    ∃ v1 own parent, result = some v1 ∧
      v1.sink = v.sink ++ [writeBitcode own, parent] ∧
      own.type_id = kind ∧ own.toInfo.id = r.2.1.id ∧
      own.toInfo.Namespace = r.2.1.Namespace ∧
      writeParent own access = some parent)

/-! ## Children of a namespace and the merge of their parent fragments -/

/-- A declaration built as a child of a namespace, with what the `Traverse`
overload that handles it puts into the record before the builder runs: the
`TemplateInfo` of a templated entity, and the flag of an alias. -/
inductive NamespaceChild where
  | Namespace (D : NamespaceDecl)
  | Record (Template : Option TemplateInfo) (D : CXXRecordDecl)
  | Function (DeclTy : FunctionDeclTy) (Template : Option TemplateInfo) (D : FunctionDecl)
  | Typedef (Template : Option TemplateInfo) (IsUsing : Bool) (D : TypedefNameDecl)
  | Enum (D : EnumDecl)
  | Var (Template : Option TemplateInfo) (D : VarDecl)

/-- The declaration of a child, as `extractInfo` receives it. -/
def NamespaceChild.toAnyDecl : NamespaceChild → AnyDecl
  | .Namespace D => AnyDecl.Namespace D
  | .Record _ D => AnyDecl.CXXRecord D
  | .Function _ _ D => AnyDecl.Function (applyDecayToParameters D)
  | .Typedef _ _ D => AnyDecl.Typedef D
  | .Enum D => AnyDecl.Enum D
  | .Var _ D => AnyDecl.Var D

/-- The kind of record built for a child. -/
def NamespaceChild.kind : NamespaceChild → InfoType
  | .Namespace _ => InfoType.IT_namespace
  | .Record _ _ => InfoType.IT_record
  | .Function _ _ _ => InfoType.IT_function
  | .Typedef _ _ _ => InfoType.IT_typedef
  | .Enum _ => InfoType.IT_enum
  | .Var _ _ => InfoType.IT_variable

/-- Building a child: the matching builder on a freshly constructed record, as
the `Traverse` overloads call it once `shouldExtract` has admitted the file. -/
def buildChild (ext : Externals) (v : ASTVisitor) : NamespaceChild → Option ASTVisitor
  | .Namespace D => buildNamespace ext v {} D
  | .Record Template D => buildRecord ext v { Template := Template } D
  | .Function DeclTy Template D => buildFunction ext v { Template := Template } DeclTy D
  | .Typedef Template IsUsing D =>
    buildTypedef ext v { Template := Template, IsUsing := IsUsing } D
  | .Enum D => buildEnum ext v {} D
  | .Var Template D => buildVar ext v { Template := Template } D

/-- The name under which `getTypeInfoForType` records a type. -/
def typeInfoName (T : QualType) : String :=
  match T.tagDeclDefinition with
  | some TD => TD.ref.name
  | none => T.asString

/-- The entity policy admits the declaration and its identity can be derived. -/
def admitted (PublicOnly : Bool) (D : AnyDecl) : Bool :=
  shouldSerializeInfo PublicOnly (isOrIsInAnonymousNamespace D) D.toDecl &&
    D.toDecl.usr.isSome

/-- A child is declared at namespace scope: no access is handed to `writeParent`
for it; moreover the base specifiers of a class carry an access and the
underlying type of a typedef has a name, so that its builder gets to the
emission. -/
def NamespaceChild.atNamespaceScope : NamespaceChild → Prop
  | .Namespace _ => True
  | .Record _ D => recordAccess D = AccessSpecifier.AS_none ∧
      ∀ B ∈ D.bases, B.accessSpecifier ≠ AccessSpecifier.AS_none
  | .Function DeclTy _ D => functionAccess DeclTy D = AccessSpecifier.AS_none
  | .Typedef _ _ D => D.access = AccessSpecifier.AS_none ∧
      (typeInfoName D.underlyingType).isEmpty = false
  | .Enum D => D.access = AccessSpecifier.AS_none
  | .Var _ D => D.access = AccessSpecifier.AS_none

/-- The name a child is recorded under. -/
def NamespaceChild.displayName : NamespaceChild → String
  | .Namespace D => if D.isAnonymousNamespace then "@nonymous_namespace" else D.name
  | .Record _ D =>
    match D.typedefNameForAnonDecl with
    | some TD => TD
    | none => D.name
  | .Function _ _ D => D.name
  | .Typedef _ _ D => D.name
  | .Enum D => D.name
  | .Var _ D => D.name

/-- The reference to a child: `(id, name, kind)`. -/
def childReference (ext : Externals) (C : NamespaceChild) : Reference :=
  ⟨symbolIDOf ext C.toAnyDecl.toDecl.usr, C.displayName, C.kind⟩

/-- The identifier of the namespace a context stands for: the global namespace
for the translation unit. -/
def namespaceIdOf (ext : Externals) : DeclContext → SymbolID
  | .Namespace N _ => symbolIDOf ext N.usr
  | _ => SymbolID.zero

/-- Child lists holding one reference, in the list of the given kind. -/
def singleChild (kind : InfoType) (r : Reference) : NamespaceChildren :=
  match kind with
  | .IT_namespace => { Namespaces := [r] }
  | .IT_record => { Records := [r] }
  | .IT_function => { Functions := [r] }
  | .IT_typedef => { Typedefs := [r] }
  | .IT_enum => { Enums := [r] }
  | .IT_variable => { Vars := [r] }
  | _ => {}

/-- The stub of the namespace `id` with one child. -/
def namespaceStub (id : SymbolID) (kind : InfoType) (r : Reference) : NamespaceInfo :=
  { id := id, Children := singleChild kind r }

/-- All the children of a namespace record. -/
def NamespaceInfo.allChildren (P : NamespaceInfo) : List Reference :=
  P.Children.Namespaces ++ P.Children.Records ++ P.Children.Functions ++
    P.Children.Typedefs ++ P.Children.Enums ++ P.Children.Vars

/-- Modelled from the spec: the merge step is not part of the embedded file
(`Finalize.hpp` only declares `finalize`); the merge of two fragments of one
namespace is "the union of the child-reference lists", list by list. -/
def mergeNamespaceInfo (P Q : NamespaceInfo) : NamespaceInfo :=
  { P with
    Children :=
      { Namespaces := P.Children.Namespaces ∪ Q.Children.Namespaces
        Records := P.Children.Records ∪ Q.Children.Records
        Functions := P.Children.Functions ∪ Q.Children.Functions
        Typedefs := P.Children.Typedefs ∪ Q.Children.Typedefs
        Enums := P.Children.Enums ∪ Q.Children.Enums
        Vars := P.Children.Vars ∪ Q.Children.Vars } }

/-- Two namespace records are the same up to the order of their child lists. -/
def NamespaceInfo.sameUpToOrder (P Q : NamespaceInfo) : Prop :=
  P.toInfo = Q.toInfo ∧
  P.Children.Namespaces.Perm Q.Children.Namespaces ∧
  P.Children.Records.Perm Q.Children.Records ∧
  P.Children.Functions.Perm Q.Children.Functions ∧
  P.Children.Typedefs.Perm Q.Children.Typedefs ∧
  P.Children.Enums.Perm Q.Children.Enums ∧
  P.Children.Vars.Perm Q.Children.Vars

/-! ## Base entries and the access of a class, as the specification words them

These definitions follow the wording of the specification; the theorems
compare `extractBases` and `buildRecord` with them. -/

/-- The identifier a base entry resolves to: that of the generic template
when the type of the base is a template specialization, that of the class
when it is a plain class with a definition, and zero for any other base. -/
def resolvedBaseId (ext : Externals) (B : CXXBaseSpecifier) : SymbolID :=
  match B.type.templateSpecialization with
  | some Template => symbolIDOf ext Template.usr
  | none =>
    match B.type.tagDeclDefinition with
    | some TD =>
      if TD.kind = TagDeclKind.CXXRecord then symbolIDOf ext TD.ref.usr else SymbolID.zero
    | none => SymbolID.zero

/-- The name a base entry carries: the name of the class for a plain class
with a definition, the textual spelling of the type for every other base. -/
def resolvedBaseName (B : CXXBaseSpecifier) : String :=
  match B.type.templateSpecialization with
  | some _ => B.type.asString
  | none =>
    match B.type.tagDeclDefinition with
    | some TD => if TD.kind = TagDeclKind.CXXRecord then TD.ref.name else B.type.asString
    | none => B.type.asString

/-- A base specifier that is not virtual, or any base specifier when private
entities are included. -/
def baseIsRecorded (includePrivate : Bool) (B : CXXBaseSpecifier) : Bool :=
  !B.isVirtual || includePrivate

/-- The entries for a list of base specifiers: one for each recorded
specifier, in order, with the resolved identifier and name, and the access
and virtual flag of the specifier. -/
def baseEntries (ext : Externals) (bases : List CXXBaseSpecifier) : List BaseInfo :=
  (bases.filter (baseIsRecorded ext.config_.includePrivate)).filterMap
    (fun B => (getAccessFromSpecifier B.accessSpecifier).map
      (fun access => ⟨resolvedBaseId ext B, resolvedBaseName B, access, B.isVirtual⟩))

/-- The access the specification gives for the parent fragment of a class:
the first that exists of the access of the described class template, of the
member the class was instantiated from and of the specialized template, and
the access of the class itself when there is none of them. -/
def accessByPriority (D : CXXRecordDecl) : AccessSpecifier :=
  ((D.describedClassTemplate.orElse fun _ => D.memberSpecializationInfo).orElse
    fun _ => D.specializedTemplate).getD D.access

/-! ## The traversal, as the specification words it

These definitions name what the claims about the traversal speak of; the
theorems state what `TraverseDecl` does in their terms. -/

/-- The declarations dispatched after the builder of a declaration has run: the
`decls()` of a namespace or of a class. -/
def DeclNode.nested : DeclNode → List DeclNode
  | .Namespace _ decls => decls
  | .CXXRecord _ decls => decls
  | .ClassTemplate _ _ decls => decls
  | .ClassTemplateSpecialization _ decls => decls
  | .ClassTemplatePartialSpecialization _ decls => decls
  | _ => []

/-- The declaration about whose file the file policy is asked first when a
declaration is dispatched: the declaration itself, the templated declaration
of a template, the function a friend declaration names; none for the other
friend declarations and for a kind without a builder. -/
def DeclNode.filterDecl : DeclNode → Option Decl
  | .Namespace D _ => some D.toDecl
  | .CXXRecord D _ => some D.toDecl
  | .Function _ D => some D.toDecl
  | .Friend D =>
    match D.friendDecl with
    | some (FriendTarget.Function FD) => some FD.toDecl
    | _ => none
  | .TypeAlias D => some D.toDecl
  | .Typedef D => some D.toDecl
  | .Enum D => some D.toDecl
  | .Field D => some D.toDecl
  | .Var D => some D.toDecl
  | .ClassTemplate _ RD _ => some RD.toDecl
  | .ClassTemplateSpecialization D _ => some D.toDecl
  | .ClassTemplatePartialSpecialization D _ => some D.toDecl
  | .VarTemplate _ VD => some VD.toDecl
  | .VarTemplateSpecialization D => some D.toDecl
  | .VarTemplatePartialSpecialization D => some D.toDecl
  | .FunctionTemplate _ FD => some FD.toDecl
  | .ClassScopeFunctionSpecialization D => some D.toDecl
  | .TypeAliasTemplate _ AD => some AD.toDecl
  | .Other _ _ => none

/-- The entity a declaration is built as, for the kinds that are built from the
declaration that is filtered: the declaration itself or the templated
declaration of a template (a function with its parameter types adjusted).
The template of a destructor has none, as no overload takes a destructor with
a `TemplateInfo`. -/
def DeclNode.entity : DeclNode → Option AnyDecl
  | .Namespace D _ => some (AnyDecl.Namespace D)
  | .CXXRecord D _ => some (AnyDecl.CXXRecord D)
  | .Function _ D => some (AnyDecl.Function (applyDecayToParameters D))
  | .Friend D =>
    match D.friendDecl with
    | some (FriendTarget.Function FD) => some (AnyDecl.Function (applyDecayToParameters FD))
    | _ => none
  | .TypeAlias D => some (AnyDecl.Typedef D)
  | .Typedef D => some (AnyDecl.Typedef D)
  | .Enum D => some (AnyDecl.Enum D)
  | .Field D => some (AnyDecl.Field D)
  | .Var D => some (AnyDecl.Var D)
  | .ClassTemplate _ RD _ => some (AnyDecl.CXXRecord RD)
  | .ClassTemplateSpecialization D _ => some (AnyDecl.CXXRecord D.toCXXRecordDecl)
  | .ClassTemplatePartialSpecialization D _ => some (AnyDecl.CXXRecord D.toCXXRecordDecl)
  | .VarTemplate _ VD => some (AnyDecl.Var VD)
  | .VarTemplateSpecialization D => some (AnyDecl.Var D.toVarDecl)
  | .VarTemplatePartialSpecialization D => some (AnyDecl.Var D.toVarDecl)
  | .FunctionTemplate _ (.Function DeclTy D) =>
    if DeclTy = FunctionDeclTy.CXXDestructorDecl then none
    else some (AnyDecl.Function (applyDecayToParameters D))
  | .FunctionTemplate _ _ => none
  | .ClassScopeFunctionSpecialization _ => none
  | .TypeAliasTemplate _ AD => some (AnyDecl.Typedef AD)
  | .Other _ _ => none

/-- The assertion `Assert(tsi)` holds on the declaration when it is a class
template specialization. -/
def DeclNode.typeAsWrittenKnown : DeclNode → Bool
  | .ClassTemplateSpecialization D _ => D.typeAsWritten.isSome
  | .ClassTemplatePartialSpecialization D _ => D.typeAsWritten.isSome
  | _ => true

/-- The assertion of `shouldExtract` holds on the declaration: it is in a system
header, or not at block scope. -/
def notAtBlockScope (D : Decl) : Bool :=
  D.isInSystemHeader || !D.parentFunctionOrMethod

/-- The call `x` hands nothing to the sink: it returns, or goes on with `c`, from a
visitor with the sink and the policy flag of `w`. -/
def HandsNothing (w : ASTVisitor) (c : ASTVisitor → Option (Bool × ASTVisitor))
    (x : Option (Bool × ASTVisitor)) : Prop :=
  ∃ v1, v1.sink = w.sink ∧ v1.PublicOnly = w.PublicOnly ∧ (x = some (true, v1) ∨ x = c v1)

/-! ## Template capture, as the specification words it

These definitions follow the wording of the specification; the theorems
compare the `TemplateInfo` the `Traverse` overloads construct with them. -/

mutual
/-- A captured parameter matches a template parameter: its variant is the one of
the kind of the parameter (none for a declaration of none of the three kinds),
it has a default exactly when the parameter has a default argument, and the
parameters nested in a template template parameter are matched in turn. -/
def TParam.captures : TParam → TemplateParmDecl → Bool
  | .TypeTParam _ _ Default, .TemplateTypeParm _ _ defaultArgument =>
    Default.isSome == defaultArgument.isSome
  | .NonTypeTParam _ _ _ Default, .NonTypeTemplateParm _ _ _ defaultArgument =>
    Default.isSome == defaultArgument.isSome
  | .TemplateTParam _ _ Params Default, .TemplateTemplateParm _ _ templateParameters
      defaultArgument =>
    TParam.capturesAll Params templateParameters && Default.isSome == defaultArgument.isSome
  | .Unset _ _, .Other _ _ => true
  | _, _ => false
/-- A list of captured parameters matches a list of template parameters: one
captured parameter for each template parameter, in order. -/
def TParam.capturesAll : List TParam → List TemplateParmDecl → Bool
  | [], [] => true
  | P :: Params, ND :: rest => P.captures ND && TParam.capturesAll Params rest
  | _, _ => false
end

/-- The primary template a specialization names: the member template the
specialized template was instantiated from when there is one, the specialized
template otherwise. -/
def TemplateRef.primary (Template : TemplateRef) : NamedRef :=
  Template.instantiatedFromMemberTemplate.getD Template.ref

/-- The member `Template` of a record, for the kinds of record that have one. -/
def AnyInfo.Template : AnyInfo → Option TemplateInfo
  | .Record I => I.Template
  | .Function I => I.Template
  | .Typedef I => I.Template
  | .Var I => I.Template
  | _ => none

/-- A sample configuration: the translation unit `src/a.cpp` is visited, and of
the files only `src/a.hpp`, with `src/` to strip. -/
def sampleConfig : ConfigImpl :=
  { includePrivate := false
    shouldVisitTU := fun f => f = "src/a.cpp"
    shouldVisitFile := fun f => if f = "src/a.hpp" then (true, "src/") else (false, "") }

/-- Sample collaborators: a toy digest (the length of the name), no
conversion of separators, and a path helper that knows one path. -/
def sampleExternals : Externals :=
  { sha1 := fun s => ⟨s.length⟩
    convert_to_slash := fun s => s
    replace_path_prefix_ := fun path old new =>
      if path = "src/a.hpp" ∧ old = "src/" then new ++ "a.hpp" else path
    parseJavadoc := fun s => s
    getFunctionKind := fun k => k
    config_ := sampleConfig }

/-- A sample declaration: `f`, declared at the top level of `src/a.hpp`. -/
def sampleDecl : Decl :=
  { usr := some "c:@F@f#"
    name := "f"
    access := AccessSpecifier.AS_none
    linkage := Linkage.ExternalLinkage
    isImplicit := false
    isInSystemHeader := false
    parentFunctionOrMethod := false
    includeLoc := 7
    filename := "src/a.hpp"
    line := 3
    rawComment := none
    declContext := DeclContext.TranslationUnit
    parents := []
    describedTemplateParams := none }

/-- The sample declaration, seen from another translation unit: same
canonical name, other file and line. -/
def sampleRedecl : Decl :=
  { sampleDecl with includeLoc := 11, filename := "src/b.hpp", line := 40 }

/-- A declaration with the include location and file name of `sampleDecl`,
after the file has been marked as a system header. -/
def sampleSystemDecl : Decl :=
  { sampleDecl with usr := some "c:@F@g#", name := "g", isInSystemHeader := true, line := 9 }

/-- A fresh visitor for the sample configuration. -/
def sampleVisitor : ASTVisitor := ASTVisitor.new sampleConfig

/-- A visitor whose scratch buffer and cache are not empty. -/
def sampleUsedVisitor : ASTVisitor :=
  { sampleVisitor with usr_ := "c:@N@old", fileFilter_ := [(11, ⟨"", false⟩)] }

/-- A sample sequence of declarations: two from `src/a.hpp`, one from a
system header in between, and one from another file. -/
def sampleDecls : List Decl :=
  [sampleDecl, sampleSystemDecl, { sampleDecl with name := "h", line := 12 }, sampleRedecl]

/-- A sample enumeration at the top level of `src/a.hpp`:
`enum class Color : int { Red = 1, Green }`. -/
def sampleEnum : EnumDecl :=
  { toDecl := { sampleDecl with usr := some "c:@E@Color", name := "Color" }
    isThisDeclarationADefinition := true
    isScoped := true
    isFixed := true
    integerType := ⟨"int", none, none⟩
    enumerators := [⟨"Red", 1, some "1"⟩, ⟨"Green", 2, none⟩] }

/-- A sample variable at the top level of `src/a.hpp`: `int counter;`. -/
def sampleVar : VarDecl :=
  { toDecl := { sampleDecl with usr := some "c:@counter", name := "counter", line := 20 }
    isThisDeclarationADefinition := true
    type := ⟨"int", none, none⟩
    storageClass := StorageClass.SC_None }

/-- A sample nested declaration: an enumeration `E`, member of the implicit
instantiation `A<int>` of the class template `A`, which is declared in an
anonymous namespace, inside `extern "C++"`, inside the namespace `lib`. -/
def sampleNested : AnyDecl :=
  AnyDecl.Enum
    { toDecl :=
        { sampleDecl with
          usr := some "c:@N@lib@aN@S@A>#I@E@E"
          name := "E"
          access := AccessSpecifier.AS_public
          declContext :=
            DeclContext.CXXRecord ⟨some "c:@N@lib@aN@S@A>#I", "A"⟩
              (some ⟨TemplateSpecializationKind.TSK_ImplicitInstantiation,
                ⟨some "c:@N@lib@aN@ST>1#T@A", "A"⟩⟩)
          parents :=
            [DeclContext.Namespace ⟨some "c:@N@lib@aN", ""⟩ true,
             DeclContext.Other,
             DeclContext.Namespace ⟨some "c:@N@lib", "lib"⟩ false,
             DeclContext.TranslationUnit] }
      isThisDeclarationADefinition := true
      isScoped := false
      isFixed := false
      integerType := ⟨"unsigned int", none, none⟩
      enumerators := [] }

/-- A sample record of an enumeration at the top level. -/
def sampleTopLevelInfo : AnyInfo :=
  AnyInfo.Enum { id := ⟨11⟩, Name := "Color", Namespace := [globalNamespaceReference] }

/-- A sample record of a member function of the class with identifier `5`. -/
def sampleMemberInfo : AnyInfo :=
  AnyInfo.Function
    { id := ⟨12⟩, Name := "size"
      Namespace := [⟨⟨5⟩, "Box", InfoType.IT_record⟩, globalNamespaceReference] }

/-- The sample collaborators, with private entities included. -/
def samplePrivateExternals : Externals :=
  { sampleExternals with config_ := { sampleConfig with includePrivate := true } }

/-- The base specifier `public Base<int>`: the type names the class template
`Base` and resolves to the instantiation `Base<int>`. -/
def sampleTemplateBase : CXXBaseSpecifier :=
  { isVirtual := false
    type := ⟨"Base<int>", some ⟨TagDeclKind.CXXRecord, ⟨some "c:@S@Base>#I", "Base"⟩⟩,
      some ⟨some "c:@ST>1#T@Base", "Base"⟩⟩
    accessSpecifier := AccessSpecifier.AS_public }

/-- The base specifier `protected Plain`, of a plain class with a definition. -/
def samplePlainBase : CXXBaseSpecifier :=
  { isVirtual := false
    type := ⟨"Plain", some ⟨TagDeclKind.CXXRecord, ⟨some "c:@S@Plain", "Plain"⟩⟩, none⟩
    accessSpecifier := AccessSpecifier.AS_protected }

/-- The base specifier `private typename T::type`, of a dependent type. -/
def sampleOtherBase : CXXBaseSpecifier :=
  { isVirtual := false
    type := ⟨"typename T::type", none, none⟩
    accessSpecifier := AccessSpecifier.AS_private }

/-- The definition
`struct Derived : public Base<int>, protected Plain, private typename T::type`
at the top level of `src/a.hpp`. -/
def sampleDerived : CXXRecordDecl :=
  { toDecl := { sampleDecl with usr := some "c:@S@Derived", name := "Derived", line := 30 }
    isThisDeclarationADefinition := true
    tagKind := TagTypeKind.TTK_Struct
    hasFinalAttr := false
    destructor := none
    typedefNameForAnonDecl := none
    bases := [sampleTemplateBase, samplePlainBase, sampleOtherBase]
    describedClassTemplate := none
    memberSpecializationInfo := none
    specializedTemplate := none }

/-- The declaration `struct Derived;` of the same class. -/
def sampleDerivedForward : CXXRecordDecl :=
  { sampleDerived with isThisDeclarationADefinition := false, bases := [], line := 2 }

/-- The definition `struct V : virtual Base<int>`. -/
def sampleVirtualTemplateDerived : CXXRecordDecl :=
  { sampleDerived with
    usr := some "c:@S@V", name := "V"
    bases := [{ sampleTemplateBase with isVirtual := true }] }

/-- The class `Plain`: a public `struct` with external linkage, defined at the
top level of `src/a.hpp`. -/
def samplePlain : CXXRecordDecl :=
  { sampleDerived with usr := some "c:@S@Plain", name := "Plain", line := 10, bases := [] }

/-- The definition `struct W : virtual Plain`. -/
def sampleVirtualDerived : CXXRecordDecl :=
  { sampleDerived with
    usr := some "c:@S@W", name := "W"
    bases := [{ samplePlainBase with
      isVirtual := true, accessSpecifier := AccessSpecifier.AS_public }] }

/-- The templated class of the member class template
`template<class T> struct Inner` of the class `Box`: the template is a public
member, the templated class itself carries no access. -/
def sampleMemberTemplate : CXXRecordDecl :=
  { sampleDerived with
    usr := some "c:@S@Box@ST>1#T@Inner", name := "Inner", bases := []
    declContext := DeclContext.CXXRecord ⟨some "c:@S@Box", "Box"⟩ none
    parents := [DeclContext.TranslationUnit]
    describedClassTemplate := some AccessSpecifier.AS_public }

/-- The unnamed class of `typedef struct { } Foo;`. -/
def sampleUnnamedRecord : CXXRecordDecl :=
  { sampleDerived with
    usr := some "c:@SA@Foo", name := "", bases := [], typedefNameForAnonDecl := some "Foo" }

/-- The typedef of `typedef struct { } Foo;`. -/
def sampleTypedef : TypedefNameDecl :=
  { toDecl := { sampleDecl with usr := some "c:@T@Foo", name := "Foo", line := 30 }
    underlyingType := ⟨"Foo", some ⟨TagDeclKind.CXXRecord, ⟨some "c:@SA@Foo", ""⟩⟩, none⟩ }

/-- The typedef `typedef int Counter;`. -/
def sampleNamedTypedef : TypedefNameDecl :=
  { toDecl := { sampleDecl with usr := some "c:@T@Counter", name := "Counter", line := 31 }
    underlyingType := ⟨"int", none, none⟩ }

/-- The function `f` befriended by the class `C`: declared in the translation unit. -/
def sampleFriendFunction : FunctionDecl :=
  { toDecl := { sampleDecl with line := 5 }
    parameters := []
    isThisDeclarationADefinition := false
    returnType := ⟨"void", none, none⟩
    templateSpecializationInfo := none
    isVariadic := false
    isDefaulted := false
    isExplicitlyDefaulted := false
    isDeleted := false
    isDeletedAsWritten := false
    isNoReturn := false
    hasOverrideAttr := false
    functionProtoType := some false
    constexprKind := ConstexprSpecKind.Unspecified
    exceptionSpecType := ExceptionSpecificationType.EST_None
    overloadedOperator := 0
    storageClass := StorageClass.SC_None
    warnUnusedResultAttr := none
    isVirtual := false
    isVirtualAsWritten := false
    isPure := false
    isConst := false
    isVolatile := false
    refQualifier := RefQualifierKind.RQ_None
    hasFinalAttr := false
    explicitSpecifierIsSpecified := false }

/-- The friend declaration of
`struct Outer { struct C { friend void f(); }; };`: its context is the class
`C`, nested in the class `Outer`; the function `f` belongs to the translation
unit. -/
def sampleFriend : FriendDecl :=
  { toDecl := { sampleDecl with
      usr := none, name := "", line := 5
      declContext := DeclContext.CXXRecord ⟨some "c:@S@Outer@S@C", "C"⟩ none
      parents := [DeclContext.CXXRecord ⟨some "c:@S@Outer", "Outer"⟩ none,
        DeclContext.TranslationUnit] }
    friendDecl := some (FriendTarget.Function sampleFriendFunction)
    friendType := false }


/-- The visitor after a declaration of `src/a.hpp` has been admitted by a fresh one. -/
def sampleAdmittedVisitor : ASTVisitor :=
  { sampleVisitor with
    File := "a.hpp"
    IsFileInRootDir := true
    fileFilter_ := [(7, ⟨"src/", true⟩)]
    queries := [(7, "src/a.hpp")] }

/-- An implicit declaration: the enumeration of the samples, marked as implicit. -/
def sampleImplicitEnum : EnumDecl :=
  { sampleEnum with usr := some "c:@E@Hidden", name := "Hidden", isImplicit := true }

/-- An enumeration declared in `src/b.hpp`, which the file policy rejects. -/
def sampleOtherFileEnum : EnumDecl :=
  { sampleEnum with
    usr := some "c:@E@Elsewhere", name := "Elsewhere", includeLoc := 11, filename := "src/b.hpp" }

/-- A variable of `src/a.hpp` for which no canonical name can be generated. -/
def sampleNoUsrVar : VarDecl :=
  { sampleVar with usr := none, name := "nameless", line := 21 }

/-- The namespace `lib`, declared at the top level of `src/a.hpp`. -/
def sampleNamespace : NamespaceDecl :=
  { toDecl := { sampleDecl with usr := some "c:@N@lib", name := "lib", line := 1 }
    isAnonymousNamespace := false }

/-- The enumeration of the samples, declared in the namespace `lib`. -/
def sampleEnumInLib : EnumDecl :=
  { sampleEnum with
    usr := some "c:@N@lib@E@Color"
    declContext := DeclContext.Namespace ⟨some "c:@N@lib", "lib"⟩ false
    parents := [DeclContext.TranslationUnit] }

/-- A linkage specification `extern "C" { ... }` of `src/a.hpp`. -/
def sampleLinkageSpec : Decl :=
  { sampleDecl with usr := none, name := "", line := 14 }

/-- A `static_assert` declaration of `src/a.hpp`: a kind without a case in
`TraverseDecl` that is not a declaration context. -/
def sampleStaticAssert : Decl :=
  { sampleDecl with usr := none, name := "", line := 15 }

/-- The translation unit `src/a.cpp`: an implicit declaration, an enumeration of
another file, a variable without a canonical name, the namespace `lib` with an
enumeration, a `static_assert`, a linkage specification with an enumeration,
and a variable. -/
def sampleContext : ASTContext :=
  { mainFilename := some "src/a.cpp"
    traversalScopeIsTranslationUnit := true
    decls :=
      [DeclNode.Enum sampleImplicitEnum,
       DeclNode.Enum sampleOtherFileEnum,
       DeclNode.Var sampleNoUsrVar,
       DeclNode.Namespace sampleNamespace [DeclNode.Enum sampleEnumInLib],
       DeclNode.Other sampleStaticAssert none,
       DeclNode.Other sampleLinkageSpec (some [DeclNode.Enum sampleEnum]),
       DeclNode.Var sampleVar] }

/-- A pure virtual method `virtual void size() const noexcept = 0;` of the class `Box`. -/
def sampleMethod : FunctionDecl :=
  { sampleFriendFunction with
    usr := some "c:@S@Box@F@size#1"
    name := "size"
    access := AccessSpecifier.AS_public
    line := 8
    declContext := DeclContext.CXXRecord ⟨some "c:@S@Box", "Box"⟩ none
    parents := [DeclContext.TranslationUnit]
    exceptionSpecType := ExceptionSpecificationType.EST_BasicNoexcept
    isVirtual := true
    isVirtualAsWritten := true
    isPure := true
    isConst := true }

/-- A declaration of the file `src/b.hpp` that has the include location of the
sample declaration of `src/a.hpp`, as after a `#line` directive that names another
file. -/
def sampleRenamedDecl : Decl :=
  { sampleDecl with usr := some "c:@F@g#", name := "g", filename := "src/b.hpp", line := 1 }

/-- The private nested class `Hidden` of `class Outer { struct Hidden { void f(); }; };`. -/
def sampleHidden : CXXRecordDecl :=
  { sampleDerived with
    usr := some "c:@S@Outer@S@Hidden", name := "Hidden", line := 2, bases := []
    access := AccessSpecifier.AS_private
    declContext := DeclContext.CXXRecord ⟨some "c:@S@Outer", "Outer"⟩ none
    parents := [DeclContext.TranslationUnit] }

/-- The public member function `f` of the class `Hidden`. -/
def sampleHiddenMember : FunctionDecl :=
  { sampleFriendFunction with
    usr := some "c:@S@Outer@S@Hidden@F@f#", name := "f", line := 2
    access := AccessSpecifier.AS_public
    declContext := DeclContext.CXXRecord ⟨some "c:@S@Outer@S@Hidden", "Hidden"⟩ none
    parents := [DeclContext.CXXRecord ⟨some "c:@S@Outer", "Outer"⟩ none,
      DeclContext.TranslationUnit] }

/-- The friend declaration of `struct C { friend void Box::size() const noexcept; };`,
where `Box` is `struct Box { virtual void size() const noexcept = 0; };`: its context
is the class `C`; the function it names is the member `size` of the class `Box`. -/
def sampleMemberFriend : FriendDecl :=
  { toDecl := { sampleDecl with
      usr := none, name := "", line := 12
      declContext := DeclContext.CXXRecord ⟨some "c:@S@C", "C"⟩ none
      parents := [DeclContext.TranslationUnit] }
    friendDecl := some (FriendTarget.Function sampleMethod)
    friendType := false }

/-- A fresh visitor for the sample configuration with private entities included. -/
def samplePrivateVisitor : ASTVisitor := ASTVisitor.new samplePrivateExternals.config_

/-- The deduction guide `In(int) -> In<long>;` declared in the class `Outer` of
`struct Outer { template<class T> struct In { In(T); }; In(int) -> In<long>; };`: its
context is the class `Outer`, and it has no linkage. -/
def sampleDeductionGuide : FunctionDecl :=
  { sampleFriendFunction with
    usr := some "c:@S@Outer@F@<deduction guide for In>#I#"
    name := "<deduction guide for In>"
    access := AccessSpecifier.AS_public
    linkage := Linkage.NoLinkage
    line := 4
    declContext := DeclContext.CXXRecord ⟨some "c:@S@Outer", "Outer"⟩ none
    parents := [DeclContext.TranslationUnit]
    parameters := [⟨⟨"int", none, none⟩, ⟨"int", none, none⟩, "", ""⟩]
    returnType := ⟨"In<long>", none, none⟩ }

/-- The class `C` of `struct C { friend void Box::size() const noexcept; };`, defined at the
top level of `src/a.hpp`. -/
def sampleBefriendingClass : CXXRecordDecl :=
  { sampleDerived with usr := some "c:@S@C", name := "C", line := 11, bases := [] }

/-- The translation unit `src/a.cpp` with the class `C`, which holds the friend
declaration that names `Box::size`, and after it the variable `counter`. -/
def sampleFriendContext : ASTContext :=
  { mainFilename := some "src/a.cpp"
    traversalScopeIsTranslationUnit := true
    decls :=
      [DeclNode.CXXRecord sampleBefriendingClass [DeclNode.Friend sampleMemberFriend],
       DeclNode.Var sampleVar] }

/-! # Theorems -/

/-- C1. Two declarations with the same canonical name both get an identifier,
and the same one, whatever the two visitors held before the calls. -/
theorem extractSymbolID_deterministic (ext : Externals)
    (v1 v2 : ASTVisitor) (d1 d2 : Decl) (id1 id2 : SymbolID) (s : String)
    (h1 : d1.usr = some s) (h2 : d2.usr = some s) :
    (extractSymbolID ext v1 d1.usr id1).1 = true ∧
    (extractSymbolID ext v2 d2.usr id2).1 = true ∧
    (extractSymbolID ext v1 d1.usr id1).2.1 = (extractSymbolID ext v2 d2.usr id2).2.1 ∧
    (extractSymbolID ext v1 d1.usr id1).2.1 = ext.sha1 s := by
  simp [extractSymbolID, generateUSRForDecl, h1, h2]

/-- The determinism of C1 on the sample declaration and its redeclaration,
from a fresh visitor and from a used one. -/
theorem extractSymbolID_deterministic_witness :
    (extractSymbolID sampleExternals sampleVisitor sampleDecl.usr SymbolID.zero).1 = true ∧
    (extractSymbolID sampleExternals sampleUsedVisitor sampleRedecl.usr ⟨5⟩).1 = true ∧
    (extractSymbolID sampleExternals sampleVisitor sampleDecl.usr SymbolID.zero).2.1 =
      (extractSymbolID sampleExternals sampleUsedVisitor sampleRedecl.usr ⟨5⟩).2.1 ∧
    (extractSymbolID sampleExternals sampleVisitor sampleDecl.usr SymbolID.zero).2.1 =
      sampleExternals.sha1 "c:@F@f#" :=
  extractSymbolID_deterministic sampleExternals sampleVisitor sampleUsedVisitor
    sampleDecl sampleRedecl SymbolID.zero ⟨5⟩ "c:@F@f#" rfl rfl

/-- C2. With `PublicOnly` unset every declaration is admitted; with it set a
declaration is admitted exactly when it is not (in) an anonymous namespace,
its access is not private and its linkage is external or module linkage. -/
theorem shouldSerializeInfo_policy :
    (∀ (anon : Bool) (D : Decl), shouldSerializeInfo false anon D = true) ∧
    (∀ (anon : Bool) (D : Decl),
      shouldSerializeInfo true anon D = true ↔
        (anon = false ∧ D.access ≠ AccessSpecifier.AS_private ∧
          (D.linkage = Linkage.ExternalLinkage ∨ D.linkage = Linkage.ModuleLinkage))) := by
  constructor
  · intro anon D
    simp [shouldSerializeInfo]
  · intro anon D
    cases anon <;> simp [shouldSerializeInfo]
    intro _
    exact Or.comm

/-- C5. A declaration in a system header is refused without consulting the
inclusion policy, and the visitor (cache, `File`, `IsFileInRootDir` and
everything else) is left as it was. -/
theorem shouldExtract_system_header (ext : Externals) (v : ASTVisitor) (D : Decl)
    (hsys : D.isInSystemHeader = true) :
    ∃ v1, shouldExtract ext v D = some (false, v1) ∧
      v1.queries = v.queries ∧ v1.fileFilter_ = v.fileFilter_ ∧
      v1.File = v.File ∧ v1.IsFileInRootDir = v.IsFileInRootDir ∧ v1 = v := by
  refine ⟨v, ?_, rfl, rfl, rfl, rfl, rfl⟩
  simp [shouldExtract, hsys]

/-- The system-header case of C5 on the sample system declaration. -/
theorem shouldExtract_system_header_witness :
    ∃ v1, shouldExtract sampleExternals sampleUsedVisitor sampleSystemDecl = some (false, v1) ∧
      v1.queries = sampleUsedVisitor.queries ∧
      v1.fileFilter_ = sampleUsedVisitor.fileFilter_ ∧
      v1.File = sampleUsedVisitor.File ∧
      v1.IsFileInRootDir = sampleUsedVisitor.IsFileInRootDir ∧ v1 = sampleUsedVisitor :=
  shouldExtract_system_header sampleExternals sampleUsedVisitor sampleSystemDecl rfl

/-! ## The file filter and its cache -/

/-- Looking up the key that was just put in front of the cache. -/
theorem lookup_cons_self (k : Nat) (ff : FileFilter) (l : List (Nat × FileFilter)) :
    List.lookup k ((k, ff) :: l) = some ff := by
  simp [List.lookup]

/-- Looking up another key than the one put in front of the cache. -/
theorem lookup_cons_of_ne (k k0 : Nat) (ff : FileFilter) (l : List (Nat × FileFilter))
    (h : k ≠ k0) : List.lookup k ((k0, ff) :: l) = List.lookup k l := by
  have hb : (k == k0) = false := by simpa using h
  simp [List.lookup, hb]

/-- The three ways a call of `shouldExtract` goes: the declaration is in a
system header; its key is cached; or its key is new and the policy is asked. -/
theorem shouldExtract_cases (ext : Externals) (v : ASTVisitor) (D : Decl)
    (hb : D.isInSystemHeader = false → D.parentFunctionOrMethod = false) :
    (D.isInSystemHeader = true ∧ shouldExtract ext v D = some (false, v)) ∨
    (D.isInSystemHeader = false ∧ ∃ ff v1,
      List.lookup D.includeLoc v.fileFilter_ = some ff ∧
      shouldExtract ext v D = some (ff.include_, v1) ∧
      v1.queries = v.queries ∧ v1.fileFilter_ = v.fileFilter_ ∧
      (ff.include_ = true →
        v1.File = ext.replace_path_prefix_ (ext.convert_to_slash D.filename) ff.prefix_ "")) ∨
    (D.isInSystemHeader = false ∧ List.lookup D.includeLoc v.fileFilter_ = none ∧
      ∃ v1, shouldExtract ext v D =
          some ((ext.config_.shouldVisitFile (ext.convert_to_slash D.filename)).1, v1) ∧
        v1.queries = v.queries ++ [(D.includeLoc, ext.convert_to_slash D.filename)] ∧
        v1.fileFilter_ =
          (D.includeLoc,
            (⟨(ext.config_.shouldVisitFile (ext.convert_to_slash D.filename)).2,
              (ext.config_.shouldVisitFile (ext.convert_to_slash D.filename)).1⟩ : FileFilter))
            :: v.fileFilter_ ∧
        ((ext.config_.shouldVisitFile (ext.convert_to_slash D.filename)).1 = true →
          v1.File = ext.replace_path_prefix_ (ext.convert_to_slash D.filename)
            (ext.config_.shouldVisitFile (ext.convert_to_slash D.filename)).2 "")) := by
  cases hsys : D.isInSystemHeader with
  | true =>
    left
    simp [shouldExtract, hsys]
  | false =>
    right
    have hblock := hb hsys
    cases hl : List.lookup D.includeLoc v.fileFilter_ with
    | some ff =>
      left
      refine ⟨rfl, ff, ?_⟩
      cases hi : ff.include_ with
      | true =>
        refine ⟨{ v with
          File := ext.replace_path_prefix_ (ext.convert_to_slash D.filename) ff.prefix_ ""
          IsFileInRootDir := true }, rfl, ?_, rfl, rfl, fun _ => rfl⟩
        simp [shouldExtract, hsys, hblock, hl, hi]
      | false =>
        refine ⟨v, rfl, ?_, rfl, rfl, by simp⟩
        simp [shouldExtract, hsys, hblock, hl, hi]
    | none =>
      right
      refine ⟨rfl, rfl, ?_⟩
      cases hq : (ext.config_.shouldVisitFile (ext.convert_to_slash D.filename)).1 with
      | true =>
        refine ⟨{ v with
          File := ext.replace_path_prefix_ (ext.convert_to_slash D.filename)
            (ext.config_.shouldVisitFile (ext.convert_to_slash D.filename)).2 ""
          IsFileInRootDir := true
          fileFilter_ := (D.includeLoc,
            ⟨(ext.config_.shouldVisitFile (ext.convert_to_slash D.filename)).2, true⟩)
              :: v.fileFilter_
          queries := v.queries ++ [(D.includeLoc, ext.convert_to_slash D.filename)] },
          ?_, rfl, rfl, fun _ => rfl⟩
        simp [shouldExtract, hsys, hblock, hl, hq]
      | false =>
        refine ⟨{ v with
          File := ext.convert_to_slash D.filename
          fileFilter_ := (D.includeLoc,
            ⟨(ext.config_.shouldVisitFile (ext.convert_to_slash D.filename)).2, false⟩)
              :: v.fileFilter_
          queries := v.queries ++ [(D.includeLoc, ext.convert_to_slash D.filename)] },
          ?_, rfl, rfl, by simp⟩
        simp [shouldExtract, hsys, hblock, hl, hq]

/-- The test that picks the declarations which consult the cache under key `k`. -/
theorem find_cons_of_ne (k : Nat) (D : Decl) (Ds : List Decl)
    (h : D.isInSystemHeader = true ∨ D.includeLoc ≠ k) :
    List.find? (fun D => !D.isInSystemHeader && D.includeLoc == k) (D :: Ds) =
      List.find? (fun D => !D.isInSystemHeader && D.includeLoc == k) Ds := by
  have hp : (!D.isInSystemHeader && D.includeLoc == k) = false := by
    rcases h with h | h
    · simp [h]
    · have : (D.includeLoc == k) = false := by simpa using h
      simp [this]
  simp [List.find?, hp]

/-- A run of `shouldExtract` calls from any visitor: it completes, and the queries
it adds are one per key that was not cached at the start and is the key of a
declaration outside system headers, asked for the first such declaration. -/
theorem shouldExtractAll_queries (ext : Externals) (Ds : List Decl) :
    ∀ (v : ASTVisitor),
    (∀ D ∈ Ds, D.isInSystemHeader = false → D.parentFunctionOrMethod = false) →
    ∃ bs v1 added, shouldExtractAll ext v Ds = some (bs, v1) ∧
      v1.queries = v.queries ++ added ∧
      (added.map Prod.fst).Nodup ∧
      (∀ k, k ∈ added.map Prod.fst ↔
        (List.lookup k v.fileFilter_ = none ∧
          ∃ D ∈ Ds, D.isInSystemHeader = false ∧ D.includeLoc = k)) ∧
      (∀ k f, (k, f) ∈ added →
        ∃ D, List.find? (fun D => !D.isInSystemHeader && D.includeLoc == k) Ds = some D ∧
          f = ext.convert_to_slash D.filename) := by
  induction Ds with
  | nil =>
    intro v _
    exact ⟨[], v, [], rfl, by simp, by simp, by simp, by simp⟩
  | cons D Ds ih =>
    intro v hblock
    have hD := hblock D (List.mem_cons_self _ _)
    have hDs : ∀ D0 ∈ Ds, D0.isInSystemHeader = false → D0.parentFunctionOrMethod = false :=
      fun D0 h0 => hblock D0 (List.mem_cons_of_mem _ h0)
    rcases shouldExtract_cases ext v D hD with ⟨hsys, hstep⟩ | ⟨hsys, ff, v1, hl, hstep, hq, hc, _⟩ |
      ⟨hsys, hl, v1, hstep, hq, hc, _⟩
    · obtain ⟨bs, v2, added, hrun, hqs, hnd, hmem, hfirst⟩ := ih v hDs
      refine ⟨false :: bs, v2, added, ?_, hqs, hnd, ?_, ?_⟩
      · simp [shouldExtractAll, hstep, hrun]
      · intro k
        rw [hmem k]
        constructor
        · rintro ⟨h1, D0, h0, h2, h3⟩
          exact ⟨h1, D0, List.mem_cons_of_mem _ h0, h2, h3⟩
        · rintro ⟨h1, D0, h0, h2, h3⟩
          rcases List.mem_cons.mp h0 with rfl | h0
          · rw [hsys] at h2
            exact absurd h2 (by simp)
          · exact ⟨h1, D0, h0, h2, h3⟩
      · intro k f hkf
        rw [find_cons_of_ne k D Ds (Or.inl hsys)]
        exact hfirst k f hkf
    · obtain ⟨bs, v2, added, hrun, hqs, hnd, hmem, hfirst⟩ := ih v1 hDs
      rw [hc] at hmem
      have hne : ∀ k, k ∈ added.map Prod.fst → D.includeLoc ≠ k := by
        intro k hk heq
        have := ((hmem k).mp hk).1
        rw [← heq, hl] at this
        exact absurd this (by simp)
      refine ⟨ff.include_ :: bs, v2, added, ?_, by rw [hqs, hq], hnd, ?_, ?_⟩
      · simp [shouldExtractAll, hstep, hrun]
      · intro k
        rw [hmem k]
        constructor
        · rintro ⟨h1, D0, h0, h2, h3⟩
          exact ⟨h1, D0, List.mem_cons_of_mem _ h0, h2, h3⟩
        · rintro ⟨h1, D0, h0, h2, h3⟩
          rcases List.mem_cons.mp h0 with rfl | h0
          · rw [← h3, hl] at h1
            exact absurd h1 (by simp)
          · exact ⟨h1, D0, h0, h2, h3⟩
      · intro k f hkf
        have hk : k ∈ added.map Prod.fst := List.mem_map.mpr ⟨(k, f), hkf, rfl⟩
        rw [find_cons_of_ne k D Ds (Or.inr (hne k hk))]
        exact hfirst k f hkf
    · obtain ⟨bs, v2, added, hrun, hqs, hnd, hmem, hfirst⟩ := ih v1 hDs
      rw [hc] at hmem
      have hne : ∀ k, k ∈ added.map Prod.fst → k ≠ D.includeLoc := by
        intro k hk heq
        have := ((hmem k).mp hk).1
        rw [heq, lookup_cons_self] at this
        exact absurd this (by simp)
      refine ⟨(ext.config_.shouldVisitFile (ext.convert_to_slash D.filename)).1 :: bs, v2,
        (D.includeLoc, ext.convert_to_slash D.filename) :: added, ?_, ?_, ?_, ?_, ?_⟩
      · simp [shouldExtractAll, hstep, hrun]
      · rw [hqs, hq]
        simp
      · rw [List.map_cons, List.nodup_cons]
        exact ⟨fun hk => hne _ hk rfl, hnd⟩
      · intro k
        rw [List.map_cons, List.mem_cons, hmem k]
        constructor
        · rintro (rfl | ⟨h1, D0, h0, h2, h3⟩)
          · exact ⟨hl, D, List.mem_cons_self _ _, hsys, rfl⟩
          · by_cases hk : k = D.includeLoc
            · rw [hk, lookup_cons_self] at h1
              exact absurd h1 (by simp)
            · rw [lookup_cons_of_ne k _ _ _ hk] at h1
              exact ⟨h1, D0, List.mem_cons_of_mem _ h0, h2, h3⟩
        · rintro ⟨h1, D0, h0, h2, h3⟩
          by_cases hk : k = D.includeLoc
          · exact Or.inl hk
          · right
            rw [lookup_cons_of_ne k _ _ _ hk]
            rcases List.mem_cons.mp h0 with rfl | h0
            · exact absurd h3.symm hk
            · exact ⟨h1, D0, h0, h2, h3⟩
      · intro k f hkf
        rcases List.mem_cons.mp hkf with heq | hkf
        · obtain ⟨rfl, rfl⟩ := Prod.mk.inj heq
          refine ⟨D, ?_, rfl⟩
          simp [List.find?, hsys]
        · have hk : k ∈ added.map Prod.fst := List.mem_map.mpr ⟨(k, f), hkf, rfl⟩
          rw [find_cons_of_ne k D Ds (Or.inr (fun h => hne k hk h.symm))]
          exact hfirst k f hkf

/-- C3. In a run of `shouldExtract` calls on a fresh visitor the policy is asked once
per distinct include-location key of the declarations outside system headers,
for the first declaration with that key; a declaration whose key is cached
gets the cached decision and path to strip without a query; and a call never
changes an entry that is in the cache. -/
theorem shouldExtract_policy_queried_once (ext : Externals) (Ds : List Decl)
    (hblock : ∀ D ∈ Ds, D.isInSystemHeader = false → D.parentFunctionOrMethod = false) :
    (∃ bs v1, shouldExtractAll ext (ASTVisitor.new ext.config_) Ds = some (bs, v1) ∧
      (v1.queries.map Prod.fst).Nodup ∧
      (∀ k, k ∈ v1.queries.map Prod.fst ↔
        ∃ D ∈ Ds, D.isInSystemHeader = false ∧ D.includeLoc = k) ∧
      (∀ k f, (k, f) ∈ v1.queries →
        ∃ D, List.find? (fun D => !D.isInSystemHeader && D.includeLoc == k) Ds = some D ∧
          f = ext.convert_to_slash D.filename)) ∧
    (∀ (v : ASTVisitor) (D : Decl) (ff : FileFilter),
      D.isInSystemHeader = false → D.parentFunctionOrMethod = false →
      List.lookup D.includeLoc v.fileFilter_ = some ff →
      ∃ v1, shouldExtract ext v D = some (ff.include_, v1) ∧
        v1.queries = v.queries ∧ v1.fileFilter_ = v.fileFilter_ ∧
        (ff.include_ = true →
          v1.File =
            ext.replace_path_prefix_ (ext.convert_to_slash D.filename) ff.prefix_ "")) ∧
    (∀ (v : ASTVisitor) (D : Decl) (b : Bool) (v1 : ASTVisitor) (k : Nat) (ff : FileFilter),
      shouldExtract ext v D = some (b, v1) →
      List.lookup k v.fileFilter_ = some ff → List.lookup k v1.fileFilter_ = some ff) := by
  refine ⟨?_, ?_, ?_⟩
  · obtain ⟨bs, v1, added, hrun, hqs, hnd, hmem, hfirst⟩ :=
      shouldExtractAll_queries ext Ds (ASTVisitor.new ext.config_) hblock
    have hq : v1.queries = added := by simpa [ASTVisitor.new] using hqs
    refine ⟨bs, v1, hrun, by rw [hq]; exact hnd, ?_, by rw [hq]; exact hfirst⟩
    intro k
    rw [hq, hmem k]
    simp [ASTVisitor.new, List.lookup]
  · intro v D ff hsys hblk hl
    rcases shouldExtract_cases ext v D (fun _ => hblk) with ⟨h, _⟩ | ⟨_, ff1, v1, hl1, h⟩ | ⟨_, hl1, _⟩
    · rw [hsys] at h
      exact absurd h (by simp)
    · rw [hl] at hl1
      obtain rfl := Option.some.inj hl1
      exact ⟨v1, h⟩
    · rw [hl] at hl1
      exact absurd hl1 (by simp)
  · intro v D b v1 k ff hstep hl
    have hb : D.isInSystemHeader = false → D.parentFunctionOrMethod = false := by
      intro hsys
      cases hp : D.parentFunctionOrMethod with
      | false => rfl
      | true => simp [shouldExtract, hsys, hp] at hstep
    rcases shouldExtract_cases ext v D hb with ⟨_, h⟩ | ⟨_, ff1, v2, _, h, _, hc, _⟩ |
      ⟨_, hl1, v2, h, _, hc, _⟩
    · rw [hstep] at h
      obtain ⟨_, rfl⟩ := Prod.mk.inj (Option.some.inj h)
      exact hl
    · rw [hstep] at h
      obtain ⟨_, rfl⟩ := Prod.mk.inj (Option.some.inj h)
      rw [hc]
      exact hl
    · rw [hstep] at h
      obtain ⟨_, rfl⟩ := Prod.mk.inj (Option.some.inj h)
      rw [hc]
      have hk : k ≠ D.includeLoc := by
        intro heq
        rw [heq, hl1] at hl
        exact absurd hl (by simp)
      rw [lookup_cons_of_ne k _ _ _ hk]
      exact hl

/-- The run of C3 on the sample sequence: it completes and asks the policy about
pairwise distinct keys. -/
theorem shouldExtract_policy_queried_once_witness :
    ∃ bs v1, shouldExtractAll sampleExternals (ASTVisitor.new sampleExternals.config_)
        sampleDecls = some (bs, v1) ∧
      (v1.queries.map Prod.fst).Nodup ∧
      (∀ k, k ∈ v1.queries.map Prod.fst ↔
        ∃ D ∈ sampleDecls, D.isInSystemHeader = false ∧ D.includeLoc = k) :=
  match (shouldExtract_policy_queried_once sampleExternals sampleDecls (by decide)).1 with
  | ⟨bs, v1, h1, h2, h3, _⟩ => ⟨bs, v1, h1, h2, h3⟩

/-- C4 (as amended). Two declarations with the same system-header status, the same
include location and the same presumed file name get the same answer from two
successive calls, and when admitted the second call leaves in `File` the path
the first one left: the file name without the cached path to strip. -/
theorem shouldExtract_idempotent (ext : Externals) (v : ASTVisitor) (d1 d2 : Decl)
    (hsys : d1.isInSystemHeader = d2.isInSystemHeader)
    (hkey : d1.includeLoc = d2.includeLoc) (hfile : d1.filename = d2.filename)
    (hb1 : d1.isInSystemHeader = false → d1.parentFunctionOrMethod = false)
    (hb2 : d2.isInSystemHeader = false → d2.parentFunctionOrMethod = false) :
    ∃ b v1 v2, shouldExtract ext v d1 = some (b, v1) ∧
      shouldExtract ext v1 d2 = some (b, v2) ∧
      (b = true → v2.File = v1.File ∧
        ∃ ff, List.lookup d1.includeLoc v1.fileFilter_ = some ff ∧
          v1.File =
            ext.replace_path_prefix_ (ext.convert_to_slash d1.filename) ff.prefix_ "") := by
  rcases shouldExtract_cases ext v d1 hb1 with ⟨h1, hs1⟩ | ⟨h1, ff, v1, hl, hs1, _, hc, hf⟩ |
    ⟨h1, hl, v1, hs1, _, hc, hf⟩
  · refine ⟨false, v, v, hs1, ?_, by simp⟩
    rcases shouldExtract_cases ext v d2 hb2 with ⟨_, hs2⟩ | ⟨h2, _⟩ | ⟨h2, _⟩
    · exact hs2
    · rw [← hsys, h1] at h2
      exact absurd h2 (by simp)
    · rw [← hsys, h1] at h2
      exact absurd h2 (by simp)
  · have hl2 : List.lookup d2.includeLoc v1.fileFilter_ = some ff := by rw [hc, ← hkey]; exact hl
    rcases shouldExtract_cases ext v1 d2 hb2 with ⟨h2, _⟩ | ⟨_, ff2, v2, hl3, hs2, _, _, hf2⟩ |
      ⟨_, hl3, _⟩
    · rw [← hsys, h1] at h2
      exact absurd h2 (by simp)
    · rw [hl2] at hl3
      obtain rfl := Option.some.inj hl3
      refine ⟨ff.include_, v1, v2, hs1, hs2, fun hb => ⟨?_, ff, by rw [hc]; exact hl, hf hb⟩⟩
      rw [hf2 hb, hf hb, hfile]
    · rw [hl2] at hl3
      exact absurd hl3 (by simp)
  · have hl2 : List.lookup d2.includeLoc v1.fileFilter_ =
        some ⟨(ext.config_.shouldVisitFile (ext.convert_to_slash d1.filename)).2,
          (ext.config_.shouldVisitFile (ext.convert_to_slash d1.filename)).1⟩ := by
      rw [hc, ← hkey]
      exact lookup_cons_self _ _ _
    rcases shouldExtract_cases ext v1 d2 hb2 with ⟨h2, _⟩ | ⟨_, ff2, v2, hl3, hs2, _, _, hf2⟩ |
      ⟨_, hl3, _⟩
    · rw [← hsys, h1] at h2
      exact absurd h2 (by simp)
    · rw [hl2] at hl3
      obtain rfl := Option.some.inj hl3
      refine ⟨_, v1, v2, hs1, hs2, fun hb => ⟨?_, _, by rw [← hkey] at hl2; exact hl2, hf hb⟩⟩
      rw [hf2 hb, hf hb, hfile]
    · rw [hl2] at hl3
      exact absurd hl3 (by simp)

/-- The idempotence of C4 on two sample declarations of `src/a.hpp`. -/
theorem shouldExtract_idempotent_witness :
    ∃ b v1 v2, shouldExtract sampleExternals sampleVisitor sampleDecl = some (b, v1) ∧
      shouldExtract sampleExternals v1 { sampleDecl with name := "h", line := 12 } =
        some (b, v2) ∧
      (b = true → v2.File = v1.File ∧
        ∃ ff, List.lookup sampleDecl.includeLoc v1.fileFilter_ = some ff ∧
          v1.File = sampleExternals.replace_path_prefix_
            (sampleExternals.convert_to_slash sampleDecl.filename) ff.prefix_ "") :=
  shouldExtract_idempotent sampleExternals sampleVisitor sampleDecl
    { sampleDecl with name := "h", line := 12 } rfl rfl rfl (fun _ => rfl) (fun _ => rfl)

/-- C4 as stated fails when the system-header status differs: the sample
system declaration and the sample declaration share include location and
presumed file name, yet the first call answers `false` and the second `true`. -/
theorem shouldExtract_idempotent_counterexample :
    sampleSystemDecl.includeLoc = sampleDecl.includeLoc ∧
    sampleSystemDecl.filename = sampleDecl.filename ∧
    (shouldExtract sampleExternals sampleVisitor sampleSystemDecl).map Prod.fst = some false ∧
    ((shouldExtract sampleExternals sampleVisitor sampleSystemDecl).bind
      (fun r => (shouldExtract sampleExternals r.2 sampleDecl).map Prod.fst)) = some true := by
  refine ⟨rfl, rfl, ?_, ?_⟩
  · decide
  · decide

/-! ## The scope resolver -/

/-- The identifier `extractSymbolID(D)` returns does not depend on the visitor. -/
theorem extractSymbolID1_id (ext : Externals) (v : ASTVisitor) (usr : Option String) :
    (extractSymbolID1 ext v usr).1 = symbolIDOf ext usr := by
  cases usr <;> simp [extractSymbolID1, extractSymbolID, generateUSRForDecl, symbolIDOf]

/-- One turn of the loop appends the contribution of the context. -/
theorem getParentNamespacesStep_list (ext : Externals)
    (st : ASTVisitor × List Reference × Bool) (DC : DeclContext) :
    (getParentNamespacesStep ext st DC).2.1 = st.2.1 ++ contextContribution ext DC := by
  cases DC with
  | Namespace N a =>
    simp [getParentNamespacesStep, contextContribution, scopeReference, extractSymbolID1_id,
      anonymousNamespaceName]
  | CXXRecord N S =>
    cases S with
    | none =>
      simp [getParentNamespacesStep, contextContribution, scopeReference, extractSymbolID1_id,
        classContextEntity]
    | some S =>
      by_cases h : S.specializationKind = TemplateSpecializationKind.TSK_ImplicitInstantiation
      · simp [getParentNamespacesStep, contextContribution, scopeReference,
          extractSymbolID1_id, classContextEntity, h]
      · simp [getParentNamespacesStep, contextContribution, scopeReference,
          extractSymbolID1_id, classContextEntity, h]
  | Function N =>
    simp [getParentNamespacesStep, contextContribution, scopeReference, extractSymbolID1_id]
  | Enum N =>
    simp [getParentNamespacesStep, contextContribution, scopeReference, extractSymbolID1_id]
  | TranslationUnit =>
    simp [getParentNamespacesStep, contextContribution, globalNamespaceReference]
  | Other =>
    simp [getParentNamespacesStep, contextContribution, scopeReference]

/-- One turn of the loop raises the flag exactly on an anonymous namespace. -/
theorem getParentNamespacesStep_flag (ext : Externals)
    (st : ASTVisitor × List Reference × Bool) (DC : DeclContext) :
    (getParentNamespacesStep ext st DC).2.2 = (st.2.2 || isAnonymousNamespaceContext DC) := by
  cases DC with
  | Namespace N a => cases a <;> simp [getParentNamespacesStep, isAnonymousNamespaceContext]
  | CXXRecord N S => simp [getParentNamespacesStep, isAnonymousNamespaceContext]
  | Function N => simp [getParentNamespacesStep, isAnonymousNamespaceContext]
  | Enum N => simp [getParentNamespacesStep, isAnonymousNamespaceContext]
  | TranslationUnit => simp [getParentNamespacesStep, isAnonymousNamespaceContext]
  | Other => simp [getParentNamespacesStep, isAnonymousNamespaceContext]

/-- The whole loop: the contributions of the contexts in order, and the flag. -/
theorem getParentNamespaces_loop (ext : Externals) (chain : List DeclContext) :
    ∀ (st : ASTVisitor × List Reference × Bool),
    (chain.foldl (getParentNamespacesStep ext) st).2.1 =
        st.2.1 ++ (chain.map (contextContribution ext)).flatten ∧
    (chain.foldl (getParentNamespacesStep ext) st).2.2 =
        (st.2.2 || chain.any isAnonymousNamespaceContext) := by
  induction chain with
  | nil => intro st; simp
  | cons DC chain ih =>
    intro st
    obtain ⟨h1, h2⟩ := ih (getParentNamespacesStep ext st DC)
    rw [List.foldl_cons, h1, h2, getParentNamespacesStep_list, getParentNamespacesStep_flag]
    simp [Bool.or_assoc]

/-- Below the translation unit the contributions are the scope references. -/
theorem contributions_below_root (ext : Externals) (init : List DeclContext)
    (hinit : DeclContext.TranslationUnit ∉ init) :
    (init.map (contextContribution ext)).flatten = init.filterMap (scopeReference ext) := by
  induction init with
  | nil => simp
  | cons DC init ih =>
    have hDC : DC ≠ DeclContext.TranslationUnit := fun h => hinit (h ▸ List.mem_cons_self _ _)
    have hrest : DeclContext.TranslationUnit ∉ init := fun h => hinit (List.mem_cons_of_mem _ h)
    rw [List.map_cons, List.flatten_cons, ih hrest]
    cases DC with
    | TranslationUnit => exact absurd rfl hDC
    | Namespace N a => simp [contextContribution, scopeReference, List.filterMap_cons]
    | CXXRecord N S => simp [contextContribution, scopeReference, List.filterMap_cons]
    | Function N => simp [contextContribution, scopeReference, List.filterMap_cons]
    | Enum N => simp [contextContribution, scopeReference, List.filterMap_cons]
    | Other => simp [contextContribution, scopeReference, List.filterMap_cons]

/-- C6. For a declaration whose context chain ends at the translation unit,
`getParentNamespaces` appends one reference per enclosing namespace, class,
function or enum context, innermost first, with the identifier, name and kind
of the context (of the instantiation pattern for an implicitly instantiated
class specialization), nothing for any other context, and the global-namespace
sentinel last. -/
theorem getParentNamespaces_chain (ext : Externals) (v : ASTVisitor)
    (Namespaces : List Reference) (D : AnyDecl) (init : List DeclContext)
    (hchain : D.toDecl.declContext :: D.toDecl.parents = init ++ [DeclContext.TranslationUnit])
    (hinit : DeclContext.TranslationUnit ∉ init) :
    (getParentNamespaces ext v Namespaces D).2.1 =
      Namespaces ++ init.filterMap (scopeReference ext) ++
        [⟨SymbolID.zero, "", InfoType.IT_namespace⟩] := by
  simp only [getParentNamespaces]
  rw [hchain, (getParentNamespaces_loop ext _ _).1, List.map_append, List.flatten_append,
    contributions_below_root ext init hinit]
  simp [contextContribution, globalNamespaceReference]

/-- The chain of C6 for the sample nested enumeration: the pattern of the class,
the two namespaces, and the sentinel; nothing for the linkage specification. -/
theorem getParentNamespaces_chain_witness :
    (getParentNamespaces sampleExternals sampleUsedVisitor [] sampleNested).2.1 =
      [] ++ List.filterMap (scopeReference sampleExternals)
        [DeclContext.CXXRecord ⟨some "c:@N@lib@aN@S@A>#I", "A"⟩
           (some ⟨TemplateSpecializationKind.TSK_ImplicitInstantiation,
             ⟨some "c:@N@lib@aN@ST>1#T@A", "A"⟩⟩),
         DeclContext.Namespace ⟨some "c:@N@lib@aN", ""⟩ true,
         DeclContext.Other,
         DeclContext.Namespace ⟨some "c:@N@lib", "lib"⟩ false] ++
        [⟨SymbolID.zero, "", InfoType.IT_namespace⟩] :=
  getParentNamespaces_chain sampleExternals sampleUsedVisitor [] sampleNested _ rfl (by decide)

/-- C7. The flag returned by `getParentNamespaces` is set exactly when the declaration is
an anonymous namespace or one of its enclosing namespaces is anonymous; and
every enclosing namespace is in the appended chain, an anonymous one under the
name `@nonymous_namespace` and a named one under its own name. -/
theorem getParentNamespaces_anonymous (ext : Externals) (v : ASTVisitor)
    (Namespaces : List Reference) (D : AnyDecl) :
    ((getParentNamespaces ext v Namespaces D).1 = true ↔
      (isAnonymousNamespaceDecl D = true ∨
        ∃ N, DeclContext.Namespace N true ∈ D.toDecl.declContext :: D.toDecl.parents)) ∧
    ∃ appended, (getParentNamespaces ext v Namespaces D).2.1 = Namespaces ++ appended ∧
      (∀ N, DeclContext.Namespace N true ∈ D.toDecl.declContext :: D.toDecl.parents →
        (⟨symbolIDOf ext N.usr, "@nonymous_namespace", InfoType.IT_namespace⟩ : Reference)
          ∈ appended) ∧
      (∀ N, DeclContext.Namespace N false ∈ D.toDecl.declContext :: D.toDecl.parents →
        (⟨symbolIDOf ext N.usr, N.name, InfoType.IT_namespace⟩ : Reference) ∈ appended) := by
  have hloop := getParentNamespaces_loop ext (D.toDecl.declContext :: D.toDecl.parents)
  constructor
  · simp only [getParentNamespaces]
    rw [(hloop _).2]
    have hD : (match D.asNamespaceDecl with
        | some N => N.isAnonymousNamespace
        | none => false) = isAnonymousNamespaceDecl D := by
      cases D <;> rfl
    rw [hD, Bool.or_eq_true, List.any_eq_true]
    constructor
    · rintro (h | ⟨DC, hmem, hDC⟩)
      · exact Or.inl h
      · right
        cases DC with
        | Namespace N a =>
          simp only [isAnonymousNamespaceContext] at hDC
          subst hDC
          exact ⟨N, hmem⟩
        | CXXRecord N S => simp [isAnonymousNamespaceContext] at hDC
        | Function N => simp [isAnonymousNamespaceContext] at hDC
        | Enum N => simp [isAnonymousNamespaceContext] at hDC
        | TranslationUnit => simp [isAnonymousNamespaceContext] at hDC
        | Other => simp [isAnonymousNamespaceContext] at hDC
    · rintro (h | ⟨N, hmem⟩)
      · exact Or.inl h
      · exact Or.inr ⟨_, hmem, rfl⟩
  · refine ⟨((D.toDecl.declContext :: D.toDecl.parents).map (contextContribution ext)).flatten,
      ?_, ?_, ?_⟩
    · simp only [getParentNamespaces]
      rw [(hloop _).1]
    · intro N hmem
      rw [List.mem_flatten]
      exact ⟨_, List.mem_map.mpr ⟨_, hmem, rfl⟩, by simp [contextContribution, scopeReference]⟩
    · intro N hmem
      rw [List.mem_flatten]
      exact ⟨_, List.mem_map.mpr ⟨_, hmem, rfl⟩, by simp [contextContribution, scopeReference]⟩

/-- The flag of C7 for the sample nested enumeration, which is inside an
anonymous namespace. -/
theorem getParentNamespaces_anonymous_witness :
    (getParentNamespaces sampleExternals sampleUsedVisitor [] sampleNested).1 = true :=
  (getParentNamespaces_anonymous sampleExternals sampleUsedVisitor [] sampleNested).1.mpr
    (Or.inr ⟨⟨some "c:@N@lib@aN", ""⟩, by decide⟩)

/-! ## The parent fragment -/

/-- C9. The stub `writeParent` builds has the identifier of the first entry of the
scope chain of `I` and is otherwise empty but for one entry: with access none
a `NamespaceInfo` whose child list for the kind of `I` is the one reference
`(I.id, I.Name, kind)`; with access public, protected or private a
`RecordInfo` whose member list for the kind of `I` is the one entry
`(I.id, access)`, with no bases and no friends. -/
theorem writeParent_stub (I : AnyInfo) (N0 : Reference) (rest : List Reference)
    (hns : I.toInfo.Namespace = N0 :: rest) :
    (N0.RefType = InfoType.IT_namespace → I.type_id ≠ InfoType.IT_field →
      ∃ P : NamespaceInfo,
        writeParent I AccessSpecifier.AS_none = some (writeBitcode (AnyInfo.Namespace P)) ∧
        P.id = N0.id ∧ P.Name = "" ∧ P.Namespace = [] ∧ P.javadoc = none ∧
        P.Children.Namespaces = (if I.type_id = InfoType.IT_namespace then
          [⟨I.toInfo.id, I.toInfo.Name, InfoType.IT_namespace⟩] else []) ∧
        P.Children.Records = (if I.type_id = InfoType.IT_record then
          [⟨I.toInfo.id, I.toInfo.Name, InfoType.IT_record⟩] else []) ∧
        P.Children.Functions = (if I.type_id = InfoType.IT_function then
          [⟨I.toInfo.id, I.toInfo.Name, InfoType.IT_function⟩] else []) ∧
        P.Children.Typedefs = (if I.type_id = InfoType.IT_typedef then
          [⟨I.toInfo.id, I.toInfo.Name, InfoType.IT_typedef⟩] else []) ∧
        P.Children.Enums = (if I.type_id = InfoType.IT_enum then
          [⟨I.toInfo.id, I.toInfo.Name, InfoType.IT_enum⟩] else []) ∧
        P.Children.Vars = (if I.type_id = InfoType.IT_variable then
          [⟨I.toInfo.id, I.toInfo.Name, InfoType.IT_variable⟩] else [])) ∧
    (∀ (access : AccessSpecifier) (a : Access), getAccessFromSpecifier access = some a →
      N0.RefType = InfoType.IT_record → I.type_id ≠ InfoType.IT_namespace →
      ∃ P : RecordInfo,
        writeParent I access = some (writeBitcode (AnyInfo.Record P)) ∧
        P.id = N0.id ∧ P.Name = "" ∧ P.Namespace = [] ∧ P.javadoc = none ∧
        P.Members.Records = (if I.type_id = InfoType.IT_record then [⟨I.toInfo.id, a⟩] else []) ∧
        P.Members.Functions =
          (if I.type_id = InfoType.IT_function then [⟨I.toInfo.id, a⟩] else []) ∧
        P.Members.Types = (if I.type_id = InfoType.IT_typedef then [⟨I.toInfo.id, a⟩] else []) ∧
        P.Members.Enums = (if I.type_id = InfoType.IT_enum then [⟨I.toInfo.id, a⟩] else []) ∧
        P.Members.Fields = (if I.type_id = InfoType.IT_field then [⟨I.toInfo.id, a⟩] else []) ∧
        P.Members.Vars = (if I.type_id = InfoType.IT_variable then [⟨I.toInfo.id, a⟩] else []) ∧
        P.Bases = [] ∧ P.Friends = [] ∧ P.DefLoc = none ∧ P.Loc = [] ∧
        P.Template.isNone = true) := by
  constructor
  · intro hN0 hkind
    cases I with
    | Field I => exact absurd rfl hkind
    | Namespace I =>
      simp only [AnyInfo.toInfo] at hns
      have h : writeParent (AnyInfo.Namespace I) AccessSpecifier.AS_none = some (writeBitcode
          (AnyInfo.Namespace
            { id := N0.id, Children := { Namespaces := [⟨I.id, I.Name, InfoType.IT_namespace⟩] } })) := by
        simp [writeParent, AnyInfo.toInfo, AnyInfo.type_id, hns, hN0, NamespaceInfo.insertChild]
      exact ⟨_, h, rfl, rfl, rfl, rfl, by simp [AnyInfo.type_id, AnyInfo.toInfo]⟩
    | Record I =>
      simp only [AnyInfo.toInfo] at hns
      have h : writeParent (AnyInfo.Record I) AccessSpecifier.AS_none = some (writeBitcode
          (AnyInfo.Namespace
            { id := N0.id, Children := { Records := [⟨I.id, I.Name, InfoType.IT_record⟩] } })) := by
        simp [writeParent, AnyInfo.toInfo, AnyInfo.type_id, hns, hN0, NamespaceInfo.insertChild]
      exact ⟨_, h, rfl, rfl, rfl, rfl, by simp [AnyInfo.type_id, AnyInfo.toInfo]⟩
    | Function I =>
      simp only [AnyInfo.toInfo] at hns
      have h : writeParent (AnyInfo.Function I) AccessSpecifier.AS_none = some (writeBitcode
          (AnyInfo.Namespace
            { id := N0.id, Children := { Functions := [⟨I.id, I.Name, InfoType.IT_function⟩] } })) := by
        simp [writeParent, AnyInfo.toInfo, AnyInfo.type_id, hns, hN0, NamespaceInfo.insertChild]
      exact ⟨_, h, rfl, rfl, rfl, rfl, by simp [AnyInfo.type_id, AnyInfo.toInfo]⟩
    | Typedef I =>
      simp only [AnyInfo.toInfo] at hns
      have h : writeParent (AnyInfo.Typedef I) AccessSpecifier.AS_none = some (writeBitcode
          (AnyInfo.Namespace
            { id := N0.id, Children := { Typedefs := [⟨I.id, I.Name, InfoType.IT_typedef⟩] } })) := by
        simp [writeParent, AnyInfo.toInfo, AnyInfo.type_id, hns, hN0, NamespaceInfo.insertChild]
      exact ⟨_, h, rfl, rfl, rfl, rfl, by simp [AnyInfo.type_id, AnyInfo.toInfo]⟩
    | Enum I =>
      simp only [AnyInfo.toInfo] at hns
      have h : writeParent (AnyInfo.Enum I) AccessSpecifier.AS_none = some (writeBitcode
          (AnyInfo.Namespace
            { id := N0.id, Children := { Enums := [⟨I.id, I.Name, InfoType.IT_enum⟩] } })) := by
        simp [writeParent, AnyInfo.toInfo, AnyInfo.type_id, hns, hN0, NamespaceInfo.insertChild]
      exact ⟨_, h, rfl, rfl, rfl, rfl, by simp [AnyInfo.type_id, AnyInfo.toInfo]⟩
    | Var I =>
      simp only [AnyInfo.toInfo] at hns
      have h : writeParent (AnyInfo.Var I) AccessSpecifier.AS_none = some (writeBitcode
          (AnyInfo.Namespace
            { id := N0.id, Children := { Vars := [⟨I.id, I.Name, InfoType.IT_variable⟩] } })) := by
        simp [writeParent, AnyInfo.toInfo, AnyInfo.type_id, hns, hN0, NamespaceInfo.insertChild]
      exact ⟨_, h, rfl, rfl, rfl, rfl, by simp [AnyInfo.type_id, AnyInfo.toInfo]⟩
  · intro access a ha hN0 hkind
    have hw : writeParent I access = writeParentRecord I a := by
      cases access <;> simp [getAccessFromSpecifier] at ha <;> subst ha <;> rfl
    rw [hw]
    cases I with
    | Namespace I => exact absurd rfl hkind
    | Record I =>
      simp only [AnyInfo.toInfo] at hns
      have h : writeParentRecord (AnyInfo.Record I) a = some (writeBitcode
          (AnyInfo.Record { id := N0.id, Members := { Records := [⟨I.id, a⟩] } })) := by
        simp [writeParentRecord, AnyInfo.toInfo, AnyInfo.type_id, hns, hN0,
          RecordInfo.insertChild]
      exact ⟨_, h, rfl, rfl, rfl, rfl, by simp [AnyInfo.type_id, AnyInfo.toInfo]⟩
    | Function I =>
      simp only [AnyInfo.toInfo] at hns
      have h : writeParentRecord (AnyInfo.Function I) a = some (writeBitcode
          (AnyInfo.Record { id := N0.id, Members := { Functions := [⟨I.id, a⟩] } })) := by
        simp [writeParentRecord, AnyInfo.toInfo, AnyInfo.type_id, hns, hN0,
          RecordInfo.insertChild]
      exact ⟨_, h, rfl, rfl, rfl, rfl, by simp [AnyInfo.type_id, AnyInfo.toInfo]⟩
    | Typedef I =>
      simp only [AnyInfo.toInfo] at hns
      have h : writeParentRecord (AnyInfo.Typedef I) a = some (writeBitcode
          (AnyInfo.Record { id := N0.id, Members := { Types := [⟨I.id, a⟩] } })) := by
        simp [writeParentRecord, AnyInfo.toInfo, AnyInfo.type_id, hns, hN0,
          RecordInfo.insertChild]
      exact ⟨_, h, rfl, rfl, rfl, rfl, by simp [AnyInfo.type_id, AnyInfo.toInfo]⟩
    | Enum I =>
      simp only [AnyInfo.toInfo] at hns
      have h : writeParentRecord (AnyInfo.Enum I) a = some (writeBitcode
          (AnyInfo.Record { id := N0.id, Members := { Enums := [⟨I.id, a⟩] } })) := by
        simp [writeParentRecord, AnyInfo.toInfo, AnyInfo.type_id, hns, hN0,
          RecordInfo.insertChild]
      exact ⟨_, h, rfl, rfl, rfl, rfl, by simp [AnyInfo.type_id, AnyInfo.toInfo]⟩
    | Field I =>
      simp only [AnyInfo.toInfo] at hns
      have h : writeParentRecord (AnyInfo.Field I) a = some (writeBitcode
          (AnyInfo.Record { id := N0.id, Members := { Fields := [⟨I.id, a⟩] } })) := by
        simp [writeParentRecord, AnyInfo.toInfo, AnyInfo.type_id, hns, hN0,
          RecordInfo.insertChild]
      exact ⟨_, h, rfl, rfl, rfl, rfl, by simp [AnyInfo.type_id, AnyInfo.toInfo]⟩
    | Var I =>
      simp only [AnyInfo.toInfo] at hns
      have h : writeParentRecord (AnyInfo.Var I) a = some (writeBitcode
          (AnyInfo.Record { id := N0.id, Members := { Vars := [⟨I.id, a⟩] } })) := by
        simp [writeParentRecord, AnyInfo.toInfo, AnyInfo.type_id, hns, hN0,
          RecordInfo.insertChild]
      exact ⟨_, h, rfl, rfl, rfl, rfl, by simp [AnyInfo.type_id, AnyInfo.toInfo]⟩

/-- The stubs of C9 for a sample top-level enumeration and a sample public
member function. -/
theorem writeParent_stub_witness :
    (∃ P : NamespaceInfo,
      writeParent sampleTopLevelInfo AccessSpecifier.AS_none =
        some (writeBitcode (AnyInfo.Namespace P)) ∧
      P.id = SymbolID.zero ∧ P.Children.Enums = [⟨⟨11⟩, "Color", InfoType.IT_enum⟩] ∧
      P.Children.Records = [] ∧ P.Children.Functions = []) ∧
    (∃ P : RecordInfo,
      writeParent sampleMemberInfo AccessSpecifier.AS_public =
        some (writeBitcode (AnyInfo.Record P)) ∧
      P.id = ⟨5⟩ ∧ P.Members.Functions = [⟨⟨12⟩, Access.Public⟩] ∧
      P.Members.Records = [] ∧ P.Bases = [] ∧ P.Friends = []) :=
  ⟨match (writeParent_stub sampleTopLevelInfo globalNamespaceReference [] rfl).1 rfl
      (by decide) with
    | ⟨P, h, hid, _, _, _, _, hrec, hfun, _, henum, _⟩ => ⟨P, h, hid, henum, hrec, hfun⟩,
   match (writeParent_stub sampleMemberInfo ⟨⟨5⟩, "Box", InfoType.IT_record⟩
      [globalNamespaceReference] rfl).2 AccessSpecifier.AS_public Access.Public rfl rfl
      (by decide) with
    | ⟨P, h, hid, _, _, _, hrec, hfun, _, _, _, _, hb, hf, _⟩ => ⟨P, h, hid, hfun, hrec, hb, hf⟩⟩

/-! ## What the helpers leave untouched -/

/-- The call `extractSymbolID(D, id)` changes nothing of the visitor but the scratch buffer. -/
theorem extractSymbolID_visitor (ext : Externals) (v : ASTVisitor) (usr : Option String)
    (id : SymbolID) :
    ∃ buf, (extractSymbolID ext v usr id).2.2 = { v with usr_ := buf } := by
  cases usr with
  | none => exact ⟨"", by simp [extractSymbolID, generateUSRForDecl]⟩
  | some s => exact ⟨"" ++ s, by simp [extractSymbolID, generateUSRForDecl]⟩

/-- The flag and identifier of `extractSymbolID(D, id)`, by the canonical name. -/
theorem extractSymbolID_result (ext : Externals) (v : ASTVisitor) (usr : Option String)
    (id : SymbolID) :
    (extractSymbolID ext v usr id).1 = usr.isSome ∧
    (extractSymbolID ext v usr id).2.1 = (match usr with
      | some s => ext.sha1 s
      | none => id) := by
  cases usr <;> simp [extractSymbolID, generateUSRForDecl]

/-- The sink, policy flag, file and root flag are left alone by `extractSymbolID`. -/
theorem extractSymbolID_frame (ext : Externals) (v : ASTVisitor) (usr : Option String)
    (id : SymbolID) :
    (extractSymbolID ext v usr id).2.2.sink = v.sink ∧
    (extractSymbolID ext v usr id).2.2.PublicOnly = v.PublicOnly := by
  obtain ⟨buf, h⟩ := extractSymbolID_visitor ext v usr id
  rw [h]
  exact ⟨rfl, rfl⟩

/-- One turn of the scope loop leaves the sink and the policy flag alone. -/
theorem getParentNamespacesStep_frame (ext : Externals)
    (st : ASTVisitor × List Reference × Bool) (DC : DeclContext) :
    (getParentNamespacesStep ext st DC).1.sink = st.1.sink ∧
    (getParentNamespacesStep ext st DC).1.PublicOnly = st.1.PublicOnly := by
  cases DC with
  | Namespace N a =>
    exact extractSymbolID_frame ext st.1 N.usr SymbolID.zero
  | CXXRecord N S =>
    simp only [getParentNamespacesStep, extractSymbolID1]
    exact extractSymbolID_frame ext st.1 _ SymbolID.zero
  | Function N => exact extractSymbolID_frame ext st.1 N.usr SymbolID.zero
  | Enum N => exact extractSymbolID_frame ext st.1 N.usr SymbolID.zero
  | TranslationUnit => exact ⟨rfl, rfl⟩
  | Other => exact ⟨rfl, rfl⟩

/-- The scope loop leaves the sink and the policy flag alone. -/
theorem getParentNamespaces_loop_frame (ext : Externals) (chain : List DeclContext) :
    ∀ (st : ASTVisitor × List Reference × Bool),
    (chain.foldl (getParentNamespacesStep ext) st).1.sink = st.1.sink ∧
    (chain.foldl (getParentNamespacesStep ext) st).1.PublicOnly = st.1.PublicOnly := by
  induction chain with
  | nil => intro st; exact ⟨rfl, rfl⟩
  | cons DC chain ih =>
    intro st
    obtain ⟨h1, h2⟩ := ih (getParentNamespacesStep ext st DC)
    obtain ⟨h3, h4⟩ := getParentNamespacesStep_frame ext st DC
    rw [List.foldl_cons, h1, h2, h3, h4]
    exact ⟨rfl, rfl⟩

/-- The call `getParentNamespaces` leaves the sink and the policy flag alone. -/
theorem getParentNamespaces_frame (ext : Externals) (v : ASTVisitor)
    (Namespaces : List Reference) (D : AnyDecl) :
    (getParentNamespaces ext v Namespaces D).2.2.sink = v.sink ∧
    (getParentNamespaces ext v Namespaces D).2.2.PublicOnly = v.PublicOnly :=
  getParentNamespaces_loop_frame ext _ _

/-- The call `extractInfo` leaves the sink alone. -/
theorem extractInfo_sink (ext : Externals) (v : ASTVisitor) (I : Info) (D : AnyDecl) :
    (extractInfo ext v I D).2.2.sink = v.sink := by
  have h1 := (getParentNamespaces_frame ext v I.Namespace D).1
  have h2 := fun id => (extractSymbolID_frame ext (getParentNamespaces ext v I.Namespace D).2.2
    D.toDecl.usr id).1
  simp only [extractInfo]
  split
  · exact h1
  · split
    · rw [h2, h1]
    · rw [h2, h1]

/-- The call `getTypeInfoForType` leaves the sink alone. -/
theorem getTypeInfoForType_sink (ext : Externals) (v : ASTVisitor) (T : QualType) :
    (getTypeInfoForType ext v T).2.sink = v.sink := by
  simp only [getTypeInfoForType]
  split
  · exact (extractSymbolID_frame ext v _ _).1
  · rfl

/-- The call `parseParameters` leaves the sink alone. -/
theorem parseParameters_sink (ext : Externals) (parameters : List ParmVarDecl) :
    ∀ (v : ASTVisitor) (I : FunctionInfo),
    (parseParameters ext v I parameters).2.sink = v.sink := by
  induction parameters with
  | nil => intro v I; rfl
  | cons P parameters ih =>
    intro v I
    simp only [parseParameters, List.foldl_cons]
    have := ih (getTypeInfoForType ext v P.type).2
      { I with Params := I.Params ++ [⟨(getTypeInfoForType ext v P.type).1, P.name, P.defaultArg⟩] }
    simp only [parseParameters] at this
    rw [this, getTypeInfoForType_sink]

/-- The call `parseTemplateArgs` for a function specialization leaves the sink alone. -/
theorem parseTemplateArgsFunction_sink (ext : Externals) (v : ASTVisitor) (I : TemplateInfo)
    (spec : FunctionTemplateSpecializationInfo) :
    (parseTemplateArgsFunction ext v I spec).2.sink = v.sink := by
  simp only [parseTemplateArgsFunction]
  cases spec.template <;> cases spec.TemplateArguments <;>
    simp [(extractSymbolID_frame ext v _ _).1]

/-- The call `constructFunction` leaves the sink alone. -/
theorem constructFunction_sink (ext : Externals) (v : ASTVisitor) (I : FunctionInfo)
    (DeclTy : FunctionDeclTy) (D : FunctionDecl) :
    (constructFunction ext v I DeclTy D).2.2.sink = v.sink := by
  have h1 := extractInfo_sink ext v I.toInfo (AnyDecl.Function (applyDecayToParameters D))
  simp only [constructFunction]
  split
  · exact h1
  · cases hT : (applyDecayToParameters D).templateSpecializationInfo with
    | none =>
      simp only [parseParameters_sink, getTypeInfoForType_sink]
      exact h1
    | some ftsi =>
      simp only [parseTemplateArgsFunction_sink, parseParameters_sink, getTypeInfoForType_sink]
      exact h1

/-- When its assertions hold `writeParent` returns a fragment. -/
theorem writeParent_ne_none (I : AnyInfo) (access : AccessSpecifier)
    (h : parentAssertionsHold I.toInfo.Namespace I.type_id access = true) :
    writeParent I access ≠ none := by
  cases hns : I.toInfo.Namespace with
  | nil => simp [parentAssertionsHold, hns] at h
  | cons N0 rest =>
    cases access <;> cases I <;>
      simp_all [parentAssertionsHold, writeParent, writeParentRecord, AnyInfo.type_id,
        AnyInfo.toInfo, NamespaceInfo.insertChild, RecordInfo.insertChild]

/-- The loop of `extractBases` completes when no base specifier has access none, and
leaves the sink and the base part of the record alone. -/
theorem extractBases_loop (ext : Externals) (bases : List CXXBaseSpecifier)
    (hb : ∀ B ∈ bases, B.accessSpecifier ≠ AccessSpecifier.AS_none) :
    ∀ (I : RecordInfo) (v : ASTVisitor),
    ∃ I1 v1, bases.foldl (extractBasesStep ext) (some (I, v)) = some (I1, v1) ∧
      v1.sink = v.sink ∧ I1.toInfo = I.toInfo := by
  induction bases with
  | nil => intro I v; exact ⟨I, v, rfl, rfl, rfl⟩
  | cons B bases ih =>
    intro I v
    have hB := hb B (List.mem_cons_self _ _)
    have hrest : ∀ B0 ∈ bases, B0.accessSpecifier ≠ AccessSpecifier.AS_none :=
      fun B0 h0 => hb B0 (List.mem_cons_of_mem _ h0)
    obtain ⟨a, ha⟩ : ∃ a, getAccessFromSpecifier B.accessSpecifier = some a := by
      cases h : B.accessSpecifier <;> simp_all [getAccessFromSpecifier]
    have hstep : ∃ I2 v2, extractBasesStep ext (some (I, v)) B = some (I2, v2) ∧
        v2.sink = v.sink ∧ I2.toInfo = I.toInfo := by
      simp only [extractBasesStep, ha]
      split
      · exact ⟨I, v, rfl, rfl, rfl⟩
      · split
        · exact ⟨_, _, rfl, (extractSymbolID_frame ext v _ _).1, rfl⟩
        · split
          · exact ⟨_, _, rfl, (extractSymbolID_frame ext v _ _).1, rfl⟩
          · exact ⟨_, _, rfl, rfl, rfl⟩
    obtain ⟨I2, v2, hs, hsink, hinfo⟩ := hstep
    obtain ⟨I1, v1, hrun, hsink1, hinfo1⟩ := ih hrest I2 v2
    refine ⟨I1, v1, ?_, by rw [hsink1, hsink], by rw [hinfo1, hinfo]⟩
    rw [List.foldl_cons, hs, hrun]

/-- The call `extractBases` completes when no base specifier has access none, and leaves
the sink and the base part of the record alone. -/
theorem extractBases_some (ext : Externals) (v : ASTVisitor) (I : RecordInfo)
    (D : CXXRecordDecl) (hb : ∀ B ∈ D.bases, B.accessSpecifier ≠ AccessSpecifier.AS_none) :
    ∃ I1 v1, extractBases ext v I D = some (I1, v1) ∧ v1.sink = v.sink ∧
      I1.toInfo = I.toInfo := by
  simp only [extractBases]
  split
  · exact ⟨I, v, rfl, rfl, rfl⟩
  · exact extractBases_loop ext D.bases hb I v

/-- The same, with the base part of the record given by an equation. -/
theorem writeParent_ne_none_of (I : AnyInfo) (access : AccessSpecifier) (info : Info)
    (hI : I.toInfo = info)
    (h : parentAssertionsHold info.Namespace I.type_id access = true) :
    writeParent I access ≠ none := by
  subst hI
  exact writeParent_ne_none I access h

/-- The call `parseEnumerators` leaves the base part of the record alone. -/
theorem parseEnumerators_toInfo (D : EnumDecl) (I : EnumInfo) :
    (parseEnumerators I D).toInfo = I.toInfo := by
  unfold parseEnumerators
  generalize D.enumerators = es
  induction es generalizing I with
  | nil => rfl
  | cons E es ih => rw [List.foldl_cons, ih]

/-- The builder `buildEnum`: nothing is emitted when `extractInfo` fails; otherwise, when
the assertions of the assembler hold, the record and then its parent fragment. -/
theorem buildEnum_emits (ext : Externals) (v : ASTVisitor) (I : EnumInfo) (D : EnumDecl) :
    ((extractInfo ext v I.toInfo (AnyDecl.Enum D)).1 = false →
      ∃ v1, buildEnum ext v I D = some v1 ∧ v1.sink = v.sink) ∧
    ((extractInfo ext v I.toInfo (AnyDecl.Enum D)).1 = true →
      parentAssertionsHold (extractInfo ext v I.toInfo (AnyDecl.Enum D)).2.1.Namespace
        InfoType.IT_enum D.access = true →
      ∃ v1 own parent, buildEnum ext v I D = some v1 ∧
        v1.sink = v.sink ++ [writeBitcode (AnyInfo.Enum own), parent] ∧
        own.toInfo = (extractInfo ext v I.toInfo (AnyDecl.Enum D)).2.1 ∧
        writeParent (AnyInfo.Enum own) D.access = some parent) := by
  constructor
  · intro hflag
    exact ⟨(extractInfo ext v I.toInfo (AnyDecl.Enum D)).2.2, by simp [buildEnum, hflag],
      extractInfo_sink ext v _ _⟩
  · intro hflag hpre
    unfold buildEnum
    lift_lets
    extract_lets r I1 v1 v2 I2 I3 Name I4 I5 v3
    have hr : r.1 = true := hflag
    rw [hr]
    simp only [Bool.not_true, Bool.false_eq_true, if_false]
    have hI5 : I5.toInfo = r.2.1 := by
      simp only [I5, parseEnumerators_toInfo, I4, I3]
      split <;> simp only [I2] <;> split <;> rfl
    have hv3 : v3.sink = v.sink ++ [writeBitcode (AnyInfo.Enum I5)] := by
      simp only [v3, insertBitcode, v2, v1]
      rw [extractInfo_sink]
    split
    · rename_i heq
      exact absurd heq (writeParent_ne_none_of (AnyInfo.Enum I5) _ _ hI5 hpre)
    · rename_i b heq
      exact ⟨_, I5, b, rfl, by simp [insertBitcode, hv3], hI5, heq⟩

/-- The call `parseParameters` leaves the base part of the record alone. -/
theorem parseParameters_toInfo (ext : Externals) (parameters : List ParmVarDecl) :
    ∀ (v : ASTVisitor) (I : FunctionInfo),
    (parseParameters ext v I parameters).1.toInfo = I.toInfo := by
  induction parameters with
  | nil => intro v I; rfl
  | cons P parameters ih =>
    intro v I
    simp only [parseParameters, List.foldl_cons]
    have := ih (getTypeInfoForType ext v P.type).2
      { I with Params := I.Params ++ [⟨(getTypeInfoForType ext v P.type).1, P.name, P.defaultArg⟩] }
    simp only [parseParameters] at this
    rw [this]

/-- The flag of `constructFunction` is that of `extractInfo` on the adjusted declaration,
and the base part of the record is the one `extractInfo` left. -/
theorem constructFunction_spec (ext : Externals) (v : ASTVisitor) (I : FunctionInfo)
    (DeclTy : FunctionDeclTy) (D : FunctionDecl) :
    (constructFunction ext v I DeclTy D).1 =
      (extractInfo ext v I.toInfo (AnyDecl.Function (applyDecayToParameters D))).1 ∧
    (constructFunction ext v I DeclTy D).2.1.toInfo =
      (extractInfo ext v I.toInfo (AnyDecl.Function (applyDecayToParameters D))).2.1 := by
  unfold constructFunction
  lift_lets
  extract_lets D1 r I1 v1 v2 I2 qt t I3 p I4 v3 T tv I5 v4 s0a s0b s0c s0d s1a s1b OOK s1c s0e s1d
  have hI5 : I5.toInfo = r.2.1 := by
    simp only [I5, I4, p, parseParameters_toInfo, I3]
    simp only [I2]
    split <;> rfl
  cases hr : r.1 with
  | false => exact ⟨rfl, rfl⟩
  | true => exact ⟨rfl, hI5⟩

/-- The builder `buildField`: nothing when `extractInfo` fails, else record and parent. -/
theorem buildField_emits (ext : Externals) (v : ASTVisitor) (I : FieldInfo) (D : FieldDecl) :
    ((extractInfo ext v I.toInfo (AnyDecl.Field D)).1 = false →
      ∃ v1, buildField ext v I D = some v1 ∧ v1.sink = v.sink) ∧
    ((extractInfo ext v I.toInfo (AnyDecl.Field D)).1 = true →
      parentAssertionsHold (extractInfo ext v I.toInfo (AnyDecl.Field D)).2.1.Namespace
        InfoType.IT_field D.access = true →
      ∃ v1 own parent, buildField ext v I D = some v1 ∧
        v1.sink = v.sink ++ [writeBitcode (AnyInfo.Field own), parent] ∧
        own.toInfo = (extractInfo ext v I.toInfo (AnyDecl.Field D)).2.1 ∧
        writeParent (AnyInfo.Field own) D.access = some parent) := by
  constructor
  · intro hflag
    exact ⟨(extractInfo ext v I.toInfo (AnyDecl.Field D)).2.2, by simp [buildField, hflag],
      extractInfo_sink ext v _ _⟩
  · intro hflag hpre
    unfold buildField
    lift_lets
    extract_lets r I1 v1 v2 I2 t I3 v3 I4 v4
    have hr : r.1 = true := hflag
    rw [hr]
    simp only [Bool.not_true, Bool.false_eq_true, if_false]
    have hI : I4.toInfo = r.2.1 := rfl
    have hv : v4.sink = v.sink ++ [writeBitcode (AnyInfo.Field I4)] := by
      simp only [v4, insertBitcode, v3, t, getTypeInfoForType_sink, v2, v1]
      rw [extractInfo_sink]
    split
    · rename_i heq
      exact absurd heq (writeParent_ne_none_of (AnyInfo.Field I4) _ _ hI hpre)
    · rename_i b heq
      exact ⟨_, I4, b, rfl, by simp [insertBitcode, hv], hI, heq⟩

/-- The builder `buildVar`: nothing when `extractInfo` fails, else record and parent. -/
theorem buildVar_emits (ext : Externals) (v : ASTVisitor) (I : VarInfo) (D : VarDecl) :
    ((extractInfo ext v I.toInfo (AnyDecl.Var D)).1 = false →
      ∃ v1, buildVar ext v I D = some v1 ∧ v1.sink = v.sink) ∧
    ((extractInfo ext v I.toInfo (AnyDecl.Var D)).1 = true →
      parentAssertionsHold (extractInfo ext v I.toInfo (AnyDecl.Var D)).2.1.Namespace
        InfoType.IT_variable D.access = true →
      ∃ v1 own parent, buildVar ext v I D = some v1 ∧
        v1.sink = v.sink ++ [writeBitcode (AnyInfo.Var own), parent] ∧
        own.toInfo = (extractInfo ext v I.toInfo (AnyDecl.Var D)).2.1 ∧
        writeParent (AnyInfo.Var own) D.access = some parent) := by
  constructor
  · intro hflag
    exact ⟨(extractInfo ext v I.toInfo (AnyDecl.Var D)).2.2, by simp [buildVar, hflag],
      extractInfo_sink ext v _ _⟩
  · intro hflag hpre
    unfold buildVar
    lift_lets
    extract_lets r I1 v1 v2 I2 t I3 v3 I4 v4
    have hr : r.1 = true := hflag
    rw [hr]
    simp only [Bool.not_true, Bool.false_eq_true, if_false]
    have hI : I4.toInfo = r.2.1 := by
      simp only [I4, I3, I2]
      split <;> rfl
    have hv : v4.sink = v.sink ++ [writeBitcode (AnyInfo.Var I4)] := by
      simp only [v4, insertBitcode, v3, t, getTypeInfoForType_sink, v2, v1]
      rw [extractInfo_sink]
    split
    · rename_i heq
      exact absurd heq (writeParent_ne_none_of (AnyInfo.Var I4) _ _ hI hpre)
    · rename_i b heq
      exact ⟨_, I4, b, rfl, by simp [insertBitcode, hv], hI, heq⟩

/-- The builder `buildNamespace`: nothing when `extractInfo` fails, else record and parent. -/
theorem buildNamespace_emits (ext : Externals) (v : ASTVisitor) (I : NamespaceInfo)
    (D : NamespaceDecl) :
    ((extractInfo ext v I.toInfo (AnyDecl.Namespace D)).1 = false →
      ∃ v1, buildNamespace ext v I D = some v1 ∧ v1.sink = v.sink) ∧
    ((extractInfo ext v I.toInfo (AnyDecl.Namespace D)).1 = true →
      parentAssertionsHold (extractInfo ext v I.toInfo (AnyDecl.Namespace D)).2.1.Namespace
        InfoType.IT_namespace AccessSpecifier.AS_none = true →
      ∃ v1 own parent, buildNamespace ext v I D = some v1 ∧
        v1.sink = v.sink ++ [writeBitcode (AnyInfo.Namespace own), parent] ∧
        own.toInfo = { (extractInfo ext v I.toInfo (AnyDecl.Namespace D)).2.1 with
          Name := if D.isAnonymousNamespace then "@nonymous_namespace"
            else (extractInfo ext v I.toInfo (AnyDecl.Namespace D)).2.1.Name } ∧
        writeParent (AnyInfo.Namespace own) AccessSpecifier.AS_none = some parent) := by
  constructor
  · intro hflag
    exact ⟨(extractInfo ext v I.toInfo (AnyDecl.Namespace D)).2.2,
      by simp [buildNamespace, hflag], extractInfo_sink ext v _ _⟩
  · intro hflag hpre
    unfold buildNamespace
    lift_lets
    extract_lets r I1 v1 I2 v2
    have hr : r.1 = true := hflag
    rw [hr]
    simp only [Bool.not_true, Bool.false_eq_true, if_false]
    have hI : I2.toInfo = { r.2.1 with
        Name := if D.isAnonymousNamespace then "@nonymous_namespace" else r.2.1.Name } := by
      simp only [I2]
      split <;> rfl
    have hv : v2.sink = v.sink ++ [writeBitcode (AnyInfo.Namespace I2)] := by
      simp only [v2, insertBitcode, v1]
      rw [extractInfo_sink]
    split
    · rename_i heq
      exact absurd heq (writeParent_ne_none_of (AnyInfo.Namespace I2) _ _ hI hpre)
    · rename_i b heq
      exact ⟨_, I2, b, rfl, by simp [insertBitcode, hv], hI, heq⟩

/-- The builder `buildRecord`: nothing when `extractInfo` fails, else record and parent. -/
theorem buildRecord_emits (ext : Externals) (v : ASTVisitor) (I : RecordInfo)
    (D : CXXRecordDecl) :
    ((extractInfo ext v I.toInfo (AnyDecl.CXXRecord D)).1 = false →
      ∃ v1, buildRecord ext v I D = some v1 ∧ v1.sink = v.sink) ∧
    ((extractInfo ext v I.toInfo (AnyDecl.CXXRecord D)).1 = true →
      parentAssertionsHold (extractInfo ext v I.toInfo (AnyDecl.CXXRecord D)).2.1.Namespace
        InfoType.IT_record (recordAccess D) = true →
      (∀ B ∈ D.bases, B.accessSpecifier ≠ AccessSpecifier.AS_none) →
      ∃ v1 own parent, buildRecord ext v I D = some v1 ∧
        v1.sink = v.sink ++ [writeBitcode (AnyInfo.Record own), parent] ∧
        own.toInfo = { (extractInfo ext v I.toInfo (AnyDecl.CXXRecord D)).2.1 with
          Name := match D.typedefNameForAnonDecl with
            | some TD => TD
            | none => (extractInfo ext v I.toInfo (AnyDecl.CXXRecord D)).2.1.Name } ∧
        writeParent (AnyInfo.Record own) (recordAccess D) = some parent) := by
  constructor
  · intro hflag
    exact ⟨(extractInfo ext v I.toInfo (AnyDecl.CXXRecord D)).2.2,
      by simp [buildRecord, hflag], extractInfo_sink ext v _ _⟩
  · intro hflag hpre hbases
    unfold buildRecord
    lift_lets
    extract_lets r I1 v1 v2 I2 I3 I4 I5 I6
    have hr : r.1 = true := hflag
    rw [hr]
    simp only [Bool.not_true, Bool.false_eq_true, if_false]
    have hI : I6.toInfo = { r.2.1 with
        Name := match D.typedefNameForAnonDecl with
          | some TD => TD
          | none => r.2.1.Name } := by
      simp only [I6]
      split
      · simp only [I5]
        split <;> simp only [I4, I3, I2] <;> split <;> rfl
      · simp only [I5]
        split <;> simp only [I4, I3, I2] <;> split <;> rfl
    obtain ⟨I7, v7, hb, hsink, hinfo⟩ := extractBases_some ext v2 I6 D hbases
    rw [hb]
    simp only []
    have hI7 : I7.toInfo = { r.2.1 with
        Name := match D.typedefNameForAnonDecl with
          | some TD => TD
          | none => r.2.1.Name } := by rw [hinfo, hI]
    have hv7 : v7.sink = v.sink := by
      rw [hsink]
      simp only [v2, v1]
      rw [extractInfo_sink]
    split
    · rename_i heq
      exact absurd heq (writeParent_ne_none_of (AnyInfo.Record I7) _ _ hI7 hpre)
    · rename_i b heq
      exact ⟨_, I7, b, rfl, by simp [insertBitcode, hv7], hI7, heq⟩

/-- The builder `buildFunction`: nothing when `extractInfo` fails, else record and parent. -/
theorem buildFunction_emits (ext : Externals) (v : ASTVisitor) (I : FunctionInfo)
    (DeclTy : FunctionDeclTy) (D : FunctionDecl) :
    ((extractInfo ext v I.toInfo (AnyDecl.Function (applyDecayToParameters D))).1 = false →
      ∃ v1, buildFunction ext v I DeclTy D = some v1 ∧ v1.sink = v.sink) ∧
    ((extractInfo ext v I.toInfo (AnyDecl.Function (applyDecayToParameters D))).1 = true →
      parentAssertionsHold
        (extractInfo ext v I.toInfo (AnyDecl.Function (applyDecayToParameters D))).2.1.Namespace
        InfoType.IT_function (functionAccess DeclTy D) = true →
      ∃ v1 own parent, buildFunction ext v I DeclTy D = some v1 ∧
        v1.sink = v.sink ++ [writeBitcode (AnyInfo.Function own), parent] ∧
        own.toInfo =
          (extractInfo ext v I.toInfo (AnyDecl.Function (applyDecayToParameters D))).2.1 ∧
        writeParent (AnyInfo.Function own) (functionAccess DeclTy D) = some parent) := by
  obtain ⟨hflag1, hinfo⟩ := constructFunction_spec ext v I DeclTy D
  have hsink := constructFunction_sink ext v I DeclTy D
  constructor
  · intro hflag
    refine ⟨(constructFunction ext v I DeclTy D).2.2, ?_, hsink⟩
    simp [buildFunction, hflag1, hflag]
  · intro hflag hpre
    unfold buildFunction
    lift_lets
    extract_lets c I1 v1 v2
    have hc : c.1 = true := by rw [← hflag]; exact hflag1
    rw [hc]
    simp only [Bool.not_true, Bool.false_eq_true, if_false]
    have hI : I1.toInfo =
        (extractInfo ext v I.toInfo (AnyDecl.Function (applyDecayToParameters D))).2.1 := hinfo
    have hv : v2.sink = v.sink ++ [writeBitcode (AnyInfo.Function I1)] := by
      simp only [v2, insertBitcode, v1]
      rw [hsink]
    split
    · rename_i heq
      exact absurd heq (writeParent_ne_none_of (AnyInfo.Function I1) _ _ hI hpre)
    · rename_i b heq
      exact ⟨_, I1, b, rfl, by simp [insertBitcode, hv], hI, heq⟩

/-- The builder `buildTypedef`: nothing when `extractInfo` fails or the underlying type has
no name, else record and parent. -/
theorem buildTypedef_emits (ext : Externals) (v : ASTVisitor) (I : TypedefInfo)
    (D : TypedefNameDecl) :
    ((extractInfo ext v I.toInfo (AnyDecl.Typedef D)).1 = false →
      ∃ v1, buildTypedef ext v I D = some v1 ∧ v1.sink = v.sink) ∧
    ((extractInfo ext v I.toInfo (AnyDecl.Typedef D)).1 = true →
      (getTypeInfoForType ext (extractInfo ext v I.toInfo (AnyDecl.Typedef D)).2.2
        D.underlyingType).1.Name.isEmpty = true →
      ∃ v1, buildTypedef ext v I D = some v1 ∧ v1.sink = v.sink) ∧
    ((extractInfo ext v I.toInfo (AnyDecl.Typedef D)).1 = true →
      (getTypeInfoForType ext (extractInfo ext v I.toInfo (AnyDecl.Typedef D)).2.2
        D.underlyingType).1.Name.isEmpty = false →
      parentAssertionsHold (extractInfo ext v I.toInfo (AnyDecl.Typedef D)).2.1.Namespace
        InfoType.IT_typedef D.access = true →
      ∃ v1 own parent, buildTypedef ext v I D = some v1 ∧
        v1.sink = v.sink ++ [writeBitcode (AnyInfo.Typedef own), parent] ∧
        own.toInfo = (extractInfo ext v I.toInfo (AnyDecl.Typedef D)).2.1 ∧
        writeParent (AnyInfo.Typedef own) D.access = some parent) := by
  refine ⟨?_, ?_, ?_⟩
  · intro hflag
    exact ⟨(extractInfo ext v I.toInfo (AnyDecl.Typedef D)).2.2, by simp [buildTypedef, hflag],
      extractInfo_sink ext v _ _⟩
  · intro hflag hempty
    refine ⟨(getTypeInfoForType ext (extractInfo ext v I.toInfo (AnyDecl.Typedef D)).2.2
      D.underlyingType).2, by simp [buildTypedef, hflag, hempty], ?_⟩
    rw [getTypeInfoForType_sink, extractInfo_sink]
  · intro hflag hempty hpre
    unfold buildTypedef
    lift_lets
    extract_lets r I1 v1 t I2 v2 v3 I3 v4
    have hr : r.1 = true := hflag
    have he : I2.Underlying.Name.isEmpty = false := hempty
    rw [hr, he]
    simp only [Bool.not_true, Bool.false_eq_true, if_false]
    have hI : I3.toInfo = r.2.1 := rfl
    have hv : v4.sink = v.sink ++ [writeBitcode (AnyInfo.Typedef I3)] := by
      simp only [v4, insertBitcode, v3, v2, t, getTypeInfoForType_sink, v1]
      rw [extractInfo_sink]
    split
    · rename_i heq
      exact absurd heq (writeParent_ne_none_of (AnyInfo.Typedef I3) _ _ hI hpre)
    · rename_i b heq
      exact ⟨_, I3, b, rfl, by simp [insertBitcode, hv], hI, heq⟩

/-! ## The policy flag is never written -/

/-- The call `extractInfo` leaves the policy flag alone. -/
theorem extractInfo_policy (ext : Externals) (v : ASTVisitor) (I : Info) (D : AnyDecl) :
    (extractInfo ext v I D).2.2.PublicOnly = v.PublicOnly := by
  have h1 := (getParentNamespaces_frame ext v I.Namespace D).2
  have h2 := fun id => (extractSymbolID_frame ext (getParentNamespaces ext v I.Namespace D).2.2
    D.toDecl.usr id).2
  simp only [extractInfo]
  split
  · exact h1
  · split
    · rw [h2, h1]
    · rw [h2, h1]

/-- The call `getTypeInfoForType` leaves the policy flag alone. -/
theorem getTypeInfoForType_policy (ext : Externals) (v : ASTVisitor) (T : QualType) :
    (getTypeInfoForType ext v T).2.PublicOnly = v.PublicOnly := by
  simp only [getTypeInfoForType]
  split
  · exact (extractSymbolID_frame ext v _ _).2
  · rfl

/-- The call `parseParameters` leaves the policy flag alone. -/
theorem parseParameters_policy (ext : Externals) (parameters : List ParmVarDecl) :
    ∀ (v : ASTVisitor) (I : FunctionInfo),
    (parseParameters ext v I parameters).2.PublicOnly = v.PublicOnly := by
  induction parameters with
  | nil => intro v I; rfl
  | cons P parameters ih =>
    intro v I
    simp only [parseParameters, List.foldl_cons]
    have := ih (getTypeInfoForType ext v P.type).2
      { I with Params := I.Params ++ [⟨(getTypeInfoForType ext v P.type).1, P.name, P.defaultArg⟩] }
    simp only [parseParameters] at this
    rw [this, getTypeInfoForType_policy]

/-- The call `parseTemplateArgs` for a function specialization leaves the policy flag alone. -/
theorem parseTemplateArgsFunction_policy (ext : Externals) (v : ASTVisitor) (I : TemplateInfo)
    (spec : FunctionTemplateSpecializationInfo) :
    (parseTemplateArgsFunction ext v I spec).2.PublicOnly = v.PublicOnly := by
  simp only [parseTemplateArgsFunction]
  cases spec.template <;> cases spec.TemplateArguments <;>
    simp [(extractSymbolID_frame ext v _ _).2]

/-- The call `constructFunction` leaves the policy flag alone. -/
theorem constructFunction_policy (ext : Externals) (v : ASTVisitor) (I : FunctionInfo)
    (DeclTy : FunctionDeclTy) (D : FunctionDecl) :
    (constructFunction ext v I DeclTy D).2.2.PublicOnly = v.PublicOnly := by
  have h1 := extractInfo_policy ext v I.toInfo (AnyDecl.Function (applyDecayToParameters D))
  simp only [constructFunction]
  split
  · exact h1
  · cases hT : (applyDecayToParameters D).templateSpecializationInfo with
    | none =>
      simp only [parseParameters_policy, getTypeInfoForType_policy]
      exact h1
    | some ftsi =>
      simp only [parseTemplateArgsFunction_policy, parseParameters_policy,
        getTypeInfoForType_policy]
      exact h1

/-- The loop of `extractBases` leaves the policy flag alone. -/
theorem extractBases_loop_policy (ext : Externals) (bases : List CXXBaseSpecifier) :
    ∀ (I I1 : RecordInfo) (v v1 : ASTVisitor),
    bases.foldl (extractBasesStep ext) (some (I, v)) = some (I1, v1) →
    v1.PublicOnly = v.PublicOnly := by
  induction bases with
  | nil =>
    intro I I1 v v1 h
    simp only [List.foldl_nil, Option.some.injEq, Prod.mk.injEq] at h
    rw [h.2]
  | cons B bases ih =>
    intro I I1 v v1 h
    rw [List.foldl_cons] at h
    cases hstep : extractBasesStep ext (some (I, v)) B with
    | none =>
      rw [hstep] at h
      have hnone : ∀ l : List CXXBaseSpecifier, l.foldl (extractBasesStep ext) none = none := by
        intro l
        induction l with
        | nil => rfl
        | cons B0 l ihl => rw [List.foldl_cons]; exact ihl
      rw [hnone] at h
      exact absurd h (by simp)
    | some st =>
      obtain ⟨I2, v2⟩ := st
      rw [hstep] at h
      rw [ih I2 I1 v2 v1 h]
      simp only [extractBasesStep] at hstep
      split at hstep
      · simp only [Option.some.injEq, Prod.mk.injEq] at hstep
        rw [hstep.2]
      · split at hstep
        · split at hstep
          · exact absurd hstep (by simp)
          · simp only [Option.some.injEq, Prod.mk.injEq] at hstep
            rw [← hstep.2]
            exact (extractSymbolID_frame ext v _ _).2
        · split at hstep
          · split at hstep
            · exact absurd hstep (by simp)
            · simp only [Option.some.injEq, Prod.mk.injEq] at hstep
              rw [← hstep.2]
              exact (extractSymbolID_frame ext v _ _).2
          · split at hstep
            · exact absurd hstep (by simp)
            · simp only [Option.some.injEq, Prod.mk.injEq] at hstep
              rw [hstep.2]

/-- The call `extractBases` leaves the policy flag alone. -/
theorem extractBases_policy (ext : Externals) (v v1 : ASTVisitor) (I I1 : RecordInfo)
    (D : CXXRecordDecl) (h : extractBases ext v I D = some (I1, v1)) :
    v1.PublicOnly = v.PublicOnly := by
  simp only [extractBases] at h
  split at h
  · simp only [Option.some.injEq, Prod.mk.injEq] at h
    rw [h.2]
  · exact extractBases_loop_policy ext D.bases I I1 v v1 h

/-- The builder `buildNamespace` leaves the policy flag alone. -/
theorem buildNamespace_policy (ext : Externals) (v w : ASTVisitor) (I : NamespaceInfo) (D : NamespaceDecl)
    (h : buildNamespace ext v I D = some w) : w.PublicOnly = v.PublicOnly := by
  unfold buildNamespace at h
  lift_lets at h
  extract_lets r I1 v1 I2 v2 at h
  split at h
  · obtain rfl := Option.some.inj h
    exact extractInfo_policy ext v _ _
  · split at h
    · exact absurd h (by simp)
    · obtain rfl := Option.some.inj h
      simp only [insertBitcode, v2, v1]
      exact extractInfo_policy ext v _ _

/-- The builder `buildEnum` leaves the policy flag alone. -/
theorem buildEnum_policy (ext : Externals) (v w : ASTVisitor) (I : EnumInfo) (D : EnumDecl)
    (h : buildEnum ext v I D = some w) : w.PublicOnly = v.PublicOnly := by
  unfold buildEnum at h
  lift_lets at h
  extract_lets r I1 v1 v2 I2 I3 Name I4 I5 v3 at h
  split at h
  · obtain rfl := Option.some.inj h
    exact extractInfo_policy ext v _ _
  · split at h
    · exact absurd h (by simp)
    · obtain rfl := Option.some.inj h
      simp only [insertBitcode, v3, v2, v1]
      exact extractInfo_policy ext v _ _

/-- The builder `buildField` leaves the policy flag alone. -/
theorem buildField_policy (ext : Externals) (v w : ASTVisitor) (I : FieldInfo) (D : FieldDecl)
    (h : buildField ext v I D = some w) : w.PublicOnly = v.PublicOnly := by
  unfold buildField at h
  lift_lets at h
  extract_lets r I1 v1 v2 I2 t I3 v3 I4 v4 at h
  split at h
  · obtain rfl := Option.some.inj h
    exact extractInfo_policy ext v _ _
  · split at h
    · exact absurd h (by simp)
    · obtain rfl := Option.some.inj h
      simp only [insertBitcode, v4, v3, t, v2, v1, getTypeInfoForType_policy]
      exact extractInfo_policy ext v _ _

/-- The builder `buildVar` leaves the policy flag alone. -/
theorem buildVar_policy (ext : Externals) (v w : ASTVisitor) (I : VarInfo) (D : VarDecl)
    (h : buildVar ext v I D = some w) : w.PublicOnly = v.PublicOnly := by
  unfold buildVar at h
  lift_lets at h
  extract_lets r I1 v1 v2 I2 t I3 v3 I4 v4 at h
  split at h
  · obtain rfl := Option.some.inj h
    exact extractInfo_policy ext v _ _
  · split at h
    · exact absurd h (by simp)
    · obtain rfl := Option.some.inj h
      simp only [insertBitcode, v4, v3, t, v2, v1, getTypeInfoForType_policy]
      exact extractInfo_policy ext v _ _

/-- The builder `buildTypedef` leaves the policy flag alone. -/
theorem buildTypedef_policy (ext : Externals) (v w : ASTVisitor) (I : TypedefInfo)
    (D : TypedefNameDecl) (h : buildTypedef ext v I D = some w) :
    w.PublicOnly = v.PublicOnly := by
  unfold buildTypedef at h
  lift_lets at h
  extract_lets r I1 v1 t I2 v2 v3 I3 v4 at h
  split at h
  · obtain rfl := Option.some.inj h
    exact extractInfo_policy ext v _ _
  · split at h
    · obtain rfl := Option.some.inj h
      simp only [v2, t, getTypeInfoForType_policy, v1]
      exact extractInfo_policy ext v _ _
    · split at h
      · exact absurd h (by simp)
      · obtain rfl := Option.some.inj h
        simp only [insertBitcode, v4, v3, v2, t, getTypeInfoForType_policy, v1]
        exact extractInfo_policy ext v _ _

/-- The builder `buildFunction` leaves the policy flag alone. -/
theorem buildFunction_policy (ext : Externals) (v w : ASTVisitor) (I : FunctionInfo)
    (DeclTy : FunctionDeclTy) (D : FunctionDecl)
    (h : buildFunction ext v I DeclTy D = some w) : w.PublicOnly = v.PublicOnly := by
  unfold buildFunction at h
  lift_lets at h
  extract_lets c I1 v1 v2 at h
  split at h
  · obtain rfl := Option.some.inj h
    exact constructFunction_policy ext v _ _ _
  · split at h
    · exact absurd h (by simp)
    · obtain rfl := Option.some.inj h
      simp only [insertBitcode, v2, v1]
      exact constructFunction_policy ext v _ _ _

/-- The builder `buildRecord` leaves the policy flag alone. -/
theorem buildRecord_policy (ext : Externals) (v w : ASTVisitor) (I : RecordInfo)
    (D : CXXRecordDecl) (h : buildRecord ext v I D = some w) :
    w.PublicOnly = v.PublicOnly := by
  unfold buildRecord at h
  lift_lets at h
  extract_lets r I1 v1 v2 I2 I3 I4 I5 I6 at h
  split at h
  · obtain rfl := Option.some.inj h
    exact extractInfo_policy ext v _ _
  · cases hb : extractBases ext v2 I6 D with
    | none =>
      rw [hb] at h
      exact absurd h (by simp)
    | some st =>
      obtain ⟨I7, v7⟩ := st
      rw [hb] at h
      simp only [] at h
      have h7 := extractBases_policy ext v2 v7 I6 I7 D hb
      split at h
      · exact absurd h (by simp)
      · obtain rfl := Option.some.inj h
        simp only [insertBitcode, h7, v2, v1]
        exact extractInfo_policy ext v _ _

/-! ## What `extractInfo` computes -/

/-- The flag and the list of `getParentNamespaces`, whatever the visitor. -/
theorem getParentNamespaces_value (ext : Externals) (v : ASTVisitor)
    (Namespaces : List Reference) (D : AnyDecl) :
    (getParentNamespaces ext v Namespaces D).1 = isOrIsInAnonymousNamespace D ∧
    (getParentNamespaces ext v Namespaces D).2.1 = Namespaces ++ scopeChainOf ext D := by
  have hloop := getParentNamespaces_loop ext (D.toDecl.declContext :: D.toDecl.parents)
  have hD : (match D.asNamespaceDecl with
      | some N => N.isAnonymousNamespace
      | none => false) = isAnonymousNamespaceDecl D := by
    cases D <;> rfl
  constructor
  · simp only [getParentNamespaces]
    rw [(hloop _).2, hD]
    rfl
  · simp only [getParentNamespaces]
    rw [(hloop _).1]
    rfl

/-- The flag of `extractInfo`, and the base part it leaves when the flag is set. -/
theorem extractInfo_value (ext : Externals) (v : ASTVisitor) (I : Info) (D : AnyDecl) :
    (extractInfo ext v I D).1 =
      (shouldSerializeInfo v.PublicOnly (isOrIsInAnonymousNamespace D) D.toDecl &&
        D.toDecl.usr.isSome) ∧
    ((extractInfo ext v I D).1 = true →
      (extractInfo ext v I D).2.1 =
        { id := symbolIDOf ext D.toDecl.usr
          Name := D.toDecl.name
          Namespace := I.Namespace ++ scopeChainOf ext D
          javadoc := parseRawComment ext D.toDecl }) := by
  obtain ⟨hflag, hlist⟩ := getParentNamespaces_value ext v I.Namespace D
  have hpol := (getParentNamespaces_frame ext v I.Namespace D).2
  unfold extractInfo
  lift_lets
  extract_lets r anonymous I1 v1 e I2 v2 I3 I4
  have hanon : anonymous = isOrIsInAnonymousNamespace D := hflag
  have hv1 : v1.PublicOnly = v.PublicOnly := hpol
  have he := extractSymbolID_result ext v1 D.toDecl.usr I1.id
  have he1 : e.1 = D.toDecl.usr.isSome := he.1
  rw [hanon, hv1, he1]
  cases hs : shouldSerializeInfo v.PublicOnly (isOrIsInAnonymousNamespace D) D.toDecl with
  | false => simp
  | true =>
    cases hu : D.toDecl.usr with
    | none => simp
    | some usr =>
      simp only [Bool.not_true, Bool.false_eq_true, if_false, Option.isSome_some, Bool.and_self,
        true_implies, true_and]
      have he2 : e.2.1 = ext.sha1 usr := by
        show (extractSymbolID ext v1 D.toDecl.usr I1.id).2.1 = _
        rw [he.2, hu]
      simp only [I4, I3, I2, he2, I1, symbolIDOf]
      have hl : r.2.1 = I.Namespace ++ scopeChainOf ext D := hlist
      rw [hl]

/-! ## The builders and the sink -/

/-- The six builders on runs that meet the assertions.  Each of `buildNamespace`,
`buildRecord`, `buildEnum`, `buildField`, `buildVar` and `buildFunction` hands nothing to the
sink and returns normally when `extractInfo` returns `false`; when it returns `true`, and
the assertions of `writeParent` (for a class also the precondition of
`getAccessFromSpecifier` on its base specifiers) are met, it hands exactly two
fragments to the sink, the record of the entity first and its parent fragment
second.  A run on which an assertion fails is the subject of
`buildFunction_class_scope`. -/
theorem builders_emit_nothing_or_two (ext : Externals) (v : ASTVisitor) :
    (∀ (I : NamespaceInfo) (D : NamespaceDecl),
      EmitsNothingOrTwo v (extractInfo ext v I.toInfo (AnyDecl.Namespace D))
        InfoType.IT_namespace AccessSpecifier.AS_none (buildNamespace ext v I D)) ∧
    (∀ (I : RecordInfo) (D : CXXRecordDecl),
      (∀ B ∈ D.bases, B.accessSpecifier ≠ AccessSpecifier.AS_none) →
      EmitsNothingOrTwo v (extractInfo ext v I.toInfo (AnyDecl.CXXRecord D))
        InfoType.IT_record (recordAccess D) (buildRecord ext v I D)) ∧
    (∀ (I : EnumInfo) (D : EnumDecl),
      EmitsNothingOrTwo v (extractInfo ext v I.toInfo (AnyDecl.Enum D))
        InfoType.IT_enum D.access (buildEnum ext v I D)) ∧
    (∀ (I : FieldInfo) (D : FieldDecl),
      EmitsNothingOrTwo v (extractInfo ext v I.toInfo (AnyDecl.Field D))
        InfoType.IT_field D.access (buildField ext v I D)) ∧
    (∀ (I : VarInfo) (D : VarDecl),
      EmitsNothingOrTwo v (extractInfo ext v I.toInfo (AnyDecl.Var D))
        InfoType.IT_variable D.access (buildVar ext v I D)) ∧
    (∀ (I : FunctionInfo) (DeclTy : FunctionDeclTy) (D : FunctionDecl),
      EmitsNothingOrTwo v
        (extractInfo ext v I.toInfo (AnyDecl.Function (applyDecayToParameters D)))
        InfoType.IT_function (functionAccess DeclTy D) (buildFunction ext v I DeclTy D)) := by
  refine ⟨?_, ?_, ?_, ?_, ?_, ?_⟩
  · intro I D
    obtain ⟨h1, h2⟩ := buildNamespace_emits ext v I D
    refine ⟨h1, fun hflag hpre => ?_⟩
    obtain ⟨v1, own, parent, hb, hs, hi, hw⟩ := h2 hflag hpre
    exact ⟨v1, AnyInfo.Namespace own, parent, hb, hs, rfl, by simp [AnyInfo.toInfo, hi],
      by simp [AnyInfo.toInfo, hi], hw⟩
  · intro I D hbases
    obtain ⟨h1, h2⟩ := buildRecord_emits ext v I D
    refine ⟨h1, fun hflag hpre => ?_⟩
    obtain ⟨v1, own, parent, hb, hs, hi, hw⟩ := h2 hflag hpre hbases
    exact ⟨v1, AnyInfo.Record own, parent, hb, hs, rfl, by simp [AnyInfo.toInfo, hi],
      by simp [AnyInfo.toInfo, hi], hw⟩
  · intro I D
    obtain ⟨h1, h2⟩ := buildEnum_emits ext v I D
    refine ⟨h1, fun hflag hpre => ?_⟩
    obtain ⟨v1, own, parent, hb, hs, hi, hw⟩ := h2 hflag hpre
    exact ⟨v1, AnyInfo.Enum own, parent, hb, hs, rfl, by simp [AnyInfo.toInfo, hi],
      by simp [AnyInfo.toInfo, hi], hw⟩
  · intro I D
    obtain ⟨h1, h2⟩ := buildField_emits ext v I D
    refine ⟨h1, fun hflag hpre => ?_⟩
    obtain ⟨v1, own, parent, hb, hs, hi, hw⟩ := h2 hflag hpre
    exact ⟨v1, AnyInfo.Field own, parent, hb, hs, rfl, by simp [AnyInfo.toInfo, hi],
      by simp [AnyInfo.toInfo, hi], hw⟩
  · intro I D
    obtain ⟨h1, h2⟩ := buildVar_emits ext v I D
    refine ⟨h1, fun hflag hpre => ?_⟩
    obtain ⟨v1, own, parent, hb, hs, hi, hw⟩ := h2 hflag hpre
    exact ⟨v1, AnyInfo.Var own, parent, hb, hs, rfl, by simp [AnyInfo.toInfo, hi],
      by simp [AnyInfo.toInfo, hi], hw⟩
  · intro I DeclTy D
    obtain ⟨h1, h2⟩ := buildFunction_emits ext v I DeclTy D
    refine ⟨h1, fun hflag hpre => ?_⟩
    obtain ⟨v1, own, parent, hb, hs, hi, hw⟩ := h2 hflag hpre
    exact ⟨v1, AnyInfo.Function own, parent, hb, hs, rfl, by simp [AnyInfo.toInfo, hi],
      by simp [AnyInfo.toInfo, hi], hw⟩

/-- The builder `buildEnum` on the sample enumeration, from a fresh visitor: two
fragments, the record and its parent fragment. -/
theorem builders_emit_nothing_or_two_witness :
    ∃ v1 own parent, buildEnum sampleExternals sampleVisitor {} sampleEnum = some v1 ∧
      v1.sink = sampleVisitor.sink ++ [writeBitcode own, parent] ∧
      own.type_id = InfoType.IT_enum ∧
      writeParent own sampleEnum.access = some parent :=
  match ((builders_emit_nothing_or_two sampleExternals sampleVisitor).2.2.1 {} sampleEnum).2
      (by decide) (by decide) with
  | ⟨v1, own, parent, h1, h2, h3, _, _, h6⟩ => ⟨v1, own, parent, h1, h2, h3, h6⟩

/-! ## Parent fragments of the children of a namespace -/

/-- With no access `writeParent` returns the stub of the namespace at the head of the
scope chain, holding the reference to the record. -/
theorem writeParent_namespace_stub (I : AnyInfo) (N0 : Reference) (rest : List Reference)
    (hns : I.toInfo.Namespace = N0 :: rest) (hN0 : N0.RefType = InfoType.IT_namespace)
    (hk : I.type_id ≠ InfoType.IT_field) :
    writeParent I AccessSpecifier.AS_none =
      some (writeBitcode (AnyInfo.Namespace
        (namespaceStub N0.id I.type_id ⟨I.toInfo.id, I.toInfo.Name, I.type_id⟩))) := by
  cases I with
  | Field I => exact absurd rfl hk
  | Namespace I =>
    simp only [AnyInfo.toInfo] at hns
    simp [writeParent, AnyInfo.toInfo, AnyInfo.type_id, hns, hN0, NamespaceInfo.insertChild,
      namespaceStub, singleChild]
  | Record I =>
    simp only [AnyInfo.toInfo] at hns
    simp [writeParent, AnyInfo.toInfo, AnyInfo.type_id, hns, hN0, NamespaceInfo.insertChild,
      namespaceStub, singleChild]
  | Function I =>
    simp only [AnyInfo.toInfo] at hns
    simp [writeParent, AnyInfo.toInfo, AnyInfo.type_id, hns, hN0, NamespaceInfo.insertChild,
      namespaceStub, singleChild]
  | Typedef I =>
    simp only [AnyInfo.toInfo] at hns
    simp [writeParent, AnyInfo.toInfo, AnyInfo.type_id, hns, hN0, NamespaceInfo.insertChild,
      namespaceStub, singleChild]
  | Enum I =>
    simp only [AnyInfo.toInfo] at hns
    simp [writeParent, AnyInfo.toInfo, AnyInfo.type_id, hns, hN0, NamespaceInfo.insertChild,
      namespaceStub, singleChild]
  | Var I =>
    simp only [AnyInfo.toInfo] at hns
    simp [writeParent, AnyInfo.toInfo, AnyInfo.type_id, hns, hN0, NamespaceInfo.insertChild,
      namespaceStub, singleChild]

/-- The scope chain of a declaration whose context is a namespace or the
translation unit starts with the reference to that namespace. -/
theorem scopeChainOf_head (ext : Externals) (D : AnyDecl) (ctx : DeclContext)
    (hD : D.toDecl.declContext = ctx)
    (hctx : ctx = DeclContext.TranslationUnit ∨ ∃ N a, ctx = DeclContext.Namespace N a) :
    ∃ N0 rest, scopeChainOf ext D = N0 :: rest ∧ N0.id = namespaceIdOf ext ctx ∧
      N0.RefType = InfoType.IT_namespace := by
  rcases hctx with rfl | ⟨N, a, rfl⟩
  · refine ⟨globalNamespaceReference,
      (D.toDecl.parents.map (contextContribution ext)).flatten, ?_, rfl, rfl⟩
    simp [scopeChainOf, hD, contextContribution]
  · refine ⟨⟨symbolIDOf ext N.usr, if a then "@nonymous_namespace" else N.name,
      InfoType.IT_namespace⟩, (D.toDecl.parents.map (contextContribution ext)).flatten, ?_,
      rfl, rfl⟩
    simp [scopeChainOf, hD, contextContribution, scopeReference]

/-- The name `getTypeInfoForType` records for a type. -/
theorem getTypeInfoForType_name (ext : Externals) (v : ASTVisitor) (T : QualType) :
    (getTypeInfoForType ext v T).1.Name = typeInfoName T := by
  simp only [getTypeInfoForType, getTagDeclForType, typeInfoName]
  split <;> rfl

/-- The flag of `extractInfo` is set on an admitted declaration. -/
theorem extractInfo_admitted (ext : Externals) (v : ASTVisitor) (I : Info) (D : AnyDecl)
    (h : admitted v.PublicOnly D = true) : (extractInfo ext v I D).1 = true := by
  rw [(extractInfo_value ext v I D).1]
  exact h

/-- Building a child of a namespace from any visitor: the record of the child
and then the stub of that namespace holding the reference to the child. -/
theorem buildChild_emits (ext : Externals) (v : ASTVisitor) (C : NamespaceChild)
    (ctx : DeclContext) (hC : C.toAnyDecl.toDecl.declContext = ctx)
    (hctx : ctx = DeclContext.TranslationUnit ∨ ∃ N a, ctx = DeclContext.Namespace N a)
    (hadm : admitted v.PublicOnly C.toAnyDecl = true) (hscope : C.atNamespaceScope) :
    ∃ v1 own, buildChild ext v C = some v1 ∧
      v1.sink = v.sink ++ [writeBitcode own, writeBitcode (AnyInfo.Namespace
        (namespaceStub (namespaceIdOf ext ctx) C.kind (childReference ext C)))] ∧
      v1.PublicOnly = v.PublicOnly ∧ own.type_id = C.kind ∧
      own.toInfo.id = (childReference ext C).id := by
  have hflag := extractInfo_admitted ext v ({} : Info) C.toAnyDecl hadm
  have hval := (extractInfo_value ext v ({} : Info) C.toAnyDecl).2 hflag
  obtain ⟨N0, rest, hchain, hid, hrt⟩ := scopeChainOf_head ext C.toAnyDecl ctx hC hctx
  have hns : (extractInfo ext v ({} : Info) C.toAnyDecl).2.1.Namespace = N0 :: rest := by
    rw [hval]
    simpa using hchain
  have hpre : ∀ kind, kind ≠ InfoType.IT_field → parentAssertionsHold
      (extractInfo ext v ({} : Info) C.toAnyDecl).2.1.Namespace kind
      AccessSpecifier.AS_none = true := by
    intro kind hk
    rw [hns]
    simp [parentAssertionsHold, hrt, hk]
  cases C with
  | Enum D =>
    simp only [NamespaceChild.atNamespaceScope] at hscope
    simp only [NamespaceChild.toAnyDecl] at hflag hval hns hpre
    obtain ⟨v1, own, parent, hb, hs, hi, hw⟩ :=
      (buildEnum_emits ext v {} D).2 hflag
        (by rw [hscope]; exact hpre _ (by decide))
    have hp := writeParent_namespace_stub (AnyInfo.Enum own) N0 rest
      (by rw [← hns]; exact congrArg Info.Namespace hi) hrt (by simp [AnyInfo.type_id])
    rw [hscope, hp] at hw
    obtain rfl := Option.some.inj hw
    refine ⟨v1, AnyInfo.Enum own, hb, ?_, buildEnum_policy ext v v1 _ D hb, rfl, ?_⟩
    · rw [hs, hid]
      simp only [AnyInfo.toInfo, AnyInfo.type_id, hi]
      rw [hval]
      rfl
    · simp only [AnyInfo.toInfo, hi]
      rw [hval]
      rfl
  | Var Template D =>
    simp only [NamespaceChild.atNamespaceScope] at hscope
    simp only [NamespaceChild.toAnyDecl] at hflag hval hns hpre
    obtain ⟨v1, own, parent, hb, hs, hi, hw⟩ :=
      (buildVar_emits ext v { Template := Template } D).2 hflag
        (by rw [hscope]; exact hpre _ (by decide))
    have hp := writeParent_namespace_stub (AnyInfo.Var own) N0 rest
      (by rw [← hns]; exact congrArg Info.Namespace hi) hrt (by simp [AnyInfo.type_id])
    rw [hscope, hp] at hw
    obtain rfl := Option.some.inj hw
    refine ⟨v1, AnyInfo.Var own, hb, ?_, buildVar_policy ext v v1 _ D hb, rfl, ?_⟩
    · rw [hs, hid]
      simp only [AnyInfo.toInfo, AnyInfo.type_id, hi]
      rw [hval]
      rfl
    · simp only [AnyInfo.toInfo, hi]
      rw [hval]
      rfl
  | Function DeclTy Template D =>
    simp only [NamespaceChild.atNamespaceScope] at hscope
    simp only [NamespaceChild.toAnyDecl] at hflag hval hns hpre
    obtain ⟨v1, own, parent, hb, hs, hi, hw⟩ :=
      (buildFunction_emits ext v { Template := Template } DeclTy D).2 hflag
        (by rw [hscope]; exact hpre _ (by decide))
    have hp := writeParent_namespace_stub (AnyInfo.Function own) N0 rest
      (by rw [← hns]; exact congrArg Info.Namespace hi) hrt (by simp [AnyInfo.type_id])
    rw [hscope, hp] at hw
    obtain rfl := Option.some.inj hw
    refine ⟨v1, AnyInfo.Function own, hb, ?_, buildFunction_policy ext v v1 _ DeclTy D hb, rfl, ?_⟩
    · rw [hs, hid]
      simp only [AnyInfo.toInfo, AnyInfo.type_id, hi]
      rw [hval]
      rfl
    · simp only [AnyInfo.toInfo, hi]
      rw [hval]
      rfl
  | Namespace D =>
    simp only [NamespaceChild.atNamespaceScope] at hscope
    simp only [NamespaceChild.toAnyDecl] at hflag hval hns hpre
    obtain ⟨v1, own, parent, hb, hs, hi, hw⟩ :=
      (buildNamespace_emits ext v {} D).2 hflag
        (hpre _ (by decide))
    have hown : own.toInfo.Namespace = N0 :: rest := by rw [hi]; exact hns
    have hp := writeParent_namespace_stub (AnyInfo.Namespace own) N0 rest hown hrt
      (by simp [AnyInfo.type_id])
    rw [hp] at hw
    obtain rfl := Option.some.inj hw
    refine ⟨v1, AnyInfo.Namespace own, hb, ?_, buildNamespace_policy ext v v1 _ D hb, rfl, ?_⟩
    · rw [hs, hid]
      simp only [AnyInfo.toInfo, AnyInfo.type_id, hi]
      rw [hval]
      rfl
    · simp only [AnyInfo.toInfo, hi]
      rw [hval]
      rfl
  | Record Template D =>
    simp only [NamespaceChild.atNamespaceScope] at hscope
    simp only [NamespaceChild.toAnyDecl] at hflag hval hns hpre
    obtain ⟨v1, own, parent, hb, hs, hi, hw⟩ :=
      (buildRecord_emits ext v { Template := Template } D).2 hflag
        (by rw [hscope.1]; exact hpre _ (by decide)) hscope.2
    have hown : own.toInfo.Namespace = N0 :: rest := by rw [hi]; exact hns
    have hp := writeParent_namespace_stub (AnyInfo.Record own) N0 rest hown hrt
      (by simp [AnyInfo.type_id])
    rw [hscope.1, hp] at hw
    obtain rfl := Option.some.inj hw
    refine ⟨v1, AnyInfo.Record own, hb, ?_, buildRecord_policy ext v v1 _ D hb, rfl, ?_⟩
    · rw [hs, hid]
      simp only [AnyInfo.toInfo, AnyInfo.type_id, hi]
      rw [hval]
      rfl
    · simp only [AnyInfo.toInfo, hi]
      rw [hval]
      rfl
  | Typedef Template IsUsing D =>
    simp only [NamespaceChild.atNamespaceScope] at hscope
    simp only [NamespaceChild.toAnyDecl] at hflag hval hns hpre
    obtain ⟨v1, own, parent, hb, hs, hi, hw⟩ :=
      (buildTypedef_emits ext v { Template := Template, IsUsing := IsUsing } D).2.2 hflag
        (by rw [getTypeInfoForType_name]; exact hscope.2)
        (by rw [hscope.1]; exact hpre _ (by decide))
    have hp := writeParent_namespace_stub (AnyInfo.Typedef own) N0 rest
      (by rw [← hns]; exact congrArg Info.Namespace hi) hrt (by simp [AnyInfo.type_id])
    rw [hscope.1, hp] at hw
    obtain rfl := Option.some.inj hw
    refine ⟨v1, AnyInfo.Typedef own, hb, ?_, buildTypedef_policy ext v v1 _ D hb, rfl, ?_⟩
    · rw [hs, hid]
      simp only [AnyInfo.toInfo, AnyInfo.type_id, hi]
      rw [hval]
      rfl
    · simp only [AnyInfo.toInfo, hi]
      rw [hval]
      rfl

/-- The union of two one-element lists does not depend on the order, up to a
permutation. -/
theorem union_single_perm (a b : Reference) : ([a] ∪ [b]).Perm ([b] ∪ [a]) := by
  by_cases h : a = b
  · subst h
    exact List.Perm.refl _
  · have h1 : [a] ∪ [b] = [a, b] := by
      simp [List.cons_union, List.nil_union, List.insert, h]
    have h2 : [b] ∪ [a] = [b, a] := by
      simp [List.cons_union, List.nil_union, List.insert, Ne.symm h]
    rw [h1, h2]
    exact List.Perm.swap b a []

/-- The merge of the stubs of two children of one namespace holds both
children, and is the same in either order up to the order of the lists. -/
theorem mergeNamespaceInfo_stubs (id : SymbolID) (A B : NamespaceChild) (rA rB : Reference) :
    (mergeNamespaceInfo (namespaceStub id A.kind rA) (namespaceStub id B.kind rB)).id = id ∧
    rA ∈ (mergeNamespaceInfo (namespaceStub id A.kind rA)
      (namespaceStub id B.kind rB)).allChildren ∧
    rB ∈ (mergeNamespaceInfo (namespaceStub id A.kind rA)
      (namespaceStub id B.kind rB)).allChildren ∧
    (mergeNamespaceInfo (namespaceStub id A.kind rA) (namespaceStub id B.kind rB)).sameUpToOrder
      (mergeNamespaceInfo (namespaceStub id B.kind rB) (namespaceStub id A.kind rA)) := by
  have hp : (List.insert rA [rB]).Perm (List.insert rB [rA]) := by
    simpa using union_single_perm rA rB
  have hl : rA ∈ [rA] ∪ [rB] := List.mem_union_iff.mpr (Or.inl (List.mem_singleton_self _))
  have hr : rB ∈ [rA] ∪ [rB] := List.mem_union_iff.mpr (Or.inr (List.mem_singleton_self _))
  cases A <;> cases B <;>
    simp [mergeNamespaceInfo, namespaceStub, singleChild, NamespaceChild.kind,
      NamespaceInfo.allChildren, NamespaceInfo.sameUpToOrder, hp, hl, hr]

/-- C10. Two children of one namespace, built in either order from the same
visitor, give the same two parent fragments: stubs of that namespace, each
with the reference to one child.  Their merge holds both children and is the
same whichever fragment comes first, up to the order inside the child lists. -/
theorem parent_fragments_commute (ext : Externals) (v : ASTVisitor) (A B : NamespaceChild)
    (ctx : DeclContext)
    (hctx : ctx = DeclContext.TranslationUnit ∨ ∃ N a, ctx = DeclContext.Namespace N a)
    (hA : A.toAnyDecl.toDecl.declContext = ctx) (hB : B.toAnyDecl.toDecl.declContext = ctx)
    (hadmA : admitted v.PublicOnly A.toAnyDecl = true)
    (hadmB : admitted v.PublicOnly B.toAnyDecl = true)
    (hscA : A.atNamespaceScope) (hscB : B.atNamespaceScope) :
    ∃ vA vAB vB vBA ownA ownB ownA2 ownB2 PA PB,
      buildChild ext v A = some vA ∧ buildChild ext vA B = some vAB ∧
      buildChild ext v B = some vB ∧ buildChild ext vB A = some vBA ∧
      vAB.sink = v.sink ++ [writeBitcode ownA, writeBitcode (AnyInfo.Namespace PA),
        writeBitcode ownB, writeBitcode (AnyInfo.Namespace PB)] ∧
      vBA.sink = v.sink ++ [writeBitcode ownB2, writeBitcode (AnyInfo.Namespace PB),
        writeBitcode ownA2, writeBitcode (AnyInfo.Namespace PA)] ∧
      PA.id = namespaceIdOf ext ctx ∧ PB.id = namespaceIdOf ext ctx ∧
      PA.allChildren = [childReference ext A] ∧ PB.allChildren = [childReference ext B] ∧
      childReference ext A ∈ (mergeNamespaceInfo PA PB).allChildren ∧
      childReference ext B ∈ (mergeNamespaceInfo PA PB).allChildren ∧
      (mergeNamespaceInfo PA PB).sameUpToOrder (mergeNamespaceInfo PB PA) := by
  obtain ⟨vA, ownA, hbA, hsA, hpA, _, _⟩ := buildChild_emits ext v A ctx hA hctx hadmA hscA
  obtain ⟨vAB, ownB, hbAB, hsAB, _, _, _⟩ :=
    buildChild_emits ext vA B ctx hB hctx (by rw [hpA]; exact hadmB) hscB
  obtain ⟨vB, ownB2, hbB, hsB, hpB, _, _⟩ := buildChild_emits ext v B ctx hB hctx hadmB hscB
  obtain ⟨vBA, ownA2, hbBA, hsBA, _, _, _⟩ :=
    buildChild_emits ext vB A ctx hA hctx (by rw [hpB]; exact hadmA) hscA
  obtain ⟨hm1, hm2, hm3, hm4⟩ :=
    mergeNamespaceInfo_stubs (namespaceIdOf ext ctx) A B (childReference ext A)
      (childReference ext B)
  refine ⟨vA, vAB, vB, vBA, ownA, ownB, ownA2, ownB2,
    namespaceStub (namespaceIdOf ext ctx) A.kind (childReference ext A),
    namespaceStub (namespaceIdOf ext ctx) B.kind (childReference ext B),
    hbA, hbAB, hbB, hbBA, ?_, ?_, rfl, rfl, ?_, ?_, hm2, hm3, hm4⟩
  · rw [hsAB, hsA]
    simp
  · rw [hsBA, hsB]
    simp
  · cases A <;> rfl
  · cases B <;> rfl

/-- The commutation of C10 on the sample enumeration and the sample variable,
both at the top level. -/
theorem parent_fragments_commute_witness :
    ∃ vA vAB vB vBA ownA ownB ownA2 ownB2 PA PB,
      buildChild sampleExternals sampleVisitor (NamespaceChild.Enum sampleEnum) = some vA ∧
      buildChild sampleExternals vA (NamespaceChild.Var none sampleVar) = some vAB ∧
      buildChild sampleExternals sampleVisitor (NamespaceChild.Var none sampleVar) = some vB ∧
      buildChild sampleExternals vB (NamespaceChild.Enum sampleEnum) = some vBA ∧
      vAB.sink = sampleVisitor.sink ++ [writeBitcode ownA, writeBitcode (AnyInfo.Namespace PA),
        writeBitcode ownB, writeBitcode (AnyInfo.Namespace PB)] ∧
      vBA.sink = sampleVisitor.sink ++ [writeBitcode ownB2, writeBitcode (AnyInfo.Namespace PB),
        writeBitcode ownA2, writeBitcode (AnyInfo.Namespace PA)] ∧
      PA.id = namespaceIdOf sampleExternals DeclContext.TranslationUnit ∧
      PB.id = namespaceIdOf sampleExternals DeclContext.TranslationUnit ∧
      PA.allChildren = [childReference sampleExternals (NamespaceChild.Enum sampleEnum)] ∧
      PB.allChildren = [childReference sampleExternals (NamespaceChild.Var none sampleVar)] ∧
      childReference sampleExternals (NamespaceChild.Enum sampleEnum)
        ∈ (mergeNamespaceInfo PA PB).allChildren ∧
      childReference sampleExternals (NamespaceChild.Var none sampleVar)
        ∈ (mergeNamespaceInfo PA PB).allChildren ∧
      (mergeNamespaceInfo PA PB).sameUpToOrder (mergeNamespaceInfo PB PA) :=
  parent_fragments_commute sampleExternals sampleVisitor (NamespaceChild.Enum sampleEnum)
    (NamespaceChild.Var none sampleVar) DeclContext.TranslationUnit (Or.inl rfl) rfl rfl
    (by decide) (by decide) rfl rfl

/-! ## Base classes, the access of a class, and typedefs of unnamed classes -/

/-- The identifier `extractSymbolID` leaves in an identifier that was zero. -/
theorem extractSymbolID_zero (ext : Externals) (v : ASTVisitor) (usr : Option String) :
    (extractSymbolID ext v usr SymbolID.zero).2.1 = symbolIDOf ext usr := by
  cases usr <;> simp [extractSymbolID, generateUSRForDecl, symbolIDOf]

/-- One turn of the loop of `extractBases`, on a specifier that has an access. -/
theorem extractBasesStep_entry (ext : Externals) (I : RecordInfo) (v : ASTVisitor)
    (B : CXXBaseSpecifier) (hB : B.accessSpecifier ≠ AccessSpecifier.AS_none) :
    ∃ v1, extractBasesStep ext (some (I, v)) B =
        some ({ I with Bases := I.Bases ++ baseEntries ext [B] }, v1) ∧
      v1.sink = v.sink ∧ v1.PublicOnly = v.PublicOnly := by
  obtain ⟨a, ha⟩ : ∃ a, getAccessFromSpecifier B.accessSpecifier = some a := by
    cases h : B.accessSpecifier <;> simp_all [getAccessFromSpecifier]
  simp only [extractBasesStep, ha, baseEntries, List.filter_cons, List.filter_nil,
    baseIsRecorded]
  cases hv : B.isVirtual <;> cases hp : ext.config_.includePrivate
  all_goals simp only [Bool.not_true, Bool.not_false, Bool.and_true, Bool.and_false,
    Bool.or_true, Bool.or_false, Bool.true_or, Bool.false_or, Bool.true_and, Bool.false_and,
    if_true, if_false, Bool.false_eq_true, List.filterMap_cons, List.filterMap_nil, ha,
    Option.map_some', List.append_nil]
  case true.false => exact ⟨v, rfl, rfl, rfl⟩
  all_goals
    simp only [resolvedBaseId, resolvedBaseName, getCXXRecordDeclForType, hv]
    cases hT : B.type.templateSpecialization with
    | some TD =>
      exact ⟨(extractSymbolID ext v TD.usr SymbolID.zero).2.2,
        by simp only [extractSymbolID_zero, getTypeAsString],
        (extractSymbolID_frame ext v _ _).1, (extractSymbolID_frame ext v _ _).2⟩
    | none =>
      cases hD : B.type.tagDeclDefinition with
      | none => exact ⟨v, rfl, rfl, rfl⟩
      | some P =>
        simp only []
        by_cases hk : P.kind = TagDeclKind.CXXRecord
        · simp only [hk, if_true]
          exact ⟨(extractSymbolID ext v P.ref.usr SymbolID.zero).2.2,
            by simp only [extractSymbolID_zero],
            (extractSymbolID_frame ext v _ _).1, (extractSymbolID_frame ext v _ _).2⟩
        · simp only [hk, if_false]
          exact ⟨v, rfl, rfl, rfl⟩

/-- The entries of a list of specifiers, specifier by specifier. -/
theorem baseEntries_cons (ext : Externals) (B : CXXBaseSpecifier)
    (bases : List CXXBaseSpecifier) :
    baseEntries ext (B :: bases) = baseEntries ext [B] ++ baseEntries ext bases := by
  simp only [baseEntries, List.filter_cons, List.filter_nil]
  split
  · rw [← List.filterMap_append]; rfl
  · simp

/-- The loop of `extractBases` appends the entries of the recorded specifiers. -/
theorem extractBases_loop_entries (ext : Externals) (bases : List CXXBaseSpecifier)
    (hb : ∀ B ∈ bases, B.accessSpecifier ≠ AccessSpecifier.AS_none) :
    ∀ (I : RecordInfo) (v : ASTVisitor),
    ∃ v1, bases.foldl (extractBasesStep ext) (some (I, v)) =
        some ({ I with Bases := I.Bases ++ baseEntries ext bases }, v1) ∧
      v1.sink = v.sink ∧ v1.PublicOnly = v.PublicOnly := by
  induction bases with
  | nil =>
    intro I v
    exact ⟨v, by simp [baseEntries], rfl, rfl⟩
  | cons B bases ih =>
    intro I v
    have hB := hb B (List.mem_cons_self _ _)
    have hrest : ∀ B0 ∈ bases, B0.accessSpecifier ≠ AccessSpecifier.AS_none :=
      fun B0 h0 => hb B0 (List.mem_cons_of_mem _ h0)
    obtain ⟨v2, hs, hsink, hpol⟩ := extractBasesStep_entry ext I v B hB
    obtain ⟨v1, hrun, hsink1, hpol1⟩ :=
      ih hrest { I with Bases := I.Bases ++ baseEntries ext [B] } v2
    refine ⟨v1, ?_, by rw [hsink1, hsink], by rw [hpol1, hpol]⟩
    rw [List.foldl_cons, hs, hrun, baseEntries_cons ext B bases]
    simp only [List.append_assoc]

/-- The call `extractBases` on a definition appends the entries of the recorded
specifiers, and changes nothing else of the record. -/
theorem extractBases_entries (ext : Externals) (v : ASTVisitor) (I : RecordInfo)
    (D : CXXRecordDecl) (hdef : D.isThisDeclarationADefinition = true)
    (hb : ∀ B ∈ D.bases, B.accessSpecifier ≠ AccessSpecifier.AS_none) :
    ∃ v1, extractBases ext v I D =
        some ({ I with Bases := I.Bases ++ baseEntries ext D.bases }, v1) ∧
      v1.sink = v.sink ∧ v1.PublicOnly = v.PublicOnly := by
  simp only [extractBases, hdef, Bool.not_true, Bool.false_eq_true, if_false]
  exact extractBases_loop_entries ext D.bases hb I v

/-- The call `extractBases` on a declaration that is not a definition changes nothing. -/
theorem extractBases_not_definition (ext : Externals) (v : ASTVisitor) (I : RecordInfo)
    (D : CXXRecordDecl) (hdef : D.isThisDeclarationADefinition = false) :
    extractBases ext v I D = some (I, v) := by
  simp [extractBases, hdef]

/-- With private entities included every specifier that has an access gets an entry. -/
theorem baseEntries_all (ext : Externals) (bases : List CXXBaseSpecifier)
    (hp : ext.config_.includePrivate = true) :
    (baseEntries ext bases).map (fun e => (some e.access, e.IsVirtual)) =
      bases.map (fun B => (getAccessFromSpecifier B.accessSpecifier, B.isVirtual)) ∨
    ∃ B ∈ bases, B.accessSpecifier = AccessSpecifier.AS_none := by
  induction bases with
  | nil => left; rfl
  | cons B bases ih =>
    by_cases hB : B.accessSpecifier = AccessSpecifier.AS_none
    · right; exact ⟨B, List.mem_cons_self _ _, hB⟩
    · rcases ih with h | ⟨B0, h0, h1⟩
      · left
        obtain ⟨a, ha⟩ : ∃ a, getAccessFromSpecifier B.accessSpecifier = some a := by
          cases h : B.accessSpecifier <;> simp_all [getAccessFromSpecifier]
        rw [baseEntries_cons, List.map_append, h]
        simp [baseEntries, baseIsRecorded, hp, ha]
      · right; exact ⟨B0, List.mem_cons_of_mem _ h0, h1⟩

/-- The builder `buildRecord`, when `extractInfo` succeeds and the assertions hold:
the record it emits, field by field, and the parent fragment. -/
theorem buildRecord_record (ext : Externals) (v : ASTVisitor) (I : RecordInfo)
    (D : CXXRecordDecl)
    (hflag : (extractInfo ext v I.toInfo (AnyDecl.CXXRecord D)).1 = true)
    (hpre : parentAssertionsHold (extractInfo ext v I.toInfo (AnyDecl.CXXRecord D)).2.1.Namespace
      InfoType.IT_record (recordAccess D) = true)
    (hbases : ∀ B ∈ D.bases, B.accessSpecifier ≠ AccessSpecifier.AS_none) :
    ∃ v1 own parent, buildRecord ext v I D = some v1 ∧
      v1.sink = v.sink ++ [writeBitcode (AnyInfo.Record own), parent] ∧
      own.toInfo = { (extractInfo ext v I.toInfo (AnyDecl.CXXRecord D)).2.1 with
        Name := match D.typedefNameForAnonDecl with
          | some TD => TD
          | none => (extractInfo ext v I.toInfo (AnyDecl.CXXRecord D)).2.1.Name } ∧
      own.IsTypeDef = (D.typedefNameForAnonDecl.isSome || I.IsTypeDef) ∧
      own.Bases = I.Bases ++
        (if D.isThisDeclarationADefinition then baseEntries ext D.bases else []) ∧
      own.Friends = I.Friends ∧ own.Members = I.Members ∧ own.Template = I.Template ∧
      own.TagType = D.tagKind ∧
      writeParent (AnyInfo.Record own) (recordAccess D) = some parent := by
  unfold buildRecord
  lift_lets
  extract_lets r I1 v1 v2 I2 I3 I4 I5 I6
  have hr : r.1 = true := hflag
  rw [hr]
  simp only [Bool.not_true, Bool.false_eq_true, if_false]
  have hI : I6.toInfo = { r.2.1 with
      Name := match D.typedefNameForAnonDecl with
        | some TD => TD
        | none => r.2.1.Name } := by
    cases hq : D.typedefNameForAnonDecl <;> cases hd : D.destructor <;>
      cases hdef : D.isThisDeclarationADefinition <;>
      simp [I6, I5, I4, I3, I2, I1, hq, hd, hdef]
  have hT : I6.IsTypeDef = (D.typedefNameForAnonDecl.isSome || I.IsTypeDef) := by
    cases hq : D.typedefNameForAnonDecl <;> cases hd : D.destructor <;>
      cases hdef : D.isThisDeclarationADefinition <;>
      simp [I6, I5, I4, I3, I2, I1, hq, hd, hdef]
  have hrest : I6.Bases = I.Bases ∧ I6.Friends = I.Friends ∧ I6.Members = I.Members ∧
      I6.Template = I.Template ∧ I6.TagType = D.tagKind := by
    cases hq : D.typedefNameForAnonDecl <;> cases hd : D.destructor <;>
      cases hdef : D.isThisDeclarationADefinition <;>
      simp [I6, I5, I4, I3, I2, I1, hq, hd, hdef]
  have hv2 : v2.sink = v.sink := by
    simp only [v2, v1]
    rw [extractInfo_sink]
  obtain ⟨I7, v7, hb, hsink, hI7, hT7, hB7, hF7, hM7, hTp7, hTag7⟩ :
      ∃ I7 v7, extractBases ext v2 I6 D = some (I7, v7) ∧ v7.sink = v2.sink ∧
        I7.toInfo = I6.toInfo ∧ I7.IsTypeDef = I6.IsTypeDef ∧
        I7.Bases = I6.Bases ++
          (if D.isThisDeclarationADefinition then baseEntries ext D.bases else []) ∧
        I7.Friends = I6.Friends ∧ I7.Members = I6.Members ∧ I7.Template = I6.Template ∧
        I7.TagType = I6.TagType := by
    cases hdef : D.isThisDeclarationADefinition with
    | false =>
      exact ⟨I6, v2, extractBases_not_definition ext v2 I6 D hdef, rfl, rfl, rfl,
        by simp, rfl, rfl, rfl, rfl⟩
    | true =>
      obtain ⟨v7, h7, hs7, _⟩ := extractBases_entries ext v2 I6 D hdef hbases
      exact ⟨_, v7, h7, hs7, rfl, rfl, by simp, rfl, rfl, rfl, rfl⟩
  have hv7 : v7.sink = v.sink := by rw [hsink, hv2]
  rw [hb]
  simp only []
  have hI7a : I7.toInfo = { r.2.1 with
      Name := match D.typedefNameForAnonDecl with
        | some TD => TD
        | none => r.2.1.Name } := by rw [hI7, hI]
  split
  · rename_i heq
    exact absurd heq (writeParent_ne_none_of (AnyInfo.Record I7) _ _ hI7a hpre)
  · rename_i b heq
    exact ⟨_, I7, b, rfl, by simp [insertBitcode, hv7], hI7a, by rw [hT7, hT],
      by rw [hB7, hrest.1], by rw [hF7, hrest.2.1], by rw [hM7, hrest.2.2.1],
      by rw [hTp7, hrest.2.2.2.1], by rw [hTag7, hrest.2.2.2.2], heq⟩

/-- The access `buildRecord` computes is the one the priority chain gives. -/
theorem recordAccess_eq_accessByPriority (D : CXXRecordDecl) :
    recordAccess D = accessByPriority D := by
  simp only [recordAccess, accessByPriority]
  cases D.describedClassTemplate <;> cases D.memberSpecializationInfo <;>
    cases D.specializedTemplate <;> rfl


/-- C14 (as amended). For a defining class declaration, `extractBases` appends
the entries of the recorded base specifiers (every specifier that is not
virtual, and every specifier when private entities are included); the entry
of a recorded specifier carries the identifier of the generic template when
the type of the base is a template specialization, the identifier of the class
when it is a plain class with a definition, and otherwise the zero identifier
and the textual spelling of the type. -/
theorem extractBases_resolution (ext : Externals) (v : ASTVisitor) (I : RecordInfo)
    (D : CXXRecordDecl) (hdef : D.isThisDeclarationADefinition = true)
    (hb : ∀ B ∈ D.bases, B.accessSpecifier ≠ AccessSpecifier.AS_none) :
    ∃ I1 v1, extractBases ext v I D = some (I1, v1) ∧
      I1.Bases = I.Bases ++ baseEntries ext D.bases ∧
      ∀ B ∈ D.bases, baseIsRecorded ext.config_.includePrivate B = true →
        ∃ e ∈ baseEntries ext D.bases,
          some e.access = getAccessFromSpecifier B.accessSpecifier ∧
          e.IsVirtual = B.isVirtual ∧
          (∀ Template, B.type.templateSpecialization = some Template →
            e.id = symbolIDOf ext Template.usr) ∧
          (B.type.templateSpecialization = none →
            ∀ P, getCXXRecordDeclForType B.type = some P → e.id = symbolIDOf ext P.usr) ∧
          (B.type.templateSpecialization = none → getCXXRecordDeclForType B.type = none →
            e.id = SymbolID.zero ∧ e.Name = getTypeAsString B.type) := by
  obtain ⟨v1, h1, _, _⟩ := extractBases_entries ext v I D hdef hb
  refine ⟨_, v1, h1, rfl, ?_⟩
  intro B hB hrec
  obtain ⟨a, ha⟩ : ∃ a, getAccessFromSpecifier B.accessSpecifier = some a := by
    have := hb B hB
    cases h : B.accessSpecifier <;> simp_all [getAccessFromSpecifier]
  refine ⟨⟨resolvedBaseId ext B, resolvedBaseName B, a, B.isVirtual⟩, ?_, ha.symm, rfl, ?_, ?_, ?_⟩
  · simp only [baseEntries, List.mem_filterMap, List.mem_filter]
    exact ⟨B, ⟨hB, hrec⟩, by simp [ha]⟩
  · intro T hT
    simp [resolvedBaseId, hT]
  · intro hT P hP
    simp only [getCXXRecordDeclForType] at hP
    cases hD : B.type.tagDeclDefinition with
    | none => simp [hD] at hP
    | some TD =>
      simp only [hD] at hP
      by_cases hk : TD.kind = TagDeclKind.CXXRecord
      · simp only [hk, if_true, Option.some.injEq] at hP
        simp [resolvedBaseId, hT, hD, hk, hP]
      · simp [hk] at hP
  · intro hT hP
    simp only [getCXXRecordDeclForType] at hP
    cases hD : B.type.tagDeclDefinition with
    | none => simp [resolvedBaseId, resolvedBaseName, hT, hD, getTypeAsString]
    | some TD =>
      simp only [hD] at hP
      by_cases hk : TD.kind = TagDeclKind.CXXRecord
      · simp [hk] at hP
      · simp [resolvedBaseId, resolvedBaseName, hT, hD, hk, getTypeAsString]

/-- The resolution of C14 on `struct Derived : public Base<int>, protected Plain,
private typename T::type`: the template `Base` (not the instantiation), the
class `Plain`, and zero with the spelling. -/
theorem extractBases_resolution_witness :
    ∃ I1 v1, extractBases sampleExternals sampleVisitor {} sampleDerived = some (I1, v1) ∧
      I1.Bases = [⟨⟨14⟩, "Base<int>", Access.Public, false⟩,
        ⟨⟨10⟩, "Plain", Access.Protected, false⟩,
        ⟨⟨0⟩, "typename T::type", Access.Private, false⟩] :=
  match extractBases_resolution sampleExternals sampleVisitor {} sampleDerived rfl
      (by decide) with
  | ⟨I1, v1, h1, h2, _⟩ => ⟨I1, v1, h1, by rw [h2]; decide⟩

/-- C14 as stated fails for a virtual base in public-only mode: the defining
declaration `struct V : virtual Base<int>` has a direct base whose type is a
template specialization, and no base entry is recorded. -/
theorem extractBases_resolution_counterexample :
    sampleVirtualTemplateDerived.isThisDeclarationADefinition = true ∧
    sampleVirtualTemplateDerived.bases.map (fun B => B.type.templateSpecialization.isSome) =
      [true] ∧
    (extractBases sampleExternals sampleVisitor {} sampleVirtualTemplateDerived).map
      (fun r => r.1.Bases) = some [] := by
  decide

/-- In public-only mode a turn of the loop of `extractBases` on a virtual base
changes nothing, whatever the base is. -/
theorem extractBasesStep_virtual (ext : Externals) (I : RecordInfo) (v : ASTVisitor)
    (B : CXXBaseSpecifier) (hv : B.isVirtual = true)
    (hp : ext.config_.includePrivate = false) :
    extractBasesStep ext (some (I, v)) B = some (I, v) := by
  simp [extractBasesStep, hv, hp]

/-- C15. In public-only mode `extractBases` drops the virtual base of
`struct W : virtual Plain`, although the base `Plain` is a public class with
external linkage that the entity policy admits. -/
theorem extractBases_drops_documented_virtual_base :
    shouldSerializeInfo true false samplePlain.toDecl = true ∧
    sampleVirtualDerived.bases.map
      (fun B => (B.isVirtual, B.type.tagDeclDefinition.map (fun TD => TD.ref.usr))) =
      [(true, some samplePlain.usr)] ∧
    sampleVisitor.PublicOnly = true ∧
    (extractBases sampleExternals sampleVisitor {} sampleVirtualDerived).map
      (fun r => r.1.Bases) = some [] := by
  decide

/-- C16. The call `extractBases` leaves the record unchanged for a class declaration
that is not a definition; for a defining declaration, with private entities
included, it appends one entry per direct base, in declaration order, each
with the access and the virtual flag of its base specifier (a base specifier
carries an access, as `getAccessFromSpecifier` requires). -/
theorem extractBases_one_entry_per_base (ext : Externals) (v : ASTVisitor) (I : RecordInfo)
    (D : CXXRecordDecl) :
    (D.isThisDeclarationADefinition = false → extractBases ext v I D = some (I, v)) ∧
    (D.isThisDeclarationADefinition = true → ext.config_.includePrivate = true →
      (∀ B ∈ D.bases, B.accessSpecifier ≠ AccessSpecifier.AS_none) →
      ∃ entries v1, extractBases ext v I D = some ({ I with Bases := I.Bases ++ entries }, v1) ∧
        entries.length = D.bases.length ∧
        entries.map (fun e => (some e.access, e.IsVirtual)) =
          D.bases.map (fun B => (getAccessFromSpecifier B.accessSpecifier, B.isVirtual))) := by
  refine ⟨extractBases_not_definition ext v I D, fun hdef hp hb => ?_⟩
  obtain ⟨v1, h1, _, _⟩ := extractBases_entries ext v I D hdef hb
  have hall : (baseEntries ext D.bases).map (fun e => (some e.access, e.IsVirtual)) =
      D.bases.map (fun B => (getAccessFromSpecifier B.accessSpecifier, B.isVirtual)) := by
    rcases baseEntries_all ext D.bases hp with h | ⟨B, hB, hnone⟩
    · exact h
    · exact absurd hnone (hb B hB)
  refine ⟨baseEntries ext D.bases, v1, h1, ?_, hall⟩
  have := congrArg List.length hall
  simpa using this

/-- The two cases of C16 on the declaration `struct Derived;` and on the definition
`struct W : virtual Plain`, with private entities included. -/
theorem extractBases_one_entry_per_base_witness :
    extractBases samplePrivateExternals sampleVisitor {} sampleDerivedForward =
      some ({}, sampleVisitor) ∧
    ∃ entries v1, extractBases samplePrivateExternals sampleVisitor {} sampleVirtualDerived =
        some ({ ({} : RecordInfo) with Bases := ({} : RecordInfo).Bases ++ entries }, v1) ∧
      entries.length = 1 ∧
      entries.map (fun e => (some e.access, e.IsVirtual)) = [(some Access.Public, true)] :=
  ⟨(extractBases_one_entry_per_base samplePrivateExternals sampleVisitor {}
      sampleDerivedForward).1 rfl,
    (extractBases_one_entry_per_base samplePrivateExternals sampleVisitor {}
      sampleVirtualDerived).2 rfl rfl (by decide)⟩

/-- C17. The parent fragment `buildRecord` emits is `writeParent` of the record with
the access the priority chain gives: that of the described class template,
else that of the member the class was instantiated from, else that of the
specialized template, else that of the class itself (`extractInfo` succeeding
and the assertions of `writeParent` and `getAccessFromSpecifier` being met). -/
theorem buildRecord_parent_access (ext : Externals) (v : ASTVisitor) (I : RecordInfo)
    (D : CXXRecordDecl)
    (hflag : (extractInfo ext v I.toInfo (AnyDecl.CXXRecord D)).1 = true)
    (hpre : parentAssertionsHold (extractInfo ext v I.toInfo (AnyDecl.CXXRecord D)).2.1.Namespace
      InfoType.IT_record (accessByPriority D) = true)
    (hbases : ∀ B ∈ D.bases, B.accessSpecifier ≠ AccessSpecifier.AS_none) :
    (∃ v1 own parent, buildRecord ext v I D = some v1 ∧
      v1.sink = v.sink ++ [writeBitcode (AnyInfo.Record own), parent] ∧
      writeParent (AnyInfo.Record own) (accessByPriority D) = some parent) ∧
    (∀ a, D.describedClassTemplate = some a → accessByPriority D = a) ∧
    (D.describedClassTemplate = none →
      ∀ a, D.memberSpecializationInfo = some a → accessByPriority D = a) ∧
    (D.describedClassTemplate = none → D.memberSpecializationInfo = none →
      ∀ a, D.specializedTemplate = some a → accessByPriority D = a) ∧
    (D.describedClassTemplate = none → D.memberSpecializationInfo = none →
      D.specializedTemplate = none → accessByPriority D = D.access) := by
  refine ⟨?_, ?_, ?_, ?_, ?_⟩
  · rw [← recordAccess_eq_accessByPriority] at hpre ⊢
    obtain ⟨v1, own, parent, h1, h2, _, _, _, _, _, _, _, h3⟩ :=
      buildRecord_record ext v I D hflag hpre hbases
    exact ⟨v1, own, parent, h1, h2, h3⟩
  · intro a h; simp [accessByPriority, h]
  · intro h1 a h; simp [accessByPriority, h1, h]
  · intro h1 h2 a h; simp [accessByPriority, h1, h2, h]
  · intro h1 h2 h3; simp [accessByPriority, h1, h2, h3]

/-- The chain of C17 on the templated class of a public member class template: the
access of the template is passed, not that of the class. -/
theorem buildRecord_parent_access_witness :
    ∃ v1 own parent, buildRecord sampleExternals sampleVisitor {} sampleMemberTemplate = some v1 ∧
      v1.sink = sampleVisitor.sink ++ [writeBitcode (AnyInfo.Record own), parent] ∧
      writeParent (AnyInfo.Record own) AccessSpecifier.AS_public = some parent :=
  (buildRecord_parent_access sampleExternals sampleVisitor {} sampleMemberTemplate
    (by decide) (by decide) (by decide)).1

/-- A typedef whose underlying type resolves to a declaration without a name
emits nothing, from any visitor. -/
theorem buildTypedef_unnamed (ext : Externals) (v : ASTVisitor) (I : TypedefInfo)
    (T : TypedefNameDecl) (h : (typeInfoName T.underlyingType).isEmpty = true) :
    ∃ v1, buildTypedef ext v I T = some v1 ∧ v1.sink = v.sink := by
  obtain ⟨h1, h2, _⟩ := buildTypedef_emits ext v I T
  cases hflag : (extractInfo ext v I.toInfo (AnyDecl.Typedef T)).1 with
  | false => exact h1 hflag
  | true => exact h2 hflag (by rw [getTypeInfoForType_name]; exact h)

/-- C20. A typedef whose underlying type resolves to an unnamed class emits
nothing; building that class and then the typedef leaves exactly two
fragments, the record of the class under the name of the typedef, with
`IsTypeDef` set, and its parent fragment; and a typedef whose underlying type
has a non-empty name emits its record and its parent fragment (`extractInfo`
succeeding and the assertions of `writeParent` being met). -/
theorem typedef_of_unnamed_record (ext : Externals) (v : ASTVisitor) :
    (∀ (I : TypedefInfo) (T : TypedefNameDecl) (TD : TagDecl),
      T.underlyingType.tagDeclDefinition = some TD → TD.kind = TagDeclKind.CXXRecord →
      TD.ref.name = "" →
      ∃ v1, buildTypedef ext v I T = some v1 ∧ v1.sink = v.sink) ∧
    (∀ (IR : RecordInfo) (R : CXXRecordDecl) (IT : TypedefInfo) (T : TypedefNameDecl),
      T.underlyingType.tagDeclDefinition = some ⟨TagDeclKind.CXXRecord, ⟨R.usr, ""⟩⟩ →
      R.typedefNameForAnonDecl = some T.name →
      (extractInfo ext v IR.toInfo (AnyDecl.CXXRecord R)).1 = true →
      parentAssertionsHold (extractInfo ext v IR.toInfo (AnyDecl.CXXRecord R)).2.1.Namespace
        InfoType.IT_record (recordAccess R) = true →
      (∀ B ∈ R.bases, B.accessSpecifier ≠ AccessSpecifier.AS_none) →
      ∃ v1 v2 own parent, buildRecord ext v IR R = some v1 ∧
        buildTypedef ext v1 IT T = some v2 ∧
        v2.sink = v.sink ++ [writeBitcode (AnyInfo.Record own), parent] ∧
        own.id = symbolIDOf ext R.usr ∧ own.Name = T.name ∧ own.IsTypeDef = true ∧
        writeParent (AnyInfo.Record own) (recordAccess R) = some parent) ∧
    (∀ (I : TypedefInfo) (T : TypedefNameDecl),
      (typeInfoName T.underlyingType).isEmpty = false →
      (extractInfo ext v I.toInfo (AnyDecl.Typedef T)).1 = true →
      parentAssertionsHold (extractInfo ext v I.toInfo (AnyDecl.Typedef T)).2.1.Namespace
        InfoType.IT_typedef T.access = true →
      ∃ v1 own parent, buildTypedef ext v I T = some v1 ∧
        v1.sink = v.sink ++ [writeBitcode (AnyInfo.Typedef own), parent] ∧
        own.id = symbolIDOf ext T.usr ∧ own.Name = T.name ∧
        writeParent (AnyInfo.Typedef own) T.access = some parent) := by
  refine ⟨?_, ?_, ?_⟩
  · intro I T TD hTD _ hname
    exact buildTypedef_unnamed ext v I T (by simp only [typeInfoName, hTD, hname]; decide)
  · intro IR R IT T hT hR hflag hpre hbases
    obtain ⟨v1, own, parent, h1, h2, h3, h4, _, _, _, _, _, h5⟩ :=
      buildRecord_record ext v IR R hflag hpre hbases
    obtain ⟨v2, h6, h7⟩ := buildTypedef_unnamed ext v1 IT T (by simp only [typeInfoName, hT]; decide)
    have hinfo := (extractInfo_value ext v IR.toInfo (AnyDecl.CXXRecord R)).2 hflag
    refine ⟨v1, v2, own, parent, h1, h6, by rw [h7, h2], ?_, ?_, ?_, h5⟩
    · have : own.toInfo.id = symbolIDOf ext R.usr := by rw [h3, hinfo]; rfl
      exact this
    · have : own.toInfo.Name = T.name := by rw [h3, hR]
      exact this
    · rw [h4, hR]; rfl
  · intro I T hname hflag hpre
    obtain ⟨_, _, h3⟩ := buildTypedef_emits ext v I T
    obtain ⟨v1, own, parent, h4, h5, h6, h7⟩ :=
      h3 hflag (by rw [getTypeInfoForType_name]; exact hname) hpre
    have hinfo := (extractInfo_value ext v I.toInfo (AnyDecl.Typedef T)).2 hflag
    refine ⟨v1, own, parent, h4, h5, ?_, ?_, h7⟩
    · have : own.toInfo.id = symbolIDOf ext T.usr := by rw [h6, hinfo]; rfl
      exact this
    · have : own.toInfo.Name = T.name := by rw [h6, hinfo]; rfl
      exact this

/-- The claims of C20 on `typedef struct { } Foo;` and on `typedef int Counter;`. -/
theorem typedef_of_unnamed_record_witness :
    (∃ v1 v2 own parent,
      buildRecord sampleExternals sampleVisitor {} sampleUnnamedRecord = some v1 ∧
      buildTypedef sampleExternals v1 {} sampleTypedef = some v2 ∧
      v2.sink = sampleVisitor.sink ++ [writeBitcode (AnyInfo.Record own), parent] ∧
      own.id = symbolIDOf sampleExternals sampleUnnamedRecord.usr ∧
      own.Name = "Foo" ∧ own.IsTypeDef = true ∧
      writeParent (AnyInfo.Record own) (recordAccess sampleUnnamedRecord) = some parent) ∧
    (∃ v1 own parent,
      buildTypedef sampleExternals sampleVisitor {} sampleNamedTypedef = some v1 ∧
      v1.sink = sampleVisitor.sink ++ [writeBitcode (AnyInfo.Typedef own), parent] ∧
      own.id = symbolIDOf sampleExternals sampleNamedTypedef.usr ∧ own.Name = "Counter" ∧
      writeParent (AnyInfo.Typedef own) sampleNamedTypedef.access = some parent) :=
  ⟨(typedef_of_unnamed_record sampleExternals sampleVisitor).2.1 {} sampleUnnamedRecord {}
      sampleTypedef rfl rfl (by decide) (by decide) (by decide),
    (typedef_of_unnamed_record sampleExternals sampleVisitor).2.2 {} sampleNamedTypedef
      (by decide) (by decide) (by decide)⟩

/-! ## Friends -/

/-- The call `shouldExtract` leaves the sink and the policy flag alone. -/
theorem shouldExtract_frame (ext : Externals) (v : ASTVisitor) (D : Decl)
    (r : Bool × ASTVisitor) (h : shouldExtract ext v D = some r) :
    r.2.sink = v.sink ∧ r.2.PublicOnly = v.PublicOnly := by
  unfold shouldExtract at h
  split at h
  · cases h; exact ⟨rfl, rfl⟩
  · split at h
    · cases h
    · split at h
      · split at h
        · cases h; exact ⟨rfl, rfl⟩
        · cases h; exact ⟨rfl, rfl⟩
      · simp only [] at h
        split at h
        · cases h; exact ⟨rfl, rfl⟩
        · cases h; exact ⟨rfl, rfl⟩

/-- The builder `buildFriend` on a friend function that is admitted, in a class: the four
fragments it emits. -/
theorem buildFriend_function (ext : Externals) (v v0 : ASTVisitor) (D : FriendDecl)
    (FD : FunctionDecl) (RD : NamedRef) (S : Option ClassTemplateSpecialization)
    (hND : D.friendDecl = some (FriendTarget.Function FD))
    (hfile : shouldExtract ext v FD.toDecl = some (true, v0))
    (hflag : (constructFunction ext v0 {} FunctionDeclTy.FunctionDecl FD).1 = true)
    (hDC : D.declContext = DeclContext.CXXRecord RD S)
    (hpre : parentAssertionsHold (scopeChainOf ext (AnyDecl.Function FD))
      InfoType.IT_function AccessSpecifier.AS_none = true) :
    ∃ v1 b1 b2, buildFriend ext v D = some v1 ∧
      v1.sink = v.sink ++
        [writeBitcode (AnyInfo.Function
            (constructFunction ext v0 {} FunctionDeclTy.FunctionDecl FD).2.1),
          b1,
          writeBitcode (AnyInfo.Record
            { id := symbolIDOf ext RD.usr
              Friends := [(constructFunction ext v0 {} FunctionDeclTy.FunctionDecl FD).2.1.id]
              Namespace := scopeChainOf ext (AnyDecl.Function FD) }),
          b2] ∧
      writeParent (AnyInfo.Function
        (constructFunction ext v0 {} FunctionDeclTy.FunctionDecl FD).2.1)
        AccessSpecifier.AS_none = some b1 ∧
      writeParent (AnyInfo.Record
        { id := symbolIDOf ext RD.usr
          Friends := [(constructFunction ext v0 {} FunctionDeclTy.FunctionDecl FD).2.1.id]
          Namespace := scopeChainOf ext (AnyDecl.Function FD) })
        AccessSpecifier.AS_none = some b2 := by
  obtain ⟨hcf, hci⟩ := constructFunction_spec ext v0 {} FunctionDeclTy.FunctionDecl FD
  have hcs := constructFunction_sink ext v0 {} FunctionDeclTy.FunctionDecl FD
  have hv0 : v0.sink = v.sink := (shouldExtract_frame ext v FD.toDecl _ hfile).1
  have hxf : (extractInfo ext v0 ({} : FunctionInfo).toInfo
      (AnyDecl.Function (applyDecayToParameters FD))).1 = true := by
    rw [← hcf]; exact hflag
  have hinfo := (extractInfo_value ext v0 ({} : FunctionInfo).toInfo
    (AnyDecl.Function (applyDecayToParameters FD))).2 hxf
  have hchain : (constructFunction ext v0 {} FunctionDeclTy.FunctionDecl FD).2.1.toInfo.Namespace
      = scopeChainOf ext (AnyDecl.Function FD) := by
    rw [hci, hinfo]
    simp [scopeChainOf, AnyDecl.toDecl, applyDecayToParameters]
  have hw1 : writeParent (AnyInfo.Function
      (constructFunction ext v0 {} FunctionDeclTy.FunctionDecl FD).2.1)
      AccessSpecifier.AS_none ≠ none :=
    writeParent_ne_none _ _ (by
      show parentAssertionsHold
        (constructFunction ext v0 {} FunctionDeclTy.FunctionDecl FD).2.1.toInfo.Namespace
        InfoType.IT_function AccessSpecifier.AS_none = true
      rw [hchain]; exact hpre)
  have hw2 : writeParent (AnyInfo.Record
      { id := symbolIDOf ext RD.usr
        Friends := [(constructFunction ext v0 {} FunctionDeclTy.FunctionDecl FD).2.1.id]
        Namespace := scopeChainOf ext (AnyDecl.Function FD) })
      AccessSpecifier.AS_none ≠ none :=
    writeParent_ne_none _ _ (by
      show parentAssertionsHold (scopeChainOf ext (AnyDecl.Function FD))
        InfoType.IT_record AccessSpecifier.AS_none = true
      cases hs : scopeChainOf ext (AnyDecl.Function FD) with
      | nil => rw [hs] at hpre; simp [parentAssertionsHold] at hpre
      | cons N0 rest =>
        rw [hs] at hpre
        simp only [parentAssertionsHold] at hpre ⊢
        simp only [Bool.and_eq_true] at hpre ⊢
        exact ⟨hpre.1, by decide⟩)
  obtain ⟨b1, hb1⟩ := Option.ne_none_iff_exists'.mp hw1
  obtain ⟨b2, hb2⟩ := Option.ne_none_iff_exists'.mp hw2
  have hid : (extractSymbolID ext
      (constructFunction ext v0 {} FunctionDeclTy.FunctionDecl FD).2.2 RD.usr
      ({} : RecordInfo).id).2.1 = symbolIDOf ext RD.usr := extractSymbolID_zero ext _ _
  have hg := (getParentNamespaces_value ext
    (extractSymbolID ext (constructFunction ext v0 {} FunctionDeclTy.FunctionDecl FD).2.2
      RD.usr ({} : RecordInfo).id).2.2 [] (AnyDecl.Function (applyDecayToParameters FD))).2
  have hg2 : scopeChainOf ext (AnyDecl.Function (applyDecayToParameters FD)) =
      scopeChainOf ext (AnyDecl.Function FD) := rfl
  rw [hg2, List.nil_append] at hg
  have hgs := (getParentNamespaces_frame ext
    (extractSymbolID ext (constructFunction ext v0 {} FunctionDeclTy.FunctionDecl FD).2.2
      RD.usr ({} : RecordInfo).id).2.2 [] (AnyDecl.Function (applyDecayToParameters FD))).1
  have hes := (extractSymbolID_frame ext
    (constructFunction ext v0 {} FunctionDeclTy.FunctionDecl FD).2.2 RD.usr
    ({} : RecordInfo).id).1
  refine ⟨insertBitcode (insertBitcode (insertBitcode (insertBitcode
    (getParentNamespaces ext
      (extractSymbolID ext (constructFunction ext v0 {} FunctionDeclTy.FunctionDecl FD).2.2
        RD.usr ({} : RecordInfo).id).2.2 [] (AnyDecl.Function (applyDecayToParameters FD))).2.2
    (writeBitcode (AnyInfo.Function
      (constructFunction ext v0 {} FunctionDeclTy.FunctionDecl FD).2.1))) b1)
    (writeBitcode (AnyInfo.Record
      { id := symbolIDOf ext RD.usr
        Friends := [(constructFunction ext v0 {} FunctionDeclTy.FunctionDecl FD).2.1.id]
        Namespace := scopeChainOf ext (AnyDecl.Function FD) }))) b2, b1, b2, ?_, ?_, hb1, hb2⟩
  · simp only [buildFriend, hND, hfile, hflag, hDC, Bool.not_true, Bool.false_eq_true, if_false,
      hb1]
    simp only [hid, hg, List.nil_append, hb2]
  · simp only [insertBitcode, hgs, hes, hcs, hv0, List.append_assoc, List.cons_append,
      List.nil_append]


/-- Whenever `buildFriend` returns from a friend function that is admitted, it has
emitted four fragments. -/
theorem buildFriend_function_sink (ext : Externals) (v v0 v1 : ASTVisitor) (D : FriendDecl)
    (FD : FunctionDecl)
    (hND : D.friendDecl = some (FriendTarget.Function FD))
    (hfile : shouldExtract ext v FD.toDecl = some (true, v0))
    (hflag : (constructFunction ext v0 {} FunctionDeclTy.FunctionDecl FD).1 = true)
    (h : buildFriend ext v D = some v1) :
    ∃ a b c d, v1.sink = v.sink ++ [a, b, c, d] := by
  have hcs := constructFunction_sink ext v0 {} FunctionDeclTy.FunctionDecl FD
  have hv0 : v0.sink = v.sink := (shouldExtract_frame ext v FD.toDecl _ hfile).1
  simp only [buildFriend, hND, hfile, hflag, Bool.not_true, Bool.false_eq_true, if_false] at h
  split at h
  · rename_i RD S hDC
    split at h
    · cases h
    · rename_i b1 hb1
      split at h
      · cases h
      · rename_i b2 hb2
        simp only [Option.some.injEq] at h
        subst h
        simp only [insertBitcode, (getParentNamespaces_frame ext _ _ _).1,
          (extractSymbolID_frame ext _ _ _).1, hcs, hv0, List.append_assoc, List.cons_append,
          List.nil_append]
        exact ⟨_, _, _, _, rfl⟩
  · cases h

/-- C18. The builder `buildFriend` returns normally without a fragment for a friend
declaration that names a function template, a class template or a type, for a
friend function that the file policy rejects, and for one on which
`constructFunction` fails; for a friend function that passes both it hands four
fragments to the sink (the context of the friend declaration being a class
and the assertions of `writeParent` being met); and whenever it returns, the
sink has grown if and only if the friend declaration names a function that
passes the file policy and on which `constructFunction` succeeds. -/
theorem buildFriend_emits (ext : Externals) (v : ASTVisitor) (D : FriendDecl) :
    ((D.friendDecl = some FriendTarget.FunctionTemplate ∨
        D.friendDecl = some FriendTarget.ClassTemplate ∨
        (D.friendDecl = none ∧ D.friendType = true)) →
      buildFriend ext v D = some v) ∧
    (∀ FD v0, D.friendDecl = some (FriendTarget.Function FD) →
      shouldExtract ext v FD.toDecl = some (false, v0) →
      buildFriend ext v D = some v0 ∧ v0.sink = v.sink) ∧
    (∀ FD v0, D.friendDecl = some (FriendTarget.Function FD) →
      shouldExtract ext v FD.toDecl = some (true, v0) →
      (constructFunction ext v0 {} FunctionDeclTy.FunctionDecl FD).1 = false →
      ∃ v1, buildFriend ext v D = some v1 ∧ v1.sink = v.sink) ∧
    (∀ FD v0 RD S, D.friendDecl = some (FriendTarget.Function FD) →
      shouldExtract ext v FD.toDecl = some (true, v0) →
      (constructFunction ext v0 {} FunctionDeclTy.FunctionDecl FD).1 = true →
      D.declContext = DeclContext.CXXRecord RD S →
      parentAssertionsHold (scopeChainOf ext (AnyDecl.Function FD))
        InfoType.IT_function AccessSpecifier.AS_none = true →
      ∃ v1 I b1 P b2, buildFriend ext v D = some v1 ∧
        v1.sink = v.sink ++
          [writeBitcode (AnyInfo.Function I), b1, writeBitcode (AnyInfo.Record P), b2]) ∧
    (∀ v1, buildFriend ext v D = some v1 →
      (v1.sink ≠ v.sink ↔
        ∃ FD v0, D.friendDecl = some (FriendTarget.Function FD) ∧
          shouldExtract ext v FD.toDecl = some (true, v0) ∧
          (constructFunction ext v0 {} FunctionDeclTy.FunctionDecl FD).1 = true)) := by
  refine ⟨?_, ?_, ?_, ?_, ?_⟩
  · rintro (h | h | ⟨h1, h2⟩)
    · simp [buildFriend, h]
    · simp [buildFriend, h]
    · simp [buildFriend, h1, h2]
  · intro FD v0 hND hfile
    exact ⟨by simp [buildFriend, hND, hfile], (shouldExtract_frame ext v FD.toDecl _ hfile).1⟩
  · intro FD v0 hND hfile hflag
    refine ⟨(constructFunction ext v0 {} FunctionDeclTy.FunctionDecl FD).2.2,
      by simp [buildFriend, hND, hfile, hflag], ?_⟩
    have hv0 : v0.sink = v.sink := (shouldExtract_frame ext v FD.toDecl _ hfile).1
    rw [constructFunction_sink, hv0]
  · intro FD v0 RD S hND hfile hflag hDC hpre
    obtain ⟨v1, b1, b2, h1, h2, _, _⟩ :=
      buildFriend_function ext v v0 D FD RD S hND hfile hflag hDC hpre
    exact ⟨v1, _, b1, _, b2, h1, h2⟩
  · intro v1 h
    constructor
    · intro hne
      cases hND : D.friendDecl with
      | none =>
        simp only [buildFriend, hND] at h
        split at h
        · cases h; exact absurd rfl hne
        · cases h
      | some ND =>
        cases ND with
        | FunctionTemplate => simp [buildFriend, hND] at h; subst h; exact absurd rfl hne
        | ClassTemplate => simp [buildFriend, hND] at h; subst h; exact absurd rfl hne
        | Other => simp [buildFriend, hND] at h
        | Function FD =>
          cases hfile : shouldExtract ext v FD.toDecl with
          | none => simp [buildFriend, hND, hfile] at h
          | some s =>
            obtain ⟨b, v0⟩ := s
            have hv0 : v0.sink = v.sink := (shouldExtract_frame ext v FD.toDecl _ hfile).1
            cases b with
            | false =>
              simp [buildFriend, hND, hfile] at h
              subst h
              exact absurd hv0 hne
            | true =>
              cases hflag : (constructFunction ext v0 {} FunctionDeclTy.FunctionDecl FD).1 with
              | false =>
                simp [buildFriend, hND, hfile, hflag] at h
                subst h
                exact absurd (by rw [constructFunction_sink, hv0]) hne
              | true => exact ⟨FD, v0, rfl, hfile, hflag⟩
    · rintro ⟨FD, v0, hND, hfile, hflag⟩
      obtain ⟨a, b, c, d, hs⟩ := buildFriend_function_sink ext v v0 v1 D FD hND hfile hflag h
      rw [hs]
      intro hcontra
      have := congrArg List.length hcontra
      simp at this

/-- The four fragments of C18 on the friend declaration of
`struct Outer { struct C { friend void f(); }; };`. -/
theorem buildFriend_emits_witness :
    ∃ v1 I b1 P b2, buildFriend sampleExternals sampleVisitor sampleFriend = some v1 ∧
      v1.sink = sampleVisitor.sink ++
        [writeBitcode (AnyInfo.Function I), b1, writeBitcode (AnyInfo.Record P), b2] :=
  (buildFriend_emits sampleExternals sampleVisitor sampleFriend).2.2.2.1 sampleFriendFunction
    sampleAdmittedVisitor ⟨some "c:@S@Outer@S@C", "C"⟩ none rfl rfl (by decide) rfl (by decide)

/-- C19. On the friend declaration of
`struct Outer { struct C { friend void f(); }; };` the update fragment for the
class `C` has the identifier of `C`, and its scope chain is that of the
function `f` (the global namespace), not that of `C` (the class `Outer`, then
the global namespace); its parent fragment is a stub of the global namespace. -/
theorem buildFriend_class_scope_chain :
    sampleFriend.declContext = DeclContext.CXXRecord ⟨some "c:@S@Outer@S@C", "C"⟩ none ∧
    (sampleFriend.parents.map (contextContribution sampleExternals)).flatten =
      [⟨⟨10⟩, "Outer", InfoType.IT_record⟩, globalNamespaceReference] ∧
    (buildFriend sampleExternals sampleVisitor sampleFriend).map
      (fun v => v.sink.map
        (fun b => (b.data.type_id, b.data.toInfo.id, b.data.toInfo.Namespace))) =
      some [(InfoType.IT_function, ⟨7⟩, [globalNamespaceReference]),
        (InfoType.IT_namespace, ⟨0⟩, []),
        (InfoType.IT_record, ⟨14⟩, [globalNamespaceReference]),
        (InfoType.IT_namespace, ⟨0⟩, [])] ∧
    (buildFriend sampleExternals sampleVisitor sampleFriend).map
      (fun v => v.sink.filterMap
        (fun b => match b.data with
          | AnyInfo.Record P => some P.Friends
          | _ => none)) = some [[⟨7⟩]] := by
  refine ⟨rfl, ?_, ?_, ?_⟩
  · decide
  · decide
  · decide

/-! ## The builders only append to the sink -/

/-- The loop of `extractBases` leaves the sink alone. -/
theorem extractBases_loop_sink (ext : Externals) (bases : List CXXBaseSpecifier) :
    ∀ (I I1 : RecordInfo) (v v1 : ASTVisitor),
    bases.foldl (extractBasesStep ext) (some (I, v)) = some (I1, v1) →
    v1.sink = v.sink := by
  induction bases with
  | nil =>
    intro I I1 v v1 h
    simp only [List.foldl_nil, Option.some.injEq, Prod.mk.injEq] at h
    rw [h.2]
  | cons B bases ih =>
    intro I I1 v v1 h
    rw [List.foldl_cons] at h
    cases hstep : extractBasesStep ext (some (I, v)) B with
    | none =>
      rw [hstep] at h
      have hnone : ∀ l : List CXXBaseSpecifier, l.foldl (extractBasesStep ext) none = none := by
        intro l
        induction l with
        | nil => rfl
        | cons B0 l ihl => rw [List.foldl_cons]; exact ihl
      rw [hnone] at h
      exact absurd h (by simp)
    | some st =>
      obtain ⟨I2, v2⟩ := st
      rw [hstep] at h
      rw [ih I2 I1 v2 v1 h]
      simp only [extractBasesStep] at hstep
      split at hstep
      · simp only [Option.some.injEq, Prod.mk.injEq] at hstep
        rw [hstep.2]
      · split at hstep
        · split at hstep
          · exact absurd hstep (by simp)
          · simp only [Option.some.injEq, Prod.mk.injEq] at hstep
            rw [← hstep.2]
            exact (extractSymbolID_frame ext v _ _).1
        · split at hstep
          · split at hstep
            · exact absurd hstep (by simp)
            · simp only [Option.some.injEq, Prod.mk.injEq] at hstep
              rw [← hstep.2]
              exact (extractSymbolID_frame ext v _ _).1
          · split at hstep
            · exact absurd hstep (by simp)
            · simp only [Option.some.injEq, Prod.mk.injEq] at hstep
              rw [hstep.2]

/-- The call `extractBases` leaves the sink alone. -/
theorem extractBases_sink (ext : Externals) (v v1 : ASTVisitor) (I I1 : RecordInfo)
    (D : CXXRecordDecl) (h : extractBases ext v I D = some (I1, v1)) :
    v1.sink = v.sink := by
  simp only [extractBases] at h
  split at h
  · simp only [Option.some.injEq, Prod.mk.injEq] at h
    rw [h.2]
  · exact extractBases_loop_sink ext D.bases I I1 v v1 h

/-- The builder `buildNamespace` only appends to the sink. -/
theorem buildNamespace_sink_grows (ext : Externals) (v w : ASTVisitor) (I : NamespaceInfo)
    (D : NamespaceDecl) (h : buildNamespace ext v I D = some w) :
    ∃ f, w.sink = v.sink ++ f := by
  have hs := extractInfo_sink ext v I.toInfo (AnyDecl.Namespace D)
  unfold buildNamespace at h
  lift_lets at h
  extract_lets r I1 v1 I2 v2 at h
  split at h
  · obtain rfl := Option.some.inj h
    exact ⟨[], by rw [List.append_nil]; exact hs⟩
  · split at h
    · exact absurd h (by simp)
    · rename_i b hb
      obtain rfl := Option.some.inj h
      refine ⟨[writeBitcode (AnyInfo.Namespace I2), b], ?_⟩
      simp only [insertBitcode, v2, v1, List.append_assoc, List.cons_append, List.nil_append]
      rw [hs]

/-- The builder `buildEnum` only appends to the sink. -/
theorem buildEnum_sink_grows (ext : Externals) (v w : ASTVisitor) (I : EnumInfo) (D : EnumDecl)
    (h : buildEnum ext v I D = some w) : ∃ f, w.sink = v.sink ++ f := by
  have hs := extractInfo_sink ext v I.toInfo (AnyDecl.Enum D)
  unfold buildEnum at h
  lift_lets at h
  extract_lets r I1 v1 v2 I2 I3 Name I4 I5 v3 at h
  split at h
  · obtain rfl := Option.some.inj h
    exact ⟨[], by rw [List.append_nil]; exact hs⟩
  · split at h
    · exact absurd h (by simp)
    · rename_i b hb
      obtain rfl := Option.some.inj h
      refine ⟨[writeBitcode (AnyInfo.Enum I5), b], ?_⟩
      simp only [insertBitcode, v3, v2, v1, List.append_assoc, List.cons_append, List.nil_append]
      rw [hs]

/-- The builder `buildField` only appends to the sink. -/
theorem buildField_sink_grows (ext : Externals) (v w : ASTVisitor) (I : FieldInfo) (D : FieldDecl)
    (h : buildField ext v I D = some w) : ∃ f, w.sink = v.sink ++ f := by
  have hs := extractInfo_sink ext v I.toInfo (AnyDecl.Field D)
  unfold buildField at h
  lift_lets at h
  extract_lets r I1 v1 v2 I2 t I3 v3 I4 v4 at h
  split at h
  · obtain rfl := Option.some.inj h
    exact ⟨[], by rw [List.append_nil]; exact hs⟩
  · split at h
    · exact absurd h (by simp)
    · rename_i b hb
      obtain rfl := Option.some.inj h
      refine ⟨[writeBitcode (AnyInfo.Field I4), b], ?_⟩
      simp only [insertBitcode, v4, v3, t, v2, v1, getTypeInfoForType_sink, List.append_assoc,
        List.cons_append, List.nil_append]
      rw [hs]

/-- The builder `buildVar` only appends to the sink. -/
theorem buildVar_sink_grows (ext : Externals) (v w : ASTVisitor) (I : VarInfo) (D : VarDecl)
    (h : buildVar ext v I D = some w) : ∃ f, w.sink = v.sink ++ f := by
  have hs := extractInfo_sink ext v I.toInfo (AnyDecl.Var D)
  unfold buildVar at h
  lift_lets at h
  extract_lets r I1 v1 v2 I2 t I3 v3 I4 v4 at h
  split at h
  · obtain rfl := Option.some.inj h
    exact ⟨[], by rw [List.append_nil]; exact hs⟩
  · split at h
    · exact absurd h (by simp)
    · rename_i b hb
      obtain rfl := Option.some.inj h
      refine ⟨[writeBitcode (AnyInfo.Var I4), b], ?_⟩
      simp only [insertBitcode, v4, v3, t, v2, v1, getTypeInfoForType_sink, List.append_assoc,
        List.cons_append, List.nil_append]
      rw [hs]

/-- The builder `buildTypedef` only appends to the sink. -/
theorem buildTypedef_sink_grows (ext : Externals) (v w : ASTVisitor) (I : TypedefInfo)
    (D : TypedefNameDecl) (h : buildTypedef ext v I D = some w) :
    ∃ f, w.sink = v.sink ++ f := by
  have hs := extractInfo_sink ext v I.toInfo (AnyDecl.Typedef D)
  unfold buildTypedef at h
  lift_lets at h
  extract_lets r I1 v1 t I2 v2 v3 I3 v4 at h
  split at h
  · obtain rfl := Option.some.inj h
    exact ⟨[], by rw [List.append_nil]; exact hs⟩
  · split at h
    · obtain rfl := Option.some.inj h
      refine ⟨[], ?_⟩
      simp only [v2, t, getTypeInfoForType_sink, v1, List.append_nil]
      exact hs
    · split at h
      · exact absurd h (by simp)
      · rename_i b hb
        obtain rfl := Option.some.inj h
        refine ⟨[writeBitcode (AnyInfo.Typedef I3), b], ?_⟩
        simp only [insertBitcode, v4, v3, v2, t, getTypeInfoForType_sink, v1, List.append_assoc,
          List.cons_append, List.nil_append]
        rw [hs]

/-- The builder `buildFunction` only appends to the sink. -/
theorem buildFunction_sink_grows (ext : Externals) (v w : ASTVisitor) (I : FunctionInfo)
    (DeclTy : FunctionDeclTy) (D : FunctionDecl)
    (h : buildFunction ext v I DeclTy D = some w) : ∃ f, w.sink = v.sink ++ f := by
  have hs := constructFunction_sink ext v I DeclTy D
  unfold buildFunction at h
  lift_lets at h
  extract_lets c I1 v1 v2 at h
  split at h
  · obtain rfl := Option.some.inj h
    exact ⟨[], by rw [List.append_nil]; exact hs⟩
  · split at h
    · exact absurd h (by simp)
    · rename_i b hb
      obtain rfl := Option.some.inj h
      refine ⟨[writeBitcode (AnyInfo.Function I1), b], ?_⟩
      simp only [insertBitcode, v2, v1, List.append_assoc, List.cons_append, List.nil_append]
      rw [hs]

/-- The builder `buildRecord` only appends to the sink. -/
theorem buildRecord_sink_grows (ext : Externals) (v w : ASTVisitor) (I : RecordInfo)
    (D : CXXRecordDecl) (h : buildRecord ext v I D = some w) :
    ∃ f, w.sink = v.sink ++ f := by
  have hs := extractInfo_sink ext v I.toInfo (AnyDecl.CXXRecord D)
  unfold buildRecord at h
  lift_lets at h
  extract_lets r I1 v1 v2 I2 I3 I4 I5 I6 at h
  split at h
  · obtain rfl := Option.some.inj h
    exact ⟨[], by rw [List.append_nil]; exact hs⟩
  · cases hb : extractBases ext v2 I6 D with
    | none =>
      rw [hb] at h
      exact absurd h (by simp)
    | some st =>
      obtain ⟨I7, v7⟩ := st
      rw [hb] at h
      simp only [] at h
      have h7 := extractBases_sink ext v2 v7 I6 I7 D hb
      split at h
      · exact absurd h (by simp)
      · rename_i b hb
        obtain rfl := Option.some.inj h
        refine ⟨[writeBitcode (AnyInfo.Record I7), b], ?_⟩
        simp only [insertBitcode, h7, v2, v1, List.append_assoc, List.cons_append,
          List.nil_append]
        rw [hs]

/-- The builder `buildFriend` only appends to the sink. -/
theorem buildFriend_sink_grows (ext : Externals) (v w : ASTVisitor) (D : FriendDecl)
    (h : buildFriend ext v D = some w) : ∃ f, w.sink = v.sink ++ f := by
  cases hND : D.friendDecl with
  | none =>
    simp only [buildFriend, hND] at h
    split at h
    · cases h; exact ⟨[], by simp⟩
    · cases h
  | some ND =>
    cases ND with
    | FunctionTemplate => simp [buildFriend, hND] at h; subst h; exact ⟨[], by simp⟩
    | ClassTemplate => simp [buildFriend, hND] at h; subst h; exact ⟨[], by simp⟩
    | Other => simp [buildFriend, hND] at h
    | Function FD =>
      cases hfile : shouldExtract ext v FD.toDecl with
      | none => simp [buildFriend, hND, hfile] at h
      | some s =>
        obtain ⟨b, v0⟩ := s
        have hv0 : v0.sink = v.sink := (shouldExtract_frame ext v FD.toDecl _ hfile).1
        cases b with
        | false =>
          simp [buildFriend, hND, hfile] at h
          subst h
          exact ⟨[], by simp [hv0]⟩
        | true =>
          cases hflag : (constructFunction ext v0 {} FunctionDeclTy.FunctionDecl FD).1 with
          | false =>
            simp [buildFriend, hND, hfile, hflag] at h
            subst h
            exact ⟨[], by rw [constructFunction_sink, hv0]; simp⟩
          | true =>
            obtain ⟨a, b, c, d, hs⟩ :=
              buildFriend_function_sink ext v v0 w D FD hND hfile hflag h
            exact ⟨_, hs⟩

/-! ## The traversal only appends to the sink -/

mutual
/-- The call `buildTemplateParam` leaves the sink and the policy flag alone. -/
theorem buildTemplateParam_frame (ext : Externals) :
    ∀ (ND : TemplateParmDecl) (v : ASTVisitor),
    (buildTemplateParam ext v ND).2.sink = v.sink ∧
    (buildTemplateParam ext v ND).2.PublicOnly = v.PublicOnly
  | .TemplateTypeParm name p none, v => by
    rw [buildTemplateParam]; exact ⟨rfl, rfl⟩
  | .TemplateTypeParm name p (some T), v => by
    rw [buildTemplateParam]
    exact ⟨getTypeInfoForType_sink ext v T, getTypeInfoForType_policy ext v T⟩
  | .NonTypeTemplateParm name p T d, v => by
    rw [buildTemplateParam]
    exact ⟨getTypeInfoForType_sink ext v T, getTypeInfoForType_policy ext v T⟩
  | .TemplateTemplateParm name p ps d, v => by
    rw [buildTemplateParam]
    exact buildTemplateParams_frame ext ps v
  | .Other name p, v => by
    rw [buildTemplateParam]; exact ⟨rfl, rfl⟩
/-- The loop over a parameter list leaves the sink and the policy flag alone. -/
theorem buildTemplateParams_frame (ext : Externals) :
    ∀ (l : List TemplateParmDecl) (v : ASTVisitor),
    (buildTemplateParams ext v l).2.sink = v.sink ∧
    (buildTemplateParams ext v l).2.PublicOnly = v.PublicOnly
  | [], v => by rw [buildTemplateParams]; exact ⟨rfl, rfl⟩
  | ND :: rest, v => by
    rw [buildTemplateParams]
    obtain ⟨h1, h2⟩ := buildTemplateParam_frame ext ND v
    obtain ⟨h3, h4⟩ := buildTemplateParams_frame ext rest (buildTemplateParam ext v ND).2
    exact ⟨h3.trans h1, h4.trans h2⟩
end

/-- The call `parseTemplateParams` leaves the sink and the policy flag alone. -/
theorem parseTemplateParams_frame (ext : Externals) (v : ASTVisitor) (I : TemplateInfo)
    (D : Decl) :
    (parseTemplateParams ext v I D).2.sink = v.sink ∧
    (parseTemplateParams ext v I D).2.PublicOnly = v.PublicOnly := by
  unfold parseTemplateParams
  split
  · exact buildTemplateParams_frame ext _ v
  · exact ⟨rfl, rfl⟩

/-- The call `parseTemplateArgs` for a class specialization leaves the sink and the policy
flag alone. -/
theorem parseTemplateArgsClass_frame (ext : Externals) (v : ASTVisitor) (I : TemplateInfo)
    (spec : ClassTemplateSpecializationDecl) (a : TemplateInfo × ASTVisitor)
    (h : parseTemplateArgsClass ext v I spec = some a) :
    a.2.sink = v.sink ∧ a.2.PublicOnly = v.PublicOnly := by
  unfold parseTemplateArgsClass at h
  cases hT : spec.specializedTemplateDecl <;> cases hA : spec.typeAsWritten <;>
    simp only [hT, hA] at h
  · cases h
  · cases h; exact ⟨rfl, rfl⟩
  · cases h
  · cases h; exact extractSymbolID_frame ext v _ _

/-- The call `parseTemplateArgs` for a variable specialization leaves the sink and the
policy flag alone. -/
theorem parseTemplateArgsVar_frame (ext : Externals) (v : ASTVisitor) (I : TemplateInfo)
    (spec : VarTemplateSpecializationDecl) :
    (parseTemplateArgsVar ext v I spec).2.sink = v.sink ∧
    (parseTemplateArgsVar ext v I spec).2.PublicOnly = v.PublicOnly := by
  unfold parseTemplateArgsVar
  cases hT : spec.specializedTemplate <;> cases hA : spec.partialTemplateArgsAsWritten
  · exact ⟨rfl, rfl⟩
  · exact ⟨rfl, rfl⟩
  · exact extractSymbolID_frame ext v _ _
  · exact extractSymbolID_frame ext v _ _

/-- A call guarded by `shouldExtract` only appends to the sink when the guarded part does. -/
theorem guarded_sink_grows (ext : Externals) (v : ASTVisitor) (D : Decl)
    (k : ASTVisitor → Option (Bool × ASTVisitor))
    (hk : ∀ v0 r, k v0 = some r → ∃ f, r.2.sink = v0.sink ++ f)
    (r : Bool × ASTVisitor)
    (h : (match shouldExtract ext v D with
      | none => none
      | some s => if !s.1 then some (true, s.2) else k s.2) = some r) :
    ∃ f, r.2.sink = v.sink ++ f := by
  cases hs : shouldExtract ext v D with
  | none => rw [hs] at h; exact absurd h (by simp)
  | some s =>
    rw [hs] at h
    have hv := (shouldExtract_frame ext v D s hs).1
    simp only [] at h
    split at h
    · cases h; exact ⟨[], by rw [List.append_nil]; exact hv⟩
    · obtain ⟨f, hf⟩ := hk _ _ h
      exact ⟨f, by rw [hf, hv]⟩

/-- A builder call followed by `return true` only appends to the sink when the builder
does. -/
theorem built_sink_grows (b : ASTVisitor → Option ASTVisitor)
    (hb : ∀ v0 w, b v0 = some w → ∃ f, w.sink = v0.sink ++ f) :
    ∀ v0 r, (match b v0 with
      | none => none
      | some w => some (true, w)) = some r → ∃ f, r.2.sink = v0.sink ++ f := by
  intro v0 r h
  cases hw : b v0 with
  | none => rw [hw] at h; exact absurd h (by simp)
  | some w =>
    rw [hw] at h
    cases h
    exact hb v0 w hw

/-- A builder call followed by a continuation only appends to the sink when both do. -/
theorem built_then_sink_grows (b : ASTVisitor → Option ASTVisitor)
    (hb : ∀ v0 w, b v0 = some w → ∃ f, w.sink = v0.sink ++ f)
    (c : ASTVisitor → Option (Bool × ASTVisitor))
    (hc : ∀ v0 r, c v0 = some r → ∃ f, r.2.sink = v0.sink ++ f) :
    ∀ v0 r, (match b v0 with
      | none => none
      | some w => c w) = some r → ∃ f, r.2.sink = v0.sink ++ f := by
  intro v0 r h
  cases hw : b v0 with
  | none => rw [hw] at h; exact absurd h (by simp)
  | some w =>
    rw [hw] at h
    obtain ⟨f1, h1⟩ := hb v0 w hw
    obtain ⟨f2, h2⟩ := hc w r h
    exact ⟨f1 ++ f2, by rw [h2, h1, List.append_assoc]⟩

/-- What `andReturnTrue` returns. -/
theorem andReturnTrue_some (x : Option (Bool × ASTVisitor)) (r : Bool × ASTVisitor)
    (h : andReturnTrue x = some r) : r.1 = true ∧ ∃ r0, x = some r0 ∧ r.2 = r0.2 := by
  cases x with
  | none => exact absurd h (by simp [andReturnTrue])
  | some r0 =>
    simp only [andReturnTrue, Option.some.injEq] at h
    subst h
    exact ⟨rfl, r0, rfl, rfl⟩

/-- The overload for an enumeration only appends to the sink. -/
theorem TraverseEnumDecl_sink_grows (ext : Externals) (v : ASTVisitor) (D : EnumDecl)
    (r : Bool × ASTVisitor) (h : TraverseEnumDecl ext v D = some r) :
    ∃ f, r.2.sink = v.sink ++ f :=
  guarded_sink_grows ext v D.toDecl _
    (built_sink_grows (fun v0 => buildEnum ext v0 {} D)
      (fun v0 w => buildEnum_sink_grows ext v0 w {} D)) r h

/-- The overload for a field only appends to the sink. -/
theorem TraverseFieldDecl_sink_grows (ext : Externals) (v : ASTVisitor) (D : FieldDecl)
    (r : Bool × ASTVisitor) (h : TraverseFieldDecl ext v D = some r) :
    ∃ f, r.2.sink = v.sink ++ f :=
  guarded_sink_grows ext v D.toDecl _
    (built_sink_grows (fun v0 => buildField ext v0 {} D)
      (fun v0 w => buildField_sink_grows ext v0 w {} D)) r h

/-- The overload for a typedef only appends to the sink. -/
theorem TraverseTypedefDecl_sink_grows (ext : Externals) (v : ASTVisitor) (D : TypedefNameDecl)
    (r : Bool × ASTVisitor) (h : TraverseTypedefDecl ext v D = some r) :
    ∃ f, r.2.sink = v.sink ++ f :=
  guarded_sink_grows ext v D.toDecl _
    (built_sink_grows (fun v0 => buildTypedef ext v0 {} D)
      (fun v0 w => buildTypedef_sink_grows ext v0 w {} D)) r h

/-- The overload for an alias only appends to the sink. -/
theorem TraverseTypeAliasDecl_sink_grows (ext : Externals) (v : ASTVisitor)
    (D : TypedefNameDecl) (Template : Option TemplateInfo)
    (r : Bool × ASTVisitor) (h : TraverseTypeAliasDecl ext v D Template = some r) :
    ∃ f, r.2.sink = v.sink ++ f :=
  guarded_sink_grows ext v D.toDecl _
    (built_sink_grows (fun v0 => buildTypedef ext v0 _ D)
      (fun v0 w => buildTypedef_sink_grows ext v0 w _ D)) r h

/-- The overload for a variable only appends to the sink. -/
theorem TraverseVarDecl_sink_grows (ext : Externals) (v : ASTVisitor)
    (D : VarDecl) (Template : Option TemplateInfo)
    (r : Bool × ASTVisitor) (h : TraverseVarDecl ext v D Template = some r) :
    ∃ f, r.2.sink = v.sink ++ f :=
  guarded_sink_grows ext v D.toDecl _
    (built_sink_grows (fun v0 => buildVar ext v0 _ D)
      (fun v0 w => buildVar_sink_grows ext v0 w _ D)) r h

/-- The overloads for functions only append to the sink. -/
theorem TraverseFunctionDecl_sink_grows (ext : Externals) (v : ASTVisitor)
    (DeclTy : FunctionDeclTy) (D : FunctionDecl) (Template : Option TemplateInfo)
    (r : Bool × ASTVisitor) (h : TraverseFunctionDecl ext v DeclTy D Template = some r) :
    ∃ f, r.2.sink = v.sink ++ f :=
  guarded_sink_grows ext v D.toDecl _
    (built_sink_grows (fun v0 => buildFunction ext v0 _ DeclTy D)
      (fun v0 w => buildFunction_sink_grows ext v0 w _ DeclTy D)) r h

/-- The overload for a destructor only appends to the sink. -/
theorem TraverseCXXDestructorDecl_sink_grows (ext : Externals) (v : ASTVisitor)
    (D : FunctionDecl) (r : Bool × ASTVisitor)
    (h : TraverseCXXDestructorDecl ext v D = some r) :
    ∃ f, r.2.sink = v.sink ++ f :=
  guarded_sink_grows ext v D.toDecl _
    (built_sink_grows (fun v0 => buildFunction ext v0 _ FunctionDeclTy.CXXDestructorDecl D)
      (fun v0 w => buildFunction_sink_grows ext v0 w _ _ D)) r h

/-- The overload for a friend declaration only appends to the sink. -/
theorem TraverseFriendDecl_sink_grows (ext : Externals) (v : ASTVisitor)
    (D : FriendDecl) (r : Bool × ASTVisitor) (h : TraverseFriendDecl ext v D = some r) :
    ∃ f, r.2.sink = v.sink ++ f :=
  built_sink_grows (fun v0 => buildFriend ext v0 D)
    (fun v0 w => buildFriend_sink_grows ext v0 w D) v r h

/-- The overload for a namespace only appends to the sink when the traversal of its
declarations does. -/
theorem TraverseNamespaceDecl_sink_grows (ext : Externals) (v : ASTVisitor)
    (D : NamespaceDecl) (c : ASTVisitor → Option (Bool × ASTVisitor))
    (hc : ∀ v0 r, c v0 = some r → ∃ f, r.2.sink = v0.sink ++ f)
    (r : Bool × ASTVisitor) (h : TraverseNamespaceDecl ext v D c = some r) :
    ∃ f, r.2.sink = v.sink ++ f :=
  guarded_sink_grows ext v D.toDecl _
    (built_then_sink_grows (fun v0 => buildNamespace ext v0 {} D)
      (fun v0 w => buildNamespace_sink_grows ext v0 w {} D) c hc) r h

/-- The overload for a class only appends to the sink when the traversal of its
declarations does. -/
theorem TraverseCXXRecordDecl_sink_grows (ext : Externals) (v : ASTVisitor)
    (D : CXXRecordDecl) (Template : Option TemplateInfo)
    (c : ASTVisitor → Option (Bool × ASTVisitor))
    (hc : ∀ v0 r, c v0 = some r → ∃ f, r.2.sink = v0.sink ++ f)
    (r : Bool × ASTVisitor) (h : TraverseCXXRecordDecl ext v D Template c = some r) :
    ∃ f, r.2.sink = v.sink ++ f :=
  guarded_sink_grows ext v D.toDecl _
    (built_then_sink_grows (fun v0 => buildRecord ext v0 _ D)
      (fun v0 w => buildRecord_sink_grows ext v0 w _ D) c hc) r h

/-- The overload for a class template only appends to the sink when the traversal of the
declarations of the class does. -/
theorem TraverseClassTemplateDecl_sink_grows (ext : Externals) (v : ASTVisitor)
    (RD : CXXRecordDecl) (c : ASTVisitor → Option (Bool × ASTVisitor))
    (hc : ∀ v0 r, c v0 = some r → ∃ f, r.2.sink = v0.sink ++ f)
    (r : Bool × ASTVisitor) (h : TraverseClassTemplateDecl ext v RD c = some r) :
    ∃ f, r.2.sink = v.sink ++ f :=
  guarded_sink_grows ext v RD.toDecl
    (fun v0 => TraverseCXXRecordDecl ext (parseTemplateParams ext v0 {} RD.toDecl).2 RD
      (some (parseTemplateParams ext v0 {} RD.toDecl).1) c)
    (fun v0 r0 h0 => by
      obtain ⟨f, hf⟩ := TraverseCXXRecordDecl_sink_grows ext _ RD _ c hc r0 h0
      exact ⟨f, by rw [hf, (parseTemplateParams_frame ext v0 _ _).1]⟩) r h

/-- The overload for a class template specialization only appends to the sink when the
traversal of the declarations of the class does. -/
theorem TraverseClassTemplateSpecializationDecl_sink_grows (ext : Externals)
    (v : ASTVisitor) (D : ClassTemplateSpecializationDecl)
    (c : ASTVisitor → Option (Bool × ASTVisitor))
    (hc : ∀ v0 r, c v0 = some r → ∃ f, r.2.sink = v0.sink ++ f)
    (r : Bool × ASTVisitor)
    (h : TraverseClassTemplateSpecializationDecl ext v D c = some r) :
    ∃ f, r.2.sink = v.sink ++ f :=
  guarded_sink_grows ext v D.toDecl
    (fun v0 =>
      match parseTemplateArgsClass ext (parseTemplateParams ext v0 {} D.toDecl).2
          (parseTemplateParams ext v0 {} D.toDecl).1 D with
      | none => none
      | some a => TraverseCXXRecordDecl ext a.2 D.toCXXRecordDecl (some a.1) c)
    (fun v0 r0 h0 => by
      simp only [] at h0
      split at h0
      · exact absurd h0 (by simp)
      · rename_i a ha
        obtain ⟨f, hf⟩ := TraverseCXXRecordDecl_sink_grows ext _ _ _ c hc r0 h0
        exact ⟨f, by rw [hf, (parseTemplateArgsClass_frame ext _ _ _ _ ha).1,
          (parseTemplateParams_frame ext v0 _ _).1]⟩) r h

/-- The overload for a variable template only appends to the sink. -/
theorem TraverseVarTemplateDecl_sink_grows (ext : Externals) (v : ASTVisitor)
    (VD : VarDecl) (r : Bool × ASTVisitor) (h : TraverseVarTemplateDecl ext v VD = some r) :
    ∃ f, r.2.sink = v.sink ++ f :=
  guarded_sink_grows ext v VD.toDecl
    (fun v0 => TraverseVarDecl ext (parseTemplateParams ext v0 {} VD.toDecl).2 VD
      (some (parseTemplateParams ext v0 {} VD.toDecl).1))
    (fun v0 r0 h0 => by
      obtain ⟨f, hf⟩ := TraverseVarDecl_sink_grows ext _ VD _ r0 h0
      exact ⟨f, by rw [hf, (parseTemplateParams_frame ext v0 _ _).1]⟩) r h

/-- The overload for a variable template specialization only appends to the sink. -/
theorem TraverseVarTemplateSpecializationDecl_sink_grows (ext : Externals) (v : ASTVisitor)
    (D : VarTemplateSpecializationDecl) (r : Bool × ASTVisitor)
    (h : TraverseVarTemplateSpecializationDecl ext v D = some r) :
    ∃ f, r.2.sink = v.sink ++ f :=
  guarded_sink_grows ext v D.toDecl
    (fun v0 => TraverseVarDecl ext
      (parseTemplateArgsVar ext (parseTemplateParams ext v0 {} D.toDecl).2
        (parseTemplateParams ext v0 {} D.toDecl).1 D).2 D.toVarDecl
      (some (parseTemplateArgsVar ext (parseTemplateParams ext v0 {} D.toDecl).2
        (parseTemplateParams ext v0 {} D.toDecl).1 D).1))
    (fun v0 r0 h0 => by
      obtain ⟨f, hf⟩ := TraverseVarDecl_sink_grows ext _ _ _ r0 h0
      exact ⟨f, by rw [hf, (parseTemplateArgsVar_frame ext _ _ _).1,
        (parseTemplateParams_frame ext v0 _ _).1]⟩) r h

/-- The overload for a function template only appends to the sink when the dispatch of
the templated declaration does. -/
theorem TraverseFunctionTemplateDecl_sink_grows (ext : Externals) (v : ASTVisitor)
    (FD : Decl) (c : ASTVisitor → TemplateInfo → Option (Bool × ASTVisitor))
    (hc : ∀ v0 T r, c v0 T = some r → ∃ f, r.2.sink = v0.sink ++ f)
    (r : Bool × ASTVisitor) (h : TraverseFunctionTemplateDecl ext v FD c = some r) :
    ∃ f, r.2.sink = v.sink ++ f :=
  guarded_sink_grows ext v FD
    (fun v0 => c (parseTemplateParams ext v0 {} FD).2 (parseTemplateParams ext v0 {} FD).1)
    (fun v0 r0 h0 => by
      obtain ⟨f, hf⟩ := hc _ _ r0 h0
      exact ⟨f, by rw [hf, (parseTemplateParams_frame ext v0 _ _).1]⟩) r h

/-- The overload for a class-scope function specialization only appends to the sink. -/
theorem TraverseClassScopeFunctionSpecializationDecl_sink_grows (ext : Externals)
    (v : ASTVisitor) (D : ClassScopeFunctionSpecializationDecl) (r : Bool × ASTVisitor)
    (h : TraverseClassScopeFunctionSpecializationDecl ext v D = some r) :
    ∃ f, r.2.sink = v.sink ++ f :=
  guarded_sink_grows ext v D.toDecl _
    (fun v0 r0 h0 => TraverseFunctionDecl_sink_grows ext v0 _ _ _ r0 h0) r h

/-- The overload for an alias template only appends to the sink. -/
theorem TraverseTypeAliasTemplateDecl_sink_grows (ext : Externals) (v : ASTVisitor)
    (AD : TypedefNameDecl) (r : Bool × ASTVisitor)
    (h : TraverseTypeAliasTemplateDecl ext v AD = some r) :
    ∃ f, r.2.sink = v.sink ++ f :=
  guarded_sink_grows ext v AD.toDecl
    (fun v0 => TraverseTypeAliasDecl ext (parseTemplateParams ext v0 {} AD.toDecl).2 AD
      (some (parseTemplateParams ext v0 {} AD.toDecl).1))
    (fun v0 r0 h0 => by
      obtain ⟨f, hf⟩ := TraverseTypeAliasDecl_sink_grows ext _ AD _ r0 h0
      exact ⟨f, by rw [hf, (parseTemplateParams_frame ext v0 _ _).1]⟩) r h

/-- What `withoutArgs` returns. -/
theorem withoutArgs_some (args : Option TemplateInfo) (call : Option (Bool × ASTVisitor))
    (r : Bool × ASTVisitor) (h : withoutArgs args call = some r) :
    args = none ∧ call = some r := by
  cases args with
  | none => exact ⟨rfl, h⟩
  | some T => exact absurd h (by simp [withoutArgs])

mutual
/-- The dispatch of a declaration only appends to the sink. -/
theorem TraverseDecl_sink_grows (ext : Externals) :
    ∀ (D : DeclNode) (v : ASTVisitor) (args : Option TemplateInfo) (r : Bool × ASTVisitor),
    TraverseDecl ext v D args = some r → ∃ f, r.2.sink = v.sink ++ f
  | .Namespace D decls, v, args, r, h => by
    rw [TraverseDecl] at h
    split at h
    · cases h; exact ⟨[], by simp⟩
    · obtain ⟨_, r0, h0, h1⟩ := andReturnTrue_some _ _ h
      obtain ⟨_, h0⟩ := withoutArgs_some _ _ _ h0
      rw [h1]
      exact TraverseNamespaceDecl_sink_grows ext v D _ (fun v0 r1 h1 => TraverseContext_sink_grows ext decls v0 r1 h1) r0 h0
  | .CXXRecord D decls, v, args, r, h => by
    rw [TraverseDecl] at h
    split at h
    · cases h; exact ⟨[], by simp⟩
    · obtain ⟨_, r0, h0, h1⟩ := andReturnTrue_some _ _ h
      rw [h1]
      exact TraverseCXXRecordDecl_sink_grows ext v D args _ (fun v0 r1 h1 => TraverseContext_sink_grows ext decls v0 r1 h1) r0 h0
  | .Function .CXXMethodDecl D, v, args, r, h => by
    rw [TraverseDecl] at h
    split at h
    · cases h; exact ⟨[], by simp⟩
    · obtain ⟨_, r0, h0, h1⟩ := andReturnTrue_some _ _ h
      rw [h1]
      exact TraverseFunctionDecl_sink_grows ext v _ D args r0 h0
  | .Function .CXXConstructorDecl D, v, args, r, h => by
    rw [TraverseDecl] at h
    split at h
    · cases h; exact ⟨[], by simp⟩
    · obtain ⟨_, r0, h0, h1⟩ := andReturnTrue_some _ _ h
      rw [h1]
      exact TraverseFunctionDecl_sink_grows ext v _ D args r0 h0
  | .Function .CXXConversionDecl D, v, args, r, h => by
    rw [TraverseDecl] at h
    split at h
    · cases h; exact ⟨[], by simp⟩
    · obtain ⟨_, r0, h0, h1⟩ := andReturnTrue_some _ _ h
      rw [h1]
      exact TraverseFunctionDecl_sink_grows ext v _ D args r0 h0
  | .Function .CXXDeductionGuideDecl D, v, args, r, h => by
    rw [TraverseDecl] at h
    split at h
    · cases h; exact ⟨[], by simp⟩
    · obtain ⟨_, r0, h0, h1⟩ := andReturnTrue_some _ _ h
      rw [h1]
      exact TraverseFunctionDecl_sink_grows ext v _ D args r0 h0
  | .Function .FunctionDecl D, v, args, r, h => by
    rw [TraverseDecl] at h
    split at h
    · cases h; exact ⟨[], by simp⟩
    · obtain ⟨_, r0, h0, h1⟩ := andReturnTrue_some _ _ h
      rw [h1]
      exact TraverseFunctionDecl_sink_grows ext v _ D args r0 h0
  | .Function .CXXDestructorDecl D, v, args, r, h => by
    rw [TraverseDecl] at h
    split at h
    · cases h; exact ⟨[], by simp⟩
    · obtain ⟨_, r0, h0, h1⟩ := andReturnTrue_some _ _ h
      obtain ⟨_, h0⟩ := withoutArgs_some _ _ _ h0
      rw [h1]
      exact TraverseCXXDestructorDecl_sink_grows ext v D r0 h0
  | .Friend D, v, args, r, h => by
    rw [TraverseDecl] at h
    split at h
    · cases h; exact ⟨[], by simp⟩
    · obtain ⟨_, r0, h0, h1⟩ := andReturnTrue_some _ _ h
      obtain ⟨_, h0⟩ := withoutArgs_some _ _ _ h0
      rw [h1]
      exact TraverseFriendDecl_sink_grows ext v D r0 h0
  | .TypeAlias D, v, args, r, h => by
    rw [TraverseDecl] at h
    split at h
    · cases h; exact ⟨[], by simp⟩
    · obtain ⟨_, r0, h0, h1⟩ := andReturnTrue_some _ _ h
      rw [h1]
      exact TraverseTypeAliasDecl_sink_grows ext v D args r0 h0
  | .Typedef D, v, args, r, h => by
    rw [TraverseDecl] at h
    split at h
    · cases h; exact ⟨[], by simp⟩
    · obtain ⟨_, r0, h0, h1⟩ := andReturnTrue_some _ _ h
      obtain ⟨_, h0⟩ := withoutArgs_some _ _ _ h0
      rw [h1]
      exact TraverseTypedefDecl_sink_grows ext v D r0 h0
  | .Enum D, v, args, r, h => by
    rw [TraverseDecl] at h
    split at h
    · cases h; exact ⟨[], by simp⟩
    · obtain ⟨_, r0, h0, h1⟩ := andReturnTrue_some _ _ h
      obtain ⟨_, h0⟩ := withoutArgs_some _ _ _ h0
      rw [h1]
      exact TraverseEnumDecl_sink_grows ext v D r0 h0
  | .Field D, v, args, r, h => by
    rw [TraverseDecl] at h
    split at h
    · cases h; exact ⟨[], by simp⟩
    · obtain ⟨_, r0, h0, h1⟩ := andReturnTrue_some _ _ h
      obtain ⟨_, h0⟩ := withoutArgs_some _ _ _ h0
      rw [h1]
      exact TraverseFieldDecl_sink_grows ext v D r0 h0
  | .Var D, v, args, r, h => by
    rw [TraverseDecl] at h
    split at h
    · cases h; exact ⟨[], by simp⟩
    · obtain ⟨_, r0, h0, h1⟩ := andReturnTrue_some _ _ h
      rw [h1]
      exact TraverseVarDecl_sink_grows ext v D args r0 h0
  | .ClassTemplate D0 RD decls, v, args, r, h => by
    rw [TraverseDecl] at h
    split at h
    · cases h; exact ⟨[], by simp⟩
    · obtain ⟨_, r0, h0, h1⟩ := andReturnTrue_some _ _ h
      obtain ⟨_, h0⟩ := withoutArgs_some _ _ _ h0
      rw [h1]
      exact TraverseClassTemplateDecl_sink_grows ext v RD _ (fun v0 r1 h1 => TraverseContext_sink_grows ext decls v0 r1 h1) r0 h0
  | .ClassTemplateSpecialization D decls, v, args, r, h => by
    rw [TraverseDecl] at h
    split at h
    · cases h; exact ⟨[], by simp⟩
    · obtain ⟨_, r0, h0, h1⟩ := andReturnTrue_some _ _ h
      obtain ⟨_, h0⟩ := withoutArgs_some _ _ _ h0
      rw [h1]
      exact TraverseClassTemplateSpecializationDecl_sink_grows ext v D _ (fun v0 r1 h1 => TraverseContext_sink_grows ext decls v0 r1 h1) r0 h0
  | .ClassTemplatePartialSpecialization D decls, v, args, r, h => by
    rw [TraverseDecl] at h
    split at h
    · cases h; exact ⟨[], by simp⟩
    · obtain ⟨_, r0, h0, h1⟩ := andReturnTrue_some _ _ h
      obtain ⟨_, h0⟩ := withoutArgs_some _ _ _ h0
      rw [h1]
      exact TraverseClassTemplateSpecializationDecl_sink_grows ext v D _ (fun v0 r1 h1 => TraverseContext_sink_grows ext decls v0 r1 h1) r0 h0
  | .VarTemplate D0 VD, v, args, r, h => by
    rw [TraverseDecl] at h
    split at h
    · cases h; exact ⟨[], by simp⟩
    · obtain ⟨_, r0, h0, h1⟩ := andReturnTrue_some _ _ h
      obtain ⟨_, h0⟩ := withoutArgs_some _ _ _ h0
      rw [h1]
      exact TraverseVarTemplateDecl_sink_grows ext v VD r0 h0
  | .VarTemplateSpecialization D, v, args, r, h => by
    rw [TraverseDecl] at h
    split at h
    · cases h; exact ⟨[], by simp⟩
    · obtain ⟨_, r0, h0, h1⟩ := andReturnTrue_some _ _ h
      obtain ⟨_, h0⟩ := withoutArgs_some _ _ _ h0
      rw [h1]
      exact TraverseVarTemplateSpecializationDecl_sink_grows ext v D r0 h0
  | .VarTemplatePartialSpecialization D, v, args, r, h => by
    rw [TraverseDecl] at h
    split at h
    · cases h; exact ⟨[], by simp⟩
    · obtain ⟨_, r0, h0, h1⟩ := andReturnTrue_some _ _ h
      obtain ⟨_, h0⟩ := withoutArgs_some _ _ _ h0
      rw [h1]
      exact TraverseVarTemplateSpecializationDecl_sink_grows ext v D r0 h0
  | .FunctionTemplate D0 FD, v, args, r, h => by
    rw [TraverseDecl] at h
    split at h
    · cases h; exact ⟨[], by simp⟩
    · obtain ⟨_, r0, h0, h1⟩ := andReturnTrue_some _ _ h
      obtain ⟨_, h0⟩ := withoutArgs_some _ _ _ h0
      rw [h1]
      exact TraverseFunctionTemplateDecl_sink_grows ext v FD.toDecl _
        (fun v0 T r1 h1 => TraverseDecl_sink_grows ext FD v0 (some T) r1 h1) r0 h0
  | .ClassScopeFunctionSpecialization D, v, args, r, h => by
    rw [TraverseDecl] at h
    split at h
    · cases h; exact ⟨[], by simp⟩
    · obtain ⟨_, r0, h0, h1⟩ := andReturnTrue_some _ _ h
      obtain ⟨_, h0⟩ := withoutArgs_some _ _ _ h0
      rw [h1]
      exact TraverseClassScopeFunctionSpecializationDecl_sink_grows ext v D r0 h0
  | .TypeAliasTemplate D0 AD, v, args, r, h => by
    rw [TraverseDecl] at h
    split at h
    · cases h; exact ⟨[], by simp⟩
    · obtain ⟨_, r0, h0, h1⟩ := andReturnTrue_some _ _ h
      obtain ⟨_, h0⟩ := withoutArgs_some _ _ _ h0
      rw [h1]
      exact TraverseTypeAliasTemplateDecl_sink_grows ext v AD r0 h0
  | .Other D0 (some decls), v, args, r, h => by
    rw [TraverseDecl] at h
    split at h
    · cases h; exact ⟨[], by simp⟩
    · obtain ⟨_, r0, h0, h1⟩ := andReturnTrue_some _ _ h
      rw [h1]
      exact TraverseContext_sink_grows ext decls v r0 h0
  | .Other D0 none, v, args, r, h => by
    rw [TraverseDecl] at h
    split at h
    · cases h; exact ⟨[], by simp⟩
    · cases h; exact ⟨[], by simp⟩
/-- The traversal of a list of declarations only appends to the sink. -/
theorem TraverseContext_sink_grows (ext : Externals) :
    ∀ (decls : List DeclNode) (v : ASTVisitor) (r : Bool × ASTVisitor),
    TraverseContext ext v decls = some r → ∃ f, r.2.sink = v.sink ++ f
  | [], v, r, h => by
    rw [TraverseContext] at h
    cases h; exact ⟨[], by simp⟩
  | C :: decls, v, r, h => by
    rw [TraverseContext] at h
    split at h
    · exact absurd h (by simp)
    · rename_i r1 h1
      obtain ⟨f1, hf1⟩ := TraverseDecl_sink_grows ext C v none r1 h1
      obtain ⟨f2, hf2⟩ := TraverseContext_sink_grows ext decls r1.2 r h
      exact ⟨f1 ++ f2, by rw [hf2, hf1, List.append_assoc]⟩
end

/-! ## Declarations that are dispatched and emit nothing -/

/-- The call `shouldExtract` returns on a declaration that meets its assertion. -/
theorem shouldExtract_some (ext : Externals) (v : ASTVisitor) (D : Decl)
    (hD : notAtBlockScope D = true) : ∃ s, shouldExtract ext v D = some s := by
  unfold shouldExtract
  split
  · exact ⟨_, rfl⟩
  · rename_i hsys
    have hp : D.parentFunctionOrMethod = false := by
      simp only [notAtBlockScope, Bool.or_eq_true, Bool.not_eq_true'] at hD
      rcases hD with h | h
      · exact absurd h hsys
      · exact h
    simp only [hp, Bool.false_eq_true, if_false]
    split
    · split
      · exact ⟨_, rfl⟩
      · exact ⟨_, rfl⟩
    · split
      · exact ⟨_, rfl⟩
      · exact ⟨_, rfl⟩

/-- A call guarded by `shouldExtract` hands nothing to the sink when the guarded part
does not. -/
theorem guarded_hands_nothing (ext : Externals) (w v : ASTVisitor) (D : Decl)
    (hD : notAtBlockScope D = true)
    (hs : v.sink = w.sink) (hp : v.PublicOnly = w.PublicOnly)
    (k c : ASTVisitor → Option (Bool × ASTVisitor))
    (hk : ∀ v0, v0.sink = w.sink → v0.PublicOnly = w.PublicOnly → HandsNothing w c (k v0)) :
    HandsNothing w c (match shouldExtract ext v D with
      | none => none
      | some s => if !s.1 then some (true, s.2) else k s.2) := by
  obtain ⟨s, hse⟩ := shouldExtract_some ext v D hD
  obtain ⟨h1, h2⟩ := shouldExtract_frame ext v D s hse
  rw [hse]
  simp only []
  split
  · exact ⟨s.2, h1.trans hs, h2.trans hp, Or.inl rfl⟩
  · exact hk s.2 (h1.trans hs) (h2.trans hp)

/-- A builder that returns without a fragment, followed by a continuation, hands
nothing to the sink. -/
theorem built_hands_nothing (w v0 v1 : ASTVisitor) (b : Option ASTVisitor)
    (c : ASTVisitor → Option (Bool × ASTVisitor))
    (hs : v1.sink = v0.sink) (hp : v1.PublicOnly = v0.PublicOnly)
    (hs0 : v0.sink = w.sink) (hp0 : v0.PublicOnly = w.PublicOnly) :
    b = some v1 →
    HandsNothing w c (match b with
      | none => none
      | some v => c v) := by
  intro hb
  subst hb
  exact ⟨v1, hs.trans hs0, hp.trans hp0, Or.inr rfl⟩

/-- The flag of `extractInfo` is not set on a declaration that is not admitted. -/
theorem extractInfo_not_admitted (ext : Externals) (w v : ASTVisitor) (I : Info) (D : AnyDecl)
    (hp : v.PublicOnly = w.PublicOnly) (h : admitted w.PublicOnly D = false) :
    (extractInfo ext v I D).1 = false := by
  rw [(extractInfo_value ext v I D).1, hp]
  exact h

/-- The overload for an enumeration hands nothing to the sink when the declaration is not
admitted. -/
theorem TraverseEnumDecl_rejected (ext : Externals) (w v : ASTVisitor) (D : EnumDecl)
    (hD : notAtBlockScope D.toDecl = true)
    (hs : v.sink = w.sink) (hp : v.PublicOnly = w.PublicOnly)
    (hadm : admitted w.PublicOnly (AnyDecl.Enum D) = false) :
    HandsNothing w (fun v1 => some (true, v1)) (TraverseEnumDecl ext v D) :=
  guarded_hands_nothing ext w v D.toDecl hD hs hp
    (fun v0 =>
      match buildEnum ext v0 {} D with
      | none => none
      | some v => some (true, v))
    (fun v1 => some (true, v1))
    (fun v0 hs0 hp0 => by
      obtain ⟨v1, hb, hs1⟩ := (buildEnum_emits ext v0 {} D).1
        (extractInfo_not_admitted ext w v0 _ _ hp0 hadm)
      exact built_hands_nothing w v0 v1 _ (fun v1 => some (true, v1)) hs1
        (buildEnum_policy ext v0 v1 {} D hb) hs0 hp0 hb)

/-- The overload for a field hands nothing to the sink when the declaration is not
admitted. -/
theorem TraverseFieldDecl_rejected (ext : Externals) (w v : ASTVisitor) (D : FieldDecl)
    (hD : notAtBlockScope D.toDecl = true)
    (hs : v.sink = w.sink) (hp : v.PublicOnly = w.PublicOnly)
    (hadm : admitted w.PublicOnly (AnyDecl.Field D) = false) :
    HandsNothing w (fun v1 => some (true, v1)) (TraverseFieldDecl ext v D) :=
  guarded_hands_nothing ext w v D.toDecl hD hs hp
    (fun v0 =>
      match buildField ext v0 {} D with
      | none => none
      | some v => some (true, v))
    (fun v1 => some (true, v1))
    (fun v0 hs0 hp0 => by
      obtain ⟨v1, hb, hs1⟩ := (buildField_emits ext v0 {} D).1
        (extractInfo_not_admitted ext w v0 _ _ hp0 hadm)
      exact built_hands_nothing w v0 v1 _ (fun v1 => some (true, v1)) hs1
        (buildField_policy ext v0 v1 {} D hb) hs0 hp0 hb)

/-- The overload for a typedef hands nothing to the sink when the declaration is not
admitted. -/
theorem TraverseTypedefDecl_rejected (ext : Externals) (w v : ASTVisitor) (D : TypedefNameDecl)
    (hD : notAtBlockScope D.toDecl = true)
    (hs : v.sink = w.sink) (hp : v.PublicOnly = w.PublicOnly)
    (hadm : admitted w.PublicOnly (AnyDecl.Typedef D) = false) :
    HandsNothing w (fun v1 => some (true, v1)) (TraverseTypedefDecl ext v D) :=
  guarded_hands_nothing ext w v D.toDecl hD hs hp
    (fun v0 =>
      match buildTypedef ext v0 {} D with
      | none => none
      | some v => some (true, v))
    (fun v1 => some (true, v1))
    (fun v0 hs0 hp0 => by
      obtain ⟨v1, hb, hs1⟩ := (buildTypedef_emits ext v0 {} D).1
        (extractInfo_not_admitted ext w v0 _ _ hp0 hadm)
      exact built_hands_nothing w v0 v1 _ (fun v1 => some (true, v1)) hs1
        (buildTypedef_policy ext v0 v1 {} D hb) hs0 hp0 hb)

/-- The overload for an alias hands nothing to the sink when the declaration is not
admitted. -/
theorem TraverseTypeAliasDecl_rejected (ext : Externals) (w v : ASTVisitor) (D : TypedefNameDecl) (Template : Option TemplateInfo)
    (hD : notAtBlockScope D.toDecl = true)
    (hs : v.sink = w.sink) (hp : v.PublicOnly = w.PublicOnly)
    (hadm : admitted w.PublicOnly (AnyDecl.Typedef D) = false) :
    HandsNothing w (fun v1 => some (true, v1)) (TraverseTypeAliasDecl ext v D Template) :=
  guarded_hands_nothing ext w v D.toDecl hD hs hp
    (fun v0 =>
      match buildTypedef ext v0 { Template := Template, IsUsing := true } D with
      | none => none
      | some v => some (true, v))
    (fun v1 => some (true, v1))
    (fun v0 hs0 hp0 => by
      obtain ⟨v1, hb, hs1⟩ := (buildTypedef_emits ext v0 { Template := Template, IsUsing := true } D).1
        (extractInfo_not_admitted ext w v0 _ _ hp0 hadm)
      exact built_hands_nothing w v0 v1 _ (fun v1 => some (true, v1)) hs1
        (buildTypedef_policy ext v0 v1 { Template := Template, IsUsing := true } D hb) hs0 hp0 hb)

/-- The overload for a variable hands nothing to the sink when the declaration is not
admitted. -/
theorem TraverseVarDecl_rejected (ext : Externals) (w v : ASTVisitor) (D : VarDecl) (Template : Option TemplateInfo)
    (hD : notAtBlockScope D.toDecl = true)
    (hs : v.sink = w.sink) (hp : v.PublicOnly = w.PublicOnly)
    (hadm : admitted w.PublicOnly (AnyDecl.Var D) = false) :
    HandsNothing w (fun v1 => some (true, v1)) (TraverseVarDecl ext v D Template) :=
  guarded_hands_nothing ext w v D.toDecl hD hs hp
    (fun v0 =>
      match buildVar ext v0 { Template := Template } D with
      | none => none
      | some v => some (true, v))
    (fun v1 => some (true, v1))
    (fun v0 hs0 hp0 => by
      obtain ⟨v1, hb, hs1⟩ := (buildVar_emits ext v0 { Template := Template } D).1
        (extractInfo_not_admitted ext w v0 _ _ hp0 hadm)
      exact built_hands_nothing w v0 v1 _ (fun v1 => some (true, v1)) hs1
        (buildVar_policy ext v0 v1 { Template := Template } D hb) hs0 hp0 hb)

/-- The overload for a function hands nothing to the sink when the declaration is not
admitted. -/
theorem TraverseFunctionDecl_rejected (ext : Externals) (w v : ASTVisitor) (DeclTy : FunctionDeclTy) (D : FunctionDecl)
    (Template : Option TemplateInfo)
    (hD : notAtBlockScope D.toDecl = true)
    (hs : v.sink = w.sink) (hp : v.PublicOnly = w.PublicOnly)
    (hadm : admitted w.PublicOnly (AnyDecl.Function (applyDecayToParameters D)) = false) :
    HandsNothing w (fun v1 => some (true, v1)) (TraverseFunctionDecl ext v DeclTy D Template) :=
  guarded_hands_nothing ext w v D.toDecl hD hs hp
    (fun v0 =>
      match buildFunction ext v0 { Template := Template } DeclTy D with
      | none => none
      | some v => some (true, v))
    (fun v1 => some (true, v1))
    (fun v0 hs0 hp0 => by
      obtain ⟨v1, hb, hs1⟩ := (buildFunction_emits ext v0 { Template := Template } DeclTy D).1
        (extractInfo_not_admitted ext w v0 _ _ hp0 hadm)
      exact built_hands_nothing w v0 v1 _ (fun v1 => some (true, v1)) hs1
        (buildFunction_policy ext v0 v1 { Template := Template } DeclTy D hb) hs0 hp0 hb)

/-- The overload for a destructor hands nothing to the sink when the declaration is not
admitted. -/
theorem TraverseCXXDestructorDecl_rejected (ext : Externals) (w v : ASTVisitor) (D : FunctionDecl)
    (hD : notAtBlockScope D.toDecl = true)
    (hs : v.sink = w.sink) (hp : v.PublicOnly = w.PublicOnly)
    (hadm : admitted w.PublicOnly (AnyDecl.Function (applyDecayToParameters D)) = false) :
    HandsNothing w (fun v1 => some (true, v1)) (TraverseCXXDestructorDecl ext v D) :=
  guarded_hands_nothing ext w v D.toDecl hD hs hp
    (fun v0 =>
      match buildFunction ext v0 {} FunctionDeclTy.CXXDestructorDecl D with
      | none => none
      | some v => some (true, v))
    (fun v1 => some (true, v1))
    (fun v0 hs0 hp0 => by
      obtain ⟨v1, hb, hs1⟩ := (buildFunction_emits ext v0 {} FunctionDeclTy.CXXDestructorDecl D).1
        (extractInfo_not_admitted ext w v0 _ _ hp0 hadm)
      exact built_hands_nothing w v0 v1 _ (fun v1 => some (true, v1)) hs1
        (buildFunction_policy ext v0 v1 {} FunctionDeclTy.CXXDestructorDecl D hb) hs0 hp0 hb)

/-- The overload for a namespace hands nothing to the sink before it goes on with the nested
declarations, when the declaration is not admitted. -/
theorem TraverseNamespaceDecl_rejected (ext : Externals) (w v : ASTVisitor) (D : NamespaceDecl)
    (c : ASTVisitor → Option (Bool × ASTVisitor))
    (hD : notAtBlockScope D.toDecl = true)
    (hs : v.sink = w.sink) (hp : v.PublicOnly = w.PublicOnly)
    (hadm : admitted w.PublicOnly (AnyDecl.Namespace D) = false) :
    HandsNothing w c (TraverseNamespaceDecl ext v D c) :=
  guarded_hands_nothing ext w v D.toDecl hD hs hp
    (fun v0 =>
      match buildNamespace ext v0 {} D with
      | none => none
      | some v => c v)
    c
    (fun v0 hs0 hp0 => by
      obtain ⟨v1, hb, hs1⟩ := (buildNamespace_emits ext v0 {} D).1
        (extractInfo_not_admitted ext w v0 _ _ hp0 hadm)
      exact built_hands_nothing w v0 v1 _ c hs1 (buildNamespace_policy ext v0 v1 {} D hb) hs0 hp0 hb)

/-- The overload for a class hands nothing to the sink before it goes on with the nested
declarations, when the declaration is not admitted. -/
theorem TraverseCXXRecordDecl_rejected (ext : Externals) (w v : ASTVisitor) (D : CXXRecordDecl)
    (Template : Option TemplateInfo)
    (c : ASTVisitor → Option (Bool × ASTVisitor))
    (hD : notAtBlockScope D.toDecl = true)
    (hs : v.sink = w.sink) (hp : v.PublicOnly = w.PublicOnly)
    (hadm : admitted w.PublicOnly (AnyDecl.CXXRecord D) = false) :
    HandsNothing w c (TraverseCXXRecordDecl ext v D Template c) :=
  guarded_hands_nothing ext w v D.toDecl hD hs hp
    (fun v0 =>
      match buildRecord ext v0 { Template := Template } D with
      | none => none
      | some v => c v)
    c
    (fun v0 hs0 hp0 => by
      obtain ⟨v1, hb, hs1⟩ := (buildRecord_emits ext v0 { Template := Template } D).1
        (extractInfo_not_admitted ext w v0 _ _ hp0 hadm)
      exact built_hands_nothing w v0 v1 _ c hs1 (buildRecord_policy ext v0 v1 { Template := Template } D hb) hs0 hp0 hb)

/-- The overload for a class template hands nothing to the sink before it goes on with
the nested declarations, when the class is not admitted. -/
theorem TraverseClassTemplateDecl_rejected (ext : Externals) (w v : ASTVisitor)
    (D : CXXRecordDecl) (c : ASTVisitor → Option (Bool × ASTVisitor))
    (hD : notAtBlockScope D.toDecl = true)
    (hs : v.sink = w.sink) (hp : v.PublicOnly = w.PublicOnly)
    (hadm : admitted w.PublicOnly (AnyDecl.CXXRecord D) = false) :
    HandsNothing w c (TraverseClassTemplateDecl ext v D c) :=
  guarded_hands_nothing ext w v D.toDecl hD hs hp
    (fun v0 => TraverseCXXRecordDecl ext (parseTemplateParams ext v0 {} D.toDecl).2 D
      (some (parseTemplateParams ext v0 {} D.toDecl).1) c)
    c
    (fun v0 hs0 hp0 =>
      TraverseCXXRecordDecl_rejected ext w _ D _ c hD
        ((parseTemplateParams_frame ext v0 _ _).1.trans hs0)
        ((parseTemplateParams_frame ext v0 _ _).2.trans hp0) hadm)

/-- The call `parseTemplateArgs` for a class specialization returns when the type as written
is known. -/
theorem parseTemplateArgsClass_some (ext : Externals) (v : ASTVisitor) (I : TemplateInfo)
    (spec : ClassTemplateSpecializationDecl) (h : spec.typeAsWritten.isSome = true) :
    ∃ a, parseTemplateArgsClass ext v I spec = some a := by
  unfold parseTemplateArgsClass
  cases hA : spec.typeAsWritten with
  | none => rw [hA] at h; exact absurd h (by simp)
  | some args => exact ⟨_, rfl⟩

/-- The overload for a class template specialization hands nothing to the sink before it
goes on with the nested declarations, when the class is not admitted. -/
theorem TraverseClassTemplateSpecializationDecl_rejected (ext : Externals) (w v : ASTVisitor)
    (D : ClassTemplateSpecializationDecl) (c : ASTVisitor → Option (Bool × ASTVisitor))
    (hD : notAtBlockScope D.toDecl = true)
    (hT : D.typeAsWritten.isSome = true)
    (hs : v.sink = w.sink) (hp : v.PublicOnly = w.PublicOnly)
    (hadm : admitted w.PublicOnly (AnyDecl.CXXRecord D.toCXXRecordDecl) = false) :
    HandsNothing w c (TraverseClassTemplateSpecializationDecl ext v D c) :=
  guarded_hands_nothing ext w v D.toDecl hD hs hp
    (fun v0 =>
      match parseTemplateArgsClass ext (parseTemplateParams ext v0 {} D.toDecl).2
          (parseTemplateParams ext v0 {} D.toDecl).1 D with
      | none => none
      | some a => TraverseCXXRecordDecl ext a.2 D.toCXXRecordDecl (some a.1) c)
    c
    (fun v0 hs0 hp0 => by
      obtain ⟨a, ha⟩ := parseTemplateArgsClass_some ext
        (parseTemplateParams ext v0 {} D.toDecl).2 (parseTemplateParams ext v0 {} D.toDecl).1
        D hT
      obtain ⟨h1, h2⟩ := parseTemplateArgsClass_frame ext _ _ _ _ ha
      simp only [ha]
      exact TraverseCXXRecordDecl_rejected ext w _ D.toCXXRecordDecl _ c hD
        (h1.trans ((parseTemplateParams_frame ext v0 _ _).1.trans hs0))
        (h2.trans ((parseTemplateParams_frame ext v0 _ _).2.trans hp0)) hadm)

/-- The overload for a variable template hands nothing to the sink when the variable is not
admitted. -/
theorem TraverseVarTemplateDecl_rejected (ext : Externals) (w v : ASTVisitor) (D : VarDecl)
    (hD : notAtBlockScope D.toDecl = true)
    (hs : v.sink = w.sink) (hp : v.PublicOnly = w.PublicOnly)
    (hadm : admitted w.PublicOnly (AnyDecl.Var D) = false) :
    HandsNothing w (fun v1 => some (true, v1)) (TraverseVarTemplateDecl ext v D) :=
  guarded_hands_nothing ext w v D.toDecl hD hs hp
    (fun v0 => TraverseVarDecl ext (parseTemplateParams ext v0 {} D.toDecl).2 D
      (some (parseTemplateParams ext v0 {} D.toDecl).1))
    (fun v1 => some (true, v1))
    (fun v0 hs0 hp0 =>
      TraverseVarDecl_rejected ext w _ D _ hD
        ((parseTemplateParams_frame ext v0 _ _).1.trans hs0)
        ((parseTemplateParams_frame ext v0 _ _).2.trans hp0) hadm)

/-- The overload for a variable template specialization hands nothing to the sink when the
variable is not admitted. -/
theorem TraverseVarTemplateSpecializationDecl_rejected (ext : Externals) (w v : ASTVisitor)
    (D : VarTemplateSpecializationDecl)
    (hD : notAtBlockScope D.toDecl = true)
    (hs : v.sink = w.sink) (hp : v.PublicOnly = w.PublicOnly)
    (hadm : admitted w.PublicOnly (AnyDecl.Var D.toVarDecl) = false) :
    HandsNothing w (fun v1 => some (true, v1))
      (TraverseVarTemplateSpecializationDecl ext v D) :=
  guarded_hands_nothing ext w v D.toDecl hD hs hp
    (fun v0 => TraverseVarDecl ext
      (parseTemplateArgsVar ext (parseTemplateParams ext v0 {} D.toDecl).2
        (parseTemplateParams ext v0 {} D.toDecl).1 D).2 D.toVarDecl
      (some (parseTemplateArgsVar ext (parseTemplateParams ext v0 {} D.toDecl).2
        (parseTemplateParams ext v0 {} D.toDecl).1 D).1))
    (fun v1 => some (true, v1))
    (fun v0 hs0 hp0 =>
      TraverseVarDecl_rejected ext w _ D.toVarDecl _ hD
        ((parseTemplateArgsVar_frame ext _ _ _).1.trans
          ((parseTemplateParams_frame ext v0 _ _).1.trans hs0))
        ((parseTemplateArgsVar_frame ext _ _ _).2.trans
          ((parseTemplateParams_frame ext v0 _ _).2.trans hp0)) hadm)

/-- The overload for an alias template hands nothing to the sink when the alias is not
admitted. -/
theorem TraverseTypeAliasTemplateDecl_rejected (ext : Externals) (w v : ASTVisitor)
    (D : TypedefNameDecl)
    (hD : notAtBlockScope D.toDecl = true)
    (hs : v.sink = w.sink) (hp : v.PublicOnly = w.PublicOnly)
    (hadm : admitted w.PublicOnly (AnyDecl.Typedef D) = false) :
    HandsNothing w (fun v1 => some (true, v1)) (TraverseTypeAliasTemplateDecl ext v D) :=
  guarded_hands_nothing ext w v D.toDecl hD hs hp
    (fun v0 => TraverseTypeAliasDecl ext (parseTemplateParams ext v0 {} D.toDecl).2 D
      (some (parseTemplateParams ext v0 {} D.toDecl).1))
    (fun v1 => some (true, v1))
    (fun v0 hs0 hp0 =>
      TraverseTypeAliasDecl_rejected ext w _ D _ hD
        ((parseTemplateParams_frame ext v0 _ _).1.trans hs0)
        ((parseTemplateParams_frame ext v0 _ _).2.trans hp0) hadm)

/-- The overload for a friend declaration hands nothing to the sink when the function it
names is not admitted. -/
theorem TraverseFriendDecl_rejected (ext : Externals) (v : ASTVisitor) (D : FriendDecl)
    (FD : FunctionDecl) (hND : D.friendDecl = some (FriendTarget.Function FD))
    (hD : notAtBlockScope FD.toDecl = true)
    (hadm : admitted v.PublicOnly (AnyDecl.Function (applyDecayToParameters FD)) = false) :
    HandsNothing v (fun v1 => some (true, v1)) (TraverseFriendDecl ext v D) := by
  obtain ⟨s, hse⟩ := shouldExtract_some ext v FD.toDecl hD
  obtain ⟨b, v0⟩ := s
  obtain ⟨h1, h2⟩ := shouldExtract_frame ext v FD.toDecl _ hse
  cases b with
  | false =>
    refine ⟨v0, h1, h2, Or.inl ?_⟩
    simp [TraverseFriendDecl, buildFriend, hND, hse]
  | true =>
    have hflag : (constructFunction ext v0 {} FunctionDeclTy.FunctionDecl FD).1 = false := by
      rw [(constructFunction_spec ext v0 {} FunctionDeclTy.FunctionDecl FD).1]
      exact extractInfo_not_admitted ext v v0 _ _ h2 hadm
    refine ⟨(constructFunction ext v0 {} FunctionDeclTy.FunctionDecl FD).2.2, ?_, ?_, Or.inl ?_⟩
    · rw [constructFunction_sink]; exact h1
    · rw [constructFunction_policy]; exact h2
    · simp [TraverseFriendDecl, buildFriend, hND, hse, hflag]

/-- A call that hands nothing to the sink, as a statement of `TraverseDecl`. -/
theorem andReturnTrue_hands_nothing (w : ASTVisitor)
    (c c1 : ASTVisitor → Option (Bool × ASTVisitor)) (x : Option (Bool × ASTVisitor))
    (hc : ∀ v1, c1 v1 = andReturnTrue (c v1)) (h : HandsNothing w c x) :
    HandsNothing w c1 (andReturnTrue x) := by
  obtain ⟨v1, hs, hp, h | h⟩ := h
  · exact ⟨v1, hs, hp, Or.inl (by rw [h]; rfl)⟩
  · exact ⟨v1, hs, hp, Or.inr (by rw [h, hc])⟩

/-- The traversal of no declaration returns from the visitor it started from. -/
theorem TraverseContext_nil (ext : Externals) (v : ASTVisitor) :
    TraverseContext ext v [] = some (true, v) := by
  rw [TraverseContext]

/-- The dispatch of a function, other than a destructor, with a `TemplateInfo` to forward
hands nothing to the sink when the function is not admitted. -/
theorem TraverseDecl_function_rejected (ext : Externals) (w v : ASTVisitor)
    (DeclTy : FunctionDeclTy) (D : FunctionDecl) (args : Option TemplateInfo)
    (hTy : DeclTy ≠ FunctionDeclTy.CXXDestructorDecl)
    (hD : notAtBlockScope D.toDecl = true)
    (hs : v.sink = w.sink) (hp : v.PublicOnly = w.PublicOnly)
    (hadm : admitted w.PublicOnly (AnyDecl.Function (applyDecayToParameters D)) = false) :
    HandsNothing w (fun v1 => some (true, v1))
      (TraverseDecl ext v (DeclNode.Function DeclTy D) args) := by
  cases himp : D.isImplicit with
  | true =>
    refine ⟨v, hs, hp, Or.inl ?_⟩
    cases DeclTy <;> rw [TraverseDecl] <;> simp [DeclNode.toDecl, himp]
  | false =>
    have h := TraverseFunctionDecl_rejected ext w v DeclTy D args hD hs hp hadm
    have h2 := andReturnTrue_hands_nothing w (fun v1 => some (true, v1))
      (fun v1 => some (true, v1)) _ (fun v1 => rfl) h
    cases DeclTy
    case CXXDestructorDecl => exact absurd rfl hTy
    all_goals
      rw [TraverseDecl]
      simp only [DeclNode.toDecl, himp, Bool.false_eq_true, if_false]
      exact h2

/-- The dispatch of a declaration that is built from the declaration that is filtered
hands nothing to the sink before it goes on with the nested declarations, when
the declaration is not admitted. -/
theorem TraverseDecl_rejected (ext : Externals) (C : DeclNode) (v : ASTVisitor) (E : AnyDecl)
    (himp : C.toDecl.isImplicit = false) (hE : C.entity = some E)
    (hD : notAtBlockScope E.toDecl = true) (hT : C.typeAsWrittenKnown = true)
    (hadm : admitted v.PublicOnly E = false) :
    HandsNothing v (fun v1 => andReturnTrue (TraverseContext ext v1 C.nested))
      (TraverseDecl ext v C none) := by
  have leaf : ∀ x, HandsNothing v (fun v1 => some (true, v1)) x →
      HandsNothing v (fun v1 => andReturnTrue (TraverseContext ext v1 []))
        (andReturnTrue x) :=
    fun x h => andReturnTrue_hands_nothing v _ _ x
      (fun v1 => by rw [TraverseContext_nil]) h
  have scope : ∀ decls x, HandsNothing v (fun v1 => TraverseContext ext v1 decls) x →
      HandsNothing v (fun v1 => andReturnTrue (TraverseContext ext v1 decls))
        (andReturnTrue x) :=
    fun decls x h => andReturnTrue_hands_nothing v _ _ x (fun v1 => rfl) h
  cases C with
  | Namespace D decls =>
    simp only [DeclNode.entity, Option.some.injEq] at hE; subst hE
    rw [TraverseDecl]
    simp only [himp, Bool.false_eq_true, if_false]
    exact scope decls _ (TraverseNamespaceDecl_rejected ext v v D _ hD rfl rfl hadm)
  | CXXRecord D decls =>
    simp only [DeclNode.entity, Option.some.injEq] at hE; subst hE
    rw [TraverseDecl]
    simp only [himp, Bool.false_eq_true, if_false]
    exact scope decls _ (TraverseCXXRecordDecl_rejected ext v v D none _ hD rfl rfl hadm)
  | Function DeclTy D =>
    simp only [DeclNode.entity, Option.some.injEq] at hE; subst hE
    cases DeclTy
    case CXXDestructorDecl =>
      rw [TraverseDecl]
      simp only [himp, Bool.false_eq_true, if_false]
      exact leaf _ (TraverseCXXDestructorDecl_rejected ext v v D hD rfl rfl hadm)
    all_goals
      rw [TraverseDecl]
      simp only [himp, Bool.false_eq_true, if_false]
      exact leaf _ (TraverseFunctionDecl_rejected ext v v _ D none hD rfl rfl hadm)
  | Friend D =>
    cases hND : D.friendDecl with
    | none => simp [DeclNode.entity, hND] at hE
    | some ND =>
      cases ND with
      | Function FD =>
        simp only [DeclNode.entity, hND, Option.some.injEq] at hE; subst hE
        rw [TraverseDecl]
        simp only [himp, Bool.false_eq_true, if_false]
        exact leaf _ (TraverseFriendDecl_rejected ext v D FD hND hD hadm)
      | FunctionTemplate => simp [DeclNode.entity, hND] at hE
      | ClassTemplate => simp [DeclNode.entity, hND] at hE
      | Other => simp [DeclNode.entity, hND] at hE
  | TypeAlias D =>
    simp only [DeclNode.entity, Option.some.injEq] at hE; subst hE
    rw [TraverseDecl]
    simp only [himp, Bool.false_eq_true, if_false]
    exact leaf _ (TraverseTypeAliasDecl_rejected ext v v D none hD rfl rfl hadm)
  | Typedef D =>
    simp only [DeclNode.entity, Option.some.injEq] at hE; subst hE
    rw [TraverseDecl]
    simp only [himp, Bool.false_eq_true, if_false]
    exact leaf _ (TraverseTypedefDecl_rejected ext v v D hD rfl rfl hadm)
  | Enum D =>
    simp only [DeclNode.entity, Option.some.injEq] at hE; subst hE
    rw [TraverseDecl]
    simp only [himp, Bool.false_eq_true, if_false]
    exact leaf _ (TraverseEnumDecl_rejected ext v v D hD rfl rfl hadm)
  | Field D =>
    simp only [DeclNode.entity, Option.some.injEq] at hE; subst hE
    rw [TraverseDecl]
    simp only [himp, Bool.false_eq_true, if_false]
    exact leaf _ (TraverseFieldDecl_rejected ext v v D hD rfl rfl hadm)
  | Var D =>
    simp only [DeclNode.entity, Option.some.injEq] at hE; subst hE
    rw [TraverseDecl]
    simp only [himp, Bool.false_eq_true, if_false]
    exact leaf _ (TraverseVarDecl_rejected ext v v D none hD rfl rfl hadm)
  | ClassTemplate D0 RD decls =>
    simp only [DeclNode.entity, Option.some.injEq] at hE; subst hE
    rw [TraverseDecl]
    simp only [himp, Bool.false_eq_true, if_false]
    exact scope decls _ (TraverseClassTemplateDecl_rejected ext v v RD _ hD rfl rfl hadm)
  | ClassTemplateSpecialization D decls =>
    simp only [DeclNode.entity, Option.some.injEq] at hE; subst hE
    rw [TraverseDecl]
    simp only [himp, Bool.false_eq_true, if_false]
    exact scope decls _
      (TraverseClassTemplateSpecializationDecl_rejected ext v v D _ hD hT rfl rfl hadm)
  | ClassTemplatePartialSpecialization D decls =>
    simp only [DeclNode.entity, Option.some.injEq] at hE; subst hE
    rw [TraverseDecl]
    simp only [himp, Bool.false_eq_true, if_false]
    exact scope decls _
      (TraverseClassTemplateSpecializationDecl_rejected ext v v D _ hD hT rfl rfl hadm)
  | VarTemplate D0 VD =>
    simp only [DeclNode.entity, Option.some.injEq] at hE; subst hE
    rw [TraverseDecl]
    simp only [himp, Bool.false_eq_true, if_false]
    exact leaf _ (TraverseVarTemplateDecl_rejected ext v v VD hD rfl rfl hadm)
  | VarTemplateSpecialization D =>
    simp only [DeclNode.entity, Option.some.injEq] at hE; subst hE
    rw [TraverseDecl]
    simp only [himp, Bool.false_eq_true, if_false]
    exact leaf _ (TraverseVarTemplateSpecializationDecl_rejected ext v v D hD rfl rfl hadm)
  | VarTemplatePartialSpecialization D =>
    simp only [DeclNode.entity, Option.some.injEq] at hE; subst hE
    rw [TraverseDecl]
    simp only [himp, Bool.false_eq_true, if_false]
    exact leaf _ (TraverseVarTemplateSpecializationDecl_rejected ext v v D hD rfl rfl hadm)
  | FunctionTemplate D0 FD =>
    cases FD with
    | Function DeclTy D =>
      by_cases hTy : DeclTy = FunctionDeclTy.CXXDestructorDecl
      · simp [DeclNode.entity, hTy] at hE
      · simp only [DeclNode.entity, hTy, if_false, Option.some.injEq] at hE; subst hE
        rw [TraverseDecl]
        simp only [himp, Bool.false_eq_true, if_false]
        exact leaf _ (guarded_hands_nothing ext v v D.toDecl hD rfl rfl
          (fun v0 => TraverseDecl ext (parseTemplateParams ext v0 {} D.toDecl).2
            (DeclNode.Function DeclTy D) (some (parseTemplateParams ext v0 {} D.toDecl).1))
          (fun v1 => some (true, v1))
          (fun v0 hs0 hp0 => TraverseDecl_function_rejected ext v _ DeclTy D _ hTy hD
            ((parseTemplateParams_frame ext v0 _ _).1.trans hs0)
            ((parseTemplateParams_frame ext v0 _ _).2.trans hp0) hadm))
    | _ => simp [DeclNode.entity] at hE
  | ClassScopeFunctionSpecialization D => simp [DeclNode.entity] at hE
  | TypeAliasTemplate D0 AD =>
    simp only [DeclNode.entity, Option.some.injEq] at hE; subst hE
    rw [TraverseDecl]
    simp only [himp, Bool.false_eq_true, if_false]
    exact leaf _ (TraverseTypeAliasTemplateDecl_rejected ext v v AD hD rfl rfl hadm)
  | Other D0 decls => simp [DeclNode.entity] at hE

/-! ## The traversal: order, implicit and filtered declarations, nesting -/

/-- The dispatch of an implicit declaration returns at once. -/
theorem TraverseDecl_implicit (ext : Externals) (v : ASTVisitor) (C : DeclNode)
    (args : Option TemplateInfo) (h : C.toDecl.isImplicit = true) :
    TraverseDecl ext v C args = some (true, v) := by
  cases C with
  | Function DeclTy D => cases DeclTy <;> rw [TraverseDecl] <;> simp [h]
  | Other D0 decls => cases decls <;> rw [TraverseDecl] <;> simp [h]
  | _ => rw [TraverseDecl]; simp [h]

/-- The dispatch of a declaration returns `true` whenever it returns. -/
theorem TraverseDecl_returns_true (ext : Externals) (v : ASTVisitor) (C : DeclNode)
    (args : Option TemplateInfo) (r : Bool × ASTVisitor)
    (h : TraverseDecl ext v C args = some r) : r.1 = true := by
  cases himp : C.toDecl.isImplicit with
  | true =>
    rw [TraverseDecl_implicit ext v C args himp] at h
    cases h; rfl
  | false =>
    cases C with
    | Function DeclTy D =>
      cases DeclTy <;> rw [TraverseDecl] at h <;>
        simp only [himp, Bool.false_eq_true, if_false] at h <;>
        exact (andReturnTrue_some _ _ h).1
    | Other D0 decls =>
      cases decls with
      | none =>
        rw [TraverseDecl] at h
        simp only [himp, Bool.false_eq_true, if_false] at h
        cases h; rfl
      | some decls =>
        rw [TraverseDecl] at h
        simp only [himp, Bool.false_eq_true, if_false] at h
        exact (andReturnTrue_some _ _ h).1
    | _ =>
      rw [TraverseDecl] at h
      simp only [himp, Bool.false_eq_true, if_false] at h
      exact (andReturnTrue_some _ _ h).1

/-- The traversal of a list of declarations returns `true` whenever it returns. -/
theorem TraverseContext_returns_true (ext : Externals) (decls : List DeclNode) :
    ∀ (v : ASTVisitor) (r : Bool × ASTVisitor),
    TraverseContext ext v decls = some r → r.1 = true := by
  induction decls with
  | nil => intro v r h; rw [TraverseContext] at h; cases h; rfl
  | cons C decls ih =>
    intro v r h
    rw [TraverseContext] at h
    split at h
    · exact absurd h (by simp)
    · exact ih _ r h

/-- The value of `andReturnTrue` on a traversal is the value of the traversal. -/
theorem andReturnTrue_TraverseContext (ext : Externals) (v : ASTVisitor)
    (decls : List DeclNode) :
    andReturnTrue (TraverseContext ext v decls) = TraverseContext ext v decls := by
  cases h : TraverseContext ext v decls with
  | none => rfl
  | some r =>
    have := TraverseContext_returns_true ext decls v r h
    obtain ⟨b, w⟩ := r
    simp only at this
    subst this
    rfl

/-- The traversal of a list of declarations, part by part. -/
theorem TraverseContext_append (ext : Externals) (decls1 decls2 : List DeclNode) :
    ∀ (v : ASTVisitor), TraverseContext ext v (decls1 ++ decls2) =
      (TraverseContext ext v decls1).bind (fun r => TraverseContext ext r.2 decls2) := by
  induction decls1 with
  | nil => intro v; rw [List.nil_append, TraverseContext_nil]; rfl
  | cons C decls1 ih =>
    intro v
    rw [List.cons_append, TraverseContext, TraverseContext]
    cases TraverseDecl ext v C none with
    | none => rfl
    | some r => exact ih r.2

/-- The traversal of one declaration is its dispatch, without a `TemplateInfo`. -/
theorem TraverseContext_singleton (ext : Externals) (v : ASTVisitor) (C : DeclNode) :
    TraverseContext ext v [C] = andReturnTrue (TraverseDecl ext v C none) := by
  rw [TraverseContext]
  cases TraverseDecl ext v C none with
  | none => rfl
  | some r => simp only [TraverseContext_nil]; rfl

/-- The dispatch of a declaration that the file policy rejects returns at once. -/
theorem TraverseDecl_filtered (ext : Externals) (v v1 : ASTVisitor) (C : DeclNode) (D : Decl)
    (himp : C.toDecl.isImplicit = false) (hD : C.filterDecl = some D)
    (hse : shouldExtract ext v D = some (false, v1)) :
    TraverseDecl ext v C none = some (true, v1) := by
  cases C with
  | Function DeclTy FD =>
    simp only [DeclNode.filterDecl, Option.some.injEq] at hD; subst hD
    cases DeclTy <;> rw [TraverseDecl] <;>
      simp [himp, withoutArgs, andReturnTrue, TraverseFunctionDecl, TraverseCXXDestructorDecl,
        hse]
  | Friend FD =>
    cases hND : FD.friendDecl with
    | none => simp [DeclNode.filterDecl, hND] at hD
    | some ND =>
      cases ND with
      | Function F =>
        simp only [DeclNode.filterDecl, hND, Option.some.injEq] at hD; subst hD
        rw [TraverseDecl]
        simp [himp, withoutArgs, andReturnTrue, TraverseFriendDecl, buildFriend, hND, hse]
      | FunctionTemplate => simp [DeclNode.filterDecl, hND] at hD
      | ClassTemplate => simp [DeclNode.filterDecl, hND] at hD
      | Other => simp [DeclNode.filterDecl, hND] at hD
  | Other D0 decls => simp [DeclNode.filterDecl] at hD
  | _ =>
    simp only [DeclNode.filterDecl, Option.some.injEq] at hD; subst hD
    rw [TraverseDecl]
    simp [himp, withoutArgs, andReturnTrue, TraverseNamespaceDecl, TraverseCXXRecordDecl,
      TraverseTypeAliasDecl, TraverseTypedefDecl, TraverseEnumDecl, TraverseFieldDecl,
      TraverseVarDecl, TraverseClassTemplateDecl, TraverseClassTemplateSpecializationDecl,
      TraverseClassTemplatePartialSpecializationDecl, TraverseVarTemplateDecl,
      TraverseVarTemplateSpecializationDecl, TraverseVarTemplatePartialSpecializationDecl,
      TraverseFunctionTemplateDecl, TraverseClassScopeFunctionSpecializationDecl,
      TraverseTypeAliasTemplateDecl, hse]

/-- The dispatch of a namespace that the file policy admits: its own fragments, then
those of the nested declarations. -/
theorem TraverseDecl_namespace (ext : Externals) (v v0 : ASTVisitor) (D : NamespaceDecl)
    (decls : List DeclNode) (r : Bool × ASTVisitor) (himp : D.isImplicit = false)
    (hse : shouldExtract ext v D.toDecl = some (true, v0))
    (h : TraverseDecl ext v (DeclNode.Namespace D decls) none = some r) :
    ∃ v1 own nested, buildNamespace ext v0 {} D = some v1 ∧ v1.sink = v.sink ++ own ∧
      TraverseContext ext v1 decls = some (true, r.2) ∧
      r.2.sink = v.sink ++ own ++ nested := by
  have hv0 := (shouldExtract_frame ext v D.toDecl _ hse).1
  rw [TraverseDecl] at h
  simp only [DeclNode.toDecl, himp, Bool.false_eq_true, if_false, withoutArgs,
    TraverseNamespaceDecl, hse, Bool.not_true] at h
  cases hb : buildNamespace ext v0 {} D with
  | none => rw [hb] at h; exact absurd h (by simp [andReturnTrue])
  | some v1 =>
    rw [hb] at h
    simp only [andReturnTrue_TraverseContext] at h
    obtain ⟨own, hown⟩ := buildNamespace_sink_grows ext v0 v1 {} D hb
    obtain ⟨nested, hnested⟩ := TraverseContext_sink_grows ext decls v1 r h
    have hr := TraverseContext_returns_true ext decls v1 r h
    refine ⟨v1, own, nested, rfl, by rw [hown, hv0], ?_, by rw [hnested, hown, hv0]⟩
    rw [h]
    obtain ⟨b, w⟩ := r
    simp only at hr
    subst hr
    rfl

/-- The dispatch of a class that the file policy admits: its own fragments, then
those of the nested declarations. -/
theorem TraverseDecl_record (ext : Externals) (v v0 : ASTVisitor) (D : CXXRecordDecl)
    (decls : List DeclNode) (r : Bool × ASTVisitor) (himp : D.isImplicit = false)
    (hse : shouldExtract ext v D.toDecl = some (true, v0))
    (h : TraverseDecl ext v (DeclNode.CXXRecord D decls) none = some r) :
    ∃ v1 own nested, buildRecord ext v0 {} D = some v1 ∧ v1.sink = v.sink ++ own ∧
      TraverseContext ext v1 decls = some (true, r.2) ∧
      r.2.sink = v.sink ++ own ++ nested := by
  have hv0 := (shouldExtract_frame ext v D.toDecl _ hse).1
  rw [TraverseDecl] at h
  simp only [DeclNode.toDecl, himp, Bool.false_eq_true, if_false,
    TraverseCXXRecordDecl, hse, Bool.not_true] at h
  cases hb : buildRecord ext v0 {} D with
  | none =>
    have hb2 : buildRecord ext v0 { Template := none } D = none := hb
    rw [hb2] at h; exact absurd h (by simp [andReturnTrue])
  | some v1 =>
    have hb2 : buildRecord ext v0 { Template := none } D = some v1 := hb
    rw [hb2] at h
    simp only [andReturnTrue_TraverseContext] at h
    obtain ⟨own, hown⟩ := buildRecord_sink_grows ext v0 v1 {} D hb
    obtain ⟨nested, hnested⟩ := TraverseContext_sink_grows ext decls v1 r h
    have hr := TraverseContext_returns_true ext decls v1 r h
    refine ⟨v1, own, nested, rfl, by rw [hown, hv0], ?_, by rw [hnested, hown, hv0]⟩
    rw [h]
    obtain ⟨b, w⟩ := r
    simp only at hr
    subst hr
    rfl

/-- The loop of `HandleTranslationUnit` is the traversal of the declarations. -/
theorem HandleTranslationUnit_loop (ext : Externals) (decls : List DeclNode) :
    ∀ (v : ASTVisitor),
    decls.foldl
      (fun (st : Option ASTVisitor) (C : DeclNode) =>
        match st with
        | none => none
        | some v =>
          match TraverseDecl ext v C none with
          | none => none
          | some r => some r.2)
      (some v) = (TraverseContext ext v decls).map Prod.snd := by
  induction decls with
  | nil => intro v; rw [TraverseContext_nil]; rfl
  | cons C decls ih =>
    intro v
    rw [List.foldl_cons, TraverseContext]
    cases hC : TraverseDecl ext v C none with
    | none =>
      simp only [hC]
      have hnone : ∀ l : List DeclNode, l.foldl
          (fun (st : Option ASTVisitor) (C : DeclNode) =>
            match st with
            | none => none
            | some v =>
              match TraverseDecl ext v C none with
              | none => none
              | some r => some r.2) none = none := by
        intro l
        induction l with
        | nil => rfl
        | cons C0 l ihl => rw [List.foldl_cons]; exact ihl
      rw [hnone]; rfl
    | some r =>
      simp only [hC]
      exact ih r.2

/-- The member `HandleTranslationUnit` on a translation unit that is visited is the traversal
of its declarations. -/
theorem HandleTranslationUnit_visited (ext : Externals) (v : ASTVisitor) (Context : ASTContext)
    (filePath : String) (hf : Context.mainFilename = some filePath)
    (hv : ext.config_.shouldVisitTU (ext.convert_to_slash filePath) = true)
    (hs : Context.traversalScopeIsTranslationUnit = true) :
    HandleTranslationUnit ext v Context =
      (TraverseContext ext { v with File := ext.convert_to_slash filePath }
        Context.decls).map Prod.snd := by
  unfold HandleTranslationUnit
  simp only [hf, hv, hs, Bool.not_true, Bool.false_eq_true, if_false]
  exact HandleTranslationUnit_loop ext Context.decls _

/-- The traversal on runs that no assertion ends.  The traversal of the
declarations of a context is the dispatch of each of them in document order,
each by `TraverseDecl` without a `TemplateInfo`; a dispatch or a traversal that
returns has returned `true` and has only appended to the sink; an implicit declaration returns at once from the visitor it was given; a
declaration that the file policy rejects returns at once; a declaration that
the entity policy rejects, or whose canonical name cannot be generated, hands
nothing to the sink before its nested declarations are traversed; the
fragments of a namespace or class come before those of its nested
declarations; and for a translation unit that is visited,
`HandleTranslationUnit` is the traversal of its declarations. -/
theorem TraverseContext_dispatches_every_child (ext : Externals) :
    (∀ v decls1 decls2, TraverseContext ext v (decls1 ++ decls2) =
      (TraverseContext ext v decls1).bind (fun r => TraverseContext ext r.2 decls2)) ∧
    (∀ v C, TraverseContext ext v [C] = andReturnTrue (TraverseDecl ext v C none)) ∧
    (∀ v C args r, TraverseDecl ext v C args = some r →
      r.1 = true ∧ ∃ f, r.2.sink = v.sink ++ f) ∧
    (∀ v decls r, TraverseContext ext v decls = some r →
      r.1 = true ∧ ∃ f, r.2.sink = v.sink ++ f) ∧
    (∀ v C args, C.toDecl.isImplicit = true → TraverseDecl ext v C args = some (true, v)) ∧
    (∀ v v1 C D, C.toDecl.isImplicit = false → C.filterDecl = some D →
      shouldExtract ext v D = some (false, v1) →
      TraverseDecl ext v C none = some (true, v1) ∧ v1.sink = v.sink) ∧
    (∀ v C E, C.toDecl.isImplicit = false → C.entity = some E →
      notAtBlockScope E.toDecl = true → C.typeAsWrittenKnown = true →
      admitted v.PublicOnly E = false →
      HandsNothing v (fun v1 => andReturnTrue (TraverseContext ext v1 C.nested))
        (TraverseDecl ext v C none)) ∧
    (∀ v v0 D decls r, D.isImplicit = false →
      shouldExtract ext v D.toDecl = some (true, v0) →
      TraverseDecl ext v (DeclNode.Namespace D decls) none = some r →
      ∃ v1 own nested, buildNamespace ext v0 {} D = some v1 ∧ v1.sink = v.sink ++ own ∧
        TraverseContext ext v1 decls = some (true, r.2) ∧
        r.2.sink = v.sink ++ own ++ nested) ∧
    (∀ v v0 D decls r, D.isImplicit = false →
      shouldExtract ext v D.toDecl = some (true, v0) →
      TraverseDecl ext v (DeclNode.CXXRecord D decls) none = some r →
      ∃ v1 own nested, buildRecord ext v0 {} D = some v1 ∧ v1.sink = v.sink ++ own ∧
        TraverseContext ext v1 decls = some (true, r.2) ∧
        r.2.sink = v.sink ++ own ++ nested) ∧
    (∀ v Context filePath, Context.mainFilename = some filePath →
      ext.config_.shouldVisitTU (ext.convert_to_slash filePath) = true →
      Context.traversalScopeIsTranslationUnit = true →
      HandleTranslationUnit ext v Context =
        (TraverseContext ext { v with File := ext.convert_to_slash filePath }
          Context.decls).map Prod.snd) := by
  refine ⟨?_, ?_, ?_, ?_, ?_, ?_, ?_, ?_, ?_, ?_⟩
  · intro v decls1 decls2
    exact TraverseContext_append ext decls1 decls2 v
  · intro v C
    exact TraverseContext_singleton ext v C
  · intro v C args r h
    exact ⟨TraverseDecl_returns_true ext v C args r h, TraverseDecl_sink_grows ext C v args r h⟩
  · intro v decls r h
    exact ⟨TraverseContext_returns_true ext decls v r h,
      TraverseContext_sink_grows ext decls v r h⟩
  · intro v C args h
    exact TraverseDecl_implicit ext v C args h
  · intro v v1 C D himp hD hse
    exact ⟨TraverseDecl_filtered ext v v1 C D himp hD hse,
      (shouldExtract_frame ext v D _ hse).1⟩
  · intro v C E himp hE hD hT hadm
    exact TraverseDecl_rejected ext C v E himp hE hD hT hadm
  · intro v v0 D decls r himp hse h
    exact TraverseDecl_namespace ext v v0 D decls r himp hse h
  · intro v v0 D decls r himp hse h
    exact TraverseDecl_record ext v v0 D decls r himp hse h
  · intro v Context filePath hf hv hs
    exact HandleTranslationUnit_visited ext v Context filePath hf hv hs

/-- The traversal of the sample translation unit: `HandleTranslationUnit` is the
traversal of its declarations; the implicit enumeration, the enumeration of
another file and the variable without a canonical name are dispatched and leave
the sink empty; the namespace `lib` emits its own two fragments before the two
of the enumeration nested in it. -/
theorem TraverseContext_dispatches_every_child_witness :
    HandleTranslationUnit sampleExternals sampleVisitor sampleContext =
      (TraverseContext sampleExternals
        { sampleVisitor with File := sampleExternals.convert_to_slash "src/a.cpp" }
        sampleContext.decls).map Prod.snd ∧
    (TraverseContext sampleExternals sampleVisitor
      [DeclNode.Enum sampleImplicitEnum, DeclNode.Enum sampleOtherFileEnum,
        DeclNode.Var sampleNoUsrVar]).map
      (fun r => (r.1, r.2.sink.map (fun b => b.data.toInfo.Name))) = some (true, []) ∧
    (TraverseContext sampleExternals sampleVisitor
      [DeclNode.Namespace sampleNamespace [DeclNode.Enum sampleEnumInLib]]).map
      (fun r => r.2.sink.map (fun b => (b.data.type_id, b.data.toInfo.id, b.data.toInfo.Name))) =
      some [(InfoType.IT_namespace, ⟨8⟩, "lib"), (InfoType.IT_namespace, ⟨0⟩, ""),
        (InfoType.IT_enum, ⟨16⟩, "Color"), (InfoType.IT_namespace, ⟨8⟩, "")] :=
  ⟨(TraverseContext_dispatches_every_child sampleExternals).2.2.2.2.2.2.2.2.2 sampleVisitor
      sampleContext "src/a.cpp" rfl rfl rfl,
    by decide, by decide⟩

/-- C12. For a declaration that is not implicit, of a kind without a case in
`TraverseDecl`, and that is a declaration context, the dispatch is the traversal
of its declarations from the same visitor, and within the traversal of an
enclosing context the declaration can be replaced by its declarations. -/
theorem TraverseDecl_transparent (ext : Externals) (v : ASTVisitor) (D : Decl)
    (decls : List DeclNode) (args : Option TemplateInfo) (himp : D.isImplicit = false) :
    TraverseDecl ext v (DeclNode.Other D (some decls)) args = TraverseContext ext v decls ∧
    ∀ before after,
      TraverseContext ext v (before ++ DeclNode.Other D (some decls) :: after) =
        TraverseContext ext v (before ++ decls ++ after) := by
  have h1 : ∀ w, TraverseDecl ext w (DeclNode.Other D (some decls)) none =
      TraverseContext ext w decls := by
    intro w
    rw [TraverseDecl]
    simp only [DeclNode.toDecl, himp, Bool.false_eq_true, if_false,
      andReturnTrue_TraverseContext]
  refine ⟨?_, ?_⟩
  · rw [TraverseDecl]
    simp only [DeclNode.toDecl, himp, Bool.false_eq_true, if_false,
      andReturnTrue_TraverseContext]
  · intro before after
    have hcons : ∀ w, TraverseContext ext w (DeclNode.Other D (some decls) :: after) =
        TraverseContext ext w (decls ++ after) := by
      intro w
      rw [TraverseContext, h1, TraverseContext_append]
      cases TraverseContext ext w decls <;> rfl
    rw [TraverseContext_append, List.append_assoc, TraverseContext_append ext before]
    cases TraverseContext ext v before with
    | none => rfl
    | some r => exact hcons r.2

/-- The pass-through of C12 on a linkage specification that holds the sample
enumeration. -/
theorem TraverseDecl_transparent_witness :
    TraverseDecl sampleExternals sampleVisitor
        (DeclNode.Other sampleLinkageSpec (some [DeclNode.Enum sampleEnum])) none =
      TraverseContext sampleExternals sampleVisitor [DeclNode.Enum sampleEnum] ∧
    ∀ before after,
      TraverseContext sampleExternals sampleVisitor
          (before ++ DeclNode.Other sampleLinkageSpec (some [DeclNode.Enum sampleEnum]) ::
            after) =
        TraverseContext sampleExternals sampleVisitor
          (before ++ [DeclNode.Enum sampleEnum] ++ after) :=
  TraverseDecl_transparent sampleExternals sampleVisitor sampleLinkageSpec
    [DeclNode.Enum sampleEnum] none rfl

/-- C13 (as amended). The dispatch of a declaration of a kind without a case in
`TraverseDecl`, and that is not a declaration context, returns `true` from the
visitor it was given, with nothing emitted. -/
theorem TraverseDecl_unmapped_returns (ext : Externals) (v : ASTVisitor) (D : Decl)
    (args : Option TemplateInfo) :
    TraverseDecl ext v (DeclNode.Other D none) args = some (true, v) := by
  rw [TraverseDecl]
  split <;> rfl

/-- C13 as stated fails: the dispatch of a `static_assert` declaration, which is
not implicit, has no case in `TraverseDecl` and is not a declaration context,
returns `true` with nothing emitted, and the traversal goes on with the next
declaration. -/
theorem TraverseDecl_unmapped_counterexample :
    sampleStaticAssert.isImplicit = false ∧
    (TraverseDecl sampleExternals sampleVisitor (DeclNode.Other sampleStaticAssert none)
      none).map (fun r => (r.1, r.2.sink.length)) = some (true, 0) ∧
    ((TraverseContext sampleExternals sampleVisitor
      [DeclNode.Other sampleStaticAssert none, DeclNode.Var sampleVar]).map
      (fun r => r.2.sink.map (fun b => b.data.toInfo.Name))) = some ["counter", ""] := by
  decide

/-! ## Enumerators, and the specifiers of a function -/

/-- The call `parseEnumerators` appends one entry per enumerator, in order, and leaves the
other fields of the record alone. -/
theorem parseEnumerators_members (D : EnumDecl) (I : EnumInfo) :
    (parseEnumerators I D).Members =
      I.Members ++ D.enumerators.map
        (fun E => (⟨E.name, toString E.initVal, E.initExpr.getD ""⟩ : EnumValueInfo)) ∧
    (parseEnumerators I D).Scoped = I.Scoped ∧
    (parseEnumerators I D).BaseType = I.BaseType := by
  unfold parseEnumerators
  generalize D.enumerators = es
  induction es generalizing I with
  | nil => simp
  | cons E es ih =>
    rw [List.foldl_cons]
    obtain ⟨h1, h2, h3⟩ := ih
      { I with Members := I.Members ++ [⟨E.name, toString E.initVal,
        match E.initExpr with
        | some src => src
        | none => ""⟩] }
    refine ⟨h1.trans ?_, h2, h3⟩
    cases hE : E.initExpr <;> simp [hE]

/-- The builder `buildEnum`, when `extractInfo` succeeds and the assertions hold: the
scoped flag, the underlying type and the enumerators of the record it emits. -/
theorem buildEnum_fields (ext : Externals) (v : ASTVisitor) (I : EnumInfo) (D : EnumDecl)
    (hflag : (extractInfo ext v I.toInfo (AnyDecl.Enum D)).1 = true)
    (hpre : parentAssertionsHold (extractInfo ext v I.toInfo (AnyDecl.Enum D)).2.1.Namespace
      InfoType.IT_enum D.access = true) :
    ∃ v1 own parent, buildEnum ext v I D = some v1 ∧
      v1.sink = v.sink ++ [writeBitcode (AnyInfo.Enum own), parent] ∧
      own.toInfo = (extractInfo ext v I.toInfo (AnyDecl.Enum D)).2.1 ∧
      own.Scoped = D.isScoped ∧
      own.BaseType =
        (if D.isFixed then some (Reference.ofName SymbolID.zero D.integerType.asString)
          else I.BaseType) ∧
      own.Members = I.Members ++ D.enumerators.map
        (fun E => (⟨E.name, toString E.initVal, E.initExpr.getD ""⟩ : EnumValueInfo)) ∧
      writeParent (AnyInfo.Enum own) D.access = some parent := by
  unfold buildEnum
  lift_lets
  extract_lets r I1 v1 v2 I2 I3 Name I4 I5 v3
  have hr : r.1 = true := hflag
  rw [hr]
  simp only [Bool.not_true, Bool.false_eq_true, if_false]
  have hI5 : I5.toInfo = r.2.1 := by
    simp only [I5, parseEnumerators_toInfo, I4, I3]
    split <;> simp only [I2] <;> split <;> rfl
  obtain ⟨hM, hS, hB⟩ := parseEnumerators_members D I4
  have hS5 : I5.Scoped = D.isScoped := by
    rw [show I5.Scoped = I4.Scoped from hS]
    simp only [I4, I3]
    split <;> rfl
  have hB5 : I5.BaseType =
      (if D.isFixed then some (Reference.ofName SymbolID.zero D.integerType.asString)
        else I.BaseType) := by
    rw [show I5.BaseType = I4.BaseType from hB]
    simp only [I4, I3, Name, getTypeAsString]
    split
    · rfl
    · simp only [I2]
      split <;> rfl
  have hM5 : I5.Members = I.Members ++ D.enumerators.map
      (fun E => (⟨E.name, toString E.initVal, E.initExpr.getD ""⟩ : EnumValueInfo)) := by
    rw [show I5.Members = _ from hM]
    congr 1
    simp only [I4, I3]
    split
    · simp only [I2]
      split <;> rfl
    · simp only [I2]
      split <;> rfl
  have hv3 : v3.sink = v.sink ++ [writeBitcode (AnyInfo.Enum I5)] := by
    simp only [v3, insertBitcode, v2, v1]
    rw [extractInfo_sink]
  split
  · rename_i heq
    exact absurd heq (writeParent_ne_none_of (AnyInfo.Enum I5) _ _ hI5 hpre)
  · rename_i b heq
    exact ⟨_, I5, b, rfl, by simp [insertBitcode, hv3], hI5, hS5, hB5, hM5, heq⟩

/-- C21. For an enumeration that passes the filters (`extractInfo` succeeds on it,
the assertions of `writeParent` being met), `buildEnum` on the record the `Traverse`
overload constructs emits a record whose scoped flag is that of the
declaration, whose underlying type is the spelling of the integer type
exactly when the declaration has a fixed one, and whose members are one entry
per enumerator, in order: name, decimal text of the value, and the source text
of the initializer or the empty string when there is none. -/
theorem buildEnum_records (ext : Externals) (v : ASTVisitor) (D : EnumDecl)
    (hflag : (extractInfo ext v ({} : EnumInfo).toInfo (AnyDecl.Enum D)).1 = true)
    (hpre : parentAssertionsHold
      (extractInfo ext v ({} : EnumInfo).toInfo (AnyDecl.Enum D)).2.1.Namespace
      InfoType.IT_enum D.access = true) :
    ∃ v1 own parent, buildEnum ext v {} D = some v1 ∧
      v1.sink = v.sink ++ [writeBitcode (AnyInfo.Enum own), parent] ∧
      own.Scoped = D.isScoped ∧
      (D.isFixed = true →
        own.BaseType = some (Reference.ofName SymbolID.zero D.integerType.asString)) ∧
      (D.isFixed = false → own.BaseType = none) ∧
      own.Members.length = D.enumerators.length ∧
      own.Members = D.enumerators.map
        (fun E => (⟨E.name, toString E.initVal, E.initExpr.getD ""⟩ : EnumValueInfo)) := by
  obtain ⟨v1, own, parent, h1, h2, _, h4, h5, h6, _⟩ := buildEnum_fields ext v {} D hflag hpre
  have h6a : own.Members = D.enumerators.map
      (fun E => (⟨E.name, toString E.initVal, E.initExpr.getD ""⟩ : EnumValueInfo)) := by
    simpa using h6
  refine ⟨v1, own, parent, h1, h2, h4, ?_, ?_, ?_, h6a⟩
  · intro hf
    rw [h5, hf]
    rfl
  · intro hf
    rw [h5, hf]
    rfl
  · rw [h6a, List.length_map]

/-- The claim of C21 on `enum class Color : int { Red = 1, Green }`: the record is
scoped, its underlying type is spelled `int`, and its members are
`("Red", "1", "1")` and `("Green", "2", "")`. -/
theorem buildEnum_records_witness :
    ∃ v1 own parent, buildEnum sampleExternals sampleAdmittedVisitor {} sampleEnum = some v1 ∧
      v1.sink = sampleAdmittedVisitor.sink ++ [writeBitcode (AnyInfo.Enum own), parent] ∧
      own.Scoped = true ∧
      own.BaseType = some ⟨SymbolID.zero, "int", InfoType.IT_default⟩ ∧
      own.Members = [⟨"Red", "1", "1"⟩, ⟨"Green", "2", ""⟩] :=
  match buildEnum_records sampleExternals sampleAdmittedVisitor sampleEnum (by decide)
      (by decide) with
  | ⟨v1, own, parent, h1, h2, h3, h4, _, _, h7⟩ =>
    ⟨v1, own, parent, h1, h2, h3, h4 rfl, h7.trans (by decide)⟩

/-- The call `parseParameters` leaves the specifier bundles and the template of the
record alone. -/
theorem parseParameters_specs (ext : Externals) (parameters : List ParmVarDecl) :
    ∀ (v : ASTVisitor) (I : FunctionInfo),
    (parseParameters ext v I parameters).1.specs0 = I.specs0 ∧
    (parseParameters ext v I parameters).1.specs1 = I.specs1 ∧
    (parseParameters ext v I parameters).1.Template = I.Template := by
  induction parameters with
  | nil => intro v I; exact ⟨rfl, rfl, rfl⟩
  | cons P parameters ih =>
    intro v I
    simp only [parseParameters, List.foldl_cons]
    have := ih (getTypeInfoForType ext v P.type).2
      { I with Params := I.Params ++ [⟨(getTypeInfoForType ext v P.type).1, P.name, P.defaultArg⟩] }
    simp only [parseParameters] at this
    exact this

/-- The specifier bundles `constructFunction` leaves in the record, when `extractInfo`
succeeds: the flag is set, the exception specification is that of the
declaration, and the flags of a method are those of the declaration at a type
derived from `CXXMethodDecl` and those the record had otherwise; the explicit flag
is that of the record at the types `FunctionDecl`, `CXXMethodDecl` and
`CXXDestructorDecl`. -/
theorem constructFunction_specs (ext : Externals) (v : ASTVisitor) (I : FunctionInfo)
    (DeclTy : FunctionDeclTy) (D : FunctionDecl)
    (hflag : (extractInfo ext v I.toInfo (AnyDecl.Function (applyDecayToParameters D))).1 = true) :
    (constructFunction ext v I DeclTy D).1 = true ∧
    (constructFunction ext v I DeclTy D).2.1.specs0.exceptionSpecType = D.exceptionSpecType ∧
    (DeclTy.derivedFromCXXMethodDecl = true →
      (constructFunction ext v I DeclTy D).2.1.specs0.isVirtual = D.isVirtual ∧
      (constructFunction ext v I DeclTy D).2.1.specs0.isVirtualAsWritten = D.isVirtualAsWritten ∧
      (constructFunction ext v I DeclTy D).2.1.specs0.isPure = D.isPure ∧
      (constructFunction ext v I DeclTy D).2.1.specs0.isConst = D.isConst ∧
      (constructFunction ext v I DeclTy D).2.1.specs0.isVolatile = D.isVolatile ∧
      (constructFunction ext v I DeclTy D).2.1.specs0.refQualifier = D.refQualifier ∧
      (constructFunction ext v I DeclTy D).2.1.specs0.isFinal = D.hasFinalAttr) ∧
    (DeclTy.derivedFromCXXMethodDecl = false →
      (constructFunction ext v I DeclTy D).2.1.specs0.isVirtual = I.specs0.isVirtual ∧
      (constructFunction ext v I DeclTy D).2.1.specs0.isVirtualAsWritten =
        I.specs0.isVirtualAsWritten ∧
      (constructFunction ext v I DeclTy D).2.1.specs0.isPure = I.specs0.isPure ∧
      (constructFunction ext v I DeclTy D).2.1.specs0.isConst = I.specs0.isConst ∧
      (constructFunction ext v I DeclTy D).2.1.specs0.isVolatile = I.specs0.isVolatile ∧
      (constructFunction ext v I DeclTy D).2.1.specs0.refQualifier = I.specs0.refQualifier ∧
      (constructFunction ext v I DeclTy D).2.1.specs0.isFinal = I.specs0.isFinal) ∧
    (DeclTy = FunctionDeclTy.FunctionDecl →
      (constructFunction ext v I DeclTy D).2.1.specs1.isExplicit = I.specs1.isExplicit) := by
  unfold constructFunction
  lift_lets
  extract_lets D1 r I1 v1 v2 I2 qt t I3 p I4 v3 T tv I5 v4 s0a s0b s0c s0d s1a s1b OOK s1c s0e s1d
  have hr : r.1 = true := hflag
  rw [hr]
  simp only [Bool.not_true, Bool.false_eq_true, if_false]
  have h4 : I4.specs0 = I.specs0 ∧ I4.specs1 = I.specs1 := by
    obtain ⟨a, b, _⟩ := parseParameters_specs ext D1.parameters t.2 I3
    refine ⟨a.trans ?_, b.trans ?_⟩
    · simp only [I3, I2]
      split <;> rfl
    · simp only [I3, I2]
      split <;> rfl
  have h5 : I5.specs0 = I.specs0 ∧ I5.specs1 = I.specs1 := h4
  have hs0 : s0a = I.specs0 := h5.1
  have hs1 : s1a = I.specs1 := h5.2
  have hd : s0d.exceptionSpecType = D.exceptionSpecType ∧ s0d.isVirtual = I.specs0.isVirtual ∧
      s0d.isVirtualAsWritten = I.specs0.isVirtualAsWritten ∧ s0d.isPure = I.specs0.isPure ∧
      s0d.isConst = I.specs0.isConst ∧ s0d.isVolatile = I.specs0.isVolatile ∧
      s0d.refQualifier = I.specs0.refQualifier ∧ s0d.isFinal = I.specs0.isFinal := by
    simp only [s0d, s0c, s0b, hs0]
    cases D1.functionProtoType <;> exact ⟨rfl, rfl, rfl, rfl, rfl, rfl, rfl, rfl⟩
  have hc : s1c.isExplicit = I.specs1.isExplicit := by
    simp only [s1c, s1b, hs1]
    cases D1.warnUnusedResultAttr <;> split <;> rfl
  refine ⟨trivial, ?_, ?_, ?_, ?_⟩
  · show s0e.exceptionSpecType = _
    simp only [s0e]
    split
    · exact hd.1
    · exact hd.1
  · intro hm
    simp only [s0e, hm, if_true]
    exact ⟨rfl, rfl, rfl, rfl, rfl, rfl, rfl⟩
  · intro hm
    simp only [s0e, hm, Bool.false_eq_true, if_false]
    exact hd.2
  · intro hty
    subst hty
    simp only [s1d]
    simpa using hc

/-- C22. For a function-like declaration that passes the filters, `constructFunction` on
the record a `Traverse` overload constructs returns `true` and copies the kind of
the exception specification; at a static type derived from `CXXMethodDecl` it sets
the flags of a method to those of the declaration; at the static type
`FunctionDecl` each of these flags, and the explicit flag, keeps its default
value. -/
theorem constructFunction_flags (ext : Externals) (v : ASTVisitor)
    (Template : Option TemplateInfo) (DeclTy : FunctionDeclTy) (D : FunctionDecl)
    (J : FunctionInfo)
    (hJ : J = (constructFunction ext v { Template := Template } DeclTy D).2.1)
    (hflag : (extractInfo ext v ({ Template := Template } : FunctionInfo).toInfo
      (AnyDecl.Function (applyDecayToParameters D))).1 = true) :
    (constructFunction ext v { Template := Template } DeclTy D).1 = true ∧
    J.specs0.exceptionSpecType = D.exceptionSpecType ∧
    (DeclTy.derivedFromCXXMethodDecl = true →
      J.specs0.isVirtual = D.isVirtual ∧
      J.specs0.isVirtualAsWritten = D.isVirtualAsWritten ∧
      J.specs0.isPure = D.isPure ∧
      J.specs0.isConst = D.isConst ∧
      J.specs0.isVolatile = D.isVolatile ∧
      J.specs0.refQualifier = D.refQualifier ∧
      J.specs0.isFinal = D.hasFinalAttr) ∧
    (DeclTy = FunctionDeclTy.FunctionDecl →
      J.specs0.isVirtual = false ∧
      J.specs0.isVirtualAsWritten = false ∧
      J.specs0.isPure = false ∧
      J.specs0.isConst = false ∧
      J.specs0.isVolatile = false ∧
      J.specs0.refQualifier = RefQualifierKind.RQ_None ∧
      J.specs0.isFinal = false ∧
      J.specs1.isExplicit = false) := by
  subst hJ
  obtain ⟨h1, h2, h3, h4, h5⟩ :=
    constructFunction_specs ext v { Template := Template } DeclTy D hflag
  refine ⟨h1, h2, h3, fun hty => ?_⟩
  obtain ⟨a, b, c, d, e, f, g⟩ := h4 (by rw [hty]; rfl)
  exact ⟨a, b, c, d, e, f, g, h5 hty⟩

/-- The claims of C22 on the method `virtual void size() const noexcept = 0;`, dispatched
as a method, and on the same declaration dispatched as a plain function. -/
theorem constructFunction_flags_witness :
    ((constructFunction sampleExternals sampleAdmittedVisitor {}
        FunctionDeclTy.CXXMethodDecl sampleMethod).1 = true ∧
      (constructFunction sampleExternals sampleAdmittedVisitor {}
        FunctionDeclTy.CXXMethodDecl sampleMethod).2.1.specs0.exceptionSpecType =
        ExceptionSpecificationType.EST_BasicNoexcept ∧
      (constructFunction sampleExternals sampleAdmittedVisitor {}
        FunctionDeclTy.CXXMethodDecl sampleMethod).2.1.specs0.isConst = true ∧
      (constructFunction sampleExternals sampleAdmittedVisitor {}
        FunctionDeclTy.CXXMethodDecl sampleMethod).2.1.specs0.isVirtual = true ∧
      (constructFunction sampleExternals sampleAdmittedVisitor {}
        FunctionDeclTy.CXXMethodDecl sampleMethod).2.1.specs0.isPure = true) ∧
    ((constructFunction sampleExternals sampleAdmittedVisitor {}
        FunctionDeclTy.FunctionDecl sampleMethod).2.1.specs0.isConst = false ∧
      (constructFunction sampleExternals sampleAdmittedVisitor {}
        FunctionDeclTy.FunctionDecl sampleMethod).2.1.specs0.isVirtual = false ∧
      (constructFunction sampleExternals sampleAdmittedVisitor {}
        FunctionDeclTy.FunctionDecl sampleMethod).2.1.specs0.isPure = false) :=
  ⟨match constructFunction_flags sampleExternals sampleAdmittedVisitor none
      FunctionDeclTy.CXXMethodDecl sampleMethod _ rfl (by decide) with
    | ⟨h1, h2, h3, _⟩ => ⟨h1, h2, (h3 rfl).2.2.2.1, (h3 rfl).1, (h3 rfl).2.2.1⟩,
   match constructFunction_flags sampleExternals sampleAdmittedVisitor none
      FunctionDeclTy.FunctionDecl sampleMethod _ rfl (by decide) with
    | ⟨_, _, _, h4⟩ => ⟨(h4 rfl).2.2.2.1, (h4 rfl).1, (h4 rfl).2.2.1⟩⟩

/-! ## The file cache against the inclusion policy -/

/-- A run of `shouldExtract` calls keeps the file cache made of answers of the inclusion
policy: when every entry of the cache is the answer for the file name of a
declaration seen before, outside system headers and with the key of the entry
as include location, the same holds after the run, the declarations of the run
being seen too. -/
theorem shouldExtractAll_cache (ext : Externals) (Ds : List Decl) :
    ∀ (v : ASTVisitor) (seen : List Decl),
    (∀ D ∈ Ds, D.isInSystemHeader = false → D.parentFunctionOrMethod = false) →
    (∀ k ff, List.lookup k v.fileFilter_ = some ff →
      ∃ D ∈ seen, D.isInSystemHeader = false ∧ D.includeLoc = k ∧
        ff = ⟨(ext.config_.shouldVisitFile (ext.convert_to_slash D.filename)).2,
          (ext.config_.shouldVisitFile (ext.convert_to_slash D.filename)).1⟩) →
    ∃ bs v1, shouldExtractAll ext v Ds = some (bs, v1) ∧
      (∀ k ff, List.lookup k v1.fileFilter_ = some ff →
        ∃ D ∈ seen ++ Ds, D.isInSystemHeader = false ∧ D.includeLoc = k ∧
          ff = ⟨(ext.config_.shouldVisitFile (ext.convert_to_slash D.filename)).2,
            (ext.config_.shouldVisitFile (ext.convert_to_slash D.filename)).1⟩) := by
  induction Ds with
  | nil =>
    intro v seen _ hinv
    exact ⟨[], v, rfl, by simpa using hinv⟩
  | cons D Ds ih =>
    intro v seen hblock hinv
    have hD := hblock D (List.mem_cons_self _ _)
    have hDs : ∀ D0 ∈ Ds, D0.isInSystemHeader = false → D0.parentFunctionOrMethod = false :=
      fun D0 h0 => hblock D0 (List.mem_cons_of_mem _ h0)
    have hstep : ∃ b v1, shouldExtract ext v D = some (b, v1) ∧
        (∀ k ff, List.lookup k v1.fileFilter_ = some ff →
          ∃ D0 ∈ seen ++ [D], D0.isInSystemHeader = false ∧ D0.includeLoc = k ∧
            ff = ⟨(ext.config_.shouldVisitFile (ext.convert_to_slash D0.filename)).2,
              (ext.config_.shouldVisitFile (ext.convert_to_slash D0.filename)).1⟩) := by
      rcases shouldExtract_cases ext v D hD with ⟨_, hs⟩ | ⟨_, ff, v1, _, hs, _, hc, _⟩ |
        ⟨hsys, hl, v1, hs, _, hc, _⟩
      · refine ⟨false, v, hs, fun k ff h => ?_⟩
        obtain ⟨D0, h0, h1⟩ := hinv k ff h
        exact ⟨D0, List.mem_append_left _ h0, h1⟩
      · refine ⟨ff.include_, v1, hs, fun k ff0 h => ?_⟩
        rw [hc] at h
        obtain ⟨D0, h0, h1⟩ := hinv k ff0 h
        exact ⟨D0, List.mem_append_left _ h0, h1⟩
      · refine ⟨_, v1, hs, fun k ff0 h => ?_⟩
        rw [hc] at h
        by_cases hk : k = D.includeLoc
        · rw [hk, lookup_cons_self] at h
          exact ⟨D, by simp, hsys, hk.symm, (Option.some.inj h).symm⟩
        · rw [lookup_cons_of_ne k _ _ _ hk] at h
          obtain ⟨D0, h0, h1⟩ := hinv k ff0 h
          exact ⟨D0, List.mem_append_left _ h0, h1⟩
    obtain ⟨b, v1, hs, hinv1⟩ := hstep
    obtain ⟨bs, v2, hrun, hinv2⟩ := ih v1 (seen ++ [D]) hDs hinv1
    refine ⟨b :: bs, v2, by simp [shouldExtractAll, hs, hrun], ?_⟩
    simpa using hinv2

/-- C25 (as amended). After any run of `shouldExtract` calls on a fresh visitor, a
declaration `D` outside system headers whose include location was not used in
the run by a declaration outside system headers with another file name gets
from `shouldExtract` the answer of the inclusion policy for its own file name, and
when admitted `File` is that file name without the path the policy reports for
it. -/
theorem shouldExtract_agrees_with_policy (ext : Externals) (Ds : List Decl) (D : Decl)
    (hblock : ∀ D0 ∈ Ds, D0.isInSystemHeader = false → D0.parentFunctionOrMethod = false)
    (hsys : D.isInSystemHeader = false) (hb : D.parentFunctionOrMethod = false)
    (hkey : ∀ D0 ∈ Ds, D0.isInSystemHeader = false → D0.includeLoc = D.includeLoc →
      ext.convert_to_slash D0.filename = ext.convert_to_slash D.filename) :
    ∃ bs v1 v2, shouldExtractAll ext (ASTVisitor.new ext.config_) Ds = some (bs, v1) ∧
      shouldExtract ext v1 D =
        some ((ext.config_.shouldVisitFile (ext.convert_to_slash D.filename)).1, v2) ∧
      ((ext.config_.shouldVisitFile (ext.convert_to_slash D.filename)).1 = true →
        v2.File = ext.replace_path_prefix_ (ext.convert_to_slash D.filename)
          (ext.config_.shouldVisitFile (ext.convert_to_slash D.filename)).2 "") := by
  obtain ⟨bs, v1, hrun, hinv⟩ := shouldExtractAll_cache ext Ds (ASTVisitor.new ext.config_) []
    hblock (by intro k ff h; simp [ASTVisitor.new, List.lookup] at h)
  rcases shouldExtract_cases ext v1 D (fun _ => hb) with ⟨h, _⟩ | ⟨_, ff, v2, hl, hs, _, _, hf⟩ |
    ⟨_, _, v2, hs, _, _, hf⟩
  · rw [hsys] at h
    exact absurd h (by simp)
  · obtain ⟨D0, h0, h1, h2, h3⟩ := hinv _ ff hl
    have hfile := hkey D0 (by simpa using h0) h1 h2
    rw [hfile] at h3
    subst h3
    exact ⟨bs, v1, v2, hrun, hs, hf⟩
  · exact ⟨bs, v1, v2, hrun, hs, hf⟩

/-- The agreement of C25 on a declaration of `src/a.hpp`, after a run over a
declaration of the same file and one of a system header. -/
theorem shouldExtract_agrees_with_policy_witness :
    ∃ bs v1 v2, shouldExtractAll sampleExternals (ASTVisitor.new sampleExternals.config_)
        [sampleDecl, sampleSystemDecl] = some (bs, v1) ∧
      shouldExtract sampleExternals v1 { sampleDecl with name := "h", line := 12 } =
        some (true, v2) ∧
      v2.File = "a.hpp" :=
  match shouldExtract_agrees_with_policy sampleExternals [sampleDecl, sampleSystemDecl]
      { sampleDecl with name := "h", line := 12 } (by decide) rfl rfl (by decide) with
  | ⟨bs, v1, v2, h1, h2, h3⟩ => ⟨bs, v1, v2, h1, h2, h3 rfl⟩

/-- C25 as stated fails when an earlier declaration of another file had the same
include location: after the call on a declaration of `src/b.hpp`, which the policy
refuses, the declaration of `src/a.hpp` with the same include location is refused
too, although the policy admits `src/a.hpp`. -/
theorem shouldExtract_agrees_with_policy_counterexample :
    sampleRenamedDecl.includeLoc = sampleDecl.includeLoc ∧
    sampleRenamedDecl.filename ≠ sampleDecl.filename ∧
    sampleDecl.isInSystemHeader = false ∧
    (sampleExternals.config_.shouldVisitFile
      (sampleExternals.convert_to_slash sampleDecl.filename)).1 = true ∧
    (shouldExtractAll sampleExternals (ASTVisitor.new sampleExternals.config_)
      [sampleRenamedDecl]).bind
      (fun r => (shouldExtract sampleExternals r.2 sampleDecl).map Prod.fst) = some false := by
  refine ⟨rfl, ?_, rfl, ?_, ?_⟩
  · decide
  · decide
  · decide

/-! ## Members of a class that the entity policy excludes -/

/-- C23. In public-only mode the traversal of the private nested class `Hidden` of
`class Outer { struct Hidden { void f(); }; };` emits no record for `Hidden`, which
the entity policy excludes, but goes on to its member `f`: the record of `f` and
a parent stub that carries the identifier of `Hidden` are handed to the sink. -/
theorem TraverseDecl_emits_member_of_private_class :
    sampleVisitor.PublicOnly = true ∧
    sampleHidden.access = AccessSpecifier.AS_private ∧
    shouldSerializeInfo true false sampleHidden.toDecl = false ∧
    (extractInfo sampleExternals sampleAdmittedVisitor {} (AnyDecl.CXXRecord sampleHidden)).1 =
      false ∧
    (TraverseDecl sampleExternals sampleVisitor
      (DeclNode.CXXRecord sampleHidden
        [DeclNode.Function FunctionDeclTy.CXXMethodDecl sampleHiddenMember]) none).map
      (fun r => (r.1, r.2.sink.map
        (fun b => (b.data.type_id, b.data.toInfo.id, b.data.toInfo.Name)))) =
      some (true,
        [(InfoType.IT_function, symbolIDOf sampleExternals sampleHiddenMember.usr, "f"),
         (InfoType.IT_record, symbolIDOf sampleExternals sampleHidden.usr, "")]) := by
  refine ⟨rfl, rfl, ?_, ?_, ?_⟩
  · decide
  · decide
  · decide

/-! ## A friend declaration that names a member function -/

/-- C26. The friend declaration of the class `C` that names the member function
`size` of the class `Box`: the context of the friend declaration is a class, the
function passes the file policy and `constructFunction` succeeds on it, yet the first
entry of its scope chain is the class `Box`, a record reference, so the call
`writeParent(I)` made with no access fails its assertion, and `buildFriend` does not
complete. -/
theorem buildFriend_member_function_asserts :
    sampleMemberFriend.declContext = DeclContext.CXXRecord ⟨some "c:@S@C", "C"⟩ none ∧
    shouldExtract sampleExternals sampleVisitor sampleMethod.toDecl =
      some (true, sampleAdmittedVisitor) ∧
    (constructFunction sampleExternals sampleAdmittedVisitor {} FunctionDeclTy.FunctionDecl
      sampleMethod).1 = true ∧
    (constructFunction sampleExternals sampleAdmittedVisitor {} FunctionDeclTy.FunctionDecl
      sampleMethod).2.1.Namespace =
      [⟨⟨8⟩, "Box", InfoType.IT_record⟩, ⟨SymbolID.zero, "", InfoType.IT_namespace⟩] ∧
    (writeParent (AnyInfo.Function (constructFunction sampleExternals sampleAdmittedVisitor {}
      FunctionDeclTy.FunctionDecl sampleMethod).2.1) AccessSpecifier.AS_none).isNone = true ∧
    (buildFriend sampleExternals sampleVisitor sampleMemberFriend).isNone = true := by
  refine ⟨rfl, rfl, ?_, ?_, ?_, ?_⟩
  · decide
  · decide
  · decide
  · decide

/-! ## Template capture -/

/-- The call `extractSymbolID(D, id)` leaves the file cache alone. -/
theorem extractSymbolID_cache (ext : Externals) (v : ASTVisitor) (usr : Option String)
    (id : SymbolID) : (extractSymbolID ext v usr id).2.2.fileFilter_ = v.fileFilter_ := by
  obtain ⟨buf, h⟩ := extractSymbolID_visitor ext v usr id
  rw [h]

/-- The call `getTypeInfoForType` leaves the file cache alone. -/
theorem getTypeInfoForType_cache (ext : Externals) (v : ASTVisitor) (T : QualType) :
    (getTypeInfoForType ext v T).2.fileFilter_ = v.fileFilter_ := by
  simp only [getTypeInfoForType]
  split
  · exact extractSymbolID_cache ext v _ _
  · rfl

mutual
/-- The call `buildTemplateParam` leaves the file cache alone, and the parameter it
returns matches the declaration. -/
theorem buildTemplateParam_captures (ext : Externals) :
    ∀ (ND : TemplateParmDecl) (v : ASTVisitor),
    (buildTemplateParam ext v ND).2.fileFilter_ = v.fileFilter_ ∧
    (buildTemplateParam ext v ND).1.captures ND = true
  | .TemplateTypeParm name p none, v => by
    rw [buildTemplateParam]; exact ⟨rfl, by simp [TParam.captures]⟩
  | .TemplateTypeParm name p (some T), v => by
    rw [buildTemplateParam]
    exact ⟨getTypeInfoForType_cache ext v T, by simp [TParam.captures]⟩
  | .NonTypeTemplateParm name p T d, v => by
    rw [buildTemplateParam]
    exact ⟨getTypeInfoForType_cache ext v T, by simp [TParam.captures]⟩
  | .TemplateTemplateParm name p ps d, v => by
    rw [buildTemplateParam]
    obtain ⟨h1, h2⟩ := buildTemplateParams_captures ext ps v
    exact ⟨h1, by simp [TParam.captures, h2]⟩
  | .Other name p, v => by
    rw [buildTemplateParam]; exact ⟨rfl, by simp [TParam.captures]⟩
/-- The loop over a parameter list leaves the file cache alone, and the parameters it
returns match the list: one for each declaration, in order. -/
theorem buildTemplateParams_captures (ext : Externals) :
    ∀ (l : List TemplateParmDecl) (v : ASTVisitor),
    (buildTemplateParams ext v l).2.fileFilter_ = v.fileFilter_ ∧
    TParam.capturesAll (buildTemplateParams ext v l).1 l = true
  | [], v => by rw [buildTemplateParams]; exact ⟨rfl, by simp [TParam.capturesAll]⟩
  | ND :: rest, v => by
    rw [buildTemplateParams]
    obtain ⟨h1, h2⟩ := buildTemplateParam_captures ext ND v
    obtain ⟨h3, h4⟩ := buildTemplateParams_captures ext rest (buildTemplateParam ext v ND).2
    exact ⟨h3.trans h1, by simp [TParam.capturesAll, h2, h4]⟩
end

/-- Matching lists of parameters have the same length. -/
theorem capturesAll_length :
    ∀ (Params : List TParam) (l : List TemplateParmDecl),
    TParam.capturesAll Params l = true → Params.length = l.length
  | [], [], _ => rfl
  | [], _ :: _, h => by simp [TParam.capturesAll] at h
  | _ :: _, [], h => by simp [TParam.capturesAll] at h
  | P :: Params, ND :: rest, h => by
    simp only [TParam.capturesAll, Bool.and_eq_true] at h
    simp [capturesAll_length Params rest h.2]

/-- A declaration that `shouldExtract` admitted is admitted again by any visitor that
has the file cache the first call left. -/
theorem shouldExtract_again (ext : Externals) (v s : ASTVisitor) (D : Decl)
    (h : shouldExtract ext v D = some (true, s))
    (w : ASTVisitor) (hw : w.fileFilter_ = s.fileFilter_) :
    ∃ w1, shouldExtract ext w D = some (true, w1) ∧ w1.sink = w.sink ∧
      w1.PublicOnly = w.PublicOnly ∧ w1.fileFilter_ = w.fileFilter_ := by
  have hb : D.parentFunctionOrMethod = false := by
    cases hp : D.parentFunctionOrMethod with
    | false => rfl
    | true =>
      cases hsys : D.isInSystemHeader <;> simp [shouldExtract, hsys, hp] at h
  have hl : ∃ ff, List.lookup D.includeLoc s.fileFilter_ = some ff ∧ ff.include_ = true := by
    rcases shouldExtract_cases ext v D (fun _ => hb) with ⟨_, hs⟩ | ⟨_, ff, v1, hl, hs, _, hc, _⟩ |
      ⟨_, _, v1, hs, _, hc, _⟩
    · rw [hs] at h
      simp at h
    · rw [hs] at h
      obtain ⟨h1, h2⟩ := Prod.mk.inj (Option.some.inj h)
      subst h2
      exact ⟨ff, by rw [hc]; exact hl, h1⟩
    · rw [hs] at h
      obtain ⟨h1, h2⟩ := Prod.mk.inj (Option.some.inj h)
      subst h2
      exact ⟨_, by rw [hc]; exact lookup_cons_self _ _ _, h1⟩
  obtain ⟨ff, hl, hi⟩ := hl
  have hsys : D.isInSystemHeader = false := by
    cases hsys : D.isInSystemHeader with
    | false => rfl
    | true => simp [shouldExtract, hsys] at h
  rcases shouldExtract_cases ext w D (fun _ => hb) with ⟨h1, _⟩ | ⟨_, ff1, w1, hl1, hs, _, hc, _⟩ |
    ⟨_, hl1, _⟩
  · rw [hsys] at h1
    exact absurd h1 (by simp)
  · rw [hw, hl] at hl1
    obtain rfl := Option.some.inj hl1
    rw [hi] at hs
    obtain ⟨h1, h2⟩ := shouldExtract_frame ext w D _ hs
    exact ⟨w1, hs, h1, h2, hc⟩
  · rw [hw, hl] at hl1
    exact absurd hl1 (by simp)

/-- With no access `writeParent` fails its assertion on a record whose scope chain starts
with a record reference. -/
theorem writeParent_record_head (I : AnyInfo) (N0 : Reference) (rest : List Reference)
    (hns : I.toInfo.Namespace = N0 :: rest) (hN0 : N0.RefType = InfoType.IT_record) :
    writeParent I AccessSpecifier.AS_none = none := by
  simp [writeParent, hns, hN0]

/-- The scope chain of a declaration whose context is a class starts with a record
reference. -/
theorem scopeChainOf_record_head (ext : Externals) (D : AnyDecl) (N : NamedRef)
    (S : Option ClassTemplateSpecialization)
    (hD : D.toDecl.declContext = DeclContext.CXXRecord N S) :
    ∃ N0 rest, scopeChainOf ext D = N0 :: rest ∧ N0.RefType = InfoType.IT_record := by
  refine ⟨⟨symbolIDOf ext (classContextEntity N S).usr, (classContextEntity N S).name,
    InfoType.IT_record⟩, (D.toDecl.parents.map (contextContribution ext)).flatten, ?_, rfl⟩
  simp [scopeChainOf, hD, contextContribution, scopeReference]

/-- The template `buildFunction` at a static type that is not derived from `CXXMethodDecl`, on a
declaration that passes the filters and whose context is a class: no access is
passed to `writeParent`, whose assertion on the first entry of the scope chain fails,
and the builder does not complete. -/
theorem buildFunction_class_scope (ext : Externals) (v : ASTVisitor) (I : FunctionInfo)
    (DeclTy : FunctionDeclTy) (D : FunctionDecl) (N : NamedRef)
    (S : Option ClassTemplateSpecialization)
    (hty : DeclTy.derivedFromCXXMethodDecl = false)
    (hI : I.Namespace = [])
    (hflag : (constructFunction ext v I DeclTy D).1 = true)
    (hD : D.declContext = DeclContext.CXXRecord N S) :
    writeParent (AnyInfo.Function (constructFunction ext v I DeclTy D).2.1)
      AccessSpecifier.AS_none = none ∧
    buildFunction ext v I DeclTy D = none := by
  obtain ⟨hcf, hci⟩ := constructFunction_spec ext v I DeclTy D
  have hxf : (extractInfo ext v I.toInfo
      (AnyDecl.Function (applyDecayToParameters D))).1 = true := by
    rw [← hcf]; exact hflag
  have hinfo := (extractInfo_value ext v I.toInfo
    (AnyDecl.Function (applyDecayToParameters D))).2 hxf
  obtain ⟨N0, rest, hchain, hN0⟩ := scopeChainOf_record_head ext
    (AnyDecl.Function (applyDecayToParameters D)) N S hD
  have hns : (AnyInfo.Function (constructFunction ext v I DeclTy D).2.1).toInfo.Namespace =
      N0 :: rest := by
    show (constructFunction ext v I DeclTy D).2.1.toInfo.Namespace = _
    rw [hci, hinfo]
    show I.Namespace ++ _ = _
    rw [hI, List.nil_append, hchain]
  have hw := writeParent_record_head _ N0 rest hns hN0
  refine ⟨hw, ?_⟩
  simp only [buildFunction, hflag, functionAccess, hty, Bool.not_true, Bool.false_eq_true,
    if_false, hw]

/-- The builder `buildFriend` on a friend declaration that names a member function passing the
filters: the call `writeParent(I)`, made with no access, fails its assertion, as the
first entry of the scope chain of the function is its class, and the builder
does not complete. -/
theorem buildFriend_member_function (ext : Externals) (v v0 : ASTVisitor) (D : FriendDecl)
    (FD : FunctionDecl) (N : NamedRef) (S : Option ClassTemplateSpecialization)
    (hND : D.friendDecl = some (FriendTarget.Function FD))
    (hfile : shouldExtract ext v FD.toDecl = some (true, v0))
    (hflag : (constructFunction ext v0 {} FunctionDeclTy.FunctionDecl FD).1 = true)
    (hFD : FD.declContext = DeclContext.CXXRecord N S) :
    buildFriend ext v D = none := by
  have hw := (buildFunction_class_scope ext v0 {} FunctionDeclTy.FunctionDecl FD N S rfl rfl
    hflag hFD).1
  simp only [buildFriend, hND, hfile, hflag, Bool.not_true, Bool.false_eq_true, if_false, hw]
  cases D.declContext <;> rfl

/-- A dispatch that an assertion ends, ends the traversal of the context: the
declarations that follow are not dispatched. -/
theorem TraverseContext_abort (ext : Externals) (v : ASTVisitor) (C : DeclNode)
    (rest : List DeclNode) (h : TraverseDecl ext v C none = none) :
    TraverseContext ext v (C :: rest) = none := by
  rw [TraverseContext, h]

/-- The dispatch of a friend declaration on which `buildFriend` does not complete. -/
theorem TraverseDecl_friend_abort (ext : Externals) (v : ASTVisitor) (D : FriendDecl)
    (himp : D.isImplicit = false) (h : buildFriend ext v D = none) :
    TraverseDecl ext v (DeclNode.Friend D) none = none := by
  rw [TraverseDecl]
  simp [DeclNode.toDecl, himp, TraverseFriendDecl, h, withoutArgs, andReturnTrue]

/-- The dispatch of a class that is admitted and built, when the traversal of its
declarations is ended by an assertion: the dispatch is ended too. -/
theorem TraverseDecl_record_abort (ext : Externals) (v s : ASTVisitor) (D : CXXRecordDecl)
    (decls : List DeclNode) (args : Option TemplateInfo)
    (himp : D.isImplicit = false)
    (hse : shouldExtract ext v D.toDecl = some (true, s))
    (h : ∀ w, buildRecord ext s { Template := args } D = some w →
      TraverseContext ext w decls = none) :
    TraverseDecl ext v (DeclNode.CXXRecord D decls) args = none := by
  rw [TraverseDecl]
  simp only [DeclNode.toDecl, himp, Bool.false_eq_true, if_false, TraverseCXXRecordDecl, hse,
    Bool.not_true]
  cases hb : buildRecord ext s { Template := args } D with
  | none => rfl
  | some w =>
    simp only [h w hb]
    rfl

/-- The traversal of the class `C` with the friend declaration that names `Box::size`,
and of the variable after it, from any visitor from which `shouldExtract` admits the
class as a fresh visitor does: the assertion that fails in `buildFriend` ends it. -/
theorem TraverseContext_sampleFriendContext (v : ASTVisitor)
    (hse : shouldExtract sampleExternals v sampleBefriendingClass.toDecl =
      some (true, sampleAdmittedVisitor)) :
    TraverseContext sampleExternals v sampleFriendContext.decls = none := by
  have hcache : (buildRecord sampleExternals sampleAdmittedVisitor {}
      sampleBefriendingClass).map (fun w => w.fileFilter_) =
      some sampleAdmittedVisitor.fileFilter_ := by decide
  refine TraverseContext_abort _ _ _ _
    (TraverseDecl_record_abort _ _ sampleAdmittedVisitor _ _ _ rfl hse ?_)
  intro w hb
  have hw : w.fileFilter_ = sampleAdmittedVisitor.fileFilter_ := by
    have h1 : (buildRecord sampleExternals sampleAdmittedVisitor {}
        sampleBefriendingClass).map (fun w => w.fileFilter_) = some w.fileFilter_ := by
      rw [show buildRecord sampleExternals sampleAdmittedVisitor {} sampleBefriendingClass =
        some w from hb]
      rfl
    rw [hcache] at h1
    exact (Option.some.inj h1).symm
  obtain ⟨w0, hw0, _, _, _⟩ := shouldExtract_again sampleExternals sampleVisitor
    sampleAdmittedVisitor sampleMethod.toDecl rfl w hw
  have hflag : (constructFunction sampleExternals w0 {} FunctionDeclTy.FunctionDecl
      sampleMethod).1 = true := by
    rw [(constructFunction_spec sampleExternals w0 {} FunctionDeclTy.FunctionDecl
      sampleMethod).1, (extractInfo_value sampleExternals w0 _ _).1]
    generalize w0.PublicOnly = b
    cases b <;> decide
  exact TraverseContext_abort _ _ _ _
    (TraverseDecl_friend_abort _ _ _ rfl
      (buildFriend_member_function sampleExternals w w0 sampleMemberFriend sampleMethod
        ⟨some "c:@S@Box", "Box"⟩ none rfl hw0 hflag rfl))

/-- C8. The deduction guide `In(int) -> In<long>;` declared in the class `Outer`, private
entities being included: `extractInfo` and `constructFunction` succeed on it, `buildFunction` at
the static type `CXXDeductionGuideDecl` passes no access to `writeParent`, and the first
entry of the scope chain is the class `Outer`, a record reference; so the
assertion of `writeParent` fails, after `writeBitcode(I)` was handed to the sink, and
neither `buildFunction` nor the dispatch of the guide completes: the parent
fragment is never emitted. -/
theorem class_scope_deduction_guide_asserts :
    samplePrivateVisitor.PublicOnly = false ∧
    (extractInfo samplePrivateExternals samplePrivateVisitor {}
      (AnyDecl.Function (applyDecayToParameters sampleDeductionGuide))).1 = true ∧
    (constructFunction samplePrivateExternals samplePrivateVisitor {}
      FunctionDeclTy.CXXDeductionGuideDecl sampleDeductionGuide).1 = true ∧
    functionAccess FunctionDeclTy.CXXDeductionGuideDecl sampleDeductionGuide =
      AccessSpecifier.AS_none ∧
    (constructFunction samplePrivateExternals samplePrivateVisitor {}
      FunctionDeclTy.CXXDeductionGuideDecl sampleDeductionGuide).2.1.Namespace =
      [⟨⟨10⟩, "Outer", InfoType.IT_record⟩, ⟨SymbolID.zero, "", InfoType.IT_namespace⟩] ∧
    writeParent (AnyInfo.Function (constructFunction samplePrivateExternals
      samplePrivateVisitor {} FunctionDeclTy.CXXDeductionGuideDecl sampleDeductionGuide).2.1)
      AccessSpecifier.AS_none = none ∧
    buildFunction samplePrivateExternals samplePrivateVisitor {}
      FunctionDeclTy.CXXDeductionGuideDecl sampleDeductionGuide = none ∧
    TraverseDecl samplePrivateExternals samplePrivateVisitor
      (DeclNode.Function FunctionDeclTy.CXXDeductionGuideDecl sampleDeductionGuide)
      none = none := by
  have hflag : (constructFunction samplePrivateExternals samplePrivateVisitor {}
      FunctionDeclTy.CXXDeductionGuideDecl sampleDeductionGuide).1 = true := by decide
  obtain ⟨hw, hb⟩ := buildFunction_class_scope samplePrivateExternals samplePrivateVisitor {}
    FunctionDeclTy.CXXDeductionGuideDecl sampleDeductionGuide ⟨some "c:@S@Outer", "Outer"⟩ none
    rfl rfl hflag rfl
  refine ⟨rfl, ?_, hflag, rfl, ?_, hw, hb, ?_⟩
  · decide
  · decide
  · exact Option.isNone_iff_eq_none.mp (by decide)

/-- C11. The class `C` with the friend declaration that names the member function
`Box::size`, followed by the variable `counter`: the friend declaration is not
implicit, and the function it names passes the file policy and `constructFunction`; the
variable, dispatched alone, is built; yet the traversal of the two declarations
is ended by the assertion that fails in `buildFriend`, in `TraverseContext` and in
`HandleTranslationUnit` alike, so the variable that follows the class is never
dispatched. -/
theorem TraverseContext_cut_short_by_friend :
    sampleMemberFriend.isImplicit = false ∧
    (shouldExtract sampleExternals sampleVisitor sampleMethod.toDecl).map Prod.fst =
      some true ∧
    (constructFunction sampleExternals sampleAdmittedVisitor {} FunctionDeclTy.FunctionDecl
      sampleMethod).1 = true ∧
    (TraverseContext sampleExternals sampleVisitor [DeclNode.Var sampleVar]).map
      (fun r => (r.1, r.2.sink.map
        (fun b => (b.data.type_id, b.data.toInfo.id, b.data.toInfo.Name)))) =
      some (true, [(InfoType.IT_variable, ⟨10⟩, "counter"),
        (InfoType.IT_namespace, SymbolID.zero, "")]) ∧
    TraverseContext sampleExternals sampleVisitor sampleFriendContext.decls = none ∧
    HandleTranslationUnit sampleExternals sampleVisitor sampleFriendContext = none := by
  refine ⟨rfl, ?_, ?_, ?_, TraverseContext_sampleFriendContext _ rfl, ?_⟩
  · decide
  · decide
  · decide
  · rw [HandleTranslationUnit_visited sampleExternals sampleVisitor sampleFriendContext
      "src/a.cpp" rfl (by decide) rfl,
      TraverseContext_sampleFriendContext
        { sampleVisitor with File := sampleExternals.convert_to_slash "src/a.cpp" } rfl]
    rfl

end Mrdox
